import Mathlib

/-! # Windows virtual machine resource: the Create, Read, Update and Delete passes

A shallow embedding of `resourceWindowsVirtualMachineCreate`,
`resourceWindowsVirtualMachineRead`, `resourceWindowsVirtualMachineUpdate` and
`resourceWindowsVirtualMachineDelete`
(internal/services/compute/windows_virtual_machine_resource.go) together with
the helpers of internal/services/compute/virtual_machine.go they rely on.

Conventions of the embedding:

* a Go pointer is an `Option`; a Go slice is a `List`;
* the desired-state provider `*pluginsdk.ResourceData` is a record holding the
  resource id, the configured values and the list of changed attribute paths;
  an attribute path is kept as its dot separated segments, so
  `d.HasChange("os_disk.0.name")` reads `d.HasChange ["os_disk", "0", "name"]`;
* every remote call is answered by the client record, which may look at the
  whole history of the pass, and is written to a ghost trace together with
  whether it failed; taking and releasing the named lock is written to the
  same trace;
* a Go runtime panic (index out of range, nil dereference) is the failure
  `Failure.fault`.
-/

namespace Compute

/-! ## Strings -/

/-- Lower-casing of the ASCII letters of a string.  It is `strings.ToLower`
on every ASCII string, which is what the status codes of the remote system
are; a letter outside ASCII is left as it is, also where `strings.ToLower`
maps it to an ASCII letter (U+0130 to `i`, U+212A to `k`). -/
def toLower (s : String) : List Char :=
  s.toList.map Char.toLower

/-- Comparison without regard to the case of ASCII letters.  The passes use it
at line 1620 alone, against the literal `failed`, where it agrees with
`strings.EqualFold`: none of the letters of `failed` folds to a character
outside ASCII.  The comparison of size names at line 1375, both sides of which
are arbitrary strings, goes through `Client.EqualFold` instead. -/
def equalFold (a b : String) : Bool :=
  toLower a == toLower b

/-- The characters of `"powerstate/"`. -/
def powerStateTag : List Char :=
  "powerstate/".toList

/-! ## Remote data (the SDK models the code reads and writes) -/

structure SubResource where
  Id : Option String := none
deriving DecidableEq, Repr

structure DiffDiskSettings where
  OptionValue : Option String := none
  Placement : Option String := none
deriving DecidableEq, Repr

structure VMDiskSecurityProfile where
  SecurityEncryptionType : Option String := none
  DiskEncryptionSet : Option SubResource := none
deriving DecidableEq, Repr

structure ManagedDiskParameters where
  Id : Option String := none
  StorageAccountType : Option String := none
  SecurityProfile : Option VMDiskSecurityProfile := none
  DiskEncryptionSet : Option SubResource := none
deriving DecidableEq, Repr

structure OSDisk where
  Caching : Option String := none
  ManagedDisk : Option ManagedDiskParameters := none
  WriteAcceleratorEnabled : Option Bool := none
  CreateOption : String := ""
  OsType : Option String := none
  DiskSizeGB : Option Int := none
  DiffDiskSettings : Option DiffDiskSettings := none
  Name : Option String := none
deriving DecidableEq, Repr

structure ImageReference where
  Id : Option String := none
  Publisher : Option String := none
  Offer : Option String := none
  Sku : Option String := none
  Version : Option String := none
deriving DecidableEq, Repr

structure DataDisk where
  Name : Option String := none
deriving DecidableEq, Repr

structure StorageProfile where
  OsDisk : Option OSDisk := none
  ImageReference : Option ImageReference := none
  DataDisks : Option (List DataDisk) := none
deriving DecidableEq, Repr

structure BootDiagnostics where
  Enabled : Option Bool := none
  StorageUri : Option String := none
deriving DecidableEq, Repr

structure DiagnosticsProfile where
  BootDiagnostics : Option BootDiagnostics := none
deriving DecidableEq, Repr

structure VaultCertificate where
  CertificateStore : Option String := none
  CertificateUrl : Option String := none
deriving DecidableEq, Repr

structure VaultSecretGroup where
  SourceVault : Option SubResource := none
  VaultCertificates : Option (List VaultCertificate) := none
deriving DecidableEq, Repr

structure WindowsVMGuestPatchAutomaticByPlatformSettings where
  BypassPlatformSafetyChecksOnUserSchedule : Option Bool := none
  RebootSetting : Option String := none
deriving DecidableEq, Repr

structure PatchSettings where
  PatchMode : Option String := none
  AssessmentMode : Option String := none
  AutomaticByPlatformSettings : Option WindowsVMGuestPatchAutomaticByPlatformSettings := none
  EnableHotpatching : Option Bool := none
deriving DecidableEq, Repr

structure WinRMListener where
  Protocol : Option String := none
  CertificateUrl : Option String := none
deriving DecidableEq, Repr

structure WinRMConfiguration where
  Listeners : Option (List WinRMListener) := none
deriving DecidableEq, Repr

structure AdditionalUnattendContent where
  SettingName : Option String := none
  Content : Option String := none
deriving DecidableEq, Repr

structure WindowsConfiguration where
  PatchSettings : Option PatchSettings := none
  ProvisionVMAgent : Option Bool := none
  EnableAutomaticUpdates : Option Bool := none
  WinRM : Option WinRMConfiguration := none
  AdditionalUnattendContent : Option (List AdditionalUnattendContent) := none
  TimeZone : Option String := none
deriving DecidableEq, Repr

structure OSProfile where
  Secrets : Option (List VaultSecretGroup) := none
  AllowExtensionOperations : Option Bool := none
  WindowsConfiguration : Option WindowsConfiguration := none
  AdminPassword : Option String := none
  AdminUsername : Option String := none
  ComputerName : Option String := none
  CustomData : Option String := none
deriving DecidableEq, Repr

structure CapacityReservationProfile where
  CapacityReservationGroup : Option SubResource := none
deriving DecidableEq, Repr

structure BillingProfile where
  MaxPrice : Option Int := none
deriving DecidableEq, Repr

structure NetworkInterfaceReferenceProperties where
  Primary : Option Bool := none
deriving DecidableEq, Repr

structure NetworkInterfaceReference where
  Id : Option String := none
  Properties : Option NetworkInterfaceReferenceProperties := none
deriving DecidableEq, Repr

structure NetworkProfile where
  NetworkInterfaces : Option (List NetworkInterfaceReference) := none
deriving DecidableEq, Repr

structure HardwareProfile where
  VMSize : Option String := none
deriving DecidableEq, Repr

structure TerminateNotificationProfile where
  Enable : Option Bool := none
  NotBeforeTimeout : Option String := none
deriving DecidableEq, Repr

structure ScheduledEventsProfile where
  TerminateNotificationProfile : Option TerminateNotificationProfile := none
deriving DecidableEq, Repr

structure AdditionalCapabilities where
  UltraSSDEnabled : Option Bool := none
deriving DecidableEq, Repr

structure UefiSettings where
  SecureBootEnabled : Option Bool := none
  VTpmEnabled : Option Bool := none
deriving DecidableEq, Repr

structure SecurityProfile where
  EncryptionAtHost : Option Bool := none
  SecurityType : Option String := none
  UefiSettings : Option UefiSettings := none
deriving DecidableEq, Repr

structure VMGalleryApplication where
  PackageReferenceId : String := ""
  ConfigurationReference : Option String := none
  Order : Option Int := none
  Tags : Option String := none
deriving DecidableEq, Repr

structure ApplicationProfile where
  GalleryApplications : Option (List VMGalleryApplication) := none
deriving DecidableEq, Repr

structure SystemAndUserAssignedMap where
  IdentityType : String := ""
  IdentityIds : List String := []
deriving DecidableEq, Repr

/-- The properties of a virtual machine, as far as the resource reads or
writes them. -/
structure VirtualMachineProperties where
  DiagnosticsProfile : Option DiagnosticsProfile := none
  OsProfile : Option OSProfile := none
  CapacityReservation : Option CapacityReservationProfile := none
  Host : Option SubResource := none
  HostGroup : Option SubResource := none
  ExtensionsTimeBudget : Option String := none
  ApplicationProfile : Option ApplicationProfile := none
  BillingProfile : Option BillingProfile := none
  NetworkProfile : Option NetworkProfile := none
  StorageProfile : Option StorageProfile := none
  ProximityPlacementGroup : Option SubResource := none
  HardwareProfile : Option HardwareProfile := none
  ScheduledEventsProfile : Option ScheduledEventsProfile := none
  AdditionalCapabilities : Option AdditionalCapabilities := none
  SecurityProfile : Option SecurityProfile := none
  LicenseType : Option String := none
  UserData : Option String := none
  ProvisioningState : Option String := none
  Priority : Option String := none
  EvictionPolicy : Option String := none
  AvailabilitySet : Option SubResource := none
  VirtualMachineScaleSet : Option SubResource := none
  PlatformFaultDomain : Option Int := none
deriving DecidableEq, Repr

structure ExtendedLocation where
  Name : Option String := none
deriving DecidableEq, Repr

structure PurchasePlan where
  Name : Option String := none
  Product : Option String := none
  Publisher : Option String := none
deriving DecidableEq, Repr

/-- The model returned by `Get` and sent by `CreateOrUpdateThenPoll`
(`Plan` of the SDK is `PurchasePlan` here). -/
structure VirtualMachine where
  Identity : Option SystemAndUserAssignedMap := none
  Properties : Option VirtualMachineProperties := none
  Tags : Option (List (String × String)) := none
  Name : Option String := none
  ExtendedLocation : Option ExtendedLocation := none
  Location : String := ""
  PurchasePlan : Option PurchasePlan := none
  Zones : Option (List String) := none
deriving DecidableEq, Repr

/-- The payload of the partial update.  `Properties` is allocated when the
payload is created (line 1064) and never reset, so the pointer is kept as the
record it points to. -/
structure VirtualMachineUpdate where
  Properties : VirtualMachineProperties := {}
  Identity : Option SystemAndUserAssignedMap := none
  Tags : Option (List (String × String)) := none
deriving DecidableEq, Repr

structure InstanceViewStatus where
  Code : Option String := none
deriving DecidableEq, Repr

structure VirtualMachineInstanceView where
  Statuses : Option (List InstanceViewStatus) := none
deriving DecidableEq, Repr

structure VirtualMachineSize where
  Name : Option String := none
deriving DecidableEq, Repr

structure VirtualMachineSizeListResult where
  Value : Option (List VirtualMachineSize) := none
deriving DecidableEq, Repr

structure VirtualMachineId where
  SubscriptionId : String
  ResourceGroupName : String
  VirtualMachineName : String
deriving DecidableEq, Repr

structure DiskId where
  SubscriptionId : String
  ResourceGroupName : String
  DiskName : String
deriving DecidableEq, Repr

/-- Builds a machine id, as `virtualmachines.NewVirtualMachineID`. -/
def NewVirtualMachineID (subscriptionId resourceGroupName virtualMachineName : String) :
    VirtualMachineId :=
  { SubscriptionId := subscriptionId, ResourceGroupName := resourceGroupName,
    VirtualMachineName := virtualMachineName }

/-- Builds a disk id, as `disks.NewDiskID`. -/
def NewDiskID (subscriptionId resourceGroupName diskName : String) : DiskId :=
  { SubscriptionId := subscriptionId, ResourceGroupName := resourceGroupName, DiskName := diskName }

structure Encryption where
  EncryptionType : Option String := none
  DiskEncryptionSetId : Option String := none
deriving DecidableEq, Repr

structure DiskUpdateProperties where
  DiskSizeGB : Option Int := none
  Encryption : Option Encryption := none
deriving DecidableEq, Repr

structure DiskUpdate where
  Properties : Option DiskUpdateProperties := none
deriving DecidableEq, Repr

structure DiskSku where
  Name : Option String := none
deriving DecidableEq, Repr

structure DiskProperties where
  DiskSizeGB : Option Int := none
  Encryption : Option Encryption := none
deriving DecidableEq, Repr

structure Disk where
  Sku : Option DiskSku := none
  Properties : Option DiskProperties := none
deriving DecidableEq, Repr

structure PowerOffOperationOptions where
  SkipShutdown : Option Bool := none
deriving DecidableEq, Repr

structure DeallocateOperationOptions where
  Hibernate : Option Bool := none
deriving DecidableEq, Repr

structure DeleteOperationOptions where
  ForceDeletion : Option Bool := none
deriving DecidableEq, Repr

/-- The feature flags of the provider that the Delete pass reads
(`Features.VirtualMachine`). -/
structure VirtualMachineFeatures where
  SkipShutdownAndForceDelete : Bool := false
  GracefulShutdown : Bool := false
  DeleteOSDiskOnDeletion : Bool := true
deriving DecidableEq, Repr

/-- An error answered by the remote system; `status` is the HTTP status of the
response, absent when there was no response. -/
structure RemoteError where
  status : Option Nat := none
deriving DecidableEq, Repr

/-- Whether the response was a 404, as `response.WasNotFound`. -/
def WasNotFound (e : RemoteError) : Bool :=
  e.status == some 404

/-! ## The desired configuration -/

structure DiffDiskSettingsBlock where
  option : String := ""
  placement : String := ""
deriving DecidableEq, Repr

/-- One `os_disk` block of the configuration (virtualMachineOSDiskSchema). -/
structure OSDiskBlock where
  caching : String := ""
  storage_account_type : String := ""
  diff_disk_settings : List DiffDiskSettingsBlock := []
  disk_encryption_set_id : String := ""
  disk_size_gb : Int := 0
  name : String := ""
  secure_vm_disk_encryption_set_id : String := ""
  security_encryption_type : String := ""
  write_accelerator_enabled : Bool := false
deriving DecidableEq, Repr

structure BootDiagnosticsBlock where
  storage_account_uri : String := ""
deriving DecidableEq, Repr

structure CertificateBlock where
  store : String := ""
  url : String := ""
deriving DecidableEq, Repr

structure SecretBlock where
  key_vault_id : String := ""
  certificate : List CertificateBlock := []
deriving DecidableEq, Repr

structure IdentityBlock where
  identity_type : String := ""
  identity_ids : List String := []
deriving DecidableEq, Repr

structure GalleryApplicationBlock where
  version_id : String := ""
  configuration_blob_uri : String := ""
  order : Int := 0
  tag : String := ""
deriving DecidableEq, Repr

structure TerminationNotificationBlock where
  enabled : Bool := false
  timeout : String := ""
deriving DecidableEq, Repr

structure AdditionalCapabilitiesBlock where
  ultra_ssd_enabled : Bool := false
deriving DecidableEq, Repr

structure SourceImageReferenceBlock where
  publisher : String := ""
  offer : String := ""
  sku : String := ""
  version : String := ""
deriving DecidableEq, Repr

structure PlanBlock where
  name : String := ""
  product : String := ""
  publisher : String := ""
deriving DecidableEq, Repr

structure WinRMListenerBlock where
  protocol : String := ""
  certificate_url : String := ""
deriving DecidableEq, Repr

structure AdditionalUnattendContentBlock where
  setting : String := ""
  content : String := ""
deriving DecidableEq, Repr

/-- The configured values `d.Get` answers, one field per attribute the
passes read, with the defaults of the schema.  `max_bid_price` is a float in
the source; the passes only copy it and compare it with zero, so a whole
number of price units stands in for it. -/
structure Config where
  boot_diagnostics : List BootDiagnosticsBlock := []
  secret : List SecretBlock := []
  allow_extension_operations : Bool := true
  patch_mode : String := "AutomaticByOS"
  patch_assessment_mode : String := "ImageDefault"
  provision_vm_agent : Bool := true
  bypass_platform_safety_checks_on_user_schedule_enabled : Bool := false
  reboot_setting : String := ""
  hotpatching_enabled : Bool := false
  identity : List IdentityBlock := []
  capacity_reservation_group_id : String := ""
  dedicated_host_id : String := ""
  dedicated_host_group_id : String := ""
  extensions_time_budget : String := "PT1H30M"
  gallery_application : List GalleryApplicationBlock := []
  max_bid_price : Int := -1
  network_interface_ids : List String := []
  os_disk : List OSDiskBlock := []
  proximity_placement_group_id : String := ""
  size : String := ""
  tags : List (String × String) := []
  termination_notification : List TerminationNotificationBlock := []
  additional_capabilities : List AdditionalCapabilitiesBlock := []
  encryption_at_host_enabled : Bool := false
  license_type : String := ""
  user_data : String := ""
  name : String := ""
  resource_group_name : String := ""
  location : String := ""
  edge_zone : String := ""
  admin_password : String := ""
  admin_username : String := ""
  computer_name : String := ""
  priority : String := "Regular"
  eviction_policy : String := ""
  source_image_id : String := ""
  source_image_reference : List SourceImageReferenceBlock := []
  plan : List PlanBlock := []
  enable_automatic_updates : Bool := true
  winrm_listener : List WinRMListenerBlock := []
  additional_unattend_content : List AdditionalUnattendContentBlock := []
  availability_set_id : String := ""
  custom_data : String := ""
  secure_boot_enabled : Bool := false
  vtpm_enabled : Bool := false
  virtual_machine_scale_set_id : String := ""
  platform_fault_domain : Int := -1
  timezone : String := ""
  zone : String := ""
deriving DecidableEq, Repr

/-- An attribute path, as its dot separated segments. -/
abbrev Path := List String

/-- The desired-state provider handed to the resource functions. -/
structure ResourceData where
  Id : String
  config : Config
  changed : List Path
deriving DecidableEq, Repr

/-- Whether the attribute `key`, or an attribute below it, is in the change
set (`d.HasChange(key)`). -/
def ResourceData.HasChange (d : ResourceData) (key : Path) : Bool :=
  d.changed.any (fun p => key.isPrefixOf p)

/-- The value of `d.Get("os_disk.0.name")`: the zero value when the list is
empty. -/
def ResourceData.osDiskName (d : ResourceData) : String :=
  match d.config.os_disk with
  | [] => ""
  | raw :: _ => raw.name

/-- The value of `d.Get("os_disk.0.disk_size_gb")`. -/
def ResourceData.osDiskSizeGb (d : ResourceData) : Int :=
  match d.config.os_disk with
  | [] => 0
  | raw :: _ => raw.disk_size_gb

/-- The value of `d.Get("os_disk.0.disk_encryption_set_id")`. -/
def ResourceData.osDiskEncryptionSetId (d : ResourceData) : String :=
  match d.config.os_disk with
  | [] => ""
  | raw :: _ => raw.disk_encryption_set_id

/-! ## Remote calls, the trace and the monad of a pass -/

/-- The remote operations a pass can issue. -/
inductive Call where
  | Get (id : VirtualMachineId)
  | InstanceView (id : VirtualMachineId)
  | ListAvailableSizes (id : VirtualMachineId)
  | PowerOffThenPoll (id : VirtualMachineId) (options : PowerOffOperationOptions)
  | DeallocateThenPoll (id : VirtualMachineId) (options : DeallocateOperationOptions)
  | UpdateThenPoll (id : VirtualMachineId) (update : VirtualMachineUpdate)
  | StartThenPoll (id : VirtualMachineId)
  | DisksGet (id : DiskId)
  | DisksUpdateThenPoll (id : DiskId) (update : DiskUpdate)
  | DiskEncryptionSetsGet (diskEncryptionSetId : String)
  | ConnectionInformation
  | CreateOrUpdateThenPoll (id : VirtualMachineId) (parameters : VirtualMachine)
  | DeleteThenPoll (id : VirtualMachineId) (options : DeleteOperationOptions)
  | DisksDelete (id : DiskId)
  | DisksDeletePollUntilDone (id : DiskId)
deriving DecidableEq, Repr

/-- One entry of the trace of a pass. -/
inductive Event where
  | locked (name : String) (kind : String)
  | unlocked (name : String) (kind : String)
  | remote (call : Call) (failed : Bool)
deriving DecidableEq, Repr

abbrev Trace := List Event

/-- Why a pass stopped.  `validation` is an error built from the
configuration alone, `remote` wraps the error of a remote call, `parse` is a
malformed id, `flatten` an error of a flattening helper of the libraries,
`fault` a Go runtime panic, `importAsExists` the error of
`tf.ImportAsExistsError` and `waitTimeout` a state wait that ran out of
time. -/
inductive Failure where
  | parse (what : String)
  | validation (message : String)
  | remote (doing : String) (err : RemoteError)
  | flatten (what : String)
  | fault (what : String)
  | importAsExists (resourceName : String) (id : String)
  | waitTimeout (what : String)
deriving DecidableEq, Repr

/-- A computation of a pass: it extends the trace and ends with a value or a
failure. -/
def M (α : Type) : Type :=
  Trace → Except Failure α × Trace

/-- Ends with the value `a`. -/
def M.ret {α : Type} (a : α) : M α :=
  fun t => (Except.ok a, t)

/-- Sequencing: a failure of the first part ends the computation. -/
def M.andThen {α β : Type} (m : M α) (f : α → M β) : M β :=
  fun t =>
    match m t with
    | (Except.ok a, t1) => f a t1
    | (Except.error e, t1) => (Except.error e, t1)

instance : Monad M where
  pure := M.ret
  bind := M.andThen

/-- Returns the error `e` (a Go `return fmt.Errorf(...)`). -/
def M.fail {α : Type} (e : Failure) : M α :=
  fun t => (Except.error e, t)

/-- Whether an answer is an error. -/
def failedAnswer {α : Type} : Except RemoteError α → Bool
  | Except.ok _ => false
  | Except.error _ => true

/-- Issues the remote call `c`: the answer is computed from the history, the
call and its outcome are appended to the trace, and the answer is handed to
the caller. -/
def M.call {α : Type} (c : Call) (answer : Trace → Except RemoteError α) :
    M (Except RemoteError α) :=
  fun t => (Except.ok (answer t), t ++ [Event.remote c (failedAnswer (answer t))])

/-- Appends a lock event to the trace. -/
def M.emit (e : Event) : M Unit :=
  fun t => (Except.ok (), t ++ [e])

/-- Lifts a computation without remote calls. -/
def M.lift {α : Type} : Except Failure α → M α
  | Except.ok a => M.ret a
  | Except.error e => M.fail e

/-- The collaborators of a pass (`meta.(*clients.Client)`): the remote
clients, and the functions of the provider and of its libraries that are not
part of the sources at hand.  Every remote answer may depend on the trace so
far. -/
structure Client where
  SubscriptionId : String
  Get : Trace → VirtualMachineId → Except RemoteError (Option VirtualMachine)
  InstanceView : Trace → VirtualMachineId → Except RemoteError (Option VirtualMachineInstanceView)
  ListAvailableSizes : Trace → VirtualMachineId → Except RemoteError (Option VirtualMachineSizeListResult)
  PowerOffThenPoll : Trace → VirtualMachineId → PowerOffOperationOptions → Except RemoteError Unit
  DeallocateThenPoll : Trace → VirtualMachineId → DeallocateOperationOptions → Except RemoteError Unit
  UpdateThenPoll : Trace → VirtualMachineId → VirtualMachineUpdate → Except RemoteError Unit
  StartThenPoll : Trace → VirtualMachineId → Except RemoteError Unit
  DisksGet : Trace → DiskId → Except RemoteError (Option Disk)
  DisksUpdateThenPoll : Trace → DiskId → DiskUpdate → Except RemoteError Unit
  /-- The read behind `retrieveDiskEncryptionSetEncryptionType`. -/
  DiskEncryptionSetsGet : Trace → String → Except RemoteError (Option String)
  ParseVirtualMachineID : String → Except String VirtualMachineId
  ParseDiskID : String → Except String DiskId
  virtualMachineShouldBeStarted : Option VirtualMachineInstanceView → Bool
  expandBootDiagnostics : List BootDiagnosticsBlock → Option DiagnosticsProfile
  expandWindowsSecrets : List SecretBlock → Option (List VaultSecretGroup)
  ExpandSystemAndUserAssignedMap : List IdentityBlock → Except String (Option SystemAndUserAssignedMap)
  FlattenSystemAndUserAssignedMap : Option SystemAndUserAssignedMap → Except String (List IdentityBlock)
  tagsExpand : List (String × String) → Option (List (String × String))
  /-- The comparison `strings.EqualFold` of the Go standard library (Unicode
  simple case folding), which is outside the sources at hand. -/
  EqualFold : String → String → Bool
  CreateOrUpdateThenPoll : Trace → VirtualMachineId → VirtualMachine → Except RemoteError Unit
  DeleteThenPoll : Trace → VirtualMachineId → DeleteOperationOptions → Except RemoteError Unit
  /-- The request of `disksClient.Delete`; its poller is `DisksDeletePollUntilDone`. -/
  DisksDelete : Trace → DiskId → Except RemoteError Unit
  DisksDeletePollUntilDone : Trace → DiskId → Except RemoteError Unit
  Features : VirtualMachineFeatures
  /-- How many times the state wait that closes the Delete pass can refresh
  before its timeout (`d.Timeout(pluginsdk.TimeoutDelete)`). -/
  deleteWaitRefreshes : Nat
  /-- The string form of a machine id, `id.ID()`. -/
  VirtualMachineIdString : VirtualMachineId → String
  /-- The errors of `computeValidate.WindowsComputerNameFull`. -/
  WindowsComputerNameFull : String → List String
  expandSourceImageReference : List SourceImageReferenceBlock → String → Option ImageReference
  isValidHotPatchSourceImageReference : List SourceImageReferenceBlock → String → Bool
  expandEdgeZone : String → Option ExtendedLocation
  NormalizeLocation : String → String
  expandPlan : List PlanBlock → Option PurchasePlan
  expandWinRMListener : List WinRMListenerBlock → Option WinRMConfiguration
  expandAdditionalUnattendContent :
    List AdditionalUnattendContentBlock → Option (List AdditionalUnattendContent)

/-- The resource kind under which virtual machines are locked. -/
def VirtualMachineResourceName : String :=
  "azurerm_virtual_machine"

/-! ## Helpers of virtual_machine.go -/

/-- Lines 47-57. -/
def expandVirtualMachineAdditionalCapabilities (input : List AdditionalCapabilitiesBlock) :
    Option AdditionalCapabilities :=
  match input with
  | [] => some {}
  | raw :: _ => some { UltraSSDEnabled := some raw.ultra_ssd_enabled }

/-- The loop body of lines 125-132, for the element at index `i`. -/
def networkInterfaceReferenceAt (i : Nat) (v : String) : NetworkInterfaceReference :=
  { Id := some v, Properties := some { Primary := some (i == 0) } }

/-- Lines 122-135. -/
def expandVirtualMachineNetworkInterfaceIDs (input : List String) :
    Option (List NetworkInterfaceReference) :=
  some (input.enum.map (fun iv => networkInterfaceReferenceAt iv.1 iv.2))

/-- Lines 137-153. -/
def flattenVirtualMachineNetworkInterfaceIDs (input : Option (List NetworkInterfaceReference)) :
    List String :=
  match input with
  | none => []
  | some refs => refs.filterMap (fun v => v.Id)

/-- Lines 268-329.  An empty `input` makes `input[0]` panic; writing the
disk encryption set through an absent security profile (line 296) would
panic as well. -/
def expandVirtualMachineOSDisk (input : List OSDiskBlock) (osType : String) :
    Except Failure OSDisk :=
  match input with
  | [] => Except.error (Failure.fault "index out of range: input[0]")
  | raw :: _ =>
    let caching := raw.caching
    let managedDisk : ManagedDiskParameters :=
      { StorageAccountType := some raw.storage_account_type }
    let securityEncryptionType := raw.security_encryption_type
    let managedDisk : ManagedDiskParameters :=
      if securityEncryptionType != "" then
        { managedDisk with
          SecurityProfile := some { SecurityEncryptionType := some securityEncryptionType } }
      else managedDisk
    let secured : Except Failure ManagedDiskParameters :=
      if raw.secure_vm_disk_encryption_set_id != "" then
        if "DiskWithVMGuestState" != securityEncryptionType then
          Except.error (Failure.validation
            "secure_vm_disk_encryption_set_id can only be specified when security_encryption_type is set to DiskWithVMGuestState")
        else
          match managedDisk.SecurityProfile with
          | none => Except.error (Failure.fault "nil dereference: disk.ManagedDisk.SecurityProfile")
          | some profile =>
            Except.ok { managedDisk with
              SecurityProfile := some { profile with
                DiskEncryptionSet := some { Id := some raw.secure_vm_disk_encryption_set_id } } }
      else Except.ok managedDisk
    match secured with
    | Except.error e => Except.error e
    | Except.ok managedDisk =>
      let diskSizeGB : Option Int := if raw.disk_size_gb > 0 then some raw.disk_size_gb else none
      let diffDisk : Except Failure (Option DiffDiskSettings) :=
        match raw.diff_disk_settings with
        | [] => Except.ok none
        | diffDiskRaw :: _ =>
          if caching != "ReadOnly" then
            Except.error (Failure.validation
              "diff_disk_settings can only be set when caching is set to ReadOnly")
          else
            Except.ok (some { OptionValue := some diffDiskRaw.option,
                              Placement := some diffDiskRaw.placement })
      match diffDisk with
      | Except.error e => Except.error e
      | Except.ok diffDiskSettings =>
        let managedDisk : ManagedDiskParameters :=
          if raw.disk_encryption_set_id != "" then
            { managedDisk with DiskEncryptionSet := some { Id := some raw.disk_encryption_set_id } }
          else managedDisk
        Except.ok
          { Caching := some caching
            ManagedDisk := some managedDisk
            WriteAcceleratorEnabled := some raw.write_accelerator_enabled
            CreateOption := "FromImage"
            OsType := some osType
            DiskSizeGB := diskSizeGB
            DiffDiskSettings := diffDiskSettings
            Name := if raw.name != "" then some raw.name else none }

/-- Lines 453-472. -/
def expandVirtualMachineScheduledEventsProfile (input : List TerminationNotificationBlock) :
    Option ScheduledEventsProfile :=
  match input with
  | [] => some { TerminateNotificationProfile := some { Enable := some false } }
  | raw :: _ =>
    some { TerminateNotificationProfile :=
             some { Enable := some raw.enabled, NotBeforeTimeout := some raw.timeout } }

/-- Lines 474-494. -/
def flattenVirtualMachineScheduledEventsProfile (input : Option ScheduledEventsProfile) :
    List TerminationNotificationBlock :=
  let enabled : Bool :=
    match input with
    | some profile =>
      match profile.TerminateNotificationProfile with
      | some terminate => terminate.Enable.getD false
      | none => false
    | none => false
  let timeout : String :=
    match input with
    | some profile =>
      match profile.TerminateNotificationProfile with
      | some terminate => terminate.NotBeforeTimeout.getD "PT5M"
      | none => "PT5M"
    | none => "PT5M"
  [{ enabled := enabled, timeout := timeout }]

/-- Lines 534-557. -/
def expandVirtualMachineGalleryApplication (input : List GalleryApplicationBlock) :
    Option (List VMGalleryApplication) :=
  some (input.map (fun v =>
    { PackageReferenceId := v.version_id
      ConfigurationReference := some v.configuration_blob_uri
      Order := some v.order
      Tags := some v.tag }))

/-- The values `flattenVirtualMachineOSDisk` looks up on the disk itself
(lines 359-361 and 384-400). -/
structure DiskLookup where
  storageAccountType : String
  diskSizeGb : Int
  diskEncryptionSetId : String
deriving DecidableEq, Repr

/-- Lines 384-400: the disk was found, its model is read.  `disk.Model` and
`disk.Model.Properties` are dereferenced without a check, as is
`disk.Model.Sku.Name`. -/
def readFoundDisk (model : Option Disk) (v : DiskLookup) : Except Failure DiskLookup :=
  match model with
  | none => Except.error (Failure.fault "nil dereference: disk.Model")
  | some disk =>
    let storage : Except Failure String :=
      match disk.Sku with
      | some sku =>
        if v.storageAccountType == "" then
          match sku.Name with
          | some name => Except.ok name
          | none => Except.error (Failure.fault "nil dereference: disk.Model.Sku.Name")
        else Except.ok v.storageAccountType
      | none => Except.ok v.storageAccountType
    match storage with
    | Except.error e => Except.error e
    | Except.ok storageAccountType =>
      let diskSizeGb : Int :=
        if v.diskSizeGb == 0 then
          match disk.Properties with
          | some props =>
            match props.DiskSizeGB with
            | some n => n
            | none => v.diskSizeGb
          | none => v.diskSizeGb
        else v.diskSizeGb
      match disk.Properties with
      | none => Except.error (Failure.fault "nil dereference: disk.Model.Properties")
      | some props =>
        let diskEncryptionSetId : String :=
          match props.Encryption with
          | some encryption =>
            match encryption.DiskEncryptionSetId with
            | some id => id
            | none => v.diskEncryptionSetId
          | none => v.diskEncryptionSetId
        Except.ok { storageAccountType := storageAccountType
                    diskSizeGb := diskSizeGb
                    diskEncryptionSetId := diskEncryptionSetId }

/-- Lines 364-401: the values looked up on the managed disk, by its id. -/
def lookupManagedDisk (client : Client) (managedDisk : Option ManagedDiskParameters)
    (diskSizeGb : Int) : M DiskLookup :=
  match managedDisk with
  | none =>
    pure { storageAccountType := "", diskSizeGb := diskSizeGb, diskEncryptionSetId := "" }
  | some managedDisk =>
    let v : DiskLookup :=
      { storageAccountType := managedDisk.StorageAccountType.getD ""
        diskSizeGb := diskSizeGb
        diskEncryptionSetId := "" }
    match managedDisk.Id with
    | none => pure v
    | some rawId =>
      match client.ParseDiskID rawId with
      | Except.error e => M.fail (Failure.parse e)
      | Except.ok id =>
        M.call (Call.DisksGet id) (fun t => client.DisksGet t id) >>= fun disk =>
          match disk with
          | Except.error err =>
            if !WasNotFound err then M.fail (Failure.remote "retrieving disk" err)
            else pure v
          | Except.ok model => M.lift (readFoundDisk model v)

/-- Lines 331-428. -/
def flattenVirtualMachineOSDisk (client : Client) (input : Option OSDisk) :
    M (List OSDiskBlock) :=
  match input with
  | none => pure []
  | some input =>
    let diffDiskSettings : List DiffDiskSettingsBlock :=
      match input.DiffDiskSettings with
      | none => []
      | some settings =>
        [{ option := settings.OptionValue.getD ""
           placement := if settings.Placement.getD "" != "" then settings.Placement.getD ""
                        else "CacheDisk" }]
    let diskSizeGb : Int :=
      match input.DiskSizeGB with
      | some n => if n != 0 then n else 0
      | none => 0
    let name : String := input.Name.getD ""
    lookupManagedDisk client input.ManagedDisk diskSizeGb >>= fun looked =>
      let securityProfile : Option VMDiskSecurityProfile :=
        match input.ManagedDisk with
        | none => none
        | some managedDisk => managedDisk.SecurityProfile
      let securityEncryptionType : String :=
        match securityProfile with
        | none => ""
        | some profile => profile.SecurityEncryptionType.getD ""
      let secureVMDiskEncryptionSetId : String :=
        match securityProfile with
        | none => ""
        | some profile =>
          match profile.DiskEncryptionSet with
          | none => ""
          | some set => set.Id.getD ""
      pure [{ caching := input.Caching.getD ""
              disk_size_gb := looked.diskSizeGb
              diff_disk_settings := diffDiskSettings
              disk_encryption_set_id := looked.diskEncryptionSetId
              name := name
              storage_account_type := looked.storageAccountType
              secure_vm_disk_encryption_set_id := secureVMDiskEncryptionSetId
              security_encryption_type := securityEncryptionType
              write_accelerator_enabled := input.WriteAcceleratorEnabled.getD false }]

/-! ## The Read pass -/

/-- Lines 939-964 of the Read pass: the OS disk of the storage profile is
flattened, which looks the disk up. -/
def readStorageProfile (client : Client) (storageProfile : Option StorageProfile) : M Unit :=
  match storageProfile with
  | none => pure ()
  | some profile => flattenVirtualMachineOSDisk client profile.OsDisk >>= fun _ => pure ()

/-- Lines 808-1013 of the Read pass, for a model with properties: the only
remote interaction is the disk lookup of `flattenVirtualMachineOSDisk` and
the network reads of `retrieveConnectionInformation` (a helper outside the
sources at hand, written to the trace as one read that cannot fail).  The
attribute values written with `d.Set` stay local and are not kept. -/
def readProperties (client : Client) (props : VirtualMachineProperties) : M Unit :=
  readStorageProfile client props.StorageProfile >>= fun _ =>
    M.call Call.ConnectionInformation (fun _ => (Except.ok () : Except RemoteError Unit)) >>= fun _ =>
      pure ()

/-- Lines 765-1019: the Read pass.  The result is the resource data after the
pass; a resource that is not found has its id cleared. -/
def resourceWindowsVirtualMachineRead (d : ResourceData) (client : Client) : M ResourceData :=
  match client.ParseVirtualMachineID d.Id with
  | Except.error e => M.fail (Failure.parse e)
  | Except.ok id => do
    let resp ← M.call (Call.Get id) (fun t => client.Get t id)
    match resp with
    | Except.error err =>
      if WasNotFound err then pure { d with Id := "" }
      else M.fail (Failure.remote "retrieving" err)
    | Except.ok none => pure d
    | Except.ok (some model) =>
      match client.FlattenSystemAndUserAssignedMap model.Identity with
      | Except.error e => M.fail (Failure.flatten e)
      | Except.ok _ =>
        match model.Properties with
        | none => pure d
        | some props => do
          readProperties client props
          pure d

/-! ## The Update pass: planning (lines 1060-1456) -/

/-- The local variables of the planning part of the Update pass. -/
structure Plan where
  shouldUpdate : Bool := false
  shouldShutDown : Bool := false
  shouldDeallocate : Bool := false
  update : VirtualMachineUpdate := {}
deriving DecidableEq, Repr

/-- Writes `update.Properties`. -/
def Plan.setProperties (p : Plan) (f : VirtualMachineProperties → VirtualMachineProperties) :
    Plan :=
  { p with update := { p.update with Properties := f p.update.Properties } }

/-- The three allocations that precede every write to the patch settings
(for example lines 1103-1113), followed by the write `f`. -/
def withPatchSettings (f : PatchSettings → PatchSettings) (props : VirtualMachineProperties) :
    VirtualMachineProperties :=
  let osProfile : OSProfile := props.OsProfile.getD {}
  let windowsConfiguration : WindowsConfiguration := osProfile.WindowsConfiguration.getD {}
  let patchSettings : PatchSettings := windowsConfiguration.PatchSettings.getD {}
  { props with
    OsProfile := some { osProfile with
      WindowsConfiguration := some { windowsConfiguration with
        PatchSettings := some (f patchSettings) } } }

/-- The allocation of lines 1161-1164 and 1189-1192, followed by the write
`f`. -/
def withAutomaticByPlatformSettings
    (f : WindowsVMGuestPatchAutomaticByPlatformSettings →
      WindowsVMGuestPatchAutomaticByPlatformSettings)
    (settings : PatchSettings) : PatchSettings :=
  { settings with
    AutomaticByPlatformSettings := some (f (settings.AutomaticByPlatformSettings.getD {})) }

/-- A sub resource reference built from `d.GetOk`: the id when the value is
set, an empty reference otherwise (for example lines 1250-1256). -/
def subResourceOfGetOk (v : String) : SubResource :=
  if v != "" then { Id := some v } else {}

/-- Lines 1068-1073. -/
def planBootDiagnostics (d : ResourceData) (client : Client) (p : Plan) : Plan :=
  if d.HasChange ["boot_diagnostics"] then
    { p with shouldUpdate := true }.setProperties (fun props =>
      { props with DiagnosticsProfile := client.expandBootDiagnostics d.config.boot_diagnostics })
  else p

/-- Lines 1075-1086. -/
def planSecret (d : ResourceData) (client : Client) (p : Plan) : Plan :=
  if d.HasChange ["secret"] then
    let profile : OSProfile :=
      if d.HasChange ["secret"] then { Secrets := client.expandWindowsSecrets d.config.secret }
      else {}
    { p with shouldUpdate := true }.setProperties (fun props =>
      { props with OsProfile := some profile })
  else p

/-- Lines 1088-1098. -/
def planAllowExtensionOperations (d : ResourceData) (p : Plan) : Plan :=
  if d.HasChange ["allow_extension_operations"] then
    { p with shouldUpdate := true }.setProperties (fun props =>
      { props with
        OsProfile := some { props.OsProfile.getD {} with
          AllowExtensionOperations := some d.config.allow_extension_operations } })
  else p

/-- Lines 1100-1116. -/
def planPatchMode (d : ResourceData) (p : Plan) : Plan :=
  if d.HasChange ["patch_mode"] then
    { p with shouldUpdate := true }.setProperties
      (withPatchSettings (fun settings => { settings with PatchMode := some d.config.patch_mode }))
  else p

/-- Lines 1118-1139. -/
def planPatchAssessmentMode (d : ResourceData) (p : Plan) : Except Failure Plan :=
  if d.HasChange ["patch_assessment_mode"] then
    let assessmentMode := d.config.patch_assessment_mode
    if assessmentMode == "AutomaticByPlatform" && !d.config.provision_vm_agent then
      Except.error (Failure.validation
        "provision_vm_agent must be set to true when patch_assessment_mode is set to AutomaticByPlatform")
    else
      Except.ok ({ p with shouldUpdate := true }.setProperties
        (withPatchSettings (fun settings => { settings with AssessmentMode := some assessmentMode })))
  else Except.ok p

/-- Line 1141. -/
def isPatchModeAutomaticByPlatform (d : ResourceData) : Bool :=
  d.config.patch_mode == "AutomaticByPlatform"

/-- Lines 1142-1168. -/
def planBypassPlatformSafetyChecks (d : ResourceData) (p : Plan) : Except Failure Plan :=
  let bypassPlatformSafetyChecksOnUserScheduleEnabled :=
    d.config.bypass_platform_safety_checks_on_user_schedule_enabled
  if bypassPlatformSafetyChecksOnUserScheduleEnabled && !isPatchModeAutomaticByPlatform d then
    Except.error (Failure.validation
      "patch_mode must be set to AutomaticByPlatform when bypass_platform_safety_checks_on_user_schedule_enabled is set to true")
  else if d.HasChange ["bypass_platform_safety_checks_on_user_schedule_enabled"] then
    Except.ok ({ p with shouldUpdate := true }.setProperties
      (withPatchSettings (fun settings =>
        if isPatchModeAutomaticByPlatform d then
          withAutomaticByPlatformSettings (fun platform =>
            { platform with
              BypassPlatformSafetyChecksOnUserSchedule :=
                some bypassPlatformSafetyChecksOnUserScheduleEnabled }) settings
        else settings)))
  else Except.ok p

/-- Lines 1170-1196. -/
def planRebootSetting (d : ResourceData) (p : Plan) : Except Failure Plan :=
  let rebootSetting := d.config.reboot_setting
  if rebootSetting != "" && !isPatchModeAutomaticByPlatform d then
    Except.error (Failure.validation
      "patch_mode must be set to AutomaticByPlatform when reboot_setting is specified")
  else if d.HasChange ["reboot_setting"] then
    Except.ok ({ p with shouldUpdate := true }.setProperties
      (withPatchSettings (fun settings =>
        if isPatchModeAutomaticByPlatform d then
          withAutomaticByPlatformSettings (fun platform =>
            { platform with RebootSetting := some rebootSetting }) settings
        else settings)))
  else Except.ok p

/-- Lines 1198-1214. -/
def planHotpatching (d : ResourceData) (p : Plan) : Plan :=
  if d.HasChange ["hotpatching_enabled"] then
    { p with shouldUpdate := true }.setProperties
      (withPatchSettings (fun settings =>
        { settings with EnableHotpatching := some d.config.hotpatching_enabled }))
  else p

/-- Lines 1216-1225. -/
def planIdentity (d : ResourceData) (client : Client) (p : Plan) : Except Failure Plan :=
  if d.HasChange ["identity"] then
    match client.ExpandSystemAndUserAssignedMap d.config.identity with
    | Except.error e => Except.error (Failure.validation e)
    | Except.ok identity =>
      Except.ok { p with shouldUpdate := true, update := { p.update with Identity := identity } }
  else Except.ok p

/-- Lines 1227-1242. -/
def planCapacityReservationGroup (d : ResourceData) (p : Plan) : Plan :=
  if d.HasChange ["capacity_reservation_group_id"] then
    { p with shouldUpdate := true, shouldDeallocate := true }.setProperties (fun props =>
      { props with
        CapacityReservation := some
          { CapacityReservationGroup :=
              some (subResourceOfGetOk d.config.capacity_reservation_group_id) } })
  else p

/-- Lines 1244-1257. -/
def planDedicatedHost (d : ResourceData) (p : Plan) : Plan :=
  if d.HasChange ["dedicated_host_id"] then
    { p with shouldUpdate := true, shouldDeallocate := true }.setProperties (fun props =>
      { props with Host := some (subResourceOfGetOk d.config.dedicated_host_id) })
  else p

/-- Lines 1259-1272. -/
def planDedicatedHostGroup (d : ResourceData) (p : Plan) : Plan :=
  if d.HasChange ["dedicated_host_group_id"] then
    { p with shouldUpdate := true, shouldDeallocate := true }.setProperties (fun props =>
      { props with HostGroup := some (subResourceOfGetOk d.config.dedicated_host_group_id) })
  else p

/-- Lines 1274-1277. -/
def planExtensionsTimeBudget (d : ResourceData) (p : Plan) : Plan :=
  if d.HasChange ["extensions_time_budget"] then
    { p with shouldUpdate := true }.setProperties (fun props =>
      { props with ExtensionsTimeBudget := some d.config.extensions_time_budget })
  else p

/-- Lines 1279-1284. -/
def planGalleryApplication (d : ResourceData) (p : Plan) : Plan :=
  if d.HasChange ["gallery_application"] then
    { p with shouldUpdate := true }.setProperties (fun props =>
      { props with
        ApplicationProfile := some
          { GalleryApplications :=
              expandVirtualMachineGalleryApplication d.config.gallery_application } })
  else p

/-- Lines 1286-1301. -/
def planMaxBidPrice (d : ResourceData) (p : Plan) : Plan :=
  if d.HasChange ["max_bid_price"] then
    { p with shouldUpdate := true, shouldShutDown := true, shouldDeallocate := true }.setProperties
      (fun props => { props with BillingProfile := some { MaxPrice := some d.config.max_bid_price } })
  else p

/-- Lines 1303-1316. -/
def planNetworkInterfaceIds (d : ResourceData) (p : Plan) : Plan :=
  if d.HasChange ["network_interface_ids"] then
    { p with shouldUpdate := true, shouldShutDown := true, shouldDeallocate := true }.setProperties
      (fun props =>
        { props with
          NetworkProfile := some
            { NetworkInterfaces :=
                expandVirtualMachineNetworkInterfaceIDs d.config.network_interface_ids } })
  else p

/-- Lines 1318-1334. -/
def planOsDisk (d : ResourceData) (p : Plan) : Except Failure Plan :=
  if d.HasChange ["os_disk"] then
    match expandVirtualMachineOSDisk d.config.os_disk "Windows" with
    | Except.error e => Except.error e
    | Except.ok osDisk =>
      Except.ok
        ({ p with shouldUpdate := true, shouldShutDown := true,
                  shouldDeallocate := true }.setProperties
          (fun props => { props with StorageProfile := some { OsDisk := some osDisk } }))
  else Except.ok p

/-- Lines 1336-1350. -/
def planProximityPlacementGroup (d : ResourceData) (p : Plan) : Plan :=
  if d.HasChange ["proximity_placement_group_id"] then
    { p with shouldUpdate := true, shouldShutDown := true, shouldDeallocate := true }.setProperties
      (fun props =>
        { props with
          ProximityPlacementGroup := some
            (subResourceOfGetOk d.config.proximity_placement_group_id) })
  else p

/-- Lines 1362-1381: whether one of the sizes answered by `ListAvailableSizes`
matches `vmSize` under `strings.EqualFold`; entries without a name are
skipped. -/
def availableOnThisHost (client : Client) (sizes : Option VirtualMachineSizeListResult)
    (vmSize : String) : Bool :=
  match sizes with
  | none => false
  | some model =>
    match model.Value with
    | none => false
    | some value =>
      value.any (fun size =>
        match size.Name with
        | none => false
        | some name => client.EqualFold name vmSize)

/-- Lines 1352-1395. -/
def planSize (d : ResourceData) (client : Client) (id : VirtualMachineId) (p : Plan) : M Plan :=
  if d.HasChange ["size"] then do
    let p : Plan := { p with shouldUpdate := true, shouldShutDown := true }
    let vmSize := d.config.size
    let sizes ← M.call (Call.ListAvailableSizes id) (fun t => client.ListAvailableSizes t id)
    match sizes with
    | Except.error err => M.fail (Failure.remote "retrieving available sizes" err)
    | Except.ok model =>
      let p : Plan :=
        if !availableOnThisHost client model vmSize then { p with shouldDeallocate := true } else p
      pure (p.setProperties (fun props =>
        { props with HardwareProfile := some { VMSize := some vmSize } }))
  else pure p

/-- Lines 1397-1402. -/
def planTags (d : ResourceData) (client : Client) (p : Plan) : Plan :=
  if d.HasChange ["tags"] then
    { p with shouldUpdate := true, update := { p.update with Tags := client.tagsExpand d.config.tags } }
  else p

/-- Lines 1404-1409. -/
def planTerminationNotification (d : ResourceData) (p : Plan) : Plan :=
  if d.HasChange ["termination_notification"] then
    { p with shouldUpdate := true }.setProperties (fun props =>
      { props with
        ScheduledEventsProfile :=
          expandVirtualMachineScheduledEventsProfile d.config.termination_notification })
  else p

/-- Lines 1411-1421. -/
def planAdditionalCapabilities (d : ResourceData) (p : Plan) : Plan :=
  if d.HasChange ["additional_capabilities"] then
    let p : Plan := { p with shouldUpdate := true }
    let p : Plan :=
      if d.HasChange ["additional_capabilities", "0", "ultra_ssd_enabled"] then
        { p with shouldShutDown := true, shouldDeallocate := true }
      else p
    p.setProperties (fun props =>
      { props with
        AdditionalCapabilities :=
          expandVirtualMachineAdditionalCapabilities d.config.additional_capabilities })
  else p

/-- Lines 1423-1438.  An empty `os_disk` list makes `osDiskRaw[0]` panic. -/
def planEncryptionAtHost (d : ResourceData) (p : Plan) : Except Failure Plan :=
  if d.HasChange ["encryption_at_host_enabled"] then
    let checked : Except Failure Unit :=
      if d.config.encryption_at_host_enabled then
        match d.config.os_disk with
        | [] => Except.error (Failure.fault "index out of range: osDiskRaw[0]")
        | raw :: _ =>
          if "DiskWithVMGuestState" == raw.security_encryption_type then
            Except.error (Failure.validation
              "encryption_at_host_enabled cannot be set to true when os_disk.0.security_encryption_type is set to DiskWithVMGuestState")
          else Except.ok ()
      else Except.ok ()
    match checked with
    | Except.error e => Except.error e
    | Except.ok _ =>
      Except.ok ({ p with shouldUpdate := true, shouldDeallocate := true }.setProperties
        (fun props =>
          { props with
            SecurityProfile := some { props.SecurityProfile.getD {} with
              EncryptionAtHost := some d.config.encryption_at_host_enabled } }))
  else Except.ok p

/-- Lines 1440-1451. -/
def planLicenseType (d : ResourceData) (p : Plan) : Plan :=
  if d.HasChange ["license_type"] then
    let license := d.config.license_type
    let license := if license == "" then "None" else license
    { p with shouldUpdate := true }.setProperties (fun props =>
      { props with LicenseType := some license })
  else p

/-- Lines 1453-1456. -/
def planUserData (d : ResourceData) (p : Plan) : Plan :=
  if d.HasChange ["user_data"] then
    { p with shouldUpdate := true }.setProperties (fun props =>
      { props with UserData := some d.config.user_data })
  else p

/-- Lines 1060-1350: the planning steps that precede the size step, from
the fresh payload on. -/
def planBeforeSize (d : ResourceData) (client : Client) : Except Failure Plan := do
  let p : Plan := {}
  let p := planBootDiagnostics d client p
  let p := planSecret d client p
  let p := planAllowExtensionOperations d p
  let p := planPatchMode d p
  let p ← planPatchAssessmentMode d p
  let p ← planBypassPlatformSafetyChecks d p
  let p ← planRebootSetting d p
  let p := planHotpatching d p
  let p ← planIdentity d client p
  let p := planCapacityReservationGroup d p
  let p := planDedicatedHost d p
  let p := planDedicatedHostGroup d p
  let p := planExtensionsTimeBudget d p
  let p := planGalleryApplication d p
  let p := planMaxBidPrice d p
  let p := planNetworkInterfaceIds d p
  let p ← planOsDisk d p
  let p := planProximityPlacementGroup d p
  pure p

/-- Lines 1397-1456: the planning steps that follow the size step. -/
def planAfterSize (d : ResourceData) (client : Client) (p : Plan) : Except Failure Plan := do
  let p := planTags d client p
  let p := planTerminationNotification d p
  let p := planAdditionalCapabilities d p
  let p ← planEncryptionAtHost d p
  let p := planLicenseType d p
  let p := planUserData d p
  pure p

/-- Lines 1060-1456: the planning part of the Update pass, from the fresh
payload to the flags and payload handed to the disruption part.  The size
step is the only one that talks to the remote system. -/
def planUpdate (d : ResourceData) (client : Client) (id : VirtualMachineId) : M Plan := do
  let p ← M.lift (planBeforeSize d client)
  let p ← planSize d client id p
  M.lift (planAfterSize d client p)

/-! ## The Update pass: disruption, update and restart (lines 1458-1593) -/

/-- The body of the loop of lines 1459-1485 for one status of the instance
view. -/
def adjustForStatus (p : Plan) (status : InstanceViewStatus) : Plan :=
  match status.Code with
  | none => p
  | some code =>
    let state := toLower code
    if !powerStateTag.isPrefixOf state then p
    else
      let state := (state.drop powerStateTag.length).map Char.toLower
      if state == "deallocated".toList then
        { p with shouldShutDown := false, shouldDeallocate := false }
      else if state == "deallocating".toList then
        { p with shouldShutDown := false }
      else if state == "stopped".toList then
        { p with shouldShutDown := false }
      else p

/-- Lines 1458-1486. -/
def adjustForPowerState (instanceView : Option VirtualMachineInstanceView) (p : Plan) : Plan :=
  match instanceView with
  | none => p
  | some model =>
    match model.Statuses with
    | none => p
    | some statuses => statuses.foldl adjustForStatus p

/-- Lines 1047-1058. -/
def hasEphemeralOSDisk (existing : Option VirtualMachine) : Bool :=
  match existing with
  | none => false
  | some model =>
    match model.Properties with
    | none => false
    | some props =>
      match props.StorageProfile with
      | none => false
      | some storage =>
        match storage.OsDisk with
        | none => false
        | some disk =>
          match disk.DiffDiskSettings with
          | none => false
          | some settings => settings.OptionValue.getD "" == "Local"

/-- Lines 1488-1496. -/
def powerOffIfNeeded (client : Client) (id : VirtualMachineId) (shouldShutDown : Bool) :
    M Unit :=
  if shouldShutDown then do
    let forceShutdown := false
    let err ← M.call (Call.PowerOffThenPoll id { SkipShutdown := some forceShutdown })
      (fun t => client.PowerOffThenPoll t id { SkipShutdown := some forceShutdown })
    match err with
    | Except.error err => M.fail (Failure.remote "sending Power Off" err)
    | Except.ok _ => pure ()
  else pure ()

/-- Lines 1498-1511. -/
def deallocateIfNeeded (client : Client) (id : VirtualMachineId) (shouldDeallocate : Bool)
    (hasEphemeralOSDisk : Bool) : M Unit :=
  if shouldDeallocate then
    if !hasEphemeralOSDisk then do
      let err ← M.call (Call.DeallocateThenPoll id { Hibernate := some false })
        (fun t => client.DeallocateThenPoll t id { Hibernate := some false })
      match err with
      | Except.error err => M.fail (Failure.remote "deallocating" err)
      | Except.ok _ => pure ()
    else pure ()
  else pure ()

/-- Lines 1516-1537. -/
def resizeOsDisk (d : ResourceData) (client : Client) (id : VirtualMachineId) : M Unit :=
  if d.HasChange ["os_disk", "0", "disk_size_gb"] then do
    let diskName := d.osDiskName
    let newSize := d.osDiskSizeGb
    let diskId := NewDiskID client.SubscriptionId id.ResourceGroupName diskName
    let update : DiskUpdate := { Properties := some { DiskSizeGB := some newSize } }
    let err ← M.call (Call.DisksUpdateThenPoll diskId update)
      (fun t => client.DisksUpdateThenPoll t diskId update)
    match err with
    | Except.error err => M.fail (Failure.remote "resizing OS Disk" err)
    | Except.ok _ => pure ()
  else pure ()

/-- Lines 1553-1560: the payload of the encryption update of the OS disk. -/
def encryptionUpdate (encryptionType : Option String) (diskEncryptionSetId : String) :
    DiskUpdate :=
  { Properties := some
      { Encryption := some { EncryptionType := encryptionType
                             DiskEncryptionSetId := some diskEncryptionSetId } } }

/-- Lines 1539-1571.  `retrieveDiskEncryptionSetEncryptionType` is a helper
outside the sources at hand; it is taken to be the read of the disk encryption
set, whose error is returned as it is. -/
def updateOsDiskEncryption (d : ResourceData) (client : Client) (id : VirtualMachineId) :
    M Unit :=
  if d.HasChange ["os_disk", "0", "disk_encryption_set_id"] then
    let diskEncryptionSetId := d.osDiskEncryptionSetId
    if diskEncryptionSetId != "" then do
      let diskName := d.osDiskName
      let encryptionType ← M.call (Call.DiskEncryptionSetsGet diskEncryptionSetId)
        (fun t => client.DiskEncryptionSetsGet t diskEncryptionSetId)
      match encryptionType with
      | Except.error err => M.fail (Failure.remote "retrieving disk encryption set" err)
      | Except.ok encryptionType =>
        let diskId := NewDiskID client.SubscriptionId id.ResourceGroupName diskName
        let update : DiskUpdate := encryptionUpdate encryptionType diskEncryptionSetId
        let err ← M.call (Call.DisksUpdateThenPoll diskId update)
          (fun t => client.DisksUpdateThenPoll t diskId update)
        match err with
        | Except.error err => M.fail (Failure.remote "updating encryption settings of OS Disk" err)
        | Except.ok _ => pure ()
    else
      M.fail (Failure.validation
        "once a customer-managed key is used, you cannot change the selection back to a platform-managed key")
  else pure ()

/-- Lines 1573-1580. -/
def updateIfNeeded (client : Client) (id : VirtualMachineId) (p : Plan) : M Unit :=
  if p.shouldUpdate then do
    let err ← M.call (Call.UpdateThenPoll id p.update)
      (fun t => client.UpdateThenPoll t id p.update)
    match err with
    | Except.error err => M.fail (Failure.remote "updating" err)
    | Except.ok _ => pure ()
  else pure ()

/-- Lines 1582-1590. -/
def startIfNeeded (client : Client) (id : VirtualMachineId) (shouldTurnBackOn : Bool)
    (p : Plan) : M Unit :=
  if shouldTurnBackOn && (p.shouldShutDown || p.shouldDeallocate) then do
    let err ← M.call (Call.StartThenPoll id) (fun t => client.StartThenPoll t id)
    match err with
    | Except.error err => M.fail (Failure.remote "starting" err)
    | Except.ok _ => pure ()
  else pure ()

/-- Lines 1488-1593: everything after the flags have been settled. -/
def applyPlan (d : ResourceData) (client : Client) (id : VirtualMachineId)
    (shouldTurnBackOn : Bool) (hasEphemeralOSDisk : Bool) (p : Plan) : M ResourceData := do
  powerOffIfNeeded client id p.shouldShutDown
  deallocateIfNeeded client id p.shouldDeallocate hasEphemeralOSDisk
  resizeOsDisk d client id
  updateOsDiskEncryption d client id
  updateIfNeeded client id p
  startIfNeeded client id shouldTurnBackOn p
  resourceWindowsVirtualMachineRead d client

/-- Lines 1034-1593: the Update pass while the lock is held. -/
def updateLocked (d : ResourceData) (client : Client) (id : VirtualMachineId) :
    M ResourceData := do
  let existing ← M.call (Call.Get id) (fun t => client.Get t id)
  match existing with
  | Except.error err => M.fail (Failure.remote "retrieving" err)
  | Except.ok existing =>
    let instanceView ← M.call (Call.InstanceView id) (fun t => client.InstanceView t id)
    match instanceView with
    | Except.error err => M.fail (Failure.remote "retrieving InstanceView" err)
    | Except.ok instanceView =>
      let shouldTurnBackOn := client.virtualMachineShouldBeStarted instanceView
      let ephemeral := hasEphemeralOSDisk existing
      let p ← planUpdate d client id
      let p := adjustForPowerState instanceView p
      applyPlan d client id shouldTurnBackOn ephemeral p

/-- Runs `body` and then the deferred `after`, whatever the outcome of
`body` (a Go `defer`). -/
def M.deferring {α : Type} (after : Event) (body : M α) : M α :=
  fun t =>
    match body t with
    | (r, t1) => (r, t1 ++ [after])

/-- Lines 1021-1593: `resourceWindowsVirtualMachineUpdate`. -/
def resourceWindowsVirtualMachineUpdate (d : ResourceData) (client : Client) :
    M ResourceData :=
  match client.ParseVirtualMachineID d.Id with
  | Except.error e => M.fail (Failure.parse e)
  | Except.ok id => do
    M.emit (Event.locked id.VirtualMachineName VirtualMachineResourceName)
    M.deferring (Event.unlocked id.VirtualMachineName VirtualMachineResourceName)
      (updateLocked d client id)

/-! ## The Create pass (lines 429-763) -/

/-- The payload of Create while it is being built.  The records behind the
pointers that are allocated once, at lines 490-534 (`params.Properties`,
`OsProfile` and `WindowsConfiguration`), are kept side by side and put
together by `CreateDraft.parameters`; the `Properties` of `machine`, the
`OsProfile` of `properties` and the `WindowsConfiguration` of `osProfile` are
not used before that. -/
structure CreateDraft where
  machine : VirtualMachine := {}
  properties : VirtualMachineProperties := {}
  osProfile : OSProfile := {}
  windowsConfiguration : WindowsConfiguration := {}
deriving DecidableEq, Repr

/-- The value `params` has when it is sent. -/
def CreateDraft.parameters (b : CreateDraft) : VirtualMachine :=
  { b.machine with
    Properties := some { b.properties with
      OsProfile := some { b.osProfile with
        WindowsConfiguration := some b.windowsConfiguration } } }

/-- Lines 458-467. -/
def createComputerName (d : ResourceData) (client : Client) (id : VirtualMachineId) :
    Except Failure String :=
  if d.config.computer_name != "" then Except.ok d.config.computer_name
  else
    match client.WindowsComputerNameFull d.config.name with
    | err :: _ =>
      Except.error (Failure.validation ("unable to assume default computer name " ++ err))
    | [] => Except.ok id.VirtualMachineName

/-- Lines 469-472. -/
def createIdentity (d : ResourceData) (client : Client) :
    Except Failure (Option SystemAndUserAssignedMap) :=
  match client.ExpandSystemAndUserAssignedMap d.config.identity with
  | Except.error e => Except.error (Failure.validation e)
  | Except.ok identity => Except.ok identity

/-- Line 484: `osDiskRaw[0]["security_encryption_type"]`. -/
def createSecurityEncryptionType (d : ResourceData) : Except Failure String :=
  match d.config.os_disk with
  | [] => Except.error (Failure.fault "index out of range: osDiskRaw[0]")
  | raw :: _ => Except.ok raw.security_encryption_type

/-- Lines 490-534. -/
def newCreateDraft (d : ResourceData) (client : Client) (id : VirtualMachineId)
    (computerName : String) (identity : Option SystemAndUserAssignedMap) (osDisk : OSDisk) :
    CreateDraft :=
  { machine :=
      { Name := some id.VirtualMachineName
        ExtendedLocation := client.expandEdgeZone d.config.edge_zone
        Location := client.NormalizeLocation d.config.location
        Identity := identity
        PurchasePlan := client.expandPlan d.config.plan
        Tags := client.tagsExpand d.config.tags }
    properties :=
      { ApplicationProfile := some
          { GalleryApplications :=
              expandVirtualMachineGalleryApplication d.config.gallery_application }
        HardwareProfile := some { VMSize := some d.config.size }
        NetworkProfile := some
          { NetworkInterfaces :=
              expandVirtualMachineNetworkInterfaceIDs d.config.network_interface_ids }
        Priority := some d.config.priority
        StorageProfile := some
          { ImageReference :=
              client.expandSourceImageReference d.config.source_image_reference
                d.config.source_image_id
            OsDisk := some osDisk
            DataDisks := some [] }
        AdditionalCapabilities :=
          expandVirtualMachineAdditionalCapabilities d.config.additional_capabilities
        DiagnosticsProfile := client.expandBootDiagnostics d.config.boot_diagnostics
        ExtensionsTimeBudget := some d.config.extensions_time_budget }
    osProfile :=
      { AdminPassword := some d.config.admin_password
        AdminUsername := some d.config.admin_username
        ComputerName := some computerName
        AllowExtensionOperations := some d.config.allow_extension_operations
        Secrets := client.expandWindowsSecrets d.config.secret }
    windowsConfiguration :=
      { ProvisionVMAgent := some d.config.provision_vm_agent
        EnableAutomaticUpdates := some d.config.enable_automatic_updates
        WinRM := client.expandWinRMListener d.config.winrm_listener } }

/-- Lines 536-538. -/
def createCheckExtensionOperations (d : ResourceData) : Except Failure Unit :=
  if !d.config.provision_vm_agent && d.config.allow_extension_operations then
    Except.error (Failure.validation
      "allow_extension_operations cannot be set to true when provision_vm_agent is set to false")
  else Except.ok ()

/-- Lines 540-543. -/
def createAdditionalUnattendContent (d : ResourceData) (client : Client) (b : CreateDraft) :
    CreateDraft :=
  match client.expandAdditionalUnattendContent d.config.additional_unattend_content with
  | none => b
  | some additionalUnattendContent =>
    let windowsConfiguration : WindowsConfiguration :=
      { b.windowsConfiguration with AdditionalUnattendContent := some additionalUnattendContent }
    { b with windowsConfiguration := windowsConfiguration }

/-- Lines 545-579: the checks of the guest patch mode and of hot patching. -/
def createCheckPatching (d : ResourceData) (client : Client) : Except Failure Unit :=
  let provisionVMAgent := d.config.provision_vm_agent
  let patchMode := d.config.patch_mode
  let assessmentMode := d.config.patch_assessment_mode
  let hotPatch := d.config.hotpatching_enabled
  let sourceImageId := d.config.source_image_id
  let isHotpatchImage :=
    client.isValidHotPatchSourceImageReference d.config.source_image_reference sourceImageId
  if patchMode == "AutomaticByPlatform" && !provisionVMAgent then
    Except.error (Failure.validation
      "patch_mode cannot be set to AutomaticByPlatform when provision_vm_agent is set to false")
  else if assessmentMode == "AutomaticByPlatform" && !provisionVMAgent then
    Except.error (Failure.validation
      "provision_vm_agent must be set to true when patch_assessment_mode is set to AutomaticByPlatform")
  else if isHotpatchImage && patchMode != "AutomaticByPlatform" then
    Except.error (Failure.validation
      "patch_mode must always be set to AutomaticByPlatform when source_image_reference points to a hotpatch enabled image")
  else if hotPatch then
    if patchMode != "AutomaticByPlatform" then
      Except.error (Failure.validation
        ("hotpatching_enabled cannot be set to true when patch_mode is set to " ++ patchMode))
    else if !provisionVMAgent then
      Except.error (Failure.validation
        "hotpatching_enabled cannot be set to true when provisionVMAgent is set to false")
    else if !isHotpatchImage then
      if sourceImageId != "" then
        Except.error (Failure.validation
          "the hotpatching_enabled field is not supported if referencing the image via the source_image_id field")
      else
        Except.error (Failure.validation
          "hotpatching_enabled is currently only supported on 2022-datacenter-azure-edition-core or 2022-datacenter-azure-edition-core-smalldisk image reference skus")
    else Except.ok ()
  else Except.ok ()

/-- Lines 587-597, on the patch settings allocated at line 581. -/
def createBypassPlatformSafetyChecks (d : ResourceData) (settings : PatchSettings) :
    Except Failure PatchSettings :=
  if d.config.bypass_platform_safety_checks_on_user_schedule_enabled then
    if d.config.patch_mode != "AutomaticByPlatform" then
      Except.error (Failure.validation
        "patch_mode must be set to AutomaticByPlatform when bypass_platform_safety_checks_on_user_schedule_enabled is set to true")
    else
      Except.ok (withAutomaticByPlatformSettings (fun platform =>
        { platform with BypassPlatformSafetyChecksOnUserSchedule := some true }) settings)
  else Except.ok settings

/-- Lines 599-609, on the patch settings allocated at line 581. -/
def createRebootSetting (d : ResourceData) (settings : PatchSettings) :
    Except Failure PatchSettings :=
  let v := d.config.reboot_setting
  if v != "" then
    if d.config.patch_mode != "AutomaticByPlatform" then
      Except.error (Failure.validation
        "patch_mode must be set to AutomaticByPlatform when reboot_setting is specified")
    else
      Except.ok (withAutomaticByPlatformSettings (fun platform =>
        { platform with RebootSetting := some v }) settings)
  else Except.ok settings

/-- Lines 581-609: the patch settings of the payload. -/
def createPatchSettings (d : ResourceData) (b : CreateDraft) : Except Failure CreateDraft := do
  let settings : PatchSettings :=
    { PatchMode := some d.config.patch_mode
      EnableHotpatching := some d.config.hotpatching_enabled
      AssessmentMode := some d.config.patch_assessment_mode }
  let settings ← createBypassPlatformSafetyChecks d settings
  let settings ← createRebootSetting d settings
  let windowsConfiguration : WindowsConfiguration :=
    { b.windowsConfiguration with PatchSettings := some settings }
  pure { b with windowsConfiguration := windowsConfiguration }

/-- Lines 611-639: the references copied when they are set. -/
def createReferences (d : ResourceData) (b : CreateDraft) : CreateDraft :=
  let props := b.properties
  let props : VirtualMachineProperties :=
    if d.config.availability_set_id != "" then
      { props with AvailabilitySet := some { Id := some d.config.availability_set_id } }
    else props
  let props : VirtualMachineProperties :=
    if d.config.capacity_reservation_group_id != "" then
      { props with
        CapacityReservation := some
          { CapacityReservationGroup :=
              some { Id := some d.config.capacity_reservation_group_id } } }
    else props
  let osProfile : OSProfile :=
    if d.config.custom_data != "" then
      { b.osProfile with CustomData := some d.config.custom_data }
    else b.osProfile
  let props : VirtualMachineProperties :=
    if d.config.dedicated_host_id != "" then
      { props with Host := some { Id := some d.config.dedicated_host_id } }
    else props
  let props : VirtualMachineProperties :=
    if d.config.dedicated_host_group_id != "" then
      { props with HostGroup := some { Id := some d.config.dedicated_host_group_id } }
    else props
  { b with properties := props, osProfile := osProfile }

/-- Lines 641-652.  `d.GetOk` of a boolean is set exactly when the value is
`true`. -/
def createEncryptionAtHost (d : ResourceData) (securityEncryptionType : String)
    (b : CreateDraft) : Except Failure CreateDraft :=
  let encryptionAtHostEnabled := d.config.encryption_at_host_enabled
  if encryptionAtHostEnabled then
    if encryptionAtHostEnabled && "DiskWithVMGuestState" == securityEncryptionType then
      Except.error (Failure.validation
        "encryption_at_host_enabled cannot be set to true when os_disk.0.security_encryption_type is set to DiskWithVMGuestState")
    else
      let props : VirtualMachineProperties :=
        { b.properties with
          SecurityProfile := some { b.properties.SecurityProfile.getD {} with
            EncryptionAtHost := some encryptionAtHostEnabled } }
      Except.ok { b with properties := props }
  else Except.ok b

/-- A write to `params.Properties.SecurityProfile.UefiSettings` after the two
allocations that precede it (for example lines 664-671). -/
def withUefiSettings (securityType : String) (f : UefiSettings → UefiSettings)
    (props : VirtualMachineProperties) : VirtualMachineProperties :=
  let profile : SecurityProfile := props.SecurityProfile.getD {}
  { props with
    SecurityProfile := some { profile with
      SecurityType := some securityType
      UefiSettings := some (f (profile.UefiSettings.getD {})) } }

/-- Lines 654-696. -/
def createSecurityProfile (d : ResourceData) (securityEncryptionType : String)
    (b : CreateDraft) : Except Failure CreateDraft :=
  let secureBootEnabled := d.config.secure_boot_enabled
  let vtpmEnabled := d.config.vtpm_enabled
  if securityEncryptionType != "" then
    if "DiskWithVMGuestState" == securityEncryptionType && !secureBootEnabled then
      Except.error (Failure.validation
        "secure_boot_enabled must be set to true when os_disk.0.security_encryption_type is set to DiskWithVMGuestState")
    else if !vtpmEnabled then
      Except.error (Failure.validation
        "vtpm_enabled must be set to true when os_disk.0.security_encryption_type is set")
    else
      let props : VirtualMachineProperties :=
        withUefiSettings "ConfidentialVM" (fun uefi =>
          { uefi with SecureBootEnabled := some secureBootEnabled
                      VTpmEnabled := some vtpmEnabled }) b.properties
      Except.ok { b with properties := props }
  else
    let props := b.properties
    let props : VirtualMachineProperties :=
      if secureBootEnabled then
        withUefiSettings "TrustedLaunch" (fun uefi =>
          { uefi with SecureBootEnabled := some secureBootEnabled }) props
      else props
    let props : VirtualMachineProperties :=
      if vtpmEnabled then
        withUefiSettings "TrustedLaunch" (fun uefi =>
          { uefi with VTpmEnabled := some vtpmEnabled }) props
      else props
    Except.ok { b with properties := props }

/-- Lines 698-706. -/
def createEvictionPolicy (d : ResourceData) (b : CreateDraft) : Except Failure CreateDraft :=
  let evictionPolicyRaw := d.config.eviction_policy
  if evictionPolicyRaw != "" then
    if b.properties.Priority.getD "" != "Spot" then
      Except.error (Failure.validation
        "an eviction_policy can only be specified when priority is set to Spot")
    else
      let props : VirtualMachineProperties :=
        { b.properties with EvictionPolicy := some evictionPolicyRaw }
      Except.ok { b with properties := props }
  else if d.config.priority == "Spot" then
    Except.error (Failure.validation
      "an eviction_policy must be specified when priority is set to Spot")
  else Except.ok b

/-- Lines 708-710. -/
def createLicenseType (d : ResourceData) (b : CreateDraft) : CreateDraft :=
  if d.config.license_type != "" then
    { b with properties := { b.properties with LicenseType := some d.config.license_type } }
  else b

/-- Lines 712-720. -/
def createMaxBidPrice (d : ResourceData) (b : CreateDraft) : Except Failure CreateDraft :=
  let v := d.config.max_bid_price
  if v > 0 then
    if d.config.priority != "Spot" then
      Except.error (Failure.validation
        "max_bid_price can only be configured when priority is set to Spot")
    else
      let props : VirtualMachineProperties :=
        { b.properties with BillingProfile := some { MaxPrice := some v } }
      Except.ok { b with properties := props }
  else Except.ok b

/-- Lines 722-755. -/
def createPlacement (d : ResourceData) (b : CreateDraft) : CreateDraft :=
  let props := b.properties
  let props : VirtualMachineProperties :=
    if d.config.proximity_placement_group_id != "" then
      { props with
        ProximityPlacementGroup := some { Id := some d.config.proximity_placement_group_id } }
    else props
  let props : VirtualMachineProperties :=
    if d.config.virtual_machine_scale_set_id != "" then
      { props with
        VirtualMachineScaleSet := some { Id := some d.config.virtual_machine_scale_set_id } }
    else props
  let platformFaultDomain := d.config.platform_fault_domain
  let props : VirtualMachineProperties :=
    if platformFaultDomain != -1 then
      { props with PlatformFaultDomain := some platformFaultDomain }
    else props
  let props : VirtualMachineProperties :=
    if d.config.termination_notification != [] then
      { props with
        ScheduledEventsProfile :=
          expandVirtualMachineScheduledEventsProfile d.config.termination_notification }
    else props
  let windowsConfiguration : WindowsConfiguration :=
    if d.config.timezone != "" then
      { b.windowsConfiguration with TimeZone := some d.config.timezone }
    else b.windowsConfiguration
  let props : VirtualMachineProperties :=
    if d.config.user_data != "" then { props with UserData := some d.config.user_data }
    else props
  let machine : VirtualMachine :=
    if d.config.zone != "" then { b.machine with Zones := some [d.config.zone] }
    else b.machine
  { b with machine := machine, properties := props,
           windowsConfiguration := windowsConfiguration }

/-- Lines 451-755: the payload Create sends, or the error that ends the pass.
No remote call is made in these lines. -/
def createPayload (d : ResourceData) (client : Client) (id : VirtualMachineId) :
    Except Failure VirtualMachine := do
  let computerName ← createComputerName d client id
  let identity ← createIdentity d client
  let osDisk ← expandVirtualMachineOSDisk d.config.os_disk "Windows"
  let securityEncryptionType ← createSecurityEncryptionType d
  let b := newCreateDraft d client id computerName identity osDisk
  createCheckExtensionOperations d
  let b := createAdditionalUnattendContent d client b
  createCheckPatching d client
  let b ← createPatchSettings d b
  let b := createReferences d b
  let b ← createEncryptionAtHost d securityEncryptionType b
  let b ← createSecurityProfile d securityEncryptionType b
  let b ← createEvictionPolicy d b
  let b := createLicenseType d b
  let b ← createMaxBidPrice d b
  let b := createPlacement d b
  pure b.parameters

/-- Whether the response of the precheck was a 404: an answer without error
is not. -/
def precheckNotFound (resp : Except RemoteError (Option VirtualMachine)) : Bool :=
  match resp with
  | Except.error err => WasNotFound err
  | Except.ok _ => false

/-- Lines 441-449: what the precheck makes of the answer of `Get`. -/
def createPrecheck (client : Client) (id : VirtualMachineId)
    (resp : Except RemoteError (Option VirtualMachine)) : Except Failure Unit :=
  let checked : Except Failure Unit :=
    match resp with
    | Except.error err =>
      if !WasNotFound err then Except.error (Failure.remote "checking for existing" err)
      else Except.ok ()
    | Except.ok _ => Except.ok ()
  match checked with
  | Except.error e => Except.error e
  | Except.ok _ =>
    if !precheckNotFound resp then
      Except.error (Failure.importAsExists "azurerm_windows_virtual_machine"
        (client.VirtualMachineIdString id))
    else Except.ok ()

/-- Lines 757-762: the creation call and the closing Read. -/
def createAndRead (d : ResourceData) (client : Client) (id : VirtualMachineId)
    (params : VirtualMachine) : M ResourceData := do
  let err ← M.call (Call.CreateOrUpdateThenPoll id params)
    (fun t => client.CreateOrUpdateThenPoll t id params)
  match err with
  | Except.error err => M.fail (Failure.remote "creating" err)
  | Except.ok _ =>
    resourceWindowsVirtualMachineRead { d with Id := client.VirtualMachineIdString id } client

/-- Lines 440-763: the Create pass while the lock is held. -/
def createLocked (d : ResourceData) (client : Client) (id : VirtualMachineId) :
    M ResourceData := do
  let resp ← M.call (Call.Get id) (fun t => client.Get t id)
  M.lift (createPrecheck client id resp)
  let params ← M.lift (createPayload d client id)
  createAndRead d client id params

/-- Lines 429-763: `resourceWindowsVirtualMachineCreate`. -/
def resourceWindowsVirtualMachineCreate (d : ResourceData) (client : Client) :
    M ResourceData :=
  let id := NewVirtualMachineID client.SubscriptionId d.config.resource_group_name d.config.name
  M.emit (Event.locked id.VirtualMachineName VirtualMachineResourceName) >>= fun _ =>
    M.deferring (Event.unlocked id.VirtualMachineName VirtualMachineResourceName)
      (createLocked d client id)

/-! ## The Delete pass (lines 1595-1726) -/

/-- Line 1620: whether the existing machine is in the `Failed` provisioning
state. -/
def provisioningFailed (existing : Option VirtualMachine) : Bool :=
  match existing with
  | none => false
  | some model =>
    match model.Properties with
    | none => false
    | some props =>
      match props.ProvisioningState with
      | none => false
      | some state => equalFold state "failed"

/-- Lines 1618-1634. -/
def powerOffBeforeDelete (client : Client) (id : VirtualMachineId)
    (existing : Option VirtualMachine) : M Unit :=
  if !client.Features.SkipShutdownAndForceDelete then
    if provisioningFailed existing then pure ()
    else do
      let skipShutdown := !client.Features.GracefulShutdown
      let err ← M.call (Call.PowerOffThenPoll id { SkipShutdown := some skipShutdown })
        (fun t => client.PowerOffThenPoll t id { SkipShutdown := some skipShutdown })
      match err with
      | Except.error err => M.fail (Failure.remote "powering off" err)
      | Except.ok _ => pure ()
  else pure ()

/-- Lines 1641-1644. -/
def forceDeletionOption (client : Client) : Option Bool :=
  if client.Features.SkipShutdownAndForceDelete then some true else none

/-- Lines 1641-1648. -/
def deleteMachine (client : Client) (id : VirtualMachineId) : M Unit := do
  let forceDeletion := forceDeletionOption client
  let err ← M.call (Call.DeleteThenPoll id { ForceDeletion := forceDeletion })
    (fun t => client.DeleteThenPoll t id { ForceDeletion := forceDeletion })
  match err with
  | Except.error err => M.fail (Failure.remote "deleting" err)
  | Except.ok _ => pure ()

/-- Lines 1654-1661: the id of the managed OS disk of the existing machine,
empty when any part on the way to it is absent. -/
def managedDiskIdOf (existing : Option VirtualMachine) : String :=
  match existing with
  | none => ""
  | some model =>
    match model.Properties with
    | none => ""
    | some props =>
      match props.StorageProfile with
      | none => ""
      | some storageProfile =>
        match storageProfile.OsDisk with
        | none => ""
        | some osDisk =>
          match osDisk.ManagedDisk with
          | none => ""
          | some disk =>
            match disk.Id with
            | none => ""
            | some diskId => diskId

/-- Lines 1669-1679: the deletion of the disk `diskId`.  A 404 answer to the
request is not an error and is not polled. -/
def deleteDisk (client : Client) (diskId : DiskId) : M Unit := do
  let future ← M.call (Call.DisksDelete diskId) (fun t => client.DisksDelete t diskId)
  match future with
  | Except.error err =>
    if !WasNotFound err then M.fail (Failure.remote "deleting OS Disk" err) else pure ()
  | Except.ok _ => do
    let err ← M.call (Call.DisksDeletePollUntilDone diskId)
      (fun t => client.DisksDeletePollUntilDone t diskId)
    match err with
    | Except.error err => M.fail (Failure.remote "OS Disk" err)
    | Except.ok _ => pure ()

/-- Lines 1650-1687: the cleanup of the OS disk. -/
def deleteOsDisk (client : Client) (existing : Option VirtualMachine) : M Unit :=
  let deleteOSDisk := client.Features.DeleteOSDiskOnDeletion
  if deleteOSDisk then
    let managedDiskId := managedDiskIdOf existing
    if managedDiskId != "" then
      match client.ParseDiskID managedDiskId with
      | Except.error e => M.fail (Failure.parse e)
      | Except.ok diskId => deleteDisk client diskId
    else pure ()
  else pure ()

/-- Lines 1702-1722: the state wait on the deletion, `refreshes` being how
many times it can still refresh before its timeout.  (`StateChangeConf` is a
library type: a refresh that answers the target state `404` ends the wait, one
that answers the pending state `200` is followed by the next, an error of the
refresh ends the wait with that error.) -/
def waitForDeletion (client : Client) (id : VirtualMachineId) : Nat → M Unit
  | 0 => M.fail (Failure.waitTimeout "waiting for the deletion")
  | refreshes + 1 =>
    M.call (Call.Get id) (fun t => client.Get t id) >>= fun resp =>
      match resp with
      | Except.error err =>
        if WasNotFound err then pure ()
        else M.fail (Failure.remote "polling for the status" err)
      | Except.ok _ => waitForDeletion client id refreshes

/-- Lines 1693-1723: the verification that the machine is gone. -/
def verifyDeleted (client : Client) (id : VirtualMachineId) : M Unit := do
  let virtualMachine ← M.call (Call.Get id) (fun t => client.Get t id)
  match virtualMachine with
  | Except.error err =>
    if !WasNotFound err then M.fail (Failure.remote "verifying" err) else pure ()
  | Except.ok _ => waitForDeletion client id client.deleteWaitRefreshes

/-- Lines 1618-1725: the Delete pass once the existing machine is at hand. -/
def deleteExisting (client : Client) (id : VirtualMachineId)
    (existing : Option VirtualMachine) : M Unit := do
  powerOffBeforeDelete client id existing
  deleteMachine client id
  deleteOsDisk client existing
  verifyDeleted client id

/-- Lines 1608-1725: the Delete pass while the lock is held. -/
def deleteLocked (client : Client) (id : VirtualMachineId) : M Unit := do
  let existing ← M.call (Call.Get id) (fun t => client.Get t id)
  match existing with
  | Except.error err =>
    if WasNotFound err then pure () else M.fail (Failure.remote "retrieving" err)
  | Except.ok existing => deleteExisting client id existing

/-- Lines 1595-1726: `resourceWindowsVirtualMachineDelete`. -/
def resourceWindowsVirtualMachineDelete (d : ResourceData) (client : Client) : M Unit :=
  match client.ParseVirtualMachineID d.Id with
  | Except.error e => M.fail (Failure.parse e)
  | Except.ok id => do
    M.emit (Event.locked id.VirtualMachineName VirtualMachineResourceName)
    M.deferring (Event.unlocked id.VirtualMachineName VirtualMachineResourceName)
      (deleteLocked client id)

/-! ## Vocabulary of the statements -/

/-- The kinds of mutating remote calls: the six an Update pass can issue,
the creation of the machine, its deletion and the deletion of its OS disk. -/
inductive MutationKind where
  | powerOff
  | deallocate
  | diskResize
  | diskEncryption
  | vmUpdate
  | start
  | create
  | delete
  | diskDelete
deriving DecidableEq, Repr

/-- The kind of mutation a call performs; reads perform none.  An update of a
disk that carries encryption settings is the encryption update, any other
one the resize. -/
def Call.mutation : Call → Option MutationKind
  | Call.PowerOffThenPoll _ _ => some MutationKind.powerOff
  | Call.DeallocateThenPoll _ _ => some MutationKind.deallocate
  | Call.DisksUpdateThenPoll _ update =>
    match update.Properties with
    | some props =>
      match props.Encryption with
      | some _ => some MutationKind.diskEncryption
      | none => some MutationKind.diskResize
    | none => some MutationKind.diskResize
  | Call.UpdateThenPoll _ _ => some MutationKind.vmUpdate
  | Call.StartThenPoll _ => some MutationKind.start
  | Call.CreateOrUpdateThenPoll _ _ => some MutationKind.create
  | Call.DeleteThenPoll _ _ => some MutationKind.delete
  | Call.DisksDelete _ => some MutationKind.diskDelete
  | _ => none

/-- The kind of mutation recorded by a trace entry. -/
def Event.mutation : Event → Option MutationKind
  | Event.remote call _ => call.mutation
  | _ => none

/-- Whether a trace entry is a remote call of kind `k`. -/
def Event.hasKind (k : MutationKind) (e : Event) : Bool :=
  e.mutation == some k

/-- Whether a trace entry is a mutating remote call. -/
def Event.isMutating (e : Event) : Bool :=
  e.mutation.isSome

/-- Whether a trace entry is a mutating remote call that failed. -/
def Event.isFailedMutation : Event → Bool
  | Event.remote call failed => call.mutation.isSome && failed
  | _ => false

/-- Whether a trace entry is a remote call at all. -/
def Event.isRemote : Event → Bool
  | Event.remote _ _ => true
  | _ => false

/-- The mutations of a trace, in the order they were issued. -/
def mutations (t : Trace) : List MutationKind :=
  t.filterMap Event.mutation

/-- The order in which an Update pass may issue its mutations. -/
def mutationOrder : List MutationKind :=
  [MutationKind.powerOff, MutationKind.deallocate, MutationKind.diskResize,
   MutationKind.diskEncryption, MutationKind.vmUpdate, MutationKind.start]

/-- The trace and the outcome of an Update pass started with an empty
trace. -/
def updateTrace (d : ResourceData) (client : Client) : Trace :=
  (resourceWindowsVirtualMachineUpdate d client []).2

def updateOutcome (d : ResourceData) (client : Client) : Except Failure ResourceData :=
  (resourceWindowsVirtualMachineUpdate d client []).1

/-- The trace of a pass once the lock is taken. -/
def lockedTrace (id : VirtualMachineId) : Trace :=
  [Event.locked id.VirtualMachineName VirtualMachineResourceName]

/-- The answer to the `Get` that opens the pass. -/
def existingAtStart (client : Client) (id : VirtualMachineId) :
    Except RemoteError (Option VirtualMachine) :=
  client.Get (lockedTrace id) id

/-- The trace after that `Get`. -/
def traceAfterGet (client : Client) (id : VirtualMachineId) : Trace :=
  lockedTrace id ++ [Event.remote (Call.Get id) (failedAnswer (existingAtStart client id))]

/-- The answer to the `InstanceView` call of the pass. -/
def instanceViewAtStart (client : Client) (id : VirtualMachineId) :
    Except RemoteError (Option VirtualMachineInstanceView) :=
  client.InstanceView (traceAfterGet client id) id

/-- The trace after that call: the trace planning starts from. -/
def traceAfterInstanceView (client : Client) (id : VirtualMachineId) : Trace :=
  traceAfterGet client id ++
    [Event.remote (Call.InstanceView id) (failedAnswer (instanceViewAtStart client id))]

/-- The pass of `d` against `client` has parsed its id, received the existing
machine and its instance view, and planned `p` (flags and payload as they are
before the power state is looked at). -/
def Planned (d : ResourceData) (client : Client) (id : VirtualMachineId)
    (existing : Option VirtualMachine) (instanceView : Option VirtualMachineInstanceView)
    (p : Plan) : Prop :=
  client.ParseVirtualMachineID d.Id = Except.ok id ∧
  existingAtStart client id = Except.ok existing ∧
  instanceViewAtStart client id = Except.ok instanceView ∧
  (planUpdate d client id (traceAfterInstanceView client id)).1 = Except.ok p

/-- The attributes the spec lists as applicable without disruption. -/
def nonDisruptiveAttributes : List String :=
  ["boot_diagnostics", "secret", "allow_extension_operations", "patch_mode",
   "patch_assessment_mode", "bypass_platform_safety_checks_on_user_schedule_enabled",
   "reboot_setting", "hotpatching_enabled", "identity", "extensions_time_budget",
   "gallery_application", "tags", "termination_notification", "license_type", "user_data"]

/-- Whether a status of the instance view reports the power state `state`
(given in lower case), whatever the letter case of its code. -/
def InstanceViewStatus.reports (status : InstanceViewStatus) (state : String) : Bool :=
  match status.Code with
  | none => false
  | some code => toLower code == powerStateTag ++ state.toList

/-- Whether a status of the instance view is a power state at all. -/
def InstanceViewStatus.isPowerState (status : InstanceViewStatus) : Bool :=
  match status.Code with
  | none => false
  | some code => powerStateTag.isPrefixOf (toLower code)

/-- The statuses of an instance view; none when the model or its list is
absent. -/
def statusesOf (instanceView : Option VirtualMachineInstanceView) : List InstanceViewStatus :=
  match instanceView with
  | none => []
  | some model => model.Statuses.getD []

/-- The message of the error of line 1569. -/
def keyResetMessage : String :=
  "once a customer-managed key is used, you cannot change the selection back to a platform-managed key"

/-! ## Devices of the proofs -/

/-- The three flags of a plan. -/
structure Flags where
  update : Bool := false
  shutDown : Bool := false
  deallocate : Bool := false
deriving DecidableEq, Repr

def Plan.flags (p : Plan) : Flags :=
  { update := p.shouldUpdate, shutDown := p.shouldShutDown, deallocate := p.shouldDeallocate }

/-- The effect on the flags of a planning step guarded by `changed`: the
update flag is raised, the other two are raised when the step asks so. -/
def Flags.raise (f : Flags) (changed : Bool) (shutDown deallocate : Bool) : Flags :=
  { update := f.update || changed
    shutDown := f.shutDown || (changed && shutDown)
    deallocate := f.deallocate || (changed && deallocate) }

/-- Raises the flags for a list of steps, each given by whether its
attribute changed and whether it asks for a shut down and a deallocation. -/
def Flags.raiseAll (f : Flags) (steps : List (Bool × Bool × Bool)) : Flags :=
  steps.foldl (fun f s => f.raise s.1 s.2.1 s.2.2) f

/-- The flags planned before the size step. -/
def flagsBeforeSize (d : ResourceData) : Flags :=
  ({} : Flags).raiseAll
    [(d.HasChange ["boot_diagnostics"], false, false),
     (d.HasChange ["secret"], false, false),
     (d.HasChange ["allow_extension_operations"], false, false),
     (d.HasChange ["patch_mode"], false, false),
     (d.HasChange ["patch_assessment_mode"], false, false),
     (d.HasChange ["bypass_platform_safety_checks_on_user_schedule_enabled"], false, false),
     (d.HasChange ["reboot_setting"], false, false),
     (d.HasChange ["hotpatching_enabled"], false, false),
     (d.HasChange ["identity"], false, false),
     (d.HasChange ["capacity_reservation_group_id"], false, true),
     (d.HasChange ["dedicated_host_id"], false, true),
     (d.HasChange ["dedicated_host_group_id"], false, true),
     (d.HasChange ["extensions_time_budget"], false, false),
     (d.HasChange ["gallery_application"], false, false),
     (d.HasChange ["max_bid_price"], true, true),
     (d.HasChange ["network_interface_ids"], true, true),
     (d.HasChange ["os_disk"], true, true),
     (d.HasChange ["proximity_placement_group_id"], true, true)]

/-- The flags planned by the steps after the size step, from the flags `f`. -/
def flagsAfterSize (d : ResourceData) (f : Flags) : Flags :=
  f.raiseAll
    [(d.HasChange ["tags"], false, false),
     (d.HasChange ["termination_notification"], false, false),
     (d.HasChange ["additional_capabilities"],
       d.HasChange ["additional_capabilities", "0", "ultra_ssd_enabled"],
       d.HasChange ["additional_capabilities", "0", "ultra_ssd_enabled"]),
     (d.HasChange ["encryption_at_host_enabled"], false, true),
     (d.HasChange ["license_type"], false, false),
     (d.HasChange ["user_data"], false, false)]

/-- The flags of a whole plan, given whether the requested size is available
on the host. -/
def plannedFlags (d : ResourceData) (available : Bool) : Flags :=
  flagsAfterSize d ((flagsBeforeSize d).raise (d.HasChange ["size"]) true (!available))

/-- The shape shared by the single-call steps of the pass: when `cond` holds
the call is issued and its error, if any, is returned. -/
def callWhen (cond : Bool) (c : Call) (answer : Trace → Except RemoteError Unit)
    (doing : String) : M Unit :=
  fun t =>
    if cond then
      match answer t with
      | Except.ok _ => (Except.ok (), t ++ [Event.remote c false])
      | Except.error err => (Except.error (Failure.remote doing err), t ++ [Event.remote c true])
    else (Except.ok (), t)

/-- `m`, run from any trace, appends some events `ext` and ends with a
result `r` such that `Q ext r`. -/
def M.Sat {α : Type} (m : M α) (Q : List Event → Except Failure α → Prop) : Prop :=
  ∀ t, ∃ ext, (m t).2 = t ++ ext ∧ Q ext (m t).1

/-- What a single-call step does: nothing when `cond` is false, otherwise the
call `c`, which succeeds or fails with a remote error. -/
def CallSpec (cond : Bool) (c : Call) (ext : List Event) (r : Except Failure Unit) : Prop :=
  (cond = false ∧ ext = [] ∧ r = Except.ok ()) ∨
  (cond = true ∧ ext = [Event.remote c false] ∧ r = Except.ok ()) ∨
  (cond = true ∧ ext = [Event.remote c true] ∧
    ∃ doing err, r = Except.error (Failure.remote doing err))

/-- What the encryption step of the OS disk does. -/
def EncryptionSpec (d : ResourceData) (client : Client) (id : VirtualMachineId)
    (ext : List Event) (r : Except Failure Unit) : Prop :=
  (d.HasChange ["os_disk", "0", "disk_encryption_set_id"] = false ∧ ext = [] ∧
    r = Except.ok ()) ∨
  (d.HasChange ["os_disk", "0", "disk_encryption_set_id"] = true ∧
    d.osDiskEncryptionSetId = "" ∧ ext = [] ∧
    r = Except.error (Failure.validation keyResetMessage)) ∨
  (d.HasChange ["os_disk", "0", "disk_encryption_set_id"] = true ∧
    d.osDiskEncryptionSetId ≠ "" ∧
    ((ext = [Event.remote (Call.DiskEncryptionSetsGet d.osDiskEncryptionSetId) true] ∧
        ∃ doing err, r = Except.error (Failure.remote doing err)) ∨
     (∃ encryptionType failed,
        ext = [Event.remote (Call.DiskEncryptionSetsGet d.osDiskEncryptionSetId) false,
               Event.remote
                 (Call.DisksUpdateThenPoll
                   (NewDiskID client.SubscriptionId id.ResourceGroupName d.osDiskName)
                   (encryptionUpdate encryptionType d.osDiskEncryptionSetId)) failed] ∧
        ((failed = false ∧ r = Except.ok ()) ∨
         (failed = true ∧ ∃ doing err, r = Except.error (Failure.remote doing err))))))

/-- A run that only reads. -/
def OnlyReads {α : Type} (ext : List Event) (_ : Except Failure α) : Prop :=
  ∀ e ∈ ext, e.mutation = none

/-- A run that does not end with a validation error. -/
def NotValidation {α : Type} (_ : List Event) (r : Except Failure α) : Prop :=
  ∀ msg, r ≠ Except.error (Failure.validation msg)

/-- What the closing Read pass does: it only reads and never ends with a
validation error. -/
def ReadSpec {α : Type} (ext : List Event) (r : Except Failure α) : Prop :=
  OnlyReads ext r ∧ NotValidation ext r

/-- Sequencing of two behaviours: the first fails and the run stops there, or
it succeeds and the second follows. -/
def Seq {β : Type} (Q1 : List Event → Except Failure Unit → Prop)
    (Q2 : List Event → Except Failure β → Prop) (ext : List Event) (r : Except Failure β) :
    Prop :=
  (∃ e, r = Except.error e ∧ Q1 ext (Except.error e)) ∨
  (∃ e1 e2, ext = e1 ++ e2 ∧ Q1 e1 (Except.ok ()) ∧ Q2 e2 r)

/-- The behaviour of everything after the flags are settled. -/
def ApplySpec (d : ResourceData) (client : Client) (id : VirtualMachineId)
    (shouldTurnBackOn ephemeral : Bool) (p : Plan) :
    List Event → Except Failure ResourceData → Prop :=
  Seq (CallSpec p.shouldShutDown (Call.PowerOffThenPoll id { SkipShutdown := some false }))
  (Seq (CallSpec (p.shouldDeallocate && !ephemeral)
          (Call.DeallocateThenPoll id { Hibernate := some false }))
  (Seq (CallSpec (d.HasChange ["os_disk", "0", "disk_size_gb"])
          (Call.DisksUpdateThenPoll
            (NewDiskID client.SubscriptionId id.ResourceGroupName d.osDiskName)
            { Properties := some { DiskSizeGB := some d.osDiskSizeGb } }))
  (Seq (EncryptionSpec d client id)
  (Seq (CallSpec p.shouldUpdate (Call.UpdateThenPoll id p.update))
  (Seq (CallSpec (shouldTurnBackOn && (p.shouldShutDown || p.shouldDeallocate))
          (Call.StartThenPoll id))
    ReadSpec)))))

/-- The entry that closes the trace of a pass. -/
def unlockedEvent (id : VirtualMachineId) : Event :=
  Event.unlocked id.VirtualMachineName VirtualMachineResourceName

/-- The shape of an Update pass: where it can stop, and what its trace and
outcome are in each case. -/
def UpdateShape (d : ResourceData) (client : Client) (trace : Trace)
    (outcome : Except Failure ResourceData) : Prop :=
  (∃ e, client.ParseVirtualMachineID d.Id = Except.error e ∧ trace = [] ∧
    outcome = Except.error (Failure.parse e)) ∨
  ∃ id, client.ParseVirtualMachineID d.Id = Except.ok id ∧
    ((∃ err, existingAtStart client id = Except.error err ∧
        trace = traceAfterGet client id ++ [unlockedEvent id] ∧
        outcome = Except.error (Failure.remote "retrieving" err)) ∨
     ∃ existing, existingAtStart client id = Except.ok existing ∧
       ((∃ err, instanceViewAtStart client id = Except.error err ∧
          trace = traceAfterInstanceView client id ++ [unlockedEvent id] ∧
          outcome = Except.error (Failure.remote "retrieving InstanceView" err)) ∨
        ∃ instanceView, instanceViewAtStart client id = Except.ok instanceView ∧
          ∃ planExt,
            (planUpdate d client id (traceAfterInstanceView client id)).2 =
              traceAfterInstanceView client id ++ planExt ∧
            ((∃ e, (planUpdate d client id (traceAfterInstanceView client id)).1 =
                  Except.error e ∧
                trace = traceAfterInstanceView client id ++ planExt ++ [unlockedEvent id] ∧
                outcome = Except.error e) ∨
             (∃ p applyExt,
                (planUpdate d client id (traceAfterInstanceView client id)).1 = Except.ok p ∧
                trace = traceAfterInstanceView client id ++ planExt ++ applyExt ++
                  [unlockedEvent id] ∧
                ApplySpec d client id (client.virtualMachineShouldBeStarted instanceView)
                  (hasEphemeralOSDisk existing) (adjustForPowerState instanceView p)
                  applyExt outcome))))

/-- Which mutations the settled flags allow the rest of the pass to issue. -/
def mutationAllowed (d : ResourceData) (shouldTurnBackOn ephemeral : Bool) (p : Plan) :
    MutationKind → Bool
  | MutationKind.powerOff => p.shouldShutDown
  | MutationKind.deallocate => p.shouldDeallocate && !ephemeral
  | MutationKind.diskResize => d.HasChange ["os_disk", "0", "disk_size_gb"]
  | MutationKind.diskEncryption =>
    d.HasChange ["os_disk", "0", "disk_encryption_set_id"] && d.osDiskEncryptionSetId != ""
  | MutationKind.vmUpdate => p.shouldUpdate
  | MutationKind.start => shouldTurnBackOn && (p.shouldShutDown || p.shouldDeallocate)
  | _ => false

/-- A failed mutating call ends the run: either no mutating call of `ext`
failed, or the failed one is the last entry of `ext` and the run ends with an
error. -/
def FailStop {α : Type} (ext : List Event) (r : Except Failure α) : Prop :=
  (∀ e ∈ ext, e.isFailedMutation = false) ∨
  (∃ pre e, ext = pre ++ [e] ∧ e.isFailedMutation = true ∧
    (∀ x ∈ pre, x.isFailedMutation = false) ∧ ∃ err, r = Except.error err)

/-- Whether a call is one of the reads an Update pass issues up to the end
of planning. -/
def Call.isPlanningRead : Call → Bool
  | Call.Get _ => true
  | Call.InstanceView _ => true
  | Call.ListAvailableSizes _ => true
  | _ => false

/-- Whether a trace entry is a lock entry or one of the reads issued up to
the end of planning. -/
def Event.isQuiet : Event → Bool
  | Event.remote call _ => call.isPlanningRead
  | _ => true

/-! ## Vocabulary of the statements on Create and Delete -/

/-- The id a Create pass builds from its configuration (line 435). -/
def createId (d : ResourceData) (client : Client) : VirtualMachineId :=
  NewVirtualMachineID client.SubscriptionId d.config.resource_group_name d.config.name

/-- The trace and the outcome of a Create pass started with an empty
trace. -/
def createTrace (d : ResourceData) (client : Client) : Trace :=
  (resourceWindowsVirtualMachineCreate d client []).2

def createOutcome (d : ResourceData) (client : Client) : Except Failure ResourceData :=
  (resourceWindowsVirtualMachineCreate d client []).1

/-- The trace and the outcome of a Delete pass started with an empty
trace. -/
def deleteTrace (d : ResourceData) (client : Client) : Trace :=
  (resourceWindowsVirtualMachineDelete d client []).2

def deleteOutcome (d : ResourceData) (client : Client) : Except Failure Unit :=
  (resourceWindowsVirtualMachineDelete d client []).1

/-- The trace of a Create pass that stops before the creation call: the
lock, the precheck `Get` and the release of the lock. -/
def precheckTrace (d : ResourceData) (client : Client) : Trace :=
  traceAfterGet client (createId d client) ++ [unlockedEvent (createId d client)]

/-- Whether a failure is a validation error. -/
def Failure.isValidation : Failure → Bool
  | Failure.validation _ => true
  | _ => false

/-- The reboot setting carried by patch settings, if any. -/
def PatchSettings.rebootSetting (settings : PatchSettings) : Option String :=
  match settings.AutomaticByPlatformSettings with
  | none => none
  | some platform => platform.RebootSetting

/-- The reboot setting carried by the properties of a payload, if any. -/
def rebootSettingOf (props : VirtualMachineProperties) : Option String :=
  match props.OsProfile with
  | none => none
  | some osProfile =>
    match osProfile.WindowsConfiguration with
    | none => none
    | some windowsConfiguration =>
      match windowsConfiguration.PatchSettings with
      | none => none
      | some settings => settings.rebootSetting

/-- What a planning step of the Update pass leaves alone in the payload when
it takes the plan `p` to the plan `q`: the license type, and the reboot
setting unless the patch mode is `AutomaticByPlatform`. -/
def PayloadKept (d : ResourceData) (p q : Plan) : Prop :=
  q.update.Properties.LicenseType = p.update.Properties.LicenseType ∧
  ∀ v, rebootSettingOf q.update.Properties = some v →
    rebootSettingOf p.update.Properties = some v ∨ d.config.patch_mode = "AutomaticByPlatform"

/-- The license type an Update pass sends for the configured one (lines
1443-1450). -/
def licenseSentinel (license : String) : String :=
  if license == "" then "None" else license

/-- The shape of a Create pass: where it can stop, and what its trace and
outcome are in each case. -/
def CreateShape (d : ResourceData) (client : Client) (trace : Trace)
    (outcome : Except Failure ResourceData) : Prop :=
  (∃ e, createPrecheck client (createId d client)
          (existingAtStart client (createId d client)) = Except.error e ∧
      trace = traceAfterGet client (createId d client) ++ [unlockedEvent (createId d client)] ∧
      outcome = Except.error e) ∨
  (createPrecheck client (createId d client)
      (existingAtStart client (createId d client)) = Except.ok () ∧
    ((∃ e, createPayload d client (createId d client) = Except.error e ∧
        trace = traceAfterGet client (createId d client) ++
          [unlockedEvent (createId d client)] ∧
        outcome = Except.error e) ∨
     (∃ params failed readExt,
        createPayload d client (createId d client) = Except.ok params ∧
        trace = traceAfterGet client (createId d client) ++
          [Event.remote (Call.CreateOrUpdateThenPoll (createId d client) params) failed] ++
          readExt ++ [unlockedEvent (createId d client)] ∧
        ((failed = true ∧ readExt = [] ∧
            ∃ err, outcome = Except.error (Failure.remote "creating" err)) ∨
         (failed = false ∧ ReadSpec readExt outcome)))))

/-- What the cleanup of the OS disk does in a Delete pass. -/
def DiskCleanupSpec (client : Client) (existing : Option VirtualMachine)
    (ext : List Event) (r : Except Failure Unit) : Prop :=
  ((client.Features.DeleteOSDiskOnDeletion = false ∨ managedDiskIdOf existing = "") ∧
    ext = [] ∧ r = Except.ok ()) ∨
  (client.Features.DeleteOSDiskOnDeletion = true ∧ managedDiskIdOf existing ≠ "" ∧
    ((∃ e, client.ParseDiskID (managedDiskIdOf existing) = Except.error e ∧ ext = [] ∧
        r = Except.error (Failure.parse e)) ∨
     (∃ diskId, client.ParseDiskID (managedDiskIdOf existing) = Except.ok diskId ∧
        ((ext = [Event.remote (Call.DisksDelete diskId) true] ∧
            (r = Except.ok () ∨ ∃ doing err, r = Except.error (Failure.remote doing err))) ∨
         (∃ failed,
            ext = [Event.remote (Call.DisksDelete diskId) false,
                   Event.remote (Call.DisksDeletePollUntilDone diskId) failed] ∧
            ((failed = false ∧ r = Except.ok ()) ∨
             (failed = true ∧ ∃ doing err, r = Except.error (Failure.remote doing err))))))))

/-- What the verification that closes a Delete pass does: it only issues
`Get` calls for the machine. -/
def VerifySpec (id : VirtualMachineId) (ext : List Event) (_ : Except Failure Unit) : Prop :=
  ∀ e ∈ ext, ∃ failed, e = Event.remote (Call.Get id) failed

/-- The behaviour of a Delete pass once the existing machine is at hand. -/
def DeleteSpec (client : Client) (id : VirtualMachineId) (existing : Option VirtualMachine) :
    List Event → Except Failure Unit → Prop :=
  Seq (CallSpec (!client.Features.SkipShutdownAndForceDelete && !provisioningFailed existing)
        (Call.PowerOffThenPoll id { SkipShutdown := some (!client.Features.GracefulShutdown) }))
  (Seq (CallSpec true (Call.DeleteThenPoll id { ForceDeletion := forceDeletionOption client }))
  (Seq (DiskCleanupSpec client existing) (VerifySpec id)))

/-- The remote calls a Delete pass can issue once the existing machine is at
hand, each with the condition under which it is issued. -/
def DeleteEvent (client : Client) (id : VirtualMachineId) (existing : Option VirtualMachine)
    (e : Event) : Prop :=
  (∃ failed, e = Event.remote (Call.Get id) failed) ∨
  (client.Features.SkipShutdownAndForceDelete = false ∧ provisioningFailed existing = false ∧
    ∃ failed, e = Event.remote
      (Call.PowerOffThenPoll id { SkipShutdown := some (!client.Features.GracefulShutdown) })
      failed) ∨
  (∃ failed, e = Event.remote
    (Call.DeleteThenPoll id { ForceDeletion := forceDeletionOption client }) failed) ∨
  (client.Features.DeleteOSDiskOnDeletion = true ∧ managedDiskIdOf existing ≠ "" ∧
    ∃ diskId failed, client.ParseDiskID (managedDiskIdOf existing) = Except.ok diskId ∧
      (e = Event.remote (Call.DisksDelete diskId) failed ∨
       e = Event.remote (Call.DisksDeletePollUntilDone diskId) failed))

/-- The shape of a Delete pass: where it can stop, and what its trace and
outcome are in each case. -/
def DeleteShape (d : ResourceData) (client : Client) (trace : Trace)
    (outcome : Except Failure Unit) : Prop :=
  (∃ e, client.ParseVirtualMachineID d.Id = Except.error e ∧ trace = [] ∧
    outcome = Except.error (Failure.parse e)) ∨
  ∃ id, client.ParseVirtualMachineID d.Id = Except.ok id ∧
    ((∃ err, existingAtStart client id = Except.error err ∧
        trace = traceAfterGet client id ++ [unlockedEvent id] ∧
        outcome = (if WasNotFound err then Except.ok ()
                   else Except.error (Failure.remote "retrieving" err))) ∨
     ∃ existing ext, existingAtStart client id = Except.ok existing ∧
       trace = traceAfterGet client id ++ ext ++ [unlockedEvent id] ∧
       DeleteSpec client id existing ext outcome)

/-- The order in which a Delete pass may issue its mutations. -/
def deleteOrder : List MutationKind :=
  [MutationKind.powerOff, MutationKind.delete, MutationKind.diskDelete]

/-- The client with the cleanup of the OS disk switched off. -/
def withoutDiskCleanup (client : Client) : Client :=
  { client with Features := { client.Features with DeleteOSDiskOnDeletion := false } }

/-! ## Sample inputs -/

/-- The id of the sample machine. -/
def sampleId : VirtualMachineId :=
  { SubscriptionId := "sub", ResourceGroupName := "rg", VirtualMachineName := "vm" }

/-- A client whose every call succeeds: `Get` answers `existing`, the
instance view carries the status codes `statuses`, the host offers the size
`Standard_F2` only, `virtualMachineShouldBeStarted` answers `started`, and
names are compared without regard to the case of ASCII letters. -/
def sampleClient (existing : Option VirtualMachine) (statuses : List String)
    (started : Bool) : Client :=
  { SubscriptionId := "sub"
    Get := fun _ _ => Except.ok existing
    InstanceView := fun _ _ =>
      Except.ok (some { Statuses := some (statuses.map (fun c => { Code := some c })) })
    ListAvailableSizes := fun _ _ =>
      Except.ok (some { Value := some [{ Name := none }, { Name := some "Standard_F2" }] })
    PowerOffThenPoll := fun _ _ _ => Except.ok ()
    DeallocateThenPoll := fun _ _ _ => Except.ok ()
    UpdateThenPoll := fun _ _ _ => Except.ok ()
    StartThenPoll := fun _ _ => Except.ok ()
    DisksGet := fun _ _ => Except.ok (some { Properties := some {} })
    DisksUpdateThenPoll := fun _ _ _ => Except.ok ()
    DiskEncryptionSetsGet := fun _ _ => Except.ok none
    ParseVirtualMachineID := fun _ => Except.ok sampleId
    ParseDiskID := fun _ =>
      Except.ok { SubscriptionId := "sub", ResourceGroupName := "rg", DiskName := "osdisk" }
    virtualMachineShouldBeStarted := fun _ => started
    expandBootDiagnostics := fun _ => none
    expandWindowsSecrets := fun _ => none
    ExpandSystemAndUserAssignedMap := fun _ => Except.ok none
    FlattenSystemAndUserAssignedMap := fun _ => Except.ok []
    tagsExpand := fun t => some t
    EqualFold := equalFold
    CreateOrUpdateThenPoll := fun _ _ _ => Except.ok ()
    DeleteThenPoll := fun _ _ _ => Except.ok ()
    DisksDelete := fun _ _ => Except.ok ()
    DisksDeletePollUntilDone := fun _ _ => Except.ok ()
    Features := {}
    deleteWaitRefreshes := 3
    VirtualMachineIdString := fun id =>
      "/subscriptions/" ++ id.SubscriptionId ++ "/resourceGroups/" ++ id.ResourceGroupName ++
        "/providers/Microsoft.Compute/virtualMachines/" ++ id.VirtualMachineName
    WindowsComputerNameFull := fun name => if name.length > 15 then ["too long"] else []
    expandSourceImageReference := fun _ _ => none
    isValidHotPatchSourceImageReference := fun _ _ => false
    expandEdgeZone := fun _ => none
    NormalizeLocation := fun l => l
    expandPlan := fun _ => none
    expandWinRMListener := fun _ => none
    expandAdditionalUnattendContent := fun _ => none }

/-- A machine with an ephemeral OS disk. -/
def ephemeralMachine : VirtualMachine :=
  { Properties := some
      { StorageProfile := some
          { OsDisk := some { DiffDiskSettings := some { OptionValue := some "Local" } } } } }

/-- A machine with a managed OS disk. -/
def managedMachine : VirtualMachine :=
  { Properties := some { StorageProfile := some { OsDisk := some { Name := some "osdisk" } } } }

/-- The `os_disk` block of the sample configurations. -/
def sampleOsDisk : OSDiskBlock :=
  { caching := "ReadWrite", storage_account_type := "Standard_LRS", name := "osdisk",
    disk_size_gb := 256 }

/-- A configuration whose dedicated host changed. -/
def hostChange : ResourceData :=
  { Id := "vm"
    config := { dedicated_host_id := "host", os_disk := [sampleOsDisk] }
    changed := [["dedicated_host_id"]] }

/-- A configuration whose tags changed. -/
def tagsChange : ResourceData :=
  { Id := "vm"
    config := { tags := [("a", "2")], os_disk := [sampleOsDisk] }
    changed := [["tags", "a"]] }

/-- A configuration without any change. -/
def noChange : ResourceData :=
  { Id := "vm", config := { os_disk := [sampleOsDisk] }, changed := [] }

/-- A configuration with a reboot setting but a manual patch mode. -/
def rebootWithoutPlatform : ResourceData :=
  { Id := "vm"
    config := { reboot_setting := "Always", patch_mode := "Manual", os_disk := [sampleOsDisk] }
    changed := [["reboot_setting"]] }

/-- A configuration whose disk encryption set has been removed. -/
def keyReset : ResourceData :=
  { Id := "vm"
    config := { os_disk := [sampleOsDisk] }
    changed := [["os_disk", "0", "disk_encryption_set_id"]] }

/-- A configuration whose size changed to one the host does not offer. -/
def sizeChange : ResourceData :=
  { Id := "vm"
    config := { size := "Standard_F4s_v2", os_disk := [sampleOsDisk] }
    changed := [["size"]] }

/-- A configuration whose OS disk grew to 256 GB. -/
def diskResize : ResourceData :=
  { Id := "vm"
    config := { os_disk := [sampleOsDisk] }
    changed := [["os_disk", "0", "disk_size_gb"]] }

/-- The plan of the pass for `sizeChange`. -/
def sizeChangePlan : Plan :=
  { shouldUpdate := true, shouldShutDown := true, shouldDeallocate := true
    update := { Properties := { HardwareProfile := some { VMSize := some "Standard_F4s_v2" } } } }

/-- The plan of the pass for `tagsChange`. -/
def tagsChangePlan : Plan :=
  { shouldUpdate := true, update := { Tags := some [("a", "2")] } }

/-- The OS disk that `expandVirtualMachineOSDisk` builds from `sampleOsDisk`. -/
def sampleExpandedOsDisk : OSDisk :=
  { Caching := some "ReadWrite"
    ManagedDisk := some { StorageAccountType := some "Standard_LRS" }
    WriteAcceleratorEnabled := some false
    CreateOption := "FromImage"
    OsType := some "Windows"
    DiskSizeGB := some 256
    Name := some "osdisk" }

/-- The plan of the pass for `diskResize` and for `keyReset`. -/
def osDiskPlan : Plan :=
  { shouldUpdate := true, shouldShutDown := true, shouldDeallocate := true
    update := { Properties := { StorageProfile := some { OsDisk := some sampleExpandedOsDisk } } } }

/-- The instance view the sample client answers for the status codes
`statuses`. -/
def sampleInstanceView (statuses : List String) : Option VirtualMachineInstanceView :=
  some { Statuses := some (statuses.map (fun c => { Code := some c })) }

/-- A running machine with a managed OS disk, every call succeeding. -/
def runningClient : Client :=
  sampleClient (some managedMachine) ["ProvisioningState/succeeded", "PowerState/running"] true

/-- A running machine with an ephemeral OS disk, every call succeeding. -/
def ephemeralClient : Client :=
  sampleClient (some ephemeralMachine) ["PowerState/running"] true

/-- A stopped machine with a managed OS disk, every call succeeding. -/
def stoppedClient : Client :=
  sampleClient (some managedMachine) ["PowerState/stopped"] false

/-! ## Sample inputs of Create and Delete -/

/-- A client for a machine that does not exist yet: `Get` answers 404 until
the creation has been asked for, and every other call succeeds. -/
def freshClient : Client :=
  { sampleClient none [] false with
    Get := fun t _ =>
      if t.any (Event.hasKind MutationKind.create) then Except.ok (some managedMachine)
      else Except.error { status := some 404 } }

/-- A regular machine to create. -/
def regularMachine : ResourceData :=
  { Id := ""
    config := { name := "vm", resource_group_name := "rg", os_disk := [sampleOsDisk] }
    changed := [] }

/-- A Spot machine to create, without an eviction policy. -/
def spotWithoutEviction : ResourceData :=
  { Id := ""
    config := { name := "vm", resource_group_name := "rg", priority := "Spot",
                os_disk := [sampleOsDisk] }
    changed := [] }

/-- A regular machine to create, with a maximum bid price. -/
def regularWithBid : ResourceData :=
  { Id := ""
    config := { name := "vm", resource_group_name := "rg", max_bid_price := 5,
                os_disk := [sampleOsDisk] }
    changed := [] }

/-- A regular machine whose maximum bid price changed to 5. -/
def bidChange : ResourceData :=
  { Id := "vm"
    config := { priority := "Regular", max_bid_price := 5, os_disk := [sampleOsDisk] }
    changed := [["max_bid_price"]] }

/-- A machine whose license type was removed from the configuration. -/
def licenseRemoved : ResourceData :=
  { Id := "vm"
    config := { name := "vm", resource_group_name := "rg", os_disk := [sampleOsDisk] }
    changed := [["license_type"]] }

/-- A machine to create with a reboot setting and the platform patch mode. -/
def rebootWithPlatform : ResourceData :=
  { Id := ""
    config := { name := "vm", resource_group_name := "rg", reboot_setting := "Always",
                patch_mode := "AutomaticByPlatform", os_disk := [sampleOsDisk] }
    changed := [["reboot_setting"]] }

/-- A machine to create with a reboot setting but a manual patch mode. -/
def rebootWithManualPatching : ResourceData :=
  { Id := ""
    config := { name := "vm", resource_group_name := "rg", reboot_setting := "Always",
                patch_mode := "Manual", os_disk := [sampleOsDisk] }
    changed := [["reboot_setting"]] }

/-- A machine whose OS disk is the managed disk `osdisk`. -/
def machineWithDisk : VirtualMachine :=
  { Properties := some
      { StorageProfile := some
          { OsDisk := some { ManagedDisk := some { Id := some "osdisk-id" } } } } }

/-- A client of a Delete pass: the machine `existing` is there until its
deletion has been asked for, and gone afterwards. -/
def deletingClient (existing : VirtualMachine) (features : VirtualMachineFeatures) : Client :=
  { sampleClient (some existing) [] false with
    Get := fun t _ =>
      if t.any (Event.hasKind MutationKind.delete) then Except.error { status := some 404 }
      else Except.ok (some existing)
    Features := features }

/-- The resource data of a Delete pass. -/
def toDelete : ResourceData :=
  { Id := "vm", config := {}, changed := [] }

/-- The payload Create builds for `regularMachine`. -/
def regularPayload : VirtualMachine :=
  { Name := some "vm"
    Tags := some []
    Properties := some
      { ApplicationProfile := some { GalleryApplications := some [] }
        HardwareProfile := some { VMSize := some "" }
        NetworkProfile := some { NetworkInterfaces := some [] }
        Priority := some "Regular"
        StorageProfile := some { OsDisk := some sampleExpandedOsDisk, DataDisks := some [] }
        AdditionalCapabilities := some {}
        ExtensionsTimeBudget := some "PT1H30M"
        OsProfile := some
          { AdminPassword := some ""
            AdminUsername := some ""
            ComputerName := some "vm"
            AllowExtensionOperations := some true
            WindowsConfiguration := some
              { ProvisionVMAgent := some true
                EnableAutomaticUpdates := some true
                PatchSettings := some
                  { PatchMode := some "AutomaticByOS"
                    EnableHotpatching := some false
                    AssessmentMode := some "ImageDefault" } } } } }

/-- The payload the Update pass sends for `licenseRemoved`. -/
def licenseRemovedUpdate : VirtualMachineUpdate :=
  { Properties := { LicenseType := some "None" } }

/-- The payload the Update pass sends for `bidChange`. -/
def bidChangeUpdate : VirtualMachineUpdate :=
  { Properties := { BillingProfile := some { MaxPrice := some 5 } } }

/-- An `os_disk` block of a confidential machine whose disk is encrypted with
the disk encryption set `des`. -/
def confidentialOsDisk : OSDiskBlock :=
  { caching := "ReadWrite", storage_account_type := "Premium_LRS",
    security_encryption_type := "DiskWithVMGuestState",
    secure_vm_disk_encryption_set_id := "des" }

/-- The client of a Delete pass with the forced deletion switched on. -/
def forcedDeleteClient : Client :=
  deletingClient machineWithDisk { SkipShutdownAndForceDelete := true }

/-- The client of a Delete pass with the features as they are by default. -/
def plainDeleteClient : Client :=
  deletingClient machineWithDisk {}

/-- The client of a Delete pass for a machine whose OS disk has no id. -/
def anonymousDiskClient : Client :=
  deletingClient managedMachine {}

/-- The id the sample clients parse the id of a disk to. -/
def sampleDiskId : DiskId :=
  { SubscriptionId := "sub", ResourceGroupName := "rg", DiskName := "osdisk" }

/-! ## Vocabulary of the helper and guard properties -/

/-- Whether a failure is a Go runtime panic. -/
def Failure.isFault : Failure → Bool
  | Failure.fault _ => true
  | _ => false

/-- A run whose every trace entry is a remote call: it takes no guard and
releases none. -/
def AllRemote {α : Type} (ext : List Event) (_ : Except Failure α) : Prop :=
  ∀ e ∈ ext, e.isRemote = true

/-- The number of guards a trace leaves held: one more for every acquisition,
one less for every release. -/
def heldGuards : Trace → Int
  | [] => 0
  | Event.locked _ _ :: t => heldGuards t + 1
  | Event.unlocked _ _ :: t => heldGuards t - 1
  | Event.remote _ _ :: t => heldGuards t

/-- The `ConflictsWith` lists of the schema of `resourceWindowsVirtualMachine`
(lines 128-132, 150-153, 176-178, 188-190, 308-310 and 367-369); every other
attribute of the schema declares none.  The schema of `zone` is the one of
`commonschema.ZoneSingleOptionalForceNew()` (line 396), a helper outside the
sources at hand: its list is the parameter `zone`. -/
def conflictsWith (zone : List String) (key : String) : List String :=
  if key = "availability_set_id" then
    ["capacity_reservation_group_id", "virtual_machine_scale_set_id", "zone"]
  else if key = "capacity_reservation_group_id" then
    ["availability_set_id", "proximity_placement_group_id"]
  else if key = "dedicated_host_id" then ["dedicated_host_group_id"]
  else if key = "dedicated_host_group_id" then ["dedicated_host_id"]
  else if key = "proximity_placement_group_id" then ["capacity_reservation_group_id"]
  else if key = "virtual_machine_scale_set_id" then ["availability_set_id"]
  else if key = "zone" then zone
  else []

/-- Whether the schema declares the pair as conflicting, on one side at
least. -/
def declaredConflicting (zone : List String) (a b : String) : Bool :=
  (conflictsWith zone a).contains b || (conflictsWith zone b).contains a

/-- What the theorems ask of the validation of a configuration, which the
plugin SDK runs before any pass of the resource is called and which is
outside the sources at hand: given the `ConflictsWith` lists of the schema and
the attributes a configuration sets, it ends with a validation error when the
configuration sets an attribute together with one of the list of that
attribute. -/
def HonoursConflictsWith
    (validate : (String → List String) → List String → Except Failure Unit) : Prop :=
  ∀ (table : String → List String) (configured : List String) (k c : String),
    k ∈ configured → c ∈ table k → c ∈ configured →
    ∃ msg, validate table configured = Except.error (Failure.validation msg)

/-- Modelled from the spec: the check of `ConflictsWith` of the plugin SDK,
which is outside the sources at hand.  For the attribute `k`, which the
configuration sets, the first attribute of its `ConflictsWith` list that the
configuration sets as well is an error. -/
def validateConflictingAttributes (table : String → List String) (isSet : String → Bool)
    (k : String) : Except Failure Unit :=
  match (table k).find? isSet with
  | some conflictingKey =>
    Except.error (Failure.validation (k ++ ": conflicts with " ++ conflictingKey))
  | none => Except.ok ()

/-- Modelled from the spec: the check above, for each of the attributes
`ks`, in turn. -/
def validateEach (table : String → List String) (isSet : String → Bool) :
    List String → Except Failure Unit
  | [] => Except.ok ()
  | k :: ks =>
    match validateConflictingAttributes table isSet k with
    | Except.error e => Except.error e
    | Except.ok _ => validateEach table isSet ks

/-- Modelled from the spec: a validation of a configuration that sets the
attributes `configured`, as far as `ConflictsWith` goes. -/
def validateConflicts (table : String → List String) (configured : List String) :
    Except Failure Unit :=
  validateEach table (fun k => configured.contains k) configured

/-! ## Sample inputs of the helpers -/

/-- An `os_disk` block of an ephemeral disk with read-only caching. -/
def ephemeralOsDisk : OSDiskBlock :=
  { caching := "ReadOnly", storage_account_type := "Standard_LRS",
    diff_disk_settings := [{ option := "Local", placement := "CacheDisk" }] }

/-- An `os_disk` block of an ephemeral disk with read-write caching. -/
def ephemeralReadWriteOsDisk : OSDiskBlock :=
  { ephemeralOsDisk with caching := "ReadWrite" }

/-- An OS disk of a remote machine whose managed disk has an id. -/
def remoteOsDisk : OSDisk :=
  { Name := some "osdisk", ManagedDisk := some { Id := some "disk-id" } }

/-- A client whose disk lookup finds a disk that has no properties. -/
def bareDiskClient : Client :=
  { sampleClient none [] false with DisksGet := fun _ _ => Except.ok (some {}) }

/-- A client whose disk lookup answers without a model. -/
def modellessDiskClient : Client :=
  { sampleClient none [] false with DisksGet := fun _ _ => Except.ok none }

/-- A client whose machine is gone: `Get` answers 404. -/
def goneClient : Client :=
  { sampleClient none [] false with Get := fun _ _ => Except.error { status := some 404 } }

/-- A client whose `Get` fails with a server error. -/
def failingGetClient : Client :=
  { sampleClient none [] false with Get := fun _ _ => Except.error { status := some 500 } }

/-- A machine that is deallocating, with a managed OS disk, every call
succeeding. -/
def deallocatingClient : Client :=
  sampleClient (some managedMachine) ["PowerState/deallocating"] false

/-- A machine whose provisioning has failed. -/
def failedMachine : VirtualMachine :=
  { Properties := some { ProvisioningState := some "Failed" } }

/-- The client of a Delete pass for the machine whose provisioning has
failed. -/
def failedDeleteClient : Client :=
  deletingClient failedMachine {}

/-! ## The monad of a pass -/

theorem m_bind_run {α β : Type} (m : M α) (f : α → M β) (t : Trace) :
    (m >>= f) t =
      match m t with
      | (Except.ok a, t1) => f a t1
      | (Except.error e, t1) => (Except.error e, t1) := rfl

theorem m_pure_run {α : Type} (a : α) (t : Trace) : (pure a : M α) t = (Except.ok a, t) := rfl

theorem sat_pure {α : Type} {Q : List Event → Except Failure α → Prop} (a : α)
    (h : Q [] (Except.ok a)) : M.Sat (pure a) Q := by
  intro t
  exact ⟨[], by simp [m_pure_run], by simpa [m_pure_run] using h⟩

theorem sat_fail {α : Type} {Q : List Event → Except Failure α → Prop} (e : Failure)
    (h : Q [] (Except.error e)) : M.Sat (M.fail e : M α) Q := by
  intro t
  exact ⟨[], by simp [M.fail], by simpa [M.fail] using h⟩

theorem sat_lift {α : Type} {Q : List Event → Except Failure α → Prop}
    (r : Except Failure α) (h : Q [] r) : M.Sat (M.lift r) Q := by
  cases r with
  | ok a => exact sat_pure a h
  | error e => exact sat_fail e h

theorem sat_call {α : Type} {Q : List Event → Except Failure (Except RemoteError α) → Prop}
    (c : Call) (answer : Trace → Except RemoteError α)
    (h : ∀ r, Q [Event.remote c (failedAnswer r)] (Except.ok r)) :
    M.Sat (M.call c answer) Q := by
  intro t
  exact ⟨[Event.remote c (failedAnswer (answer t))], rfl, h _⟩

theorem sat_mono {α : Type} {m : M α} {Q Q2 : List Event → Except Failure α → Prop}
    (h : M.Sat m Q) (himp : ∀ ext r, Q ext r → Q2 ext r) : M.Sat m Q2 := by
  intro t
  obtain ⟨ext, h1, h2⟩ := h t
  exact ⟨ext, h1, himp _ _ h2⟩

theorem sat_and {α : Type} {m : M α} {Q Q2 : List Event → Except Failure α → Prop}
    (h : M.Sat m Q) (h2 : M.Sat m Q2) : M.Sat m (fun ext r => Q ext r ∧ Q2 ext r) := by
  intro t
  obtain ⟨ext, h1, hq⟩ := h t
  obtain ⟨ext2, h3, hq2⟩ := h2 t
  have : ext = ext2 := List.append_cancel_left (h1.symm.trans h3)
  subst this
  exact ⟨ext, h1, hq, hq2⟩

theorem sat_bind {α β : Type} {m : M α} {f : α → M β}
    {Q1 : List Event → Except Failure α → Prop}
    {Q2 : α → List Event → Except Failure β → Prop}
    {Q : List Event → Except Failure β → Prop}
    (h1 : M.Sat m Q1) (h2 : ∀ a, M.Sat (f a) (Q2 a))
    (herr : ∀ ext e, Q1 ext (Except.error e) → Q ext (Except.error e))
    (hok : ∀ a e1 e2 r, Q1 e1 (Except.ok a) → Q2 a e2 r → Q (e1 ++ e2) r) :
    M.Sat (m >>= f) Q := by
  intro t
  obtain ⟨e1, ht1, hq1⟩ := h1 t
  rw [m_bind_run]
  rcases hm : m t with ⟨r1, t1⟩
  rw [hm] at ht1 hq1
  simp only at ht1 hq1
  subst ht1
  cases r1 with
  | error e => exact ⟨e1, rfl, herr _ _ hq1⟩
  | ok a =>
    obtain ⟨e2, ht2, hq2⟩ := h2 a (t ++ e1)
    refine ⟨e1 ++ e2, ?_, hok _ _ _ _ hq1 hq2⟩
    simp only [ht2, List.append_assoc]

/-- What a run of `m` from `t` looks like, read off `M.Sat`. -/
theorem sat_run {α : Type} {m : M α} {Q : List Event → Except Failure α → Prop}
    (h : M.Sat m Q) (t : Trace) : ∃ ext, m t = ((m t).1, t ++ ext) ∧ Q ext (m t).1 := by
  obtain ⟨ext, h1, h2⟩ := h t
  exact ⟨ext, by rw [← h1], h2⟩

theorem sat_deferring {α : Type} {body : M α} {after : Event}
    {Q Q2 : List Event → Except Failure α → Prop}
    (h : M.Sat body Q) (himp : ∀ ext r, Q ext r → Q2 (ext ++ [after]) r) :
    M.Sat (M.deferring after body) Q2 := by
  intro t
  obtain ⟨ext, h1, h2⟩ := h t
  refine ⟨ext ++ [after], ?_, ?_⟩
  · simp only [M.deferring, h1, List.append_assoc]
  · simpa only [M.deferring] using himp _ _ h2

theorem sat_emit {Q : List Event → Except Failure Unit → Prop} (e : Event)
    (h : Q [e] (Except.ok ())) : M.Sat (M.emit e) Q := by
  intro t
  exact ⟨[e], rfl, h⟩

theorem callWhen_sat (cond : Bool) (c : Call) (answer : Trace → Except RemoteError Unit)
    (doing : String) :
    M.Sat (callWhen cond c answer doing) (fun ext r =>
      (cond = false ∧ ext = [] ∧ r = Except.ok ()) ∨
      (cond = true ∧ ext = [Event.remote c false] ∧ r = Except.ok ()) ∨
      (cond = true ∧ ext = [Event.remote c true] ∧
        ∃ err, r = Except.error (Failure.remote doing err))) := by
  intro t
  unfold callWhen
  cases cond with
  | false => exact ⟨[], by simp, by simp⟩
  | true =>
    cases h : answer t with
    | ok u => exact ⟨[Event.remote c false], by simp [h], by simp [h]⟩
    | error err => exact ⟨[Event.remote c true], by simp [h], by simp [h]⟩

/-- A call whose error is returned is a `callWhen` that always fires. -/
theorem callWhen_true (c : Call) (answer : Trace → Except RemoteError Unit) (doing : String) :
    (M.call c answer >>= fun err =>
      match err with
      | Except.error err => M.fail (Failure.remote doing err)
      | Except.ok _ => (pure () : M Unit)) = callWhen true c answer doing := by
  funext t
  simp only [m_bind_run, M.call, callWhen, if_true]
  cases h : answer t <;> rfl

theorem callWhen_false (c : Call) (answer : Trace → Except RemoteError Unit) (doing : String) :
    callWhen false c answer doing = pure () := by
  funext t
  rfl

theorem powerOffIfNeeded_eq (client : Client) (id : VirtualMachineId) (sd : Bool) :
    powerOffIfNeeded client id sd =
      callWhen sd (Call.PowerOffThenPoll id { SkipShutdown := some false })
        (fun t => client.PowerOffThenPoll t id { SkipShutdown := some false })
        "sending Power Off" := by
  unfold powerOffIfNeeded
  cases sd with
  | false => rfl
  | true => exact callWhen_true _ _ _

theorem deallocateIfNeeded_eq (client : Client) (id : VirtualMachineId) (de eph : Bool) :
    deallocateIfNeeded client id de eph =
      callWhen (de && !eph) (Call.DeallocateThenPoll id { Hibernate := some false })
        (fun t => client.DeallocateThenPoll t id { Hibernate := some false })
        "deallocating" := by
  unfold deallocateIfNeeded
  cases de <;> cases eph <;> first | rfl | exact callWhen_true _ _ _

theorem resizeOsDisk_eq (d : ResourceData) (client : Client) (id : VirtualMachineId) :
    resizeOsDisk d client id =
      callWhen (d.HasChange ["os_disk", "0", "disk_size_gb"])
        (Call.DisksUpdateThenPoll (NewDiskID client.SubscriptionId id.ResourceGroupName d.osDiskName)
          { Properties := some { DiskSizeGB := some d.osDiskSizeGb } })
        (fun t => client.DisksUpdateThenPoll t
          (NewDiskID client.SubscriptionId id.ResourceGroupName d.osDiskName)
          { Properties := some { DiskSizeGB := some d.osDiskSizeGb } })
        "resizing OS Disk" := by
  unfold resizeOsDisk
  cases d.HasChange ["os_disk", "0", "disk_size_gb"] with
  | false => rfl
  | true => exact callWhen_true _ _ _

theorem updateIfNeeded_eq (client : Client) (id : VirtualMachineId) (p : Plan) :
    updateIfNeeded client id p =
      callWhen p.shouldUpdate (Call.UpdateThenPoll id p.update)
        (fun t => client.UpdateThenPoll t id p.update) "updating" := by
  unfold updateIfNeeded
  cases p.shouldUpdate with
  | false => rfl
  | true => exact callWhen_true _ _ _

theorem startIfNeeded_eq (client : Client) (id : VirtualMachineId) (turnOn : Bool) (p : Plan) :
    startIfNeeded client id turnOn p =
      callWhen (turnOn && (p.shouldShutDown || p.shouldDeallocate)) (Call.StartThenPoll id)
        (fun t => client.StartThenPoll t id) "starting" := by
  unfold startIfNeeded
  cases (turnOn && (p.shouldShutDown || p.shouldDeallocate)) with
  | false => rfl
  | true => exact callWhen_true _ _ _

/-! ## The flags of the planning steps -/

theorem plan_flags_setProperties (p : Plan)
    (f : VirtualMachineProperties → VirtualMachineProperties) :
    (p.setProperties f).flags = p.flags := rfl

theorem planBootDiagnostics_flags (d : ResourceData) (client : Client) (p : Plan) :
    (planBootDiagnostics d client p).flags =
      p.flags.raise (d.HasChange ["boot_diagnostics"]) false false := by
  unfold planBootDiagnostics
  split <;> simp [Plan.flags, Flags.raise, Plan.setProperties, *]

theorem planSecret_flags (d : ResourceData) (client : Client) (p : Plan) :
    (planSecret d client p).flags = p.flags.raise (d.HasChange ["secret"]) false false := by
  unfold planSecret
  split <;> simp [Plan.flags, Flags.raise, Plan.setProperties, *]

theorem planAllowExtensionOperations_flags (d : ResourceData) (p : Plan) :
    (planAllowExtensionOperations d p).flags =
      p.flags.raise (d.HasChange ["allow_extension_operations"]) false false := by
  unfold planAllowExtensionOperations
  split <;> simp [Plan.flags, Flags.raise, Plan.setProperties, *]

theorem planPatchMode_flags (d : ResourceData) (p : Plan) :
    (planPatchMode d p).flags = p.flags.raise (d.HasChange ["patch_mode"]) false false := by
  unfold planPatchMode
  split <;> simp [Plan.flags, Flags.raise, Plan.setProperties, *]

theorem planPatchAssessmentMode_flags (d : ResourceData) (p q : Plan)
    (h : planPatchAssessmentMode d p = Except.ok q) :
    q.flags = p.flags.raise (d.HasChange ["patch_assessment_mode"]) false false := by
  unfold planPatchAssessmentMode at h
  split at h
  · simp only at h
    split at h
    · cases h
    · cases h
      simp [Plan.flags, Flags.raise, Plan.setProperties, *]
  · cases h
    simp [Plan.flags, Flags.raise, *]

theorem planBypassPlatformSafetyChecks_flags (d : ResourceData) (p q : Plan)
    (h : planBypassPlatformSafetyChecks d p = Except.ok q) :
    q.flags = p.flags.raise
      (d.HasChange ["bypass_platform_safety_checks_on_user_schedule_enabled"]) false false := by
  unfold planBypassPlatformSafetyChecks at h
  simp only at h
  split at h
  · cases h
  · split at h
    · cases h
      simp [Plan.flags, Flags.raise, Plan.setProperties, *]
    · cases h
      simp [Plan.flags, Flags.raise, *]

theorem planRebootSetting_flags (d : ResourceData) (p q : Plan)
    (h : planRebootSetting d p = Except.ok q) :
    q.flags = p.flags.raise (d.HasChange ["reboot_setting"]) false false := by
  unfold planRebootSetting at h
  simp only at h
  split at h
  · cases h
  · split at h
    · cases h
      simp [Plan.flags, Flags.raise, Plan.setProperties, *]
    · cases h
      simp [Plan.flags, Flags.raise, *]

theorem planHotpatching_flags (d : ResourceData) (p : Plan) :
    (planHotpatching d p).flags =
      p.flags.raise (d.HasChange ["hotpatching_enabled"]) false false := by
  unfold planHotpatching
  split <;> simp [Plan.flags, Flags.raise, Plan.setProperties, *]

theorem planIdentity_flags (d : ResourceData) (client : Client) (p q : Plan)
    (h : planIdentity d client p = Except.ok q) :
    q.flags = p.flags.raise (d.HasChange ["identity"]) false false := by
  unfold planIdentity at h
  split at h
  · split at h
    · cases h
    · cases h
      simp [Plan.flags, Flags.raise, *]
  · cases h
    simp [Plan.flags, Flags.raise, *]

theorem planCapacityReservationGroup_flags (d : ResourceData) (p : Plan) :
    (planCapacityReservationGroup d p).flags =
      p.flags.raise (d.HasChange ["capacity_reservation_group_id"]) false true := by
  unfold planCapacityReservationGroup
  split <;> simp [Plan.flags, Flags.raise, Plan.setProperties, *]

theorem planDedicatedHost_flags (d : ResourceData) (p : Plan) :
    (planDedicatedHost d p).flags =
      p.flags.raise (d.HasChange ["dedicated_host_id"]) false true := by
  unfold planDedicatedHost
  split <;> simp [Plan.flags, Flags.raise, Plan.setProperties, *]

theorem planDedicatedHostGroup_flags (d : ResourceData) (p : Plan) :
    (planDedicatedHostGroup d p).flags =
      p.flags.raise (d.HasChange ["dedicated_host_group_id"]) false true := by
  unfold planDedicatedHostGroup
  split <;> simp [Plan.flags, Flags.raise, Plan.setProperties, *]

theorem planExtensionsTimeBudget_flags (d : ResourceData) (p : Plan) :
    (planExtensionsTimeBudget d p).flags =
      p.flags.raise (d.HasChange ["extensions_time_budget"]) false false := by
  unfold planExtensionsTimeBudget
  split <;> simp [Plan.flags, Flags.raise, Plan.setProperties, *]

theorem planGalleryApplication_flags (d : ResourceData) (p : Plan) :
    (planGalleryApplication d p).flags =
      p.flags.raise (d.HasChange ["gallery_application"]) false false := by
  unfold planGalleryApplication
  split <;> simp [Plan.flags, Flags.raise, Plan.setProperties, *]

theorem planMaxBidPrice_flags (d : ResourceData) (p : Plan) :
    (planMaxBidPrice d p).flags = p.flags.raise (d.HasChange ["max_bid_price"]) true true := by
  unfold planMaxBidPrice
  split <;> simp [Plan.flags, Flags.raise, Plan.setProperties, *]

theorem planNetworkInterfaceIds_flags (d : ResourceData) (p : Plan) :
    (planNetworkInterfaceIds d p).flags =
      p.flags.raise (d.HasChange ["network_interface_ids"]) true true := by
  unfold planNetworkInterfaceIds
  split <;> simp [Plan.flags, Flags.raise, Plan.setProperties, *]

theorem planOsDisk_flags (d : ResourceData) (p q : Plan)
    (h : planOsDisk d p = Except.ok q) :
    q.flags = p.flags.raise (d.HasChange ["os_disk"]) true true := by
  unfold planOsDisk at h
  split at h
  · split at h
    · cases h
    · cases h
      simp [Plan.flags, Flags.raise, Plan.setProperties, *]
  · cases h
    simp [Plan.flags, Flags.raise, *]

theorem planProximityPlacementGroup_flags (d : ResourceData) (p : Plan) :
    (planProximityPlacementGroup d p).flags =
      p.flags.raise (d.HasChange ["proximity_placement_group_id"]) true true := by
  unfold planProximityPlacementGroup
  split <;> simp [Plan.flags, Flags.raise, Plan.setProperties, *]

theorem planTags_flags (d : ResourceData) (client : Client) (p : Plan) :
    (planTags d client p).flags = p.flags.raise (d.HasChange ["tags"]) false false := by
  unfold planTags
  split <;> simp [Plan.flags, Flags.raise, *]

theorem planTerminationNotification_flags (d : ResourceData) (p : Plan) :
    (planTerminationNotification d p).flags =
      p.flags.raise (d.HasChange ["termination_notification"]) false false := by
  unfold planTerminationNotification
  split <;> simp [Plan.flags, Flags.raise, Plan.setProperties, *]

theorem planAdditionalCapabilities_flags (d : ResourceData) (p : Plan) :
    (planAdditionalCapabilities d p).flags =
      p.flags.raise (d.HasChange ["additional_capabilities"])
        (d.HasChange ["additional_capabilities", "0", "ultra_ssd_enabled"])
        (d.HasChange ["additional_capabilities", "0", "ultra_ssd_enabled"]) := by
  unfold planAdditionalCapabilities
  split
  · simp only
    split <;> simp [Plan.flags, Flags.raise, Plan.setProperties, *]
  · simp [Plan.flags, Flags.raise, *]

theorem planEncryptionAtHost_flags (d : ResourceData) (p q : Plan)
    (h : planEncryptionAtHost d p = Except.ok q) :
    q.flags = p.flags.raise (d.HasChange ["encryption_at_host_enabled"]) false true := by
  unfold planEncryptionAtHost at h
  split at h
  · simp only at h
    split at h
    · cases h
    · cases h
      simp [Plan.flags, Flags.raise, Plan.setProperties, *]
  · cases h
    simp [Plan.flags, Flags.raise, *]

theorem planLicenseType_flags (d : ResourceData) (p : Plan) :
    (planLicenseType d p).flags = p.flags.raise (d.HasChange ["license_type"]) false false := by
  unfold planLicenseType
  split <;> simp [Plan.flags, Flags.raise, Plan.setProperties, *]

theorem planUserData_flags (d : ResourceData) (p : Plan) :
    (planUserData d p).flags = p.flags.raise (d.HasChange ["user_data"]) false false := by
  unfold planUserData
  split <;> simp [Plan.flags, Flags.raise, Plan.setProperties, *]

theorem except_bind_eq_ok {ε α β : Type} {x : Except ε α} {f : α → Except ε β} {b : β}
    (h : (x >>= f) = Except.ok b) : ∃ a, x = Except.ok a ∧ f a = Except.ok b := by
  cases x with
  | error e => cases h
  | ok a => exact ⟨a, rfl, h⟩

/-- The flags planned before the size step are those of the table. -/
theorem planBeforeSize_flags (d : ResourceData) (client : Client) (p : Plan)
    (h : planBeforeSize d client = Except.ok p) : p.flags = flagsBeforeSize d := by
  unfold planBeforeSize at h
  obtain ⟨p5, h5, h⟩ := except_bind_eq_ok h
  obtain ⟨p6, h6, h⟩ := except_bind_eq_ok h
  obtain ⟨p7, h7, h⟩ := except_bind_eq_ok h
  obtain ⟨p9, h9, h⟩ := except_bind_eq_ok h
  obtain ⟨p17, h17, h⟩ := except_bind_eq_ok h
  cases h
  rw [planProximityPlacementGroup_flags, planOsDisk_flags d _ _ h17,
    planNetworkInterfaceIds_flags, planMaxBidPrice_flags, planGalleryApplication_flags,
    planExtensionsTimeBudget_flags, planDedicatedHostGroup_flags, planDedicatedHost_flags,
    planCapacityReservationGroup_flags, planIdentity_flags d client _ _ h9,
    planHotpatching_flags, planRebootSetting_flags d _ _ h7,
    planBypassPlatformSafetyChecks_flags d _ _ h6, planPatchAssessmentMode_flags d _ _ h5,
    planPatchMode_flags, planAllowExtensionOperations_flags, planSecret_flags,
    planBootDiagnostics_flags]
  rfl

/-- The flags planned after the size step are those of the table. -/
theorem planAfterSize_flags (d : ResourceData) (client : Client) (p q : Plan)
    (h : planAfterSize d client p = Except.ok q) : q.flags = flagsAfterSize d p.flags := by
  unfold planAfterSize at h
  obtain ⟨p4, h4, h⟩ := except_bind_eq_ok h
  cases h
  rw [planUserData_flags, planLicenseType_flags, planEncryptionAtHost_flags d _ _ h4,
    planAdditionalCapabilities_flags, planTerminationNotification_flags, planTags_flags]
  rfl

theorem flags_raise_false (f : Flags) (s de : Bool) : f.raise false s de = f := by
  cases f
  simp [Flags.raise]

/-- The size step: what it appends to the trace and what it does to the
flags. -/
theorem planSize_spec (d : ResourceData) (client : Client) (id : VirtualMachineId) (p : Plan)
    (t : Trace) :
    (d.HasChange ["size"] = false ∧ planSize d client id p t = (Except.ok p, t)) ∨
    (d.HasChange ["size"] = true ∧
      ((∃ err, client.ListAvailableSizes t id = Except.error err ∧
          planSize d client id p t =
            (Except.error (Failure.remote "retrieving available sizes" err),
             t ++ [Event.remote (Call.ListAvailableSizes id) true])) ∨
       (∃ model q, client.ListAvailableSizes t id = Except.ok model ∧
          planSize d client id p t =
            (Except.ok q, t ++ [Event.remote (Call.ListAvailableSizes id) false]) ∧
          q.flags = p.flags.raise true true (!availableOnThisHost client model d.config.size)))) := by
  unfold planSize
  cases hc : d.HasChange ["size"] with
  | false => left; exact ⟨rfl, rfl⟩
  | true =>
    right
    refine ⟨rfl, ?_⟩
    simp only [if_true, m_bind_run, M.call]
    cases hs : client.ListAvailableSizes t id with
    | error err =>
      left
      exact ⟨err, rfl, rfl⟩
    | ok model =>
      right
      refine ⟨model, _, rfl, rfl, ?_⟩
      cases ha : availableOnThisHost client model d.config.size <;>
        simp [Plan.flags, Flags.raise, Plan.setProperties, ha]

/-- What planning appends to the trace, and the flags it plans. -/
theorem planUpdate_spec (d : ResourceData) (client : Client) (id : VirtualMachineId)
    (t : Trace) :
    ∃ ext, (planUpdate d client id t).2 = t ++ ext ∧
      (ext = [] ∨ (d.HasChange ["size"] = true ∧
        ext = [Event.remote (Call.ListAvailableSizes id)
                (failedAnswer (client.ListAvailableSizes t id))])) ∧
      (∀ p, (planUpdate d client id t).1 = Except.ok p →
        ∃ available, p.flags = plannedFlags d available ∧
          (d.HasChange ["size"] = true →
            ∃ model, client.ListAvailableSizes t id = Except.ok model ∧
              available = availableOnThisHost client model d.config.size)) := by
  unfold planUpdate
  rw [m_bind_run]
  cases hb : planBeforeSize d client with
  | error e => exact ⟨[], by simp [M.lift, M.fail], Or.inl rfl, by simp [M.lift, M.fail]⟩
  | ok p1 =>
    have hf1 := planBeforeSize_flags d client p1 hb
    simp only [M.lift, M.ret, m_bind_run]
    rcases planSize_spec d client id p1 t with ⟨hc, hrun⟩ | ⟨hc, ⟨err, hs, hrun⟩ | ⟨model, q, hs, hrun, hq⟩⟩
    · rw [hrun]
      simp only
      cases ha : planAfterSize d client p1 with
      | error e => exact ⟨[], by simp [M.fail], Or.inl rfl, by simp [M.fail]⟩
      | ok p2 =>
        refine ⟨[], by simp [M.ret], Or.inl rfl, ?_⟩
        intro p hp
        simp only [M.ret, Except.ok.injEq] at hp
        subst hp
        refine ⟨true, ?_, by simp [hc]⟩
        rw [planAfterSize_flags d client p1 _ ha, hf1, plannedFlags, hc, flags_raise_false]
    · rw [hrun]
      exact ⟨[Event.remote (Call.ListAvailableSizes id) true], rfl,
        Or.inr ⟨hc, by simp [hs, failedAnswer]⟩, by simp⟩
    · rw [hrun]
      simp only
      cases ha : planAfterSize d client q with
      | error e =>
        exact ⟨[Event.remote (Call.ListAvailableSizes id) false], by simp [M.fail],
          Or.inr ⟨hc, by simp [hs, failedAnswer]⟩, by simp [M.fail]⟩
      | ok p2 =>
        refine ⟨[Event.remote (Call.ListAvailableSizes id) false], by simp [M.ret],
          Or.inr ⟨hc, by simp [hs, failedAnswer]⟩, ?_⟩
        intro p hp
        simp only [M.ret, Except.ok.injEq] at hp
        subst hp
        refine ⟨availableOnThisHost client model d.config.size, ?_, fun _ => ⟨model, hs, rfl⟩⟩
        rw [planAfterSize_flags d client q _ ha, hq, hf1, plannedFlags, hc]

/-- Planning issues no mutating call. -/
theorem planUpdate_sat (d : ResourceData) (client : Client) (id : VirtualMachineId) :
    M.Sat (planUpdate d client id) (fun ext r =>
      (∀ e ∈ ext, e.isMutating = false) ∧
      (∀ e ∈ ext, e.isFailedMutation = false) ∧
      (d.HasChange ["size"] = false → ext = []) ∧
      (∀ p, r = Except.ok p → ∃ available, p.flags = plannedFlags d available)) := by
  intro t
  obtain ⟨ext, h1, h2, h3⟩ := planUpdate_spec d client id t
  refine ⟨ext, h1, ?_, ?_, ?_, ?_⟩
  · rcases h2 with h | ⟨_, h⟩ <;> simp [h, Event.isMutating, Event.mutation, Call.mutation]
  · rcases h2 with h | ⟨_, h⟩ <;> simp [h, Event.isFailedMutation, Call.mutation]
  · intro hc
    rcases h2 with h | ⟨h, _⟩
    · exact h
    · simp [hc] at h
  · intro p hp
    obtain ⟨a, ha, _⟩ := h3 p hp
    exact ⟨a, ha⟩

/-! ## The behaviour of the steps -/

theorem callWhen_spec (cond : Bool) (c : Call) (answer : Trace → Except RemoteError Unit)
    (doing : String) : M.Sat (callWhen cond c answer doing) (CallSpec cond c) := by
  refine sat_mono (callWhen_sat cond c answer doing) ?_
  intro ext r h
  rcases h with h | h | ⟨h1, h2, err, h3⟩
  · exact Or.inl h
  · exact Or.inr (Or.inl h)
  · exact Or.inr (Or.inr ⟨h1, h2, doing, err, h3⟩)

theorem sat_seq {β : Type} {m : M Unit} {m2 : M β}
    {Q1 : List Event → Except Failure Unit → Prop} {Q2 : List Event → Except Failure β → Prop}
    (h1 : M.Sat m Q1) (h2 : M.Sat m2 Q2) : M.Sat (m >>= fun _ => m2) (Seq Q1 Q2) := by
  refine sat_bind h1 (fun _ => h2) ?_ ?_
  · intro ext e h
    exact Or.inl ⟨e, rfl, h⟩
  · intro a e1 e2 r hq1 hq2
    exact Or.inr ⟨e1, e2, rfl, hq1, hq2⟩

theorem onlyReads_pure {α : Type} (a : α) : M.Sat (pure a : M α) OnlyReads :=
  sat_pure a (by simp [OnlyReads])

theorem onlyReads_fail {α : Type} (e : Failure) : M.Sat (M.fail e : M α) OnlyReads :=
  sat_fail e (by simp [OnlyReads])

theorem onlyReads_lift {α : Type} (r : Except Failure α) : M.Sat (M.lift r) OnlyReads :=
  sat_lift r (by simp [OnlyReads])

theorem onlyReads_call {α : Type} (c : Call) (answer : Trace → Except RemoteError α)
    (h : c.mutation = none) : M.Sat (M.call c answer) OnlyReads :=
  sat_call c answer (by simp [OnlyReads, Event.mutation, h])

theorem onlyReads_bind {α β : Type} {m : M α} {f : α → M β}
    (h1 : M.Sat m OnlyReads) (h2 : ∀ a, M.Sat (f a) OnlyReads) :
    M.Sat (m >>= f) OnlyReads := by
  refine sat_bind h1 h2 ?_ ?_
  · intro ext e h
    exact h
  · intro a e1 e2 r hq1 hq2 e he
    rcases List.mem_append.mp he with h | h
    · exact hq1 e h
    · exact hq2 e h

theorem lookupManagedDisk_reads (client : Client) (managedDisk : Option ManagedDiskParameters)
    (diskSizeGb : Int) : M.Sat (lookupManagedDisk client managedDisk diskSizeGb) OnlyReads := by
  unfold lookupManagedDisk
  split
  · exact onlyReads_pure _
  · simp only
    split
    · exact onlyReads_pure _
    · split
      · exact onlyReads_fail _
      · refine onlyReads_bind (onlyReads_call _ _ rfl) ?_
        intro disk
        split
        · split
          · exact onlyReads_fail _
          · exact onlyReads_pure _
        · exact onlyReads_lift _

theorem flattenVirtualMachineOSDisk_reads (client : Client) (input : Option OSDisk) :
    M.Sat (flattenVirtualMachineOSDisk client input) OnlyReads := by
  unfold flattenVirtualMachineOSDisk
  split
  · exact onlyReads_pure _
  · exact onlyReads_bind (lookupManagedDisk_reads _ _ _) (fun _ => onlyReads_pure _)

theorem readStorageProfile_reads (client : Client) (storageProfile : Option StorageProfile) :
    M.Sat (readStorageProfile client storageProfile) OnlyReads := by
  unfold readStorageProfile
  split
  · exact onlyReads_pure _
  · exact onlyReads_bind (flattenVirtualMachineOSDisk_reads _ _) (fun _ => onlyReads_pure _)

theorem readProperties_reads (client : Client) (props : VirtualMachineProperties) :
    M.Sat (readProperties client props) OnlyReads := by
  unfold readProperties
  exact onlyReads_bind (readStorageProfile_reads _ _)
    (fun _ => onlyReads_bind (onlyReads_call Call.ConnectionInformation _ rfl)
      (fun _ => onlyReads_pure _))

/-- The Read pass issues no mutating call. -/
theorem resourceWindowsVirtualMachineRead_reads (d : ResourceData) (client : Client) :
    M.Sat (resourceWindowsVirtualMachineRead d client) OnlyReads := by
  unfold resourceWindowsVirtualMachineRead
  split
  · exact onlyReads_fail _
  · refine onlyReads_bind (onlyReads_call _ _ rfl) ?_
    intro resp
    split
    · split
      · exact onlyReads_pure _
      · exact onlyReads_fail _
    · exact onlyReads_pure _
    · split
      · exact onlyReads_fail _
      · split
        · exact onlyReads_pure _
        · exact onlyReads_bind (readProperties_reads _ _) (fun _ => onlyReads_pure _)

theorem notValidation_pure {α : Type} (a : α) : M.Sat (pure a : M α) NotValidation :=
  sat_pure a (by simp [NotValidation])

theorem notValidation_fail {α : Type} (e : Failure) (h : ∀ msg, e ≠ Failure.validation msg) :
    M.Sat (M.fail e : M α) NotValidation :=
  sat_fail e (by simpa [NotValidation] using h)

theorem notValidation_call {α : Type} (c : Call) (answer : Trace → Except RemoteError α) :
    M.Sat (M.call c answer) NotValidation :=
  sat_call c answer (by simp [NotValidation])

theorem notValidation_bind {α β : Type} {m : M α} {f : α → M β}
    (h1 : M.Sat m NotValidation) (h2 : ∀ a, M.Sat (f a) NotValidation) :
    M.Sat (m >>= f) NotValidation := by
  refine sat_bind h1 h2 ?_ ?_
  · intro ext e h msg hmsg
    cases hmsg
    exact h msg rfl
  · intro a e1 e2 r _ hq2
    exact hq2

theorem readFoundDisk_not_validation (model : Option Disk) (v : DiskLookup) (msg : String) :
    readFoundDisk model v ≠ Except.error (Failure.validation msg) := by
  unfold readFoundDisk
  intro h
  split at h
  · cases h
  · simp only at h
    split at h
    · rename_i heq
      split at heq
      · split at heq
        · split at heq <;> cases heq
          cases h
        · cases heq
      · cases heq
    · split at h <;> cases h

theorem lookupManagedDisk_not_validation (client : Client)
    (managedDisk : Option ManagedDiskParameters) (diskSizeGb : Int) :
    M.Sat (lookupManagedDisk client managedDisk diskSizeGb) NotValidation := by
  unfold lookupManagedDisk
  split
  · exact notValidation_pure _
  · simp only
    split
    · exact notValidation_pure _
    · split
      · exact notValidation_fail _ (by simp)
      · refine notValidation_bind (notValidation_call _ _) ?_
        intro disk
        split
        · split
          · exact notValidation_fail _ (by simp)
          · exact notValidation_pure _
        · exact sat_lift _ (fun msg => readFoundDisk_not_validation _ _ msg)

theorem flattenVirtualMachineOSDisk_not_validation (client : Client) (input : Option OSDisk) :
    M.Sat (flattenVirtualMachineOSDisk client input) NotValidation := by
  unfold flattenVirtualMachineOSDisk
  split
  · exact notValidation_pure _
  · exact notValidation_bind (lookupManagedDisk_not_validation _ _ _)
      (fun _ => notValidation_pure _)

theorem readStorageProfile_not_validation (client : Client)
    (storageProfile : Option StorageProfile) :
    M.Sat (readStorageProfile client storageProfile) NotValidation := by
  unfold readStorageProfile
  split
  · exact notValidation_pure _
  · exact notValidation_bind (flattenVirtualMachineOSDisk_not_validation _ _)
      (fun _ => notValidation_pure _)

theorem readProperties_not_validation (client : Client) (props : VirtualMachineProperties) :
    M.Sat (readProperties client props) NotValidation := by
  unfold readProperties
  exact notValidation_bind (readStorageProfile_not_validation _ _)
    (fun _ => notValidation_bind (notValidation_call Call.ConnectionInformation _)
      (fun _ => notValidation_pure _))

/-- The Read pass never ends with a validation error. -/
theorem resourceWindowsVirtualMachineRead_not_validation (d : ResourceData) (client : Client) :
    M.Sat (resourceWindowsVirtualMachineRead d client) NotValidation := by
  unfold resourceWindowsVirtualMachineRead
  split
  · exact notValidation_fail _ (by simp)
  · refine notValidation_bind (notValidation_call _ _) ?_
    intro resp
    split
    · split
      · exact notValidation_pure _
      · exact notValidation_fail _ (by simp)
    · exact notValidation_pure _
    · split
      · exact notValidation_fail _ (by simp)
      · split
        · exact notValidation_pure _
        · exact notValidation_bind (readProperties_not_validation _ _)
            (fun _ => notValidation_pure _)

theorem resourceWindowsVirtualMachineRead_spec (d : ResourceData) (client : Client) :
    M.Sat (resourceWindowsVirtualMachineRead d client) ReadSpec :=
  sat_and (resourceWindowsVirtualMachineRead_reads d client)
    (resourceWindowsVirtualMachineRead_not_validation d client)

theorem updateOsDiskEncryption_spec (d : ResourceData) (client : Client)
    (id : VirtualMachineId) :
    M.Sat (updateOsDiskEncryption d client id) (EncryptionSpec d client id) := by
  intro t
  unfold updateOsDiskEncryption EncryptionSpec
  cases hc : d.HasChange ["os_disk", "0", "disk_encryption_set_id"] with
  | false => exact ⟨[], by simp [m_pure_run], by simp [m_pure_run]⟩
  | true =>
    simp only [if_true]
    by_cases hid : d.osDiskEncryptionSetId = ""
    · exact ⟨[], by simp [hid, M.fail], by simp [hid, M.fail, keyResetMessage]⟩
    · simp only [bne_iff_ne, ne_eq, hid, not_false_eq_true, if_true, m_bind_run, M.call]
      cases hg : client.DiskEncryptionSetsGet t d.osDiskEncryptionSetId with
      | error err =>
        exact ⟨[Event.remote (Call.DiskEncryptionSetsGet d.osDiskEncryptionSetId) true],
          by simp [failedAnswer, M.fail], by simp [failedAnswer, M.fail]⟩
      | ok ty =>
        simp only [failedAnswer]
        cases hu : client.DisksUpdateThenPoll
            (t ++ [Event.remote (Call.DiskEncryptionSetsGet d.osDiskEncryptionSetId) false])
            (NewDiskID client.SubscriptionId id.ResourceGroupName d.osDiskName)
            (encryptionUpdate ty d.osDiskEncryptionSetId) with
        | error err =>
          exact ⟨[Event.remote (Call.DiskEncryptionSetsGet d.osDiskEncryptionSetId) false,
            Event.remote (Call.DisksUpdateThenPoll
              (NewDiskID client.SubscriptionId id.ResourceGroupName d.osDiskName)
              (encryptionUpdate ty d.osDiskEncryptionSetId)) true],
            by simp [m_bind_run, M.call, hu, failedAnswer, M.fail],
            by simp [m_bind_run, M.call, hu, failedAnswer, M.fail]; exact ⟨ty, rfl⟩⟩
        | ok u =>
          exact ⟨[Event.remote (Call.DiskEncryptionSetsGet d.osDiskEncryptionSetId) false,
            Event.remote (Call.DisksUpdateThenPoll
              (NewDiskID client.SubscriptionId id.ResourceGroupName d.osDiskName)
              (encryptionUpdate ty d.osDiskEncryptionSetId)) false],
            by simp [m_bind_run, M.call, hu, failedAnswer, m_pure_run],
            by simp [m_bind_run, M.call, hu, failedAnswer, m_pure_run]; exact ⟨ty, rfl⟩⟩

/-- The behaviour of everything after the flags are settled. -/
theorem applyPlan_spec (d : ResourceData) (client : Client) (id : VirtualMachineId)
    (shouldTurnBackOn ephemeral : Bool) (p : Plan) :
    M.Sat (applyPlan d client id shouldTurnBackOn ephemeral p)
      (ApplySpec d client id shouldTurnBackOn ephemeral p) := by
  unfold applyPlan ApplySpec
  rw [powerOffIfNeeded_eq, deallocateIfNeeded_eq, resizeOsDisk_eq, updateIfNeeded_eq,
    startIfNeeded_eq]
  exact sat_seq (callWhen_spec _ _ _ _) (sat_seq (callWhen_spec _ _ _ _)
    (sat_seq (callWhen_spec _ _ _ _) (sat_seq (updateOsDiskEncryption_spec d client id)
    (sat_seq (callWhen_spec _ _ _ _) (sat_seq (callWhen_spec _ _ _ _)
    (resourceWindowsVirtualMachineRead_spec d client))))))

theorem m_call_bind_run {α β : Type} (c : Call) (answer : Trace → Except RemoteError α)
    (f : Except RemoteError α → M β) (t : Trace) :
    (M.call c answer >>= f) t =
      f (answer t) (t ++ [Event.remote c (failedAnswer (answer t))]) := rfl

/-- The Update pass under the lock, unfolded up to planning. -/
theorem updateLocked_run (d : ResourceData) (client : Client) (id : VirtualMachineId)
    (t : Trace) :
    updateLocked d client id t =
      match client.Get t id with
      | Except.error err =>
        (Except.error (Failure.remote "retrieving" err), t ++ [Event.remote (Call.Get id) true])
      | Except.ok existing =>
        match client.InstanceView (t ++ [Event.remote (Call.Get id) false]) id with
        | Except.error err =>
          (Except.error (Failure.remote "retrieving InstanceView" err),
            t ++ [Event.remote (Call.Get id) false] ++ [Event.remote (Call.InstanceView id) true])
        | Except.ok instanceView =>
          (planUpdate d client id >>= fun p =>
            applyPlan d client id (client.virtualMachineShouldBeStarted instanceView)
              (hasEphemeralOSDisk existing) (adjustForPowerState instanceView p))
            (t ++ [Event.remote (Call.Get id) false] ++
              [Event.remote (Call.InstanceView id) false]) := by
  unfold updateLocked
  rw [m_call_bind_run]
  cases hget : client.Get t id with
  | error err => rfl
  | ok existing =>
    simp only [failedAnswer]
    rw [m_call_bind_run]
    cases hiv : client.InstanceView (t ++ [Event.remote (Call.Get id) false]) id with
    | error err => rfl
    | ok instanceView => rfl

/-- Every Update pass has the shape `UpdateShape`. -/
theorem update_shape (d : ResourceData) (client : Client) :
    UpdateShape d client (updateTrace d client) (updateOutcome d client) := by
  unfold UpdateShape updateTrace updateOutcome resourceWindowsVirtualMachineUpdate
  cases hid : client.ParseVirtualMachineID d.Id with
  | error e => exact Or.inl ⟨e, rfl, rfl, rfl⟩
  | ok id =>
    refine Or.inr ⟨id, rfl, ?_⟩
    simp only [m_bind_run, M.emit, M.deferring, List.nil_append]
    have hl : [Event.locked id.VirtualMachineName VirtualMachineResourceName] = lockedTrace id :=
      rfl
    rw [hl, updateLocked_run]
    cases hget : client.Get (lockedTrace id) id with
    | error err =>
      left
      refine ⟨err, hget, ?_, ?_⟩
      · simp [traceAfterGet, existingAtStart, hget, failedAnswer, unlockedEvent]
      · rfl
    | ok existing =>
      right
      refine ⟨existing, hget, ?_⟩
      have hg : lockedTrace id ++ [Event.remote (Call.Get id) false] =
          traceAfterGet client id := by
        simp [traceAfterGet, existingAtStart, hget, failedAnswer]
      simp only [hg]
      cases hiv : client.InstanceView (traceAfterGet client id) id with
      | error err =>
        left
        refine ⟨err, hiv, ?_, ?_⟩
        · simp [traceAfterInstanceView, instanceViewAtStart, hiv, failedAnswer, unlockedEvent]
        · rfl
      | ok instanceView =>
        right
        refine ⟨instanceView, hiv, ?_⟩
        have hv : traceAfterGet client id ++ [Event.remote (Call.InstanceView id) false] =
            traceAfterInstanceView client id := by
          simp [traceAfterInstanceView, instanceViewAtStart, hiv, failedAnswer]
        simp only [hv]
        obtain ⟨planExt, hp2, -⟩ := planUpdate_spec d client id (traceAfterInstanceView client id)
        refine ⟨planExt, hp2, ?_⟩
        rw [m_bind_run]
        rcases hplan : planUpdate d client id (traceAfterInstanceView client id) with ⟨r, t3⟩
        rw [hplan] at hp2
        simp only at hp2
        subst hp2
        cases r with
        | error e =>
          left
          exact ⟨e, rfl, by simp [unlockedEvent], rfl⟩
        | ok p =>
          right
          obtain ⟨applyExt, ha2, hspec⟩ := applyPlan_spec d client id
            (client.virtualMachineShouldBeStarted instanceView) (hasEphemeralOSDisk existing)
            (adjustForPowerState instanceView p) (traceAfterInstanceView client id ++ planExt)
          refine ⟨p, applyExt, rfl, ?_, ?_⟩
          · simp only [ha2, unlockedEvent]
          · simpa using hspec

/-! ## The power state of the instance view -/

theorem char_toNat_ofNat_small (n : Nat) (h : n < 1000) : (Char.ofNat n).toNat = n := by
  have hv : n.isValidChar := Or.inl (by omega)
  simp only [Char.ofNat, hv, dite_true, Char.ofNatAux, Char.toNat]
  show (UInt32.ofNat' n _).toNat = n
  simp [UInt32.ofNat', UInt32.toNat, Fin.ofNat']

theorem char_toLower_toLower (c : Char) : c.toLower.toLower = c.toLower := by
  unfold Char.toLower
  by_cases h : c.val ≥ 65 ∧ c.val ≤ 90
  · have h1 : 65 ≤ c.toNat := h.1
    have h2 : c.toNat ≤ 90 := h.2
    have hv : (Char.ofNat (c.toNat + 32)).toNat = c.toNat + 32 :=
      char_toNat_ofNat_small _ (by omega)
    simp [h1, h2, hv]
    intro a b
    omega
  · have hn : ¬ (65 ≤ c.toNat ∧ c.toNat ≤ 90) := h
    simp [hn]

theorem toLower_drop_map (code : String) (n : Nat) :
    ((toLower code).drop n).map Char.toLower = (toLower code).drop n := by
  unfold toLower
  rw [← List.map_drop, List.map_map]
  apply List.map_congr_left
  intro c _
  exact char_toLower_toLower c

/-- The test of the loop of lines 1459-1485 is the test `reports`. -/
theorem reports_iff (status : InstanceViewStatus) (code : String) (state : String)
    (hcode : status.Code = some code) :
    status.reports state = true ↔
      (powerStateTag.isPrefixOf (toLower code) = true ∧
        ((toLower code).drop powerStateTag.length).map Char.toLower = state.toList) := by
  unfold InstanceViewStatus.reports
  rw [hcode, toLower_drop_map]
  simp only [beq_iff_eq, List.isPrefixOf_iff_prefix]
  constructor
  · intro h
    rw [h]
    exact ⟨List.prefix_append _ _, by simp⟩
  · rintro ⟨h1, h2⟩
    rw [← h2]
    exact (List.prefix_iff_eq_append.mp h1).symm

/-- The body of the loop, in terms of what the status reports. -/
theorem adjustForStatus_eq (p : Plan) (status : InstanceViewStatus) :
    adjustForStatus p status =
      if status.reports "deallocated" then
        { p with shouldShutDown := false, shouldDeallocate := false }
      else if status.reports "deallocating" || status.reports "stopped" then
        { p with shouldShutDown := false }
      else p := by
  unfold adjustForStatus
  cases hcode : status.Code with
  | none => simp [InstanceViewStatus.reports, hcode]
  | some code =>
    have h1 := reports_iff status code "deallocated" hcode
    have h2 := reports_iff status code "deallocating" hcode
    have h3 := reports_iff status code "stopped" hcode
    by_cases hp : powerStateTag.isPrefixOf (toLower code) = true
    · simp only [hp, true_and] at h1 h2 h3
      simp only [hp, Bool.not_true, Bool.false_eq_true, if_false]
      generalize List.map Char.toLower (List.drop powerStateTag.length (toLower code)) = rest
        at h1 h2 h3 ⊢
      by_cases c1 : status.reports "deallocated" = true
      · have e1 := h1.mp c1
        subst e1
        simp only [c1, if_true]
        rfl
      · have n1 := mt h1.mpr c1
        by_cases c2 : status.reports "deallocating" = true
        · have e2 := h2.mp c2
          subst e2
          simp only [c1, c2, Bool.true_or, if_true, if_false]
          rfl
        · have n2 := mt h2.mpr c2
          by_cases c3 : status.reports "stopped" = true
          · have e3 := h3.mp c3
            subst e3
            simp only [c1, c2, c3, Bool.or_true, if_true, if_false]
            rfl
          · have n3 := mt h3.mpr c3
            simp only [beq_iff_eq, n1, n2, n3, c1, c2, c3, if_false, Bool.or_self,
              Bool.false_eq_true]
    · have f1 : status.reports "deallocated" = false := by
        cases h : status.reports "deallocated" with
        | false => rfl
        | true => exact absurd (h1.mp h).1 hp
      have f2 : status.reports "deallocating" = false := by
        cases h : status.reports "deallocating" with
        | false => rfl
        | true => exact absurd (h2.mp h).1 hp
      have f3 : status.reports "stopped" = false := by
        cases h : status.reports "stopped" with
        | false => rfl
        | true => exact absurd (h3.mp h).1 hp
      simp [hp, f1, f2, f3]

theorem adjustForPowerState_eq (instanceView : Option VirtualMachineInstanceView) (p : Plan) :
    adjustForPowerState instanceView p = (statusesOf instanceView).foldl adjustForStatus p := by
  unfold adjustForPowerState statusesOf
  cases instanceView with
  | none => rfl
  | some model =>
    cases h : model.Statuses with
    | none => simp [h]
    | some statuses => simp [h]

/-- The loop never raises a flag and leaves the payload alone. -/
theorem foldl_adjust_le (statuses : List InstanceViewStatus) (p : Plan) :
    (statuses.foldl adjustForStatus p).shouldUpdate = p.shouldUpdate ∧
    (statuses.foldl adjustForStatus p).update = p.update ∧
    ((statuses.foldl adjustForStatus p).shouldShutDown = true → p.shouldShutDown = true) ∧
    ((statuses.foldl adjustForStatus p).shouldDeallocate = true → p.shouldDeallocate = true) := by
  induction statuses generalizing p with
  | nil => simp
  | cons s rest ih =>
    simp only [List.foldl_cons]
    obtain ⟨h1, h2, h3, h4⟩ := ih (adjustForStatus p s)
    rw [h1, h2]
    rw [adjustForStatus_eq] at h3 h4 ⊢
    refine ⟨?_, ?_, fun h => ?_, fun h => ?_⟩
    · split <;> [rfl; (split <;> rfl)]
    · split <;> [rfl; (split <;> rfl)]
    · have := h3 h
      split at this
      · simp at this
      · split at this
        · simp at this
        · exact this
    · have := h4 h
      split at this
      · simp at this
      · split at this
        · exact this
        · exact this

/-- A status that reports `deallocated` lowers both flags. -/
theorem foldl_adjust_deallocated (statuses : List InstanceViewStatus) (p : Plan)
    (h : ∃ s ∈ statuses, s.reports "deallocated" = true) :
    (statuses.foldl adjustForStatus p).shouldShutDown = false ∧
    (statuses.foldl adjustForStatus p).shouldDeallocate = false := by
  induction statuses generalizing p with
  | nil => simp at h
  | cons s rest ih =>
    simp only [List.foldl_cons]
    obtain ⟨s1, hs1, hr⟩ := h
    rcases List.mem_cons.mp hs1 with heq | hmem
    · subst heq
      have hle := foldl_adjust_le rest (adjustForStatus p s1)
      have hsd : (adjustForStatus p s1).shouldShutDown = false := by
        rw [adjustForStatus_eq]; simp [hr]
      have hde : (adjustForStatus p s1).shouldDeallocate = false := by
        rw [adjustForStatus_eq]; simp [hr]
      constructor
      · cases hx : (rest.foldl adjustForStatus (adjustForStatus p s1)).shouldShutDown with
        | false => rfl
        | true => rw [hle.2.2.1 hx] at hsd; cases hsd
      · cases hx : (rest.foldl adjustForStatus (adjustForStatus p s1)).shouldDeallocate with
        | false => rfl
        | true => rw [hle.2.2.2 hx] at hde; cases hde
    · exact ih _ ⟨s1, hmem, hr⟩

/-- A status that reports `stopped` or `deallocating` lowers the shut down
flag. -/
theorem foldl_adjust_stopped (statuses : List InstanceViewStatus) (p : Plan)
    (h : ∃ s ∈ statuses, s.reports "stopped" = true ∨ s.reports "deallocating" = true) :
    (statuses.foldl adjustForStatus p).shouldShutDown = false := by
  induction statuses generalizing p with
  | nil => simp at h
  | cons s rest ih =>
    simp only [List.foldl_cons]
    obtain ⟨s1, hs1, hr⟩ := h
    rcases List.mem_cons.mp hs1 with heq | hmem
    · subst heq
      have hle := foldl_adjust_le rest (adjustForStatus p s1)
      have hsd : (adjustForStatus p s1).shouldShutDown = false := by
        rw [adjustForStatus_eq]
        split
        · rfl
        · rcases hr with hr | hr <;> simp [hr]
      cases hx : (rest.foldl adjustForStatus (adjustForStatus p s1)).shouldShutDown with
      | false => rfl
      | true => rw [hle.2.2.1 hx] at hsd; cases hsd
    · exact ih _ ⟨s1, hmem, hr⟩

/-- Without a status that reports `deallocated` the deallocation flag is
kept. -/
theorem foldl_adjust_keeps_deallocate (statuses : List InstanceViewStatus) (p : Plan)
    (h : ∀ s ∈ statuses, s.reports "deallocated" = false) :
    (statuses.foldl adjustForStatus p).shouldDeallocate = p.shouldDeallocate := by
  induction statuses generalizing p with
  | nil => rfl
  | cons s rest ih =>
    simp only [List.foldl_cons]
    rw [ih _ (fun s1 hs1 => h s1 (List.mem_cons_of_mem _ hs1)), adjustForStatus_eq]
    simp only [h s (List.mem_cons_self _ _), Bool.false_eq_true, if_false]
    split <;> rfl

/-- Without a status that reports `deallocated`, `deallocating` or `stopped`
the plan is kept. -/
theorem foldl_adjust_keeps (statuses : List InstanceViewStatus) (p : Plan)
    (h : ∀ s ∈ statuses, s.reports "deallocated" = false ∧ s.reports "deallocating" = false ∧
      s.reports "stopped" = false) :
    statuses.foldl adjustForStatus p = p := by
  induction statuses generalizing p with
  | nil => rfl
  | cons s rest ih =>
    simp only [List.foldl_cons]
    have hs := h s (List.mem_cons_self _ _)
    have : adjustForStatus p s = p := by
      rw [adjustForStatus_eq]
      simp [hs.1, hs.2.1, hs.2.2]
    rw [this]
    exact ih _ (fun s1 hs1 => h s1 (List.mem_cons_of_mem _ hs1))

/-! ## Folding a property over the steps of `applyPlan` -/

theorem mutations_append (a b : List Event) : mutations (a ++ b) = mutations a ++ mutations b := by
  simp [mutations, List.filterMap_append]

theorem mutations_of_reads {α : Type} {ext : List Event} {r : Except Failure α}
    (h : OnlyReads ext r) : mutations ext = [] := by
  unfold mutations
  rw [List.filterMap_eq_nil_iff]
  exact h

theorem encryptionUpdate_mutation (id : DiskId) (ty : Option String) (setId : String) :
    (Call.DisksUpdateThenPoll id (encryptionUpdate ty setId)).mutation =
      some MutationKind.diskEncryption := rfl

theorem resize_mutation (id : DiskId) (n : Int) :
    (Call.DisksUpdateThenPoll id { Properties := some { DiskSizeGB := some n } }).mutation =
      some MutationKind.diskResize := rfl

theorem seq_forall_mem {β : Type} {Q1 : List Event → Except Failure Unit → Prop}
    {Q2 : List Event → Except Failure β → Prop} {φ : Event → Prop}
    {ext : List Event} {r : Except Failure β}
    (h1 : ∀ ext r, Q1 ext r → ∀ e ∈ ext, φ e) (h2 : ∀ ext r, Q2 ext r → ∀ e ∈ ext, φ e)
    (h : Seq Q1 Q2 ext r) : ∀ e ∈ ext, φ e := by
  rcases h with ⟨e, _, hq⟩ | ⟨e1, e2, rfl, hq1, hq2⟩
  · exact h1 _ _ hq
  · intro e he
    rcases List.mem_append.mp he with h | h
    · exact h1 _ _ hq1 e h
    · exact h2 _ _ hq2 e h

theorem callSpec_forall_mem {cond : Bool} {c : Call} {φ : Event → Prop}
    {ext : List Event} {r : Except Failure Unit}
    (h : CallSpec cond c ext r) (hφ : cond = true → ∀ f, φ (Event.remote c f)) :
    ∀ e ∈ ext, φ e := by
  rcases h with ⟨_, rfl, _⟩ | ⟨hc, rfl, _⟩ | ⟨hc, rfl, _⟩
  · simp
  · simpa using hφ hc false
  · simpa using hφ hc true

/-- Every mutation issued after the flags are settled is allowed by them. -/
theorem applySpec_allowed {d : ResourceData} {client : Client} {id : VirtualMachineId}
    {shouldTurnBackOn ephemeral : Bool} {p : Plan} {ext : List Event}
    {r : Except Failure ResourceData}
    (h : ApplySpec d client id shouldTurnBackOn ephemeral p ext r) :
    ∀ e ∈ ext, ∀ k, e.mutation = some k →
      mutationAllowed d shouldTurnBackOn ephemeral p k = true := by
  unfold ApplySpec at h
  refine seq_forall_mem ?_ (fun _ _ h => seq_forall_mem ?_ (fun _ _ h => seq_forall_mem ?_
    (fun _ _ h => seq_forall_mem ?_ (fun _ _ h => seq_forall_mem ?_
      (fun _ _ h => seq_forall_mem ?_ ?_ h) h) h) h) h) h
  · intro ext r hc
    refine callSpec_forall_mem hc ?_
    intro hcond f k hk
    simp only [Event.mutation, Call.mutation, Option.some.injEq] at hk
    subst hk
    exact hcond
  · intro ext r hc
    refine callSpec_forall_mem hc ?_
    intro hcond f k hk
    simp only [Event.mutation, Call.mutation, Option.some.injEq] at hk
    subst hk
    exact hcond
  · intro ext r hc
    refine callSpec_forall_mem hc ?_
    intro hcond f k hk
    simp only [Event.mutation, resize_mutation, Option.some.injEq] at hk
    subst hk
    exact hcond
  · intro ext r hc e he k hk
    rcases hc with ⟨_, rfl, _⟩ | ⟨_, _, rfl, _⟩ | ⟨hch, hne, h | ⟨ty, f, rfl, _⟩⟩
    · simp at he
    · simp at he
    · rw [h.1] at he
      simp only [List.mem_singleton] at he
      subst he
      simp [Event.mutation, Call.mutation] at hk
    · simp only [List.mem_cons, List.mem_singleton, List.not_mem_nil, or_false] at he
      rcases he with rfl | rfl
      · simp [Event.mutation, Call.mutation] at hk
      · simp only [Event.mutation, encryptionUpdate_mutation, Option.some.injEq] at hk
        subst hk
        simp [mutationAllowed, hch, hne]
  · intro ext r hc
    refine callSpec_forall_mem hc ?_
    intro hcond f k hk
    simp only [Event.mutation, Call.mutation, Option.some.injEq] at hk
    subst hk
    exact hcond
  · intro ext r hc
    refine callSpec_forall_mem hc ?_
    intro hcond f k hk
    simp only [Event.mutation, Call.mutation, Option.some.injEq] at hk
    subst hk
    exact hcond
  · intro ext r hc e he k hk
    rw [hc.1 e he] at hk
    cases hk

theorem seq_mutations_sublist {β : Type} {Q1 : List Event → Except Failure Unit → Prop}
    {Q2 : List Event → Except Failure β → Prop} (l1 l2 : List MutationKind)
    {ext : List Event} {r : Except Failure β}
    (h1 : ∀ ext r, Q1 ext r → List.Sublist (mutations ext) l1)
    (h2 : ∀ ext r, Q2 ext r → List.Sublist (mutations ext) l2)
    (h : Seq Q1 Q2 ext r) : List.Sublist (mutations ext) (l1 ++ l2) := by
  rcases h with ⟨e, _, hq⟩ | ⟨e1, e2, rfl, hq1, hq2⟩
  · exact (h1 _ _ hq).trans (List.sublist_append_left _ _)
  · rw [mutations_append]
    exact List.Sublist.append (h1 _ _ hq1) (h2 _ _ hq2)

theorem callSpec_mutations_sublist {cond : Bool} {c : Call} {k : MutationKind}
    {ext : List Event} {r : Except Failure Unit}
    (h : CallSpec cond c ext r) (hk : c.mutation = some k) :
    List.Sublist (mutations ext) [k] := by
  rcases h with ⟨_, rfl, _⟩ | ⟨_, rfl, _⟩ | ⟨_, rfl, _⟩
  · simp [mutations]
  · simp [mutations, Event.mutation, hk]
  · simp [mutations, Event.mutation, hk]

theorem encryptionSpec_mutations_sublist {d : ResourceData} {client : Client}
    {id : VirtualMachineId} {ext : List Event} {r : Except Failure Unit}
    (h : EncryptionSpec d client id ext r) :
    List.Sublist (mutations ext) [MutationKind.diskEncryption] := by
  rcases h with ⟨_, rfl, _⟩ | ⟨_, _, rfl, _⟩ | ⟨_, _, h | ⟨ty, f, rfl, _⟩⟩
  · simp [mutations]
  · simp [mutations]
  · rw [h.1]
    simp [mutations, Event.mutation, Call.mutation]
  · simp [mutations, Event.mutation, Call.mutation, encryptionUpdate]

/-- The mutations issued after the flags are settled come in the fixed
order, each at most once. -/
theorem applySpec_ordered {d : ResourceData} {client : Client} {id : VirtualMachineId}
    {shouldTurnBackOn ephemeral : Bool} {p : Plan} {ext : List Event}
    {r : Except Failure ResourceData}
    (h : ApplySpec d client id shouldTurnBackOn ephemeral p ext r) :
    List.Sublist (mutations ext) mutationOrder := by
  unfold ApplySpec at h
  have h6 : ∀ (ext : List Event) (r : Except Failure ResourceData),
      Seq (CallSpec (shouldTurnBackOn && (p.shouldShutDown || p.shouldDeallocate))
        (Call.StartThenPoll id)) ReadSpec ext r →
      List.Sublist (mutations ext) [MutationKind.start] := by
    intro ext r hs
    have := seq_mutations_sublist [MutationKind.start] []
      (fun _ _ hc => by exact callSpec_mutations_sublist hc rfl)
      (fun _ _ hr => by rw [mutations_of_reads hr.1]) hs
    simpa using this
  refine seq_mutations_sublist [MutationKind.powerOff] _
    (fun _ _ hc => by exact callSpec_mutations_sublist hc rfl) ?_ h
  intro ext r h
  refine seq_mutations_sublist [MutationKind.deallocate] _
    (fun _ _ hc => by exact callSpec_mutations_sublist hc rfl) ?_ h
  intro ext r h
  refine seq_mutations_sublist [MutationKind.diskResize] _
    (fun _ _ hc => by exact callSpec_mutations_sublist hc rfl) ?_ h
  intro ext r h
  refine seq_mutations_sublist [MutationKind.diskEncryption] _
    (fun _ _ hc => by exact encryptionSpec_mutations_sublist hc) ?_ h
  intro ext r h
  refine seq_mutations_sublist [MutationKind.vmUpdate] _
    (fun _ _ hc => by exact callSpec_mutations_sublist hc rfl) ?_ h
  exact h6

/-! ## Peeling the steps of `applyPlan` -/

theorem seq_of_false {β : Type} {c : Call} {Q : List Event → Except Failure β → Prop}
    {ext : List Event} {r : Except Failure β} (h : Seq (CallSpec false c) Q ext r) : Q ext r := by
  rcases h with ⟨e, _, hq⟩ | ⟨e1, e2, rfl, hq1, hq2⟩
  · rcases hq with ⟨_, _, h⟩ | ⟨h, _⟩ | ⟨h, _⟩
    · cases h
    · cases h
    · cases h
  · rcases hq1 with ⟨_, rfl, _⟩ | ⟨h, _⟩ | ⟨h, _⟩
    · simpa using hq2
    · cases h
    · cases h

theorem seq_of_true {β : Type} {c : Call} {Q : List Event → Except Failure β → Prop}
    {ext : List Event} {r : Except Failure β} (h : Seq (CallSpec true c) Q ext r) :
    (ext = [Event.remote c true] ∧ ∃ doing err, r = Except.error (Failure.remote doing err)) ∨
    (∃ rest, ext = Event.remote c false :: rest ∧ Q rest r) := by
  rcases h with ⟨e, he, hq⟩ | ⟨e1, e2, rfl, hq1, hq2⟩
  · rcases hq with ⟨h, _⟩ | ⟨_, _, h⟩ | ⟨_, hext, doing, err, h⟩
    · cases h
    · cases h
    · left
      cases h
      exact ⟨hext, doing, err, he⟩
  · rcases hq1 with ⟨h, _⟩ | ⟨_, rfl, _⟩ | ⟨_, _, _, _, h⟩
    · cases h
    · right
      exact ⟨e2, rfl, hq2⟩
    · cases h

theorem seq_of_cond {β : Type} {cond : Bool} {c : Call}
    {Q : List Event → Except Failure β → Prop} {ext : List Event} {r : Except Failure β}
    (h : Seq (CallSpec cond c) Q ext r) :
    (cond = false ∧ Q ext r) ∨
    (cond = true ∧
      ((ext = [Event.remote c true] ∧ ∃ doing err, r = Except.error (Failure.remote doing err)) ∨
       (∃ rest, ext = Event.remote c false :: rest ∧ Q rest r))) := by
  cases cond with
  | false => exact Or.inl ⟨rfl, seq_of_false h⟩
  | true => exact Or.inr ⟨rfl, seq_of_true h⟩

theorem seq_of_no_encryption {β : Type} {d : ResourceData} {client : Client}
    {id : VirtualMachineId} {Q : List Event → Except Failure β → Prop}
    {ext : List Event} {r : Except Failure β}
    (hc : d.HasChange ["os_disk", "0", "disk_encryption_set_id"] = false)
    (h : Seq (EncryptionSpec d client id) Q ext r) : Q ext r := by
  rcases h with ⟨e, _, hq⟩ | ⟨e1, e2, rfl, hq1, hq2⟩
  · rcases hq with ⟨_, _, h⟩ | ⟨h, _⟩ | ⟨h, _⟩
    · cases h
    · rw [hc] at h; cases h
    · rw [hc] at h; cases h
  · rcases hq1 with ⟨_, rfl, _⟩ | ⟨h, _⟩ | ⟨h, _⟩
    · simpa using hq2
    · rw [hc] at h; cases h
    · rw [hc] at h; cases h

/-! ## A failed mutation ends the pass -/

theorem seq_failStop {β : Type} {Q1 : List Event → Except Failure Unit → Prop}
    {Q2 : List Event → Except Failure β → Prop} {ext : List Event} {r : Except Failure β}
    (h1 : ∀ ext e, Q1 ext (Except.error e) → FailStop ext (Except.error e : Except Failure Unit))
    (hok : ∀ ext, Q1 ext (Except.ok ()) → ∀ e ∈ ext, e.isFailedMutation = false)
    (h2 : ∀ ext r, Q2 ext r → FailStop ext r)
    (h : Seq Q1 Q2 ext r) : FailStop ext r := by
  rcases h with ⟨e, rfl, hq⟩ | ⟨e1, e2, rfl, hq1, hq2⟩
  · rcases h1 _ _ hq with h | ⟨pre, x, hext, hx, hpre, _⟩
    · exact Or.inl h
    · exact Or.inr ⟨pre, x, hext, hx, hpre, e, rfl⟩
  · have hn := hok _ hq1
    rcases h2 _ _ hq2 with h | ⟨pre, x, hext, hx, hpre, herr⟩
    · left
      intro e he
      rcases List.mem_append.mp he with h' | h'
      · exact hn e h'
      · exact h e h'
    · right
      refine ⟨e1 ++ pre, x, by rw [hext, List.append_assoc], hx, ?_, herr⟩
      intro y hy
      rcases List.mem_append.mp hy with h' | h'
      · exact hn y h'
      · exact hpre y h'

theorem callSpec_failStop_error {cond : Bool} {c : Call} {ext : List Event} {e : Failure}
    (h : CallSpec cond c ext (Except.error e)) :
    FailStop ext (Except.error e : Except Failure Unit) := by
  rcases h with ⟨_, _, h⟩ | ⟨_, _, h⟩ | ⟨_, rfl, _⟩
  · cases h
  · cases h
  · cases hm : c.mutation with
    | none =>
      left
      simp [Event.isFailedMutation, hm]
    | some k =>
      right
      exact ⟨[], Event.remote c true, rfl, by simp [Event.isFailedMutation, hm], by simp, e, rfl⟩

theorem callSpec_not_failed_of_ok {cond : Bool} {c : Call} {ext : List Event}
    (h : CallSpec cond c ext (Except.ok ())) : ∀ e ∈ ext, e.isFailedMutation = false := by
  rcases h with ⟨_, rfl, _⟩ | ⟨_, rfl, _⟩ | ⟨_, _, _, _, h⟩
  · simp
  · simp [Event.isFailedMutation]
  · cases h

theorem encryptionSpec_failStop_error {d : ResourceData} {client : Client}
    {id : VirtualMachineId} {ext : List Event} {e : Failure}
    (h : EncryptionSpec d client id ext (Except.error e)) :
    FailStop ext (Except.error e : Except Failure Unit) := by
  rcases h with ⟨_, _, h⟩ | ⟨_, _, rfl, _⟩ | ⟨_, _, h | ⟨ty, f, rfl, h⟩⟩
  · cases h
  · left; simp
  · left
    rw [h.1]
    simp [Event.isFailedMutation, Call.mutation]
  · rcases h with ⟨_, h⟩ | ⟨rfl, _⟩
    · cases h
    · right
      refine ⟨[Event.remote (Call.DiskEncryptionSetsGet d.osDiskEncryptionSetId) false], _, rfl,
        ?_, ?_, e, rfl⟩
      · simp [Event.isFailedMutation, encryptionUpdate_mutation]
      · simp [Event.isFailedMutation, Call.mutation]

theorem encryptionSpec_not_failed_of_ok {d : ResourceData} {client : Client}
    {id : VirtualMachineId} {ext : List Event}
    (h : EncryptionSpec d client id ext (Except.ok ())) :
    ∀ e ∈ ext, e.isFailedMutation = false := by
  rcases h with ⟨_, rfl, _⟩ | ⟨_, _, _, h⟩ | ⟨_, _, h | ⟨ty, f, rfl, h⟩⟩
  · simp
  · cases h
  · obtain ⟨_, _, _, h⟩ := h
    cases h
  · rcases h with ⟨rfl, _⟩ | ⟨_, _, _, h⟩
    · simp [Event.isFailedMutation, Call.mutation]
    · cases h

theorem readSpec_failStop {α : Type} {ext : List Event} {r : Except Failure α}
    (h : ReadSpec ext r) : FailStop ext r := by
  left
  intro e he
  have := h.1 e he
  cases e with
  | locked _ _ => rfl
  | unlocked _ _ => rfl
  | remote c f =>
    simp only [Event.mutation] at this
    simp [Event.isFailedMutation, this]

/-- After the flags are settled, a failed mutating call is the last entry and
the run ends with an error. -/
theorem applySpec_failStop {d : ResourceData} {client : Client} {id : VirtualMachineId}
    {shouldTurnBackOn ephemeral : Bool} {p : Plan} {ext : List Event}
    {r : Except Failure ResourceData}
    (h : ApplySpec d client id shouldTurnBackOn ephemeral p ext r) : FailStop ext r := by
  unfold ApplySpec at h
  refine seq_failStop (fun _ _ hc => callSpec_failStop_error hc)
    (fun _ hc => callSpec_not_failed_of_ok hc) ?_ h
  intro ext r h
  refine seq_failStop (fun _ _ hc => callSpec_failStop_error hc)
    (fun _ hc => callSpec_not_failed_of_ok hc) ?_ h
  intro ext r h
  refine seq_failStop (fun _ _ hc => callSpec_failStop_error hc)
    (fun _ hc => callSpec_not_failed_of_ok hc) ?_ h
  intro ext r h
  refine seq_failStop (fun _ _ hc => encryptionSpec_failStop_error hc)
    (fun _ hc => encryptionSpec_not_failed_of_ok hc) ?_ h
  intro ext r h
  refine seq_failStop (fun _ _ hc => callSpec_failStop_error hc)
    (fun _ hc => callSpec_not_failed_of_ok hc) ?_ h
  intro ext r h
  refine seq_failStop (fun _ _ hc => callSpec_failStop_error hc)
    (fun _ hc => callSpec_not_failed_of_ok hc) ?_ h
  intro ext r h
  exact readSpec_failStop h

/-! ## Validation errors and successful runs of `applyPlan` -/

theorem seq_validation {β : Type} {Q1 : List Event → Except Failure Unit → Prop}
    {Q2 : List Event → Except Failure β → Prop} {P : Prop}
    {ext : List Event} {msg : String}
    (h1 : ∀ ext, Q1 ext (Except.error (Failure.validation msg)) → P)
    (h2 : ∀ ext, Q2 ext (Except.error (Failure.validation msg)) → P)
    (h : Seq Q1 Q2 ext (Except.error (Failure.validation msg))) : P := by
  rcases h with ⟨e, he, hq⟩ | ⟨e1, e2, _, _, hq2⟩
  · cases he
    exact h1 _ hq
  · exact h2 _ hq2

theorem callSpec_not_validation {cond : Bool} {c : Call} {ext : List Event} {msg : String}
    {P : Prop} (h : CallSpec cond c ext (Except.error (Failure.validation msg))) : P := by
  rcases h with ⟨_, _, h⟩ | ⟨_, _, h⟩ | ⟨_, _, _, _, h⟩ <;> cases h

/-- After the flags are settled the only validation error is the one of
line 1569. -/
theorem applySpec_validation {d : ResourceData} {client : Client} {id : VirtualMachineId}
    {shouldTurnBackOn ephemeral : Bool} {p : Plan} {ext : List Event} {msg : String}
    (h : ApplySpec d client id shouldTurnBackOn ephemeral p ext
      (Except.error (Failure.validation msg))) : msg = keyResetMessage := by
  unfold ApplySpec at h
  refine seq_validation (fun _ hc => callSpec_not_validation hc) ?_ h
  intro ext h
  refine seq_validation (fun _ hc => callSpec_not_validation hc) ?_ h
  intro ext h
  refine seq_validation (fun _ hc => callSpec_not_validation hc) ?_ h
  intro ext h
  refine seq_validation ?_ ?_ h
  · intro ext hc
    rcases hc with ⟨_, _, h⟩ | ⟨_, _, _, h⟩ | ⟨_, _, ⟨_, _, _, h⟩ | ⟨_, _, _, ⟨_, h⟩ | ⟨_, _, _, h⟩⟩⟩
    · cases h
    · cases h
      rfl
    · cases h
    · cases h
    · cases h
  intro ext h
  refine seq_validation (fun _ hc => callSpec_not_validation hc) ?_ h
  intro ext h
  refine seq_validation (fun _ hc => callSpec_not_validation hc) ?_ h
  intro ext h
  exact absurd rfl (h.2 msg)

theorem seq_success {β : Type} {Q1 : List Event → Except Failure Unit → Prop}
    {Q2 : List Event → Except Failure β → Prop} {ext : List Event} {a : β}
    (h : Seq Q1 Q2 ext (Except.ok a)) :
    ∃ e1 e2, ext = e1 ++ e2 ∧ Q1 e1 (Except.ok ()) ∧ Q2 e2 (Except.ok a) := by
  rcases h with ⟨e, he, _⟩ | h
  · cases he
  · exact h

theorem callSpec_mutations_of_ok {cond : Bool} {c : Call} {k : MutationKind}
    {ext : List Event} (h : CallSpec cond c ext (Except.ok ())) (hk : c.mutation = some k) :
    mutations ext = if cond then [k] else [] := by
  rcases h with ⟨rfl, rfl, _⟩ | ⟨rfl, rfl, _⟩ | ⟨_, _, _, _, h⟩
  · rfl
  · simp [mutations, Event.mutation, hk]
  · cases h

theorem encryptionSpec_mutations_of_ok {d : ResourceData} {client : Client}
    {id : VirtualMachineId} {ext : List Event}
    (h : EncryptionSpec d client id ext (Except.ok ())) :
    mutations ext =
      if d.HasChange ["os_disk", "0", "disk_encryption_set_id"] &&
          d.osDiskEncryptionSetId != "" then [MutationKind.diskEncryption]
      else [] := by
  rcases h with ⟨hc, rfl, _⟩ | ⟨_, _, _, h⟩ | ⟨hc, hne, h | ⟨ty, f, rfl, h⟩⟩
  · simp [hc, mutations]
  · cases h
  · obtain ⟨_, _, _, h⟩ := h
    cases h
  · simp [hc, hne, mutations, Event.mutation, Call.mutation, encryptionUpdate]

theorem filter_mutationOrder (f : MutationKind → Bool) :
    mutationOrder.filter f =
      (if f MutationKind.powerOff then [MutationKind.powerOff] else []) ++
      ((if f MutationKind.deallocate then [MutationKind.deallocate] else []) ++
      ((if f MutationKind.diskResize then [MutationKind.diskResize] else []) ++
      ((if f MutationKind.diskEncryption then [MutationKind.diskEncryption] else []) ++
      ((if f MutationKind.vmUpdate then [MutationKind.vmUpdate] else []) ++
      (if f MutationKind.start then [MutationKind.start] else []))))) := by
  unfold mutationOrder
  cases h1 : f MutationKind.powerOff <;> cases h2 : f MutationKind.deallocate <;>
    cases h3 : f MutationKind.diskResize <;> cases h4 : f MutationKind.diskEncryption <;>
    cases h5 : f MutationKind.vmUpdate <;> cases h6 : f MutationKind.start <;>
    simp [List.filter, h1, h2, h3, h4, h5, h6]

/-- A successful run issues exactly the mutations its flags allow, in
order. -/
theorem applySpec_success {d : ResourceData} {client : Client} {id : VirtualMachineId}
    {shouldTurnBackOn ephemeral : Bool} {p : Plan} {ext : List Event} {d2 : ResourceData}
    (h : ApplySpec d client id shouldTurnBackOn ephemeral p ext (Except.ok d2)) :
    mutations ext = mutationOrder.filter (mutationAllowed d shouldTurnBackOn ephemeral p) := by
  unfold ApplySpec at h
  obtain ⟨a1, r1, rfl, h1, h⟩ := seq_success h
  obtain ⟨a2, r2, rfl, h2, h⟩ := seq_success h
  obtain ⟨a3, r3, rfl, h3, h⟩ := seq_success h
  obtain ⟨a4, r4, rfl, h4, h⟩ := seq_success h
  obtain ⟨a5, r5, rfl, h5, h⟩ := seq_success h
  obtain ⟨a6, r6, rfl, h6, h⟩ := seq_success h
  have e1 : mutations a1 = if p.shouldShutDown then [MutationKind.powerOff] else [] :=
    callSpec_mutations_of_ok h1 rfl
  have e2 : mutations a2 =
      if (p.shouldDeallocate && !ephemeral) then [MutationKind.deallocate] else [] :=
    callSpec_mutations_of_ok h2 rfl
  have e3 : mutations a3 =
      if d.HasChange ["os_disk", "0", "disk_size_gb"] then [MutationKind.diskResize] else [] :=
    callSpec_mutations_of_ok h3 (resize_mutation _ _)
  have e4 := encryptionSpec_mutations_of_ok h4
  have e5 : mutations a5 = if p.shouldUpdate then [MutationKind.vmUpdate] else [] :=
    callSpec_mutations_of_ok h5 rfl
  have e6 : mutations a6 =
      if (shouldTurnBackOn && (p.shouldShutDown || p.shouldDeallocate)) then
        [MutationKind.start] else [] :=
    callSpec_mutations_of_ok h6 rfl
  rw [filter_mutationOrder]
  simp only [mutations_append, e1, e2, e3, e4, e5, e6, mutations_of_reads h.1,
    mutationAllowed, List.append_nil]

/-! ## The change set -/

theorem HasChange_nil (d : ResourceData) (key : Path) (h : d.changed = []) :
    d.HasChange key = false := by
  simp [ResourceData.HasChange, h]

theorem HasChange_head (d : ResourceData) (k : String) (rest : Path)
    (h : d.HasChange (k :: rest) = true) : ∃ path ∈ d.changed, path.head? = some k := by
  unfold ResourceData.HasChange at h
  rw [List.any_eq_true] at h
  obtain ⟨path, hmem, hp⟩ := h
  refine ⟨path, hmem, ?_⟩
  cases path with
  | nil => simp [List.isPrefixOf] at hp
  | cons a as =>
    simp only [List.isPrefixOf, Bool.and_eq_true, beq_iff_eq] at hp
    simp [hp.1]

theorem HasChange_of_mem (d : ResourceData) (k : String) (path : Path)
    (hmem : path ∈ d.changed) (h : path.head? = some k) : d.HasChange [k] = true := by
  unfold ResourceData.HasChange
  rw [List.any_eq_true]
  refine ⟨path, hmem, ?_⟩
  cases path with
  | nil => simp at h
  | cons a as =>
    simp only [List.head?_cons, Option.some.injEq] at h
    simp [List.isPrefixOf, h]

/-! ## The whole pass -/

theorem event_mutation_of_quiet (e : Event) (h : e.isQuiet = true) : e.mutation = none := by
  cases e with
  | locked _ _ => rfl
  | unlocked _ _ => rfl
  | remote c f =>
    cases c <;> simp [Event.isQuiet, Call.isPlanningRead] at h <;> rfl

theorem event_not_failed_of_mutation_none (e : Event) (h : e.mutation = none) :
    e.isFailedMutation = false := by
  cases e with
  | locked _ _ => rfl
  | unlocked _ _ => rfl
  | remote c f =>
    simp only [Event.mutation] at h
    simp [Event.isFailedMutation, h]

theorem traceAfterInstanceView_quiet (client : Client) (id : VirtualMachineId) :
    ∀ e ∈ traceAfterInstanceView client id, e.isQuiet = true := by
  intro e he
  simp only [traceAfterInstanceView, traceAfterGet, lockedTrace, List.mem_append,
    List.mem_singleton] at he
  rcases he with (rfl | rfl) | rfl <;> rfl

theorem planExt_quiet (d : ResourceData) (client : Client) (id : VirtualMachineId) (t : Trace)
    (planExt : List Event) (h : (planUpdate d client id t).2 = t ++ planExt) :
    (∀ e ∈ planExt, e.isQuiet = true) ∧ (d.HasChange ["size"] = false → planExt = []) := by
  obtain ⟨ext, h1, h2, _⟩ := planUpdate_spec d client id t
  have : planExt = ext := List.append_cancel_left (h.symm.trans h1)
  subst this
  rcases h2 with rfl | ⟨hc, rfl⟩
  · simp
  · constructor
    · intro e he
      simp only [List.mem_singleton] at he
      subst he
      rfl
    · intro hn
      rw [hc] at hn
      cases hn

/-- Either the pass stops before its plan is settled, having only taken the
lock and read, or it is planned and runs the steps of `applyPlan`. -/
theorem update_cases (d : ResourceData) (client : Client) :
    ((∀ e ∈ updateTrace d client, e.isQuiet = true) ∧
      (∀ d2, updateOutcome d client ≠ Except.ok d2)) ∨
    ∃ id existing instanceView p planExt applyExt,
      Planned d client id existing instanceView p ∧
      (∀ e ∈ planExt, e.isQuiet = true) ∧
      (d.HasChange ["size"] = false → planExt = []) ∧
      updateTrace d client =
        traceAfterInstanceView client id ++ planExt ++ applyExt ++ [unlockedEvent id] ∧
      ApplySpec d client id (client.virtualMachineShouldBeStarted instanceView)
        (hasEphemeralOSDisk existing) (adjustForPowerState instanceView p) applyExt
        (updateOutcome d client) := by
  have hq := traceAfterInstanceView_quiet client
  rcases update_shape d client with ⟨e, _, ht, ho⟩ | ⟨id, hid, h⟩
  · left
    rw [ht, ho]
    simp
  · rcases h with ⟨err, hget, ht, ho⟩ | ⟨existing, hget, h⟩
    · left
      rw [ht, ho]
      refine ⟨?_, by simp⟩
      intro e he
      simp only [traceAfterGet, lockedTrace, unlockedEvent, List.mem_append,
        List.mem_singleton] at he
      rcases he with (rfl | rfl) | rfl <;> rfl
    · rcases h with ⟨err, hiv, ht, ho⟩ | ⟨instanceView, hiv, planExt, hp2, h⟩
      · left
        rw [ht, ho]
        refine ⟨?_, by simp⟩
        intro e he
        rcases List.mem_append.mp he with h | h
        · exact hq id e h
        · simp only [unlockedEvent, List.mem_singleton] at h
          subst h
          rfl
      · have hpq := planExt_quiet d client id _ planExt hp2
        rcases h with ⟨e, hp1, ht, ho⟩ | ⟨p, applyExt, hp1, ht, hspec⟩
        · left
          rw [ht, ho]
          refine ⟨?_, by simp⟩
          intro x hx
          rcases List.mem_append.mp hx with h | h
          · rcases List.mem_append.mp h with h | h
            · exact hq id x h
            · exact hpq.1 x h
          · simp only [unlockedEvent, List.mem_singleton] at h
            subst h
            rfl
        · right
          exact ⟨id, existing, instanceView, p, planExt, applyExt, ⟨hid, hget, hiv, hp1⟩,
            hpq.1, hpq.2, ht, hspec⟩

/-- A planned pass has one id, one existing machine, one instance view and
one plan. -/
theorem planned_unique {d : ResourceData} {client : Client} {id id2 : VirtualMachineId}
    {existing existing2 : Option VirtualMachine}
    {iv iv2 : Option VirtualMachineInstanceView} {p p2 : Plan}
    (h : Planned d client id existing iv p) (h2 : Planned d client id2 existing2 iv2 p2) :
    id2 = id ∧ existing2 = existing ∧ iv2 = iv ∧ p2 = p := by
  obtain ⟨a1, a2, a3, a4⟩ := h
  obtain ⟨b1, b2, b3, b4⟩ := h2
  rw [a1] at b1
  cases b1
  rw [a2] at b2
  cases b2
  rw [a3] at b3
  cases b3
  rw [a4] at b4
  cases b4
  exact ⟨rfl, rfl, rfl, rfl⟩

/-- The run of a planned pass. -/
theorem planned_run {d : ResourceData} {client : Client} {id : VirtualMachineId}
    {existing : Option VirtualMachine} {iv : Option VirtualMachineInstanceView} {p : Plan}
    (h : Planned d client id existing iv p) :
    ∃ planExt applyExt,
      (∀ e ∈ planExt, e.isQuiet = true) ∧
      (d.HasChange ["size"] = false → planExt = []) ∧
      updateTrace d client =
        traceAfterInstanceView client id ++ planExt ++ applyExt ++ [unlockedEvent id] ∧
      ApplySpec d client id (client.virtualMachineShouldBeStarted iv)
        (hasEphemeralOSDisk existing) (adjustForPowerState iv p) applyExt
        (updateOutcome d client) := by
  rcases update_shape d client with ⟨e, he, _⟩ | ⟨id2, hid, hs⟩
  · rw [h.1] at he
    cases he
  · rw [h.1] at hid
    cases hid
    rcases hs with ⟨err, hget, _⟩ | ⟨existing2, hget, hs⟩
    · rw [h.2.1] at hget
      cases hget
    · rw [h.2.1] at hget
      cases hget
      rcases hs with ⟨err, hiv, _⟩ | ⟨iv2, hiv, planExt, hp2, hs⟩
      · rw [h.2.2.1] at hiv
        cases hiv
      · rw [h.2.2.1] at hiv
        cases hiv
        have hpq := planExt_quiet d client id _ planExt hp2
        rcases hs with ⟨e, hp1, _⟩ | ⟨p2, applyExt, hp1, ht, hspec⟩
        · rw [h.2.2.2] at hp1
          cases hp1
        · rw [h.2.2.2] at hp1
          cases hp1
          exact ⟨planExt, applyExt, hpq.1, hpq.2, ht, hspec⟩

/-- The flags of a planned pass are those of the table. -/
theorem planned_flags {d : ResourceData} {client : Client} {id : VirtualMachineId}
    {existing : Option VirtualMachine} {iv : Option VirtualMachineInstanceView} {p : Plan}
    (h : Planned d client id existing iv p) :
    ∃ available, p.flags = plannedFlags d available := by
  obtain ⟨_, _, _, h3⟩ := planUpdate_spec d client id (traceAfterInstanceView client id)
  obtain ⟨a, ha, _⟩ := h3 p h.2.2.2
  exact ⟨a, ha⟩

/-- The mutations of the trace of a planned pass are those of its
`applyPlan` part. -/
theorem mutations_of_run (client : Client) (id : VirtualMachineId)
    (planExt applyExt : List Event) (hq : ∀ e ∈ planExt, e.isQuiet = true) :
    mutations (traceAfterInstanceView client id ++ planExt ++ applyExt ++ [unlockedEvent id]) =
      mutations applyExt := by
  have h1 : mutations (traceAfterInstanceView client id) = [] := by
    unfold mutations
    rw [List.filterMap_eq_nil_iff]
    exact fun e he => event_mutation_of_quiet e (traceAfterInstanceView_quiet client id e he)
  have h2 : mutations planExt = [] := by
    unfold mutations
    rw [List.filterMap_eq_nil_iff]
    exact fun e he => event_mutation_of_quiet e (hq e he)
  have h3 : mutations [unlockedEvent id] = [] := rfl
  rw [mutations_append, mutations_append, mutations_append, h1, h2, h3]
  simp

theorem mutations_of_quiet (t : List Event) (h : ∀ e ∈ t, e.isQuiet = true) :
    mutations t = [] := by
  unfold mutations
  rw [List.filterMap_eq_nil_iff]
  exact fun e he => event_mutation_of_quiet e (h e he)

theorem mem_mutations {t : List Event} {k : MutationKind} :
    k ∈ mutations t ↔ ∃ e ∈ t, e.mutation = some k := by
  simp [mutations, List.mem_filterMap]

/-! ## The claims -/

theorem mutation_of_hasKind {e : Event} {k : MutationKind} (h : e.hasKind k = true) :
    e.mutation = some k := by
  simpa [Event.hasKind] using h

/-- A mutating entry of the trace of a run lies in its `applyPlan` part. -/
theorem mem_applyExt_of_mutation (client : Client) (id : VirtualMachineId)
    (planExt applyExt : List Event) (hq : ∀ e ∈ planExt, e.isQuiet = true)
    (e : Event) (k : MutationKind) (hk : e.mutation = some k)
    (he : e ∈ traceAfterInstanceView client id ++ planExt ++ applyExt ++ [unlockedEvent id]) :
    e ∈ applyExt := by
  simp only [List.mem_append, List.mem_singleton] at he
  rcases he with ((h | h) | h) | h
  · rw [event_mutation_of_quiet e (traceAfterInstanceView_quiet client id e h)] at hk
    cases hk
  · rw [event_mutation_of_quiet e (hq e h)] at hk
    cases hk
  · exact h
  · subst h
    cases hk

/-- Every mutation of an Update pass belongs to a planned pass and is allowed
by its settled flags. -/
theorem update_mutation_allowed (d : ResourceData) (client : Client) (e : Event)
    (k : MutationKind) (he : e ∈ updateTrace d client) (hk : e.mutation = some k) :
    ∃ id existing iv p, Planned d client id existing iv p ∧
      mutationAllowed d (client.virtualMachineShouldBeStarted iv) (hasEphemeralOSDisk existing)
        (adjustForPowerState iv p) k = true := by
  rcases update_cases d client with ⟨hq, _⟩ | ⟨id, existing, iv, p, planExt, applyExt, hp, hq,
    _, ht, hspec⟩
  · rw [event_mutation_of_quiet e (hq e he)] at hk
    cases hk
  · rw [ht] at he
    have hmem := mem_applyExt_of_mutation client id planExt applyExt hq e k hk he
    exact ⟨id, existing, iv, p, hp, applySpec_allowed hspec e hmem k hk⟩

theorem update_ordered (d : ResourceData) (client : Client) :
    List.Sublist (mutations (updateTrace d client)) mutationOrder := by
  rcases update_cases d client with ⟨hq, _⟩ | ⟨id, existing, iv, p, planExt, applyExt, _, hq,
    _, ht, hspec⟩
  · rw [mutations_of_quiet _ hq]
    exact List.nil_sublist _
  · rw [ht, mutations_of_run client id planExt applyExt hq]
    exact applySpec_ordered hspec

/-- C1. When the existing machine has an ephemeral OS disk (diff disk option
`Local`), an Update pass never issues a Deallocate call, whatever the change
set and the instance view; the skipped deallocation adds no call and no
error; and a pass that ends well has issued exactly the mutations the same
flags give for a managed disk, with the deallocation left out, so the disk
updates and the update of the machine are still sent. -/
theorem update_never_deallocates_ephemeral_disk (d : ResourceData) (client : Client)
    (id : VirtualMachineId) (existing : Option VirtualMachine)
    (hid : client.ParseVirtualMachineID d.Id = Except.ok id)
    (hget : existingAtStart client id = Except.ok existing)
    (heph : hasEphemeralOSDisk existing = true) :
    (∀ e ∈ updateTrace d client, e.hasKind MutationKind.deallocate = false) ∧
    (∀ (shouldDeallocate : Bool) (t : Trace),
      deallocateIfNeeded client id shouldDeallocate true t = (Except.ok (), t)) ∧
    (∀ iv p d2, Planned d client id existing iv p → updateOutcome d client = Except.ok d2 →
      mutations (updateTrace d client) =
        (mutationOrder.filter (mutationAllowed d (client.virtualMachineShouldBeStarted iv)
          false (adjustForPowerState iv p))).filter
          (fun k => k != MutationKind.deallocate)) := by
  refine ⟨?_, ?_, ?_⟩
  · intro e he
    cases hk : e.hasKind MutationKind.deallocate with
    | false => rfl
    | true =>
      obtain ⟨id2, existing2, iv, p, hp, hallow⟩ :=
        update_mutation_allowed d client e _ he (mutation_of_hasKind hk)
      have h1 := hp.1
      rw [hid] at h1
      cases h1
      have h2 := hp.2.1
      rw [hget] at h2
      cases h2
      simp [mutationAllowed, heph] at hallow
  · intro shouldDeallocate t
    rw [deallocateIfNeeded_eq]
    cases shouldDeallocate <;> rfl
  · intro iv p d2 hp hok
    obtain ⟨planExt, applyExt, hq, _, ht, hspec⟩ := planned_run hp
    rw [hok, heph] at hspec
    rw [ht, mutations_of_run client id planExt applyExt hq, applySpec_success hspec,
      List.filter_filter]
    apply List.filter_congr
    intro k _
    cases k <;> simp [mutationAllowed]

/-- C1, on a sample: an ephemeral machine whose dedicated host changed. -/
theorem update_never_deallocates_ephemeral_disk_witness :
    ephemeralClient.ParseVirtualMachineID
        hostChange.Id = Except.ok sampleId ∧
      existingAtStart ephemeralClient
        sampleId = Except.ok (some ephemeralMachine) ∧
      hasEphemeralOSDisk (some ephemeralMachine) = true ∧
      (∀ e ∈ updateTrace hostChange
          ephemeralClient,
        e.hasKind MutationKind.deallocate = false) :=
  ⟨rfl, rfl, rfl,
    (update_never_deallocates_ephemeral_disk hostChange
      ephemeralClient sampleId
      (some ephemeralMachine) rfl rfl rfl).1⟩

/-- C9. In every Update pass the mutating calls issued form a sub-sequence of
power-off, deallocate, OS disk resize, OS disk encryption update, update of
the machine, start: each is issued at most once and none of a later kind
precedes one of an earlier kind. -/
theorem update_mutations_in_fixed_order (d : ResourceData) (client : Client) :
    List.Sublist (mutations (updateTrace d client)) mutationOrder :=
  update_ordered d client

/-- C3. With an empty change set an Update pass issues no mutating remote
call: no power-off, deallocate, disk update, update of the machine or start;
every remote call of its trace is a read. -/
theorem update_empty_change_set_only_reads (d : ResourceData) (client : Client)
    (h : d.changed = []) :
    mutations (updateTrace d client) = [] ∧
    (∀ e ∈ updateTrace d client, e.isMutating = false) := by
  have hall : ∀ e ∈ updateTrace d client, e.mutation = none := by
    intro e he
    cases hk : e.mutation with
    | none => rfl
    | some k =>
      obtain ⟨id, existing, iv, p, hp, hallow⟩ := update_mutation_allowed d client e k he hk
      obtain ⟨a, ha⟩ := planned_flags hp
      have hle := foldl_adjust_le (statusesOf iv) p
      rw [← adjustForPowerState_eq] at hle
      have hf : p.shouldUpdate = false ∧ p.shouldShutDown = false ∧
          p.shouldDeallocate = false := by
        have h1 : p.flags.update = false := by
          rw [ha]
          simp [plannedFlags, flagsAfterSize, flagsBeforeSize, Flags.raiseAll, Flags.raise,
            HasChange_nil d _ h]
        have h2 : p.flags.shutDown = false := by
          rw [ha]
          simp [plannedFlags, flagsAfterSize, flagsBeforeSize, Flags.raiseAll, Flags.raise,
            HasChange_nil d _ h]
        have h3 : p.flags.deallocate = false := by
          rw [ha]
          simp [plannedFlags, flagsAfterSize, flagsBeforeSize, Flags.raiseAll, Flags.raise,
            HasChange_nil d _ h]
        exact ⟨h1, h2, h3⟩
      have g1 : (adjustForPowerState iv p).shouldShutDown = false := by
        cases hx : (adjustForPowerState iv p).shouldShutDown with
        | false => rfl
        | true => rw [hle.2.2.1 hx] at hf; cases hf.2.1
      have g2 : (adjustForPowerState iv p).shouldDeallocate = false := by
        cases hx : (adjustForPowerState iv p).shouldDeallocate with
        | false => rfl
        | true => rw [hle.2.2.2 hx] at hf; cases hf.2.2
      have g3 : (adjustForPowerState iv p).shouldUpdate = false := by
        rw [hle.1]; exact hf.1
      cases k <;> simp [mutationAllowed, g1, g2, g3, HasChange_nil d _ h] at hallow
  refine ⟨?_, ?_⟩
  · unfold mutations
    rw [List.filterMap_eq_nil_iff]
    exact hall
  · intro e he
    simp [Event.isMutating, hall e he]

/-- C3, on a sample: a pass without any change. -/
theorem update_empty_change_set_only_reads_witness :
    noChange.changed = [] ∧
      mutations (updateTrace noChange
        runningClient) = [] :=
  ⟨rfl, (update_empty_change_set_only_reads noChange
    runningClient rfl).1⟩

/-- The flags of a plan when only attributes of the non-disruptive list
changed. -/
theorem plannedFlags_non_disruptive (d : ResourceData) (available : Bool)
    (hnd : ∀ path ∈ d.changed, ∃ k ∈ nonDisruptiveAttributes, path.head? = some k)
    (hne : d.changed ≠ []) :
    plannedFlags d available = { update := true, shutDown := false, deallocate := false } := by
  have hno : ∀ (k : String) (rest : Path), k ∉ nonDisruptiveAttributes →
      d.HasChange (k :: rest) = false := by
    intro k rest hk
    cases hc : d.HasChange (k :: rest) with
    | false => rfl
    | true =>
      obtain ⟨path, hmem, hhead⟩ := HasChange_head d k rest hc
      obtain ⟨k2, hk2, hhead2⟩ := hnd path hmem
      rw [hhead] at hhead2
      cases hhead2
      exact absurd hk2 hk
  have h1 := hno "capacity_reservation_group_id" [] (by decide)
  have h2 := hno "dedicated_host_id" [] (by decide)
  have h3 := hno "dedicated_host_group_id" [] (by decide)
  have h4 := hno "max_bid_price" [] (by decide)
  have h5 := hno "network_interface_ids" [] (by decide)
  have h6 := hno "os_disk" [] (by decide)
  have h7 := hno "proximity_placement_group_id" [] (by decide)
  have h8 := hno "size" [] (by decide)
  have h9 := hno "additional_capabilities" [] (by decide)
  have h10 := hno "encryption_at_host_enabled" [] (by decide)
  obtain ⟨path, hmem⟩ := List.exists_mem_of_ne_nil _ hne
  obtain ⟨k, hk, hhead⟩ := hnd path hmem
  have hc := HasChange_of_mem d k path hmem hhead
  simp only [nonDisruptiveAttributes, List.mem_cons, List.mem_singleton, List.not_mem_nil,
    or_false] at hk
  rcases hk with rfl | rfl | rfl | rfl | rfl | rfl | rfl | rfl | rfl | rfl | rfl | rfl | rfl |
    rfl | rfl <;>
    simp [plannedFlags, flagsAfterSize, flagsBeforeSize, Flags.raiseAll, Flags.raise,
      h1, h2, h3, h4, h5, h6, h7, h8, h9, h10, hc]

/-- C2. For a non-empty change set drawn only from the non-disruptive
attributes, a pass that gets through its reads and its validation plans
shouldShutDown = false and shouldDeallocate = false, and the mutations of its
trace are exactly one update of the machine: no power-off, no deallocate, no
disk update and no start. -/
theorem update_non_disruptive_changes (d : ResourceData) (client : Client)
    (id : VirtualMachineId) (existing : Option VirtualMachine)
    (iv : Option VirtualMachineInstanceView) (p : Plan)
    (hnd : ∀ path ∈ d.changed, ∃ k ∈ nonDisruptiveAttributes, path.head? = some k)
    (hne : d.changed ≠ [])
    (hp : Planned d client id existing iv p) :
    p.shouldShutDown = false ∧ p.shouldDeallocate = false ∧
    mutations (updateTrace d client) = [MutationKind.vmUpdate] := by
  obtain ⟨a, ha⟩ := planned_flags hp
  rw [plannedFlags_non_disruptive d a hnd hne] at ha
  have hu : p.shouldUpdate = true := congrArg Flags.update ha
  have hs : p.shouldShutDown = false := congrArg Flags.shutDown ha
  have hd : p.shouldDeallocate = false := congrArg Flags.deallocate ha
  refine ⟨hs, hd, ?_⟩
  have hle := foldl_adjust_le (statusesOf iv) p
  rw [← adjustForPowerState_eq] at hle
  have g1 : (adjustForPowerState iv p).shouldShutDown = false := by
    cases hx : (adjustForPowerState iv p).shouldShutDown with
    | false => rfl
    | true => rw [hle.2.2.1 hx] at hs; cases hs
  have g2 : (adjustForPowerState iv p).shouldDeallocate = false := by
    cases hx : (adjustForPowerState iv p).shouldDeallocate with
    | false => rfl
    | true => rw [hle.2.2.2 hx] at hd; cases hd
  have g3 : (adjustForPowerState iv p).shouldUpdate = true := by
    rw [hle.1]; exact hu
  have hdisk : ∀ rest, d.HasChange ("os_disk" :: rest) = false := by
    intro rest
    cases hc : d.HasChange ("os_disk" :: rest) with
    | false => rfl
    | true =>
      obtain ⟨path, hmem, hhead⟩ := HasChange_head d _ rest hc
      obtain ⟨k2, hk2, hhead2⟩ := hnd path hmem
      rw [hhead] at hhead2
      cases hhead2
      exact absurd hk2 (by decide)
  obtain ⟨planExt, applyExt, hq, _, ht, hspec⟩ := planned_run hp
  rw [ht, mutations_of_run client id planExt applyExt hq]
  unfold ApplySpec at hspec
  rw [g1, g2, g3, hdisk] at hspec
  simp only [Bool.false_and, Bool.or_self, Bool.and_false] at hspec
  have hspec := seq_of_no_encryption (hdisk _) (seq_of_false (seq_of_false (seq_of_false hspec)))
  rcases seq_of_true hspec with ⟨hext, _⟩ | ⟨rest, hext, hrest⟩
  · rw [hext]
    rfl
  · have hreads := seq_of_false hrest
    rw [hext]
    show mutations ([Event.remote (Call.UpdateThenPoll id (adjustForPowerState iv p).update)
      false] ++ rest) = _
    rw [mutations_append, mutations_of_reads hreads.1]
    rfl

/-- C2, on a sample: only the tags changed. -/
theorem update_non_disruptive_changes_witness :
    (∀ path ∈ tagsChange.changed, ∃ k ∈ nonDisruptiveAttributes, path.head? = some k) ∧
      tagsChange.changed ≠ [] ∧
      Planned tagsChange runningClient sampleId (some managedMachine)
        (sampleInstanceView ["ProvisioningState/succeeded", "PowerState/running"])
        tagsChangePlan ∧
      tagsChangePlan.shouldShutDown = false ∧ tagsChangePlan.shouldDeallocate = false ∧
      mutations (updateTrace tagsChange runningClient) = [MutationKind.vmUpdate] :=
  ⟨by decide, by decide, ⟨rfl, rfl, rfl, rfl⟩,
    update_non_disruptive_changes tagsChange runningClient sampleId (some managedMachine)
      (sampleInstanceView ["ProvisioningState/succeeded", "PowerState/running"])
      tagsChangePlan (by decide) (by decide) ⟨rfl, rfl, rfl, rfl⟩⟩

/-- C6. When `size` is in the change set and the requested size matches none
of the names answered by `ListAvailableSizes` (compared by the
`strings.EqualFold` of the client, without regard to letter case, entries
without a name skipped), every plan the pass arrives at has
shouldDeallocate = true and shouldShutDown = true. -/
theorem plan_size_change_requires_deallocation (d : ResourceData) (client : Client)
    (id : VirtualMachineId) (t t2 : Trace) (p : Plan)
    (hsize : d.HasChange ["size"] = true)
    (hnone : ∀ model value size name,
      client.ListAvailableSizes t id = Except.ok (some model) → model.Value = some value →
      size ∈ value → size.Name = some name →
      client.EqualFold name d.config.size = false)
    (hplan : planUpdate d client id t = (Except.ok p, t2)) :
    p.shouldDeallocate = true ∧ p.shouldShutDown = true := by
  obtain ⟨_, _, _, h3⟩ := planUpdate_spec d client id t
  obtain ⟨a, ha, hav⟩ := h3 p (by rw [hplan])
  obtain ⟨model, hmodel, hamodel⟩ := hav hsize
  have hfalse : a = false := by
    rw [hamodel]
    unfold availableOnThisHost
    cases model with
    | none => rfl
    | some m =>
      cases hv : m.Value with
      | none => simp [hv]
      | some value =>
        simp only [hv]
        rw [List.any_eq_false]
        intro size hmem
        cases hn : size.Name with
        | none => simp
        | some name => simp [hnone m value size name hmodel hv hmem hn]
  subst hfalse
  have hd : p.flags.deallocate = true := by
    rw [ha]
    simp [plannedFlags, flagsAfterSize, Flags.raiseAll, Flags.raise, hsize]
  have hs : p.flags.shutDown = true := by
    rw [ha]
    simp [plannedFlags, flagsAfterSize, Flags.raiseAll, Flags.raise, hsize]
  exact ⟨hd, hs⟩

/-- C6, on a sample: the host offers `Standard_F2`, the configuration asks
for `Standard_F4s_v2`. -/
theorem plan_size_change_requires_deallocation_witness :
    sizeChange.HasChange ["size"] = true ∧
      planUpdate sizeChange runningClient sampleId [] =
        (Except.ok sizeChangePlan, [Event.remote (Call.ListAvailableSizes sampleId) false]) ∧
      sizeChangePlan.shouldDeallocate = true ∧ sizeChangePlan.shouldShutDown = true :=
  ⟨by decide, rfl,
    plan_size_change_requires_deallocation sizeChange runningClient sampleId []
      [Event.remote (Call.ListAvailableSizes sampleId) false] sizeChangePlan (by decide)
      (by
        intro model value size name hm hv hs hn
        have hm2 : model =
            { Value := some [{ Name := none }, { Name := some "Standard_F2" }] } := by
          simp only [runningClient, sampleClient, Except.ok.injEq, Option.some.injEq] at hm
          exact hm.symm
        subst hm2
        simp only [Option.some.injEq] at hv
        subst hv
        simp only [List.mem_cons, List.mem_singleton, List.not_mem_nil, or_false] at hs
        rcases hs with rfl | rfl
        · cases hn
        · simp only [Option.some.injEq] at hn
          subst hn
          decide)
      rfl⟩

/-- C4, refuted as stated: a pass that ends in the validation error of
`reboot_setting` has already called `Get` and `InstanceView`, and a pass that
ends in the validation error of a disk encryption set changed back to empty
has already powered off and deallocated the machine. -/
theorem update_validation_error_after_remote_calls :
    (updateOutcome rebootWithoutPlatform runningClient =
        Except.error (Failure.validation
          "patch_mode must be set to AutomaticByPlatform when reboot_setting is specified") ∧
      updateTrace rebootWithoutPlatform runningClient =
        [Event.locked "vm" "azurerm_virtual_machine",
         Event.remote (Call.Get sampleId) false,
         Event.remote (Call.InstanceView sampleId) false,
         Event.unlocked "vm" "azurerm_virtual_machine"]) ∧
    (updateOutcome keyReset runningClient = Except.error (Failure.validation keyResetMessage) ∧
      updateTrace keyReset runningClient =
        [Event.locked "vm" "azurerm_virtual_machine",
         Event.remote (Call.Get sampleId) false,
         Event.remote (Call.InstanceView sampleId) false,
         Event.remote (Call.PowerOffThenPoll sampleId { SkipShutdown := some false }) false,
         Event.remote (Call.DeallocateThenPoll sampleId { Hibernate := some false }) false,
         Event.unlocked "vm" "azurerm_virtual_machine"]) :=
  ⟨⟨rfl, rfl⟩, ⟨rfl, rfl⟩⟩

/-- C4, amended. An Update pass that ends in a validation error other than
the one for a disk encryption set changed back to empty has only taken the
lock and issued the reads `Get`, `InstanceView` and `ListAvailableSizes`: no
power-off, deallocate, disk update, update of the machine or start has been
issued. -/
theorem update_planning_validation_precedes_mutations (d : ResourceData) (client : Client)
    (msg : String)
    (h : updateOutcome d client = Except.error (Failure.validation msg))
    (hmsg : msg ≠ keyResetMessage) :
    (∀ e ∈ updateTrace d client, e.isQuiet = true) ∧ mutations (updateTrace d client) = [] := by
  have hq : ∀ e ∈ updateTrace d client, e.isQuiet = true := by
    rcases update_cases d client with ⟨hq, _⟩ | ⟨id, existing, iv, p, planExt, applyExt, _, _,
      _, _, hspec⟩
    · exact hq
    · rw [h] at hspec
      exact absurd (applySpec_validation hspec) hmsg
  exact ⟨hq, mutations_of_quiet _ hq⟩

/-- C4 amended, on a sample: a reboot setting without the platform patch
mode. -/
theorem update_planning_validation_precedes_mutations_witness :
    updateOutcome rebootWithoutPlatform runningClient =
        Except.error (Failure.validation
          "patch_mode must be set to AutomaticByPlatform when reboot_setting is specified") ∧
      "patch_mode must be set to AutomaticByPlatform when reboot_setting is specified" ≠
        keyResetMessage ∧
      mutations (updateTrace rebootWithoutPlatform runningClient) = [] :=
  ⟨rfl, by decide,
    (update_planning_validation_precedes_mutations rebootWithoutPlatform runningClient
      "patch_mode must be set to AutomaticByPlatform when reboot_setting is specified"
      rfl (by decide)).2⟩

/-- C5, the failing input: a running machine with an ephemeral OS disk whose
dedicated host changed.  No power-off and no deallocate is issued, and yet
the pass issues a Start call. -/
theorem update_starts_machine_that_was_not_disrupted :
    hasEphemeralOSDisk (some ephemeralMachine) = true ∧
      updateOutcome hostChange ephemeralClient = Except.ok hostChange ∧
      mutations (updateTrace hostChange ephemeralClient) =
        [MutationKind.vmUpdate, MutationKind.start] :=
  ⟨rfl, rfl, rfl⟩

theorem reports_isPowerState (s : InstanceViewStatus) (state : String)
    (h : s.reports state = true) : s.isPowerState = true := by
  unfold InstanceViewStatus.reports at h
  unfold InstanceViewStatus.isPowerState
  cases hc : s.Code with
  | none => rw [hc] at h; cases h
  | some code =>
    rw [hc] at h
    simp only [beq_iff_eq] at h
    simp only [h, List.isPrefixOf_iff_prefix]
    exact List.prefix_append _ _

theorem reports_unique (s : InstanceViewStatus) (a b : String)
    (ha : s.reports a = true) (hb : s.reports b = true) : a.toList = b.toList := by
  unfold InstanceViewStatus.reports at ha hb
  cases hc : s.Code with
  | none => rw [hc] at ha; cases ha
  | some code =>
    rw [hc] at ha hb
    simp only [beq_iff_eq] at ha hb
    rw [ha] at hb
    exact List.append_cancel_left hb

/-- A machine all of whose power states are `running` keeps its plan. -/
theorem adjust_running (iv : Option VirtualMachineInstanceView) (p : Plan)
    (hrun : ∀ s ∈ statusesOf iv, s.isPowerState = true → s.reports "running" = true) :
    adjustForPowerState iv p = p := by
  rw [adjustForPowerState_eq]
  apply foldl_adjust_keeps
  intro s hs
  have key : ∀ state : String, state.toList ≠ "running".toList → s.reports state = false := by
    intro state hne
    cases h : s.reports state with
    | false => rfl
    | true =>
      have hr := hrun s hs (reports_isPowerState s state h)
      exact absurd (reports_unique s state "running" h hr) hne
  exact ⟨key _ (by decide), key _ (by decide), key _ (by decide)⟩

/-- C7. For the change set `os_disk.0.disk_size_gb` on a machine with a
managed OS disk whose power state is `running`, the plan has shouldShutDown =
true and shouldDeallocate = true, and a pass that ends well has issued, in
this order, the power-off, the deallocate, one update of the disk named
`os_disk.0.name` in the resource group of the machine carrying the new size,
the update of the machine as a separate call, and a Start call exactly when
the machine was running; everything after that is a read. -/
theorem update_os_disk_resize (d : ResourceData) (client : Client) (id : VirtualMachineId)
    (existing : Option VirtualMachine) (iv : Option VirtualMachineInstanceView) (p : Plan)
    (d2 : ResourceData)
    (hchg : d.changed = [["os_disk", "0", "disk_size_gb"]])
    (hp : Planned d client id existing iv p)
    (hrun : ∀ s ∈ statusesOf iv, s.isPowerState = true → s.reports "running" = true)
    (hman : hasEphemeralOSDisk existing = false)
    (hok : updateOutcome d client = Except.ok d2) :
    p.shouldShutDown = true ∧ p.shouldDeallocate = true ∧
    ∃ reads, (∀ e ∈ reads, e.mutation = none) ∧
      updateTrace d client =
        [Event.locked id.VirtualMachineName VirtualMachineResourceName,
         Event.remote (Call.Get id) false,
         Event.remote (Call.InstanceView id) false,
         Event.remote (Call.PowerOffThenPoll id { SkipShutdown := some false }) false,
         Event.remote (Call.DeallocateThenPoll id { Hibernate := some false }) false,
         Event.remote
           (Call.DisksUpdateThenPoll
             (NewDiskID client.SubscriptionId id.ResourceGroupName d.osDiskName)
             { Properties := some { DiskSizeGB := some d.osDiskSizeGb } }) false,
         Event.remote (Call.UpdateThenPoll id p.update) false] ++
        (if client.virtualMachineShouldBeStarted iv then
          [Event.remote (Call.StartThenPoll id) false] else []) ++
        reads ++ [Event.unlocked id.VirtualMachineName VirtualMachineResourceName] := by
  obtain ⟨a, ha⟩ := planned_flags hp
  have hflags : plannedFlags d a = { update := true, shutDown := true, deallocate := true } := by
    simp [plannedFlags, flagsAfterSize, flagsBeforeSize, Flags.raiseAll, Flags.raise,
      ResourceData.HasChange, hchg, List.isPrefixOf]
  rw [hflags] at ha
  have hu : p.shouldUpdate = true := congrArg Flags.update ha
  have hs : p.shouldShutDown = true := congrArg Flags.shutDown ha
  have hd : p.shouldDeallocate = true := congrArg Flags.deallocate ha
  refine ⟨hs, hd, ?_⟩
  have hsize : d.HasChange ["size"] = false := by
    simp [ResourceData.HasChange, hchg, List.isPrefixOf]
  have hresize : d.HasChange ["os_disk", "0", "disk_size_gb"] = true := by
    simp [ResourceData.HasChange, hchg, List.isPrefixOf]
  have henc : d.HasChange ["os_disk", "0", "disk_encryption_set_id"] = false := by
    simp [ResourceData.HasChange, hchg, List.isPrefixOf]
  obtain ⟨planExt, applyExt, _, hnil, ht, hspec⟩ := planned_run hp
  have hpe := hnil hsize
  subst hpe
  have htrace : traceAfterInstanceView client id =
      [Event.locked id.VirtualMachineName VirtualMachineResourceName,
       Event.remote (Call.Get id) false, Event.remote (Call.InstanceView id) false] := by
    simp [traceAfterInstanceView, traceAfterGet, lockedTrace, hp.2.1, hp.2.2.1, failedAnswer]
  rw [adjust_running iv p hrun, hman, hok] at hspec
  unfold ApplySpec at hspec
  rw [hs, hd, hu, hresize] at hspec
  simp only [Bool.not_false, Bool.and_true, Bool.or_self] at hspec
  rcases seq_of_true hspec with ⟨_, _, _, h⟩ | ⟨r1, e1, hspec⟩
  · cases h
  rcases seq_of_true hspec with ⟨_, _, _, h⟩ | ⟨r2, e2, hspec⟩
  · cases h
  rcases seq_of_true hspec with ⟨_, _, _, h⟩ | ⟨r3, e3, hspec⟩
  · cases h
  have hspec := seq_of_no_encryption henc hspec
  rcases seq_of_true hspec with ⟨_, _, _, h⟩ | ⟨r4, e4, hspec⟩
  · cases h
  rcases seq_of_cond hspec with ⟨hc, hreads⟩ | ⟨hc, ⟨_, _, _, h⟩ | ⟨r5, e5, hreads⟩⟩
  · refine ⟨r4, hreads.1, ?_⟩
    rw [ht, htrace, e1, e2, e3, e4, hc]
    simp [unlockedEvent]
  · cases h
  · refine ⟨r5, hreads.1, ?_⟩
    rw [ht, htrace, e1, e2, e3, e4, e5, hc]
    simp [unlockedEvent]

/-- C7, on a sample: the OS disk of a running machine grows to 256 GB. -/
theorem update_os_disk_resize_witness :
    diskResize.changed = [["os_disk", "0", "disk_size_gb"]] ∧
      Planned diskResize runningClient sampleId (some managedMachine)
        (sampleInstanceView ["ProvisioningState/succeeded", "PowerState/running"])
        osDiskPlan ∧
      hasEphemeralOSDisk (some managedMachine) = false ∧
      updateOutcome diskResize runningClient = Except.ok diskResize ∧
      osDiskPlan.shouldShutDown = true ∧ osDiskPlan.shouldDeallocate = true ∧
      ∃ reads, (∀ e ∈ reads, e.mutation = none) ∧
        updateTrace diskResize runningClient =
          [Event.locked "vm" "azurerm_virtual_machine",
           Event.remote (Call.Get sampleId) false,
           Event.remote (Call.InstanceView sampleId) false,
           Event.remote (Call.PowerOffThenPoll sampleId { SkipShutdown := some false }) false,
           Event.remote (Call.DeallocateThenPoll sampleId { Hibernate := some false }) false,
           Event.remote
             (Call.DisksUpdateThenPoll
               { SubscriptionId := "sub", ResourceGroupName := "rg", DiskName := "osdisk" }
               { Properties := some { DiskSizeGB := some 256 } }) false,
           Event.remote (Call.UpdateThenPoll sampleId osDiskPlan.update) false] ++
          (if true then [Event.remote (Call.StartThenPoll sampleId) false] else []) ++
          reads ++ [Event.unlocked "vm" "azurerm_virtual_machine"] :=
  ⟨rfl, ⟨rfl, rfl, rfl, rfl⟩, rfl, rfl,
    update_os_disk_resize diskResize runningClient sampleId (some managedMachine)
      (sampleInstanceView ["ProvisioningState/succeeded", "PowerState/running"]) osDiskPlan
      diskResize rfl ⟨rfl, rfl, rfl, rfl⟩
      (by
        intro s hs
        simp only [statusesOf, sampleInstanceView, Option.getD_some, List.map_cons,
          List.map_nil, List.mem_cons, List.mem_singleton, List.not_mem_nil, or_false] at hs
        rcases hs with rfl | rfl
        · intro h
          exact absurd h (by decide)
        · intro _
          decide)
      rfl rfl⟩

/-- C8. If the instance view carries the power state `deallocated`, an Update
pass issues neither a power-off nor a deallocate call; if it carries
`stopped`, the pass issues no power-off call; and a machine that is stopped
but not deallocated, with a managed OS disk, still receives the deallocate
call its plan asks for. -/
theorem update_skips_redundant_disruption (d : ResourceData) (client : Client)
    (id : VirtualMachineId) (iv : Option VirtualMachineInstanceView)
    (hid : client.ParseVirtualMachineID d.Id = Except.ok id)
    (hiv : instanceViewAtStart client id = Except.ok iv) :
    ((∃ s ∈ statusesOf iv, s.reports "deallocated" = true) →
      ∀ e ∈ updateTrace d client,
        e.hasKind MutationKind.powerOff = false ∧ e.hasKind MutationKind.deallocate = false) ∧
    ((∃ s ∈ statusesOf iv, s.reports "stopped" = true) →
      ∀ e ∈ updateTrace d client, e.hasKind MutationKind.powerOff = false) ∧
    (∀ existing p, Planned d client id existing iv p →
      (∃ s ∈ statusesOf iv, s.reports "stopped" = true) →
      (∀ s ∈ statusesOf iv, s.reports "deallocated" = false) →
      p.shouldDeallocate = true → hasEphemeralOSDisk existing = false →
      ∃ failed, Event.remote (Call.DeallocateThenPoll id { Hibernate := some false }) failed ∈
        updateTrace d client) := by
  have hsame : ∀ id2 existing2 iv2 p2, Planned d client id2 existing2 iv2 p2 → iv2 = iv := by
    intro id2 existing2 iv2 p2 hp
    have h1 := hp.1
    rw [hid] at h1
    cases h1
    have h3 := hp.2.2.1
    rw [hiv] at h3
    cases h3
    rfl
  refine ⟨?_, ?_, ?_⟩
  · intro hde e he
    constructor
    · cases hk : e.hasKind MutationKind.powerOff with
      | false => rfl
      | true =>
        obtain ⟨id2, existing2, iv2, p, hp, hallow⟩ :=
          update_mutation_allowed d client e _ he (mutation_of_hasKind hk)
        have := hsame _ _ _ _ hp
        subst this
        have hf := foldl_adjust_deallocated (statusesOf iv2) p hde
        rw [← adjustForPowerState_eq] at hf
        simp [mutationAllowed, hf.1] at hallow
    · cases hk : e.hasKind MutationKind.deallocate with
      | false => rfl
      | true =>
        obtain ⟨id2, existing2, iv2, p, hp, hallow⟩ :=
          update_mutation_allowed d client e _ he (mutation_of_hasKind hk)
        have := hsame _ _ _ _ hp
        subst this
        have hf := foldl_adjust_deallocated (statusesOf iv2) p hde
        rw [← adjustForPowerState_eq] at hf
        simp [mutationAllowed, hf.2] at hallow
  · intro hst e he
    cases hk : e.hasKind MutationKind.powerOff with
    | false => rfl
    | true =>
      obtain ⟨id2, existing2, iv2, p, hp, hallow⟩ :=
        update_mutation_allowed d client e _ he (mutation_of_hasKind hk)
      have := hsame _ _ _ _ hp
      subst this
      obtain ⟨s, hs, hr⟩ := hst
      have hf := foldl_adjust_stopped (statusesOf iv2) p ⟨s, hs, Or.inl hr⟩
      rw [← adjustForPowerState_eq] at hf
      simp [mutationAllowed, hf] at hallow
  · intro existing p hp hst hnd hd hman
    obtain ⟨s, hs, hr⟩ := hst
    have hf := foldl_adjust_stopped (statusesOf iv) p ⟨s, hs, Or.inl hr⟩
    have hk := foldl_adjust_keeps_deallocate (statusesOf iv) p hnd
    rw [← adjustForPowerState_eq] at hf hk
    obtain ⟨planExt, applyExt, _, _, ht, hspec⟩ := planned_run hp
    unfold ApplySpec at hspec
    rw [hf, hk, hd, hman] at hspec
    simp only [Bool.not_false, Bool.and_true] at hspec
    have hspec := seq_of_false hspec
    rcases seq_of_true hspec with ⟨hext, _⟩ | ⟨rest, hext, _⟩
    · exact ⟨true, by rw [ht, hext]; simp⟩
    · exact ⟨false, by rw [ht, hext]; simp⟩

/-- C8, on a sample: a stopped machine whose OS disk grows. -/
theorem update_skips_redundant_disruption_witness :
    stoppedClient.ParseVirtualMachineID diskResize.Id = Except.ok sampleId ∧
      instanceViewAtStart stoppedClient sampleId = Except.ok
        (sampleInstanceView ["PowerState/stopped"]) ∧
      (∃ s ∈ statusesOf (sampleInstanceView ["PowerState/stopped"]), s.reports "stopped" = true) ∧
      (∀ e ∈ updateTrace diskResize stoppedClient, e.hasKind MutationKind.powerOff = false) :=
  ⟨rfl, rfl, ⟨{ Code := some "PowerState/stopped" }, by decide, by decide⟩,
    (update_skips_redundant_disruption diskResize stoppedClient sampleId
      (sampleInstanceView ["PowerState/stopped"]) rfl rfl).2.1
      ⟨{ Code := some "PowerState/stopped" }, by decide, by decide⟩⟩

/-- A failed mutating call is the last remote call of an Update pass. -/
theorem update_failStop (d : ResourceData) (client : Client) :
    (∀ e ∈ updateTrace d client, e.isFailedMutation = false) ∨
    (∃ pre e id, updateTrace d client = pre ++ [e, unlockedEvent id] ∧
      e.isFailedMutation = true ∧ (∀ x ∈ pre, x.isFailedMutation = false) ∧
      ∃ err, updateOutcome d client = Except.error err) := by
  rcases update_cases d client with ⟨hq, _⟩ | ⟨id, existing, iv, p, planExt, applyExt, _, hq,
    _, ht, hspec⟩
  · left
    intro e he
    exact event_not_failed_of_mutation_none e (event_mutation_of_quiet e (hq e he))
  · have hpre : ∀ x ∈ traceAfterInstanceView client id ++ planExt,
        x.isFailedMutation = false := by
      intro x hx
      rcases List.mem_append.mp hx with h | h
      · exact event_not_failed_of_mutation_none x
          (event_mutation_of_quiet x (traceAfterInstanceView_quiet client id x h))
      · exact event_not_failed_of_mutation_none x (event_mutation_of_quiet x (hq x h))
    rcases applySpec_failStop hspec with hno | ⟨pre, e, hext, hfail, hpr, herr⟩
    · left
      intro e he
      rw [ht] at he
      simp only [List.mem_append, List.mem_singleton] at he
      rcases he with ((h | h) | h) | h
      · exact hpre e (List.mem_append_left _ h)
      · exact hpre e (List.mem_append_right _ h)
      · exact hno e h
      · subst h
        rfl
    · right
      refine ⟨traceAfterInstanceView client id ++ planExt ++ pre, e, id, ?_, hfail, ?_, herr⟩
      · rw [ht, hext]
        simp
      · intro x hx
        rcases List.mem_append.mp hx with h | h
        · exact hpre x h
        · exact hpr x h

/-- C10. In every Update pass a failed mutating call (power-off, deallocate,
disk update, update of the machine or start) is the last remote call of the
trace, followed only by the release of the lock, and the pass returns an
error; in particular a failed update of the machine is never followed, nor
preceded, by a Start call, so the disruption is not rolled back. -/
theorem update_stops_at_failed_mutation (d : ResourceData) (client : Client) :
    ((∀ e ∈ updateTrace d client, e.isFailedMutation = false) ∨
      (∃ pre e id, updateTrace d client = pre ++ [e, unlockedEvent id] ∧
        e.isFailedMutation = true ∧ (∀ x ∈ pre, x.isFailedMutation = false) ∧
        ∃ err, updateOutcome d client = Except.error err)) ∧
    ((∃ e ∈ updateTrace d client,
        e.hasKind MutationKind.vmUpdate = true ∧ e.isFailedMutation = true) →
      ∀ e ∈ updateTrace d client, e.hasKind MutationKind.start = false) := by
  refine ⟨update_failStop d client, ?_⟩
  rintro ⟨e0, he0, hk0, hf0⟩ es hes
  cases hks : es.hasKind MutationKind.start with
  | false => rfl
  | true =>
    exfalso
    rcases update_failStop d client with hno | ⟨pre, e, id, ht, hfail, hpre, _⟩
    · rw [hno e0 he0] at hf0
      cases hf0
    · have hord := update_ordered d client
      rw [ht] at he0 hes hord
      have he0e : e0 = e := by
        simp only [List.mem_append, List.mem_cons, List.mem_singleton, List.not_mem_nil,
          or_false] at he0
        rcases he0 with h | h | h
        · rw [hpre e0 h] at hf0
          cases hf0
        · exact h
        · subst h
          cases hf0
      subst he0e
      have hespre : es ∈ pre := by
        simp only [List.mem_append, List.mem_cons, List.mem_singleton, List.not_mem_nil,
          or_false] at hes
        rcases hes with h | h | h
        · exact h
        · subst h
          have h1 := mutation_of_hasKind hk0
          have h2 := mutation_of_hasKind hks
          rw [h1] at h2
          cases h2
        · subst h
          cases hks
      have hmem : MutationKind.start ∈ mutations pre :=
        mem_mutations.mpr ⟨es, hespre, mutation_of_hasKind hks⟩
      have hsub : List.Sublist [MutationKind.start, MutationKind.vmUpdate]
          (mutations (pre ++ [e0, unlockedEvent id])) := by
        rw [mutations_append]
        have h2 : mutations [e0, unlockedEvent id] = [MutationKind.vmUpdate] := by
          have h1 := mutation_of_hasKind hk0
          have hu : (unlockedEvent id).mutation = none := rfl
          simp only [mutations, List.filterMap_cons, h1, hu, List.filterMap_nil]
        rw [h2]
        exact List.Sublist.append (List.singleton_sublist.mpr hmem) (List.Sublist.refl _)
      exact absurd (hsub.trans hord) (by decide)

/-! ## The Create pass -/

theorem m_lift_bind_run {α β : Type} (r : Except Failure α) (f : α → M β) (t : Trace) :
    (M.lift r >>= f) t =
      match r with
      | Except.ok a => f a t
      | Except.error e => (Except.error e, t) := by
  cases r <;> rfl

/-- The Create pass under the lock, unfolded up to the creation call. -/
theorem createLocked_run (d : ResourceData) (client : Client) (id : VirtualMachineId)
    (t : Trace) :
    createLocked d client id t =
      match createPrecheck client id (client.Get t id) with
      | Except.error e =>
        (Except.error e, t ++ [Event.remote (Call.Get id) (failedAnswer (client.Get t id))])
      | Except.ok _ =>
        match createPayload d client id with
        | Except.error e =>
          (Except.error e, t ++ [Event.remote (Call.Get id) (failedAnswer (client.Get t id))])
        | Except.ok params =>
          createAndRead d client id params
            (t ++ [Event.remote (Call.Get id) (failedAnswer (client.Get t id))]) := by
  unfold createLocked
  rw [m_call_bind_run, m_lift_bind_run]
  cases createPrecheck client id (client.Get t id) with
  | error e => rfl
  | ok u =>
    simp only []
    rw [m_lift_bind_run]
    cases createPayload d client id with
    | error e => rfl
    | ok params => rfl

/-- The creation call and the Read that follows a successful one. -/
theorem createAndRead_spec (d : ResourceData) (client : Client) (id : VirtualMachineId)
    (params : VirtualMachine) :
    M.Sat (createAndRead d client id params) (fun ext r =>
      ∃ failed readExt,
        ext = [Event.remote (Call.CreateOrUpdateThenPoll id params) failed] ++ readExt ∧
        ((failed = true ∧ readExt = [] ∧
            ∃ err, r = Except.error (Failure.remote "creating" err)) ∨
         (failed = false ∧ ReadSpec readExt r))) := by
  intro t
  unfold createAndRead
  rw [m_call_bind_run]
  cases hc : client.CreateOrUpdateThenPoll t id params with
  | error err =>
    exact ⟨[Event.remote (Call.CreateOrUpdateThenPoll id params) true], rfl, true, [], rfl,
      Or.inl ⟨rfl, rfl, err, rfl⟩⟩
  | ok u =>
    simp only [failedAnswer]
    obtain ⟨readExt, h1, h2⟩ :=
      resourceWindowsVirtualMachineRead_spec { d with Id := client.VirtualMachineIdString id }
        client (t ++ [Event.remote (Call.CreateOrUpdateThenPoll id params) false])
    refine ⟨[Event.remote (Call.CreateOrUpdateThenPoll id params) false] ++ readExt, ?_,
      false, readExt, rfl, Or.inr ⟨rfl, h2⟩⟩
    rw [h1, List.append_assoc]

/-- Every Create pass has the shape `CreateShape`. -/
theorem create_shape (d : ResourceData) (client : Client) :
    CreateShape d client (createTrace d client) (createOutcome d client) := by
  unfold CreateShape createTrace createOutcome resourceWindowsVirtualMachineCreate
  simp only [m_bind_run, M.emit, M.deferring, List.nil_append]
  have hid : NewVirtualMachineID client.SubscriptionId d.config.resource_group_name
      d.config.name = createId d client := rfl
  have hl : ∀ id : VirtualMachineId,
      [Event.locked id.VirtualMachineName VirtualMachineResourceName] = lockedTrace id :=
    fun _ => rfl
  rw [hid, hl, createLocked_run]
  have hg : lockedTrace (createId d client) ++
      [Event.remote (Call.Get (createId d client))
        (failedAnswer (client.Get (lockedTrace (createId d client)) (createId d client)))] =
      traceAfterGet client (createId d client) := rfl
  rw [hg]
  have he : client.Get (lockedTrace (createId d client)) (createId d client) =
      existingAtStart client (createId d client) := rfl
  rw [he]
  cases hpre : createPrecheck client (createId d client)
      (existingAtStart client (createId d client)) with
  | error e => exact Or.inl ⟨e, rfl, rfl, rfl⟩
  | ok u =>
    refine Or.inr ⟨rfl, ?_⟩
    simp only []
    cases hpay : createPayload d client (createId d client) with
    | error e => exact Or.inl ⟨e, rfl, rfl, rfl⟩
    | ok params =>
      right
      obtain ⟨ext, h1, failed, readExt, hext, hspec⟩ :=
        createAndRead_spec d client (createId d client) params
          (traceAfterGet client (createId d client))
      refine ⟨params, failed, readExt, rfl, ?_, hspec⟩
      simp only [h1, hext, unlockedEvent, List.append_assoc]

/-! ## The payload of Create -/

theorem except_bind_eq_error {ε α β : Type} {x : Except ε α} {f : α → Except ε β} {e : ε}
    (h : (x >>= f) = Except.error e) :
    x = Except.error e ∨ ∃ a, x = Except.ok a ∧ f a = Except.error e := by
  cases x with
  | error e2 =>
    left
    cases h
    rfl
  | ok a => exact Or.inr ⟨a, rfl, h⟩

theorem createPrecheck_of_notFound (client : Client) (id : VirtualMachineId)
    (resp : Except RemoteError (Option VirtualMachine)) (h : precheckNotFound resp = true) :
    createPrecheck client id resp = Except.ok () := by
  cases resp with
  | ok existing => simp [precheckNotFound] at h
  | error err =>
    simp only [precheckNotFound] at h
    simp [createPrecheck, precheckNotFound, h]

theorem createPrecheck_of_found (client : Client) (id : VirtualMachineId)
    (resp : Except RemoteError (Option VirtualMachine)) (h : precheckNotFound resp = false) :
    (∃ existing, resp = Except.ok existing ∧
      createPrecheck client id resp =
        Except.error (Failure.importAsExists "azurerm_windows_virtual_machine"
          (client.VirtualMachineIdString id))) ∨
    (∃ err, resp = Except.error err ∧
      createPrecheck client id resp =
        Except.error (Failure.remote "checking for existing" err)) := by
  cases resp with
  | ok existing =>
    left
    exact ⟨existing, rfl, by simp [createPrecheck, precheckNotFound]⟩
  | error err =>
    right
    simp only [precheckNotFound] at h
    exact ⟨err, rfl, by simp [createPrecheck, h]⟩

/-- A non-empty `os_disk` list is expanded to a disk or rejected with a
validation error. -/
theorem expandVirtualMachineOSDisk_error (input : List OSDiskBlock) (osType : String)
    (e : Failure) (hne : input ≠ [])
    (h : expandVirtualMachineOSDisk input osType = Except.error e) : e.isValidation = true := by
  cases input with
  | nil => exact absurd rfl hne
  | cons raw rest =>
    simp only [expandVirtualMachineOSDisk] at h
    split at h
    · rename_i e2 hs
      cases h
      split at hs
      · split at hs
        · cases hs
          rfl
        · rename_i hn hd
          split at hs
          · rename_i hnone
            exfalso
            have hd2 : "DiskWithVMGuestState" = raw.security_encryption_type := by
              simpa using hd
            have : (raw.security_encryption_type != "") = true := by
              rw [← hd2]
              decide
            simp [this] at hnone
          · cases hs
      · cases hs
    · split at h
      · rename_i e2 hs
        cases h
        split at hs
        · cases hs
        · split at hs
          · cases hs
            rfl
          · cases hs
      · cases h

theorem createComputerName_error (d : ResourceData) (client : Client) (id : VirtualMachineId)
    (e : Failure) (h : createComputerName d client id = Except.error e) :
    e.isValidation = true := by
  unfold createComputerName at h
  split at h
  · cases h
  · split at h
    · cases h
      rfl
    · cases h

theorem createIdentity_error (d : ResourceData) (client : Client) (e : Failure)
    (h : createIdentity d client = Except.error e) : e.isValidation = true := by
  unfold createIdentity at h
  split at h
  · cases h
    rfl
  · cases h

theorem createSecurityEncryptionType_error (d : ResourceData) (e : Failure)
    (hne : d.config.os_disk ≠ []) (h : createSecurityEncryptionType d = Except.error e) :
    e.isValidation = true := by
  unfold createSecurityEncryptionType at h
  split at h
  · rename_i hnil
    exact absurd hnil hne
  · cases h

theorem createCheckExtensionOperations_error (d : ResourceData) (e : Failure)
    (h : createCheckExtensionOperations d = Except.error e) : e.isValidation = true := by
  unfold createCheckExtensionOperations at h
  split at h
  · cases h
    rfl
  · cases h

theorem createCheckPatching_error (d : ResourceData) (client : Client) (e : Failure)
    (h : createCheckPatching d client = Except.error e) : e.isValidation = true := by
  unfold createCheckPatching at h
  simp only at h
  repeat' split at h
  all_goals first | (cases h; rfl) | cases h

/-! ## The steps of the payload of Create -/

theorem createBypassPlatformSafetyChecks_error (d : ResourceData) (settings : PatchSettings)
    (e : Failure) (h : createBypassPlatformSafetyChecks d settings = Except.error e) :
    e.isValidation = true := by
  unfold createBypassPlatformSafetyChecks at h
  repeat' split at h
  all_goals first | (cases h; rfl) | cases h

theorem createRebootSetting_error (d : ResourceData) (settings : PatchSettings)
    (e : Failure) (h : createRebootSetting d settings = Except.error e) :
    e.isValidation = true := by
  unfold createRebootSetting at h
  simp only at h
  repeat' split at h
  all_goals first | (cases h; rfl) | cases h

theorem createPatchSettings_error (d : ResourceData) (b : CreateDraft) (e : Failure)
    (h : createPatchSettings d b = Except.error e) : e.isValidation = true := by
  unfold createPatchSettings at h
  rcases except_bind_eq_error h with h1 | ⟨s1, -, h⟩
  · exact createBypassPlatformSafetyChecks_error d _ e h1
  · rcases except_bind_eq_error h with h2 | ⟨s2, -, h⟩
    · exact createRebootSetting_error d _ e h2
    · cases h

theorem createEncryptionAtHost_error (d : ResourceData) (s : String) (b : CreateDraft)
    (e : Failure) (h : createEncryptionAtHost d s b = Except.error e) :
    e.isValidation = true := by
  unfold createEncryptionAtHost at h
  simp only at h
  repeat' split at h
  all_goals first | (cases h; rfl) | cases h

theorem createSecurityProfile_error (d : ResourceData) (s : String) (b : CreateDraft)
    (e : Failure) (h : createSecurityProfile d s b = Except.error e) :
    e.isValidation = true := by
  unfold createSecurityProfile at h
  simp only at h
  repeat' split at h
  all_goals first | (cases h; rfl) | cases h

theorem createEvictionPolicy_error (d : ResourceData) (b : CreateDraft)
    (e : Failure) (h : createEvictionPolicy d b = Except.error e) :
    e.isValidation = true := by
  unfold createEvictionPolicy at h
  simp only at h
  repeat' split at h
  all_goals first | (cases h; rfl) | cases h

theorem createMaxBidPrice_error (d : ResourceData) (b : CreateDraft)
    (e : Failure) (h : createMaxBidPrice d b = Except.error e) :
    e.isValidation = true := by
  unfold createMaxBidPrice at h
  simp only at h
  repeat' split at h
  all_goals first | (cases h; rfl) | cases h

/-- With a non-empty `os_disk` list, every error of the building of the
payload is a validation error. -/
theorem createPayload_error (d : ResourceData) (client : Client) (id : VirtualMachineId)
    (e : Failure) (hne : d.config.os_disk ≠ [])
    (h : createPayload d client id = Except.error e) : e.isValidation = true := by
  unfold createPayload at h
  rcases except_bind_eq_error h with h1 | ⟨computerName, -, h⟩
  · exact createComputerName_error d client id e h1
  rcases except_bind_eq_error h with h1 | ⟨identity, -, h⟩
  · exact createIdentity_error d client e h1
  rcases except_bind_eq_error h with h1 | ⟨osDisk, -, h⟩
  · exact expandVirtualMachineOSDisk_error _ _ e hne h1
  rcases except_bind_eq_error h with h1 | ⟨securityEncryptionType, -, h⟩
  · exact createSecurityEncryptionType_error d e hne h1
  rcases except_bind_eq_error h with h1 | ⟨u1, -, h⟩
  · exact createCheckExtensionOperations_error d e h1
  rcases except_bind_eq_error h with h1 | ⟨u2, -, h⟩
  · exact createCheckPatching_error d client e h1
  rcases except_bind_eq_error h with h1 | ⟨b1, -, h⟩
  · exact createPatchSettings_error d _ e h1
  rcases except_bind_eq_error h with h1 | ⟨b2, -, h⟩
  · exact createEncryptionAtHost_error d _ _ e h1
  rcases except_bind_eq_error h with h1 | ⟨b3, -, h⟩
  · exact createSecurityProfile_error d _ _ e h1
  rcases except_bind_eq_error h with h1 | ⟨b4, -, h⟩
  · exact createEvictionPolicy_error d _ e h1
  rcases except_bind_eq_error h with h1 | ⟨b5, -, h⟩
  · exact createMaxBidPrice_error d _ e h1
  cases h

/-- The steps a payload has gone through when the building succeeds. -/
theorem createPayload_ok (d : ResourceData) (client : Client) (id : VirtualMachineId)
    (params : VirtualMachine) (h : createPayload d client id = Except.ok params) :
    ∃ computerName identity osDisk securityEncryptionType b1 b2 b3 b4 b5,
      createPatchSettings d
        (createAdditionalUnattendContent d client
          (newCreateDraft d client id computerName identity osDisk)) = Except.ok b1 ∧
      createEncryptionAtHost d securityEncryptionType (createReferences d b1) = Except.ok b2 ∧
      createSecurityProfile d securityEncryptionType b2 = Except.ok b3 ∧
      createEvictionPolicy d b3 = Except.ok b4 ∧
      createMaxBidPrice d (createLicenseType d b4) = Except.ok b5 ∧
      params = (createPlacement d b5).parameters := by
  unfold createPayload at h
  obtain ⟨computerName, -, h⟩ := except_bind_eq_ok h
  obtain ⟨identity, -, h⟩ := except_bind_eq_ok h
  obtain ⟨osDisk, -, h⟩ := except_bind_eq_ok h
  obtain ⟨securityEncryptionType, -, h⟩ := except_bind_eq_ok h
  obtain ⟨u1, -, h⟩ := except_bind_eq_ok h
  obtain ⟨u2, -, h⟩ := except_bind_eq_ok h
  obtain ⟨b1, h1, h⟩ := except_bind_eq_ok h
  obtain ⟨b2, h2, h⟩ := except_bind_eq_ok h
  obtain ⟨b3, h3, h⟩ := except_bind_eq_ok h
  obtain ⟨b4, h4, h⟩ := except_bind_eq_ok h
  obtain ⟨b5, h5, h⟩ := except_bind_eq_ok h
  refine ⟨computerName, identity, osDisk, securityEncryptionType, b1, b2, b3, b4, b5,
    h1, h2, h3, h4, h5, ?_⟩
  cases h
  rfl

/-! ## What the steps of the payload of Create leave alone -/

theorem createAdditionalUnattendContent_kept (d : ResourceData) (client : Client)
    (b : CreateDraft) :
    (createAdditionalUnattendContent d client b).properties = b.properties := by
  unfold createAdditionalUnattendContent
  split <;> rfl

theorem createPatchSettings_kept (d : ResourceData) (b b1 : CreateDraft)
    (h : createPatchSettings d b = Except.ok b1) :
    b1.properties = b.properties ∧
    ∃ s1 s2,
      createBypassPlatformSafetyChecks d
        { PatchMode := some d.config.patch_mode
          EnableHotpatching := some d.config.hotpatching_enabled
          AssessmentMode := some d.config.patch_assessment_mode } = Except.ok s1 ∧
      createRebootSetting d s1 = Except.ok s2 ∧
      b1.windowsConfiguration.PatchSettings = some s2 := by
  unfold createPatchSettings at h
  obtain ⟨s1, h1, h⟩ := except_bind_eq_ok h
  obtain ⟨s2, h2, h⟩ := except_bind_eq_ok h
  cases h
  exact ⟨rfl, s1, s2, h1, h2, rfl⟩

theorem createReferences_kept (d : ResourceData) (b : CreateDraft) :
    (createReferences d b).properties.Priority = b.properties.Priority ∧
    (createReferences d b).properties.LicenseType = b.properties.LicenseType ∧
    (createReferences d b).windowsConfiguration = b.windowsConfiguration := by
  refine ⟨?_, ?_, rfl⟩ <;> unfold createReferences <;> simp only <;> split_ifs <;> rfl

theorem createEncryptionAtHost_kept (d : ResourceData) (s : String) (b b2 : CreateDraft)
    (h : createEncryptionAtHost d s b = Except.ok b2) :
    b2.properties.Priority = b.properties.Priority ∧
    b2.properties.LicenseType = b.properties.LicenseType ∧
    b2.windowsConfiguration = b.windowsConfiguration := by
  unfold createEncryptionAtHost at h
  simp only at h
  split at h
  · split at h
    · cases h
    · cases h
      exact ⟨rfl, rfl, rfl⟩
  · cases h
    exact ⟨rfl, rfl, rfl⟩

theorem withUefiSettings_kept (securityType : String) (f : UefiSettings → UefiSettings)
    (props : VirtualMachineProperties) :
    (withUefiSettings securityType f props).Priority = props.Priority ∧
    (withUefiSettings securityType f props).LicenseType = props.LicenseType :=
  ⟨rfl, rfl⟩

theorem createSecurityProfile_kept (d : ResourceData) (s : String) (b b3 : CreateDraft)
    (h : createSecurityProfile d s b = Except.ok b3) :
    b3.properties.Priority = b.properties.Priority ∧
    b3.properties.LicenseType = b.properties.LicenseType ∧
    b3.windowsConfiguration = b.windowsConfiguration := by
  unfold createSecurityProfile at h
  simp only at h
  split at h
  · split at h
    · cases h
    · split at h
      · cases h
      · cases h
        exact ⟨rfl, rfl, rfl⟩
  · cases h
    refine ⟨?_, ?_, rfl⟩ <;> simp only [] <;> split_ifs <;> rfl

theorem createEvictionPolicy_kept (d : ResourceData) (b b4 : CreateDraft)
    (h : createEvictionPolicy d b = Except.ok b4) :
    b4.properties.LicenseType = b.properties.LicenseType ∧
    b4.windowsConfiguration = b.windowsConfiguration := by
  unfold createEvictionPolicy at h
  simp only at h
  split at h
  · split at h
    · cases h
    · cases h
      exact ⟨rfl, rfl⟩
  · split at h
    · cases h
    · cases h
      exact ⟨rfl, rfl⟩

/-- What the eviction step checks before it lets a payload through. -/
theorem createEvictionPolicy_checked (d : ResourceData) (b b4 : CreateDraft)
    (hp : b.properties.Priority = some d.config.priority)
    (h : createEvictionPolicy d b = Except.ok b4) :
    (d.config.eviction_policy ≠ "" → d.config.priority = "Spot") ∧
    (d.config.eviction_policy = "" → d.config.priority ≠ "Spot") := by
  unfold createEvictionPolicy at h
  simp only [hp, Option.getD_some] at h
  split at h
  · rename_i hset
    split at h
    · cases h
    · rename_i hspot
      refine ⟨fun _ => by simpa using hspot, fun he => ?_⟩
      simp [he] at hset
  · rename_i hset
    split at h
    · cases h
    · rename_i hspot
      refine ⟨fun hne => ?_, fun _ => by simpa using hspot⟩
      simp [hne] at hset

theorem createLicenseType_kept (d : ResourceData) (b : CreateDraft) :
    (createLicenseType d b).windowsConfiguration = b.windowsConfiguration ∧
    (createLicenseType d b).properties.LicenseType =
      if d.config.license_type != "" then some d.config.license_type
      else b.properties.LicenseType := by
  unfold createLicenseType
  split <;> exact ⟨rfl, rfl⟩

theorem createMaxBidPrice_kept (d : ResourceData) (b b5 : CreateDraft)
    (h : createMaxBidPrice d b = Except.ok b5) :
    b5.properties.LicenseType = b.properties.LicenseType ∧
    b5.windowsConfiguration = b.windowsConfiguration ∧
    (0 < d.config.max_bid_price → d.config.priority = "Spot") := by
  unfold createMaxBidPrice at h
  simp only at h
  split at h
  · split at h
    · cases h
    · rename_i hspot
      cases h
      exact ⟨rfl, rfl, fun _ => by simpa using hspot⟩
  · rename_i hpos
    cases h
    exact ⟨rfl, rfl, fun hp => absurd hp (by simpa using hpos)⟩

theorem createPlacement_kept (d : ResourceData) (b : CreateDraft) :
    (createPlacement d b).properties.LicenseType = b.properties.LicenseType ∧
    (createPlacement d b).windowsConfiguration.PatchSettings =
      b.windowsConfiguration.PatchSettings := by
  constructor <;> unfold createPlacement <;> simp only <;> split_ifs <;> rfl

/-! ## What a payload of Create has been checked for -/

/-- The reboot setting of patch settings. -/
theorem createBypassPlatformSafetyChecks_reboot (d : ResourceData) (s s1 : PatchSettings)
    (hs : s.AutomaticByPlatformSettings = none)
    (h : createBypassPlatformSafetyChecks d s = Except.ok s1) :
    s1.rebootSetting = none := by
  unfold createBypassPlatformSafetyChecks at h
  split at h
  · split at h
    · cases h
    · cases h
      simp [PatchSettings.rebootSetting, withAutomaticByPlatformSettings, hs]
  · cases h
    simp [PatchSettings.rebootSetting, hs]

theorem createRebootSetting_checked (d : ResourceData) (s1 s2 : PatchSettings)
    (hs : s1.rebootSetting = none)
    (h : createRebootSetting d s1 = Except.ok s2) :
    (d.config.reboot_setting ≠ "" → d.config.patch_mode = "AutomaticByPlatform") ∧
    s2.rebootSetting =
      if d.config.reboot_setting != "" then some d.config.reboot_setting else none := by
  unfold createRebootSetting at h
  simp only at h
  split at h
  · rename_i hset
    split at h
    · cases h
    · rename_i hmode
      cases h
      refine ⟨fun _ => by simpa using hmode, ?_⟩
      simp [PatchSettings.rebootSetting, withAutomaticByPlatformSettings, hset]
  · rename_i hset
    cases h
    refine ⟨fun hne => ?_, ?_⟩
    · simp [hne] at hset
    · simp [hs, hset]

/-- What holds of a payload that Create has built. -/
theorem createPayload_checked (d : ResourceData) (client : Client) (id : VirtualMachineId)
    (params : VirtualMachine) (h : createPayload d client id = Except.ok params) :
    (d.config.eviction_policy ≠ "" → d.config.priority = "Spot") ∧
    (d.config.eviction_policy = "" → d.config.priority ≠ "Spot") ∧
    (0 < d.config.max_bid_price → d.config.priority = "Spot") ∧
    (d.config.reboot_setting ≠ "" → d.config.patch_mode = "AutomaticByPlatform") ∧
    ∃ props, params.Properties = some props ∧
      props.LicenseType =
        (if d.config.license_type != "" then some d.config.license_type else none) ∧
      rebootSettingOf props =
        (if d.config.reboot_setting != "" then some d.config.reboot_setting else none) := by
  obtain ⟨computerName, identity, osDisk, s, b1, b2, b3, b4, b5, h1, h2, h3, h4, h5, rfl⟩ :=
    createPayload_ok d client id params h
  obtain ⟨hp1, s1, s2, hs1, hs2, hw1⟩ := createPatchSettings_kept d _ b1 h1
  rw [createAdditionalUnattendContent_kept] at hp1
  obtain ⟨hr1, hr2, hr3⟩ := createReferences_kept d b1
  obtain ⟨he1, he2, he3⟩ := createEncryptionAtHost_kept d s _ b2 h2
  obtain ⟨hq1, hq2, hq3⟩ := createSecurityProfile_kept d s b2 b3 h3
  obtain ⟨hv2, hv3⟩ := createEvictionPolicy_kept d b3 b4 h4
  obtain ⟨hl3, hl2⟩ := createLicenseType_kept d b4
  obtain ⟨hm2, hm3, hbid⟩ := createMaxBidPrice_kept d _ b5 h5
  obtain ⟨hc2, hc3⟩ := createPlacement_kept d b5
  have hprio : b3.properties.Priority = some d.config.priority := by
    rw [hq1, he1, hr1, hp1]
    rfl
  obtain ⟨hev1, hev2⟩ := createEvictionPolicy_checked d b3 b4 hprio h4
  have hnone : s1.rebootSetting = none :=
    createBypassPlatformSafetyChecks_reboot d _ s1 rfl hs1
  obtain ⟨hreb1, hreb2⟩ := createRebootSetting_checked d s1 s2 hnone hs2
  refine ⟨hev1, hev2, hbid, hreb1, _, rfl, ?_, ?_⟩
  · show (createPlacement d b5).properties.LicenseType = _
    rw [hc2, hm2, hl2, hv2, hq2, he2, hr2, hp1]
    rfl
  · have hps : (createPlacement d b5).windowsConfiguration.PatchSettings = some s2 := by
      rw [hc3, hm3, hl3, hv3, hq3, he3, hr3, hw1]
    simp only [rebootSettingOf, CreateDraft.parameters, hps]
    exact hreb2

/-! ## Where a Create pass stops -/

theorem isValidation_iff (e : Failure) (h : e.isValidation = true) :
    ∃ msg, e = Failure.validation msg := by
  cases e <;> first | exact ⟨_, rfl⟩ | cases h

theorem precheckTrace_mutations (d : ResourceData) (client : Client) :
    mutations (precheckTrace d client) = [] := rfl

theorem precheckTrace_no_create (d : ResourceData) (client : Client) (id : VirtualMachineId)
    (params : VirtualMachine) (failed : Bool) :
    Event.remote (Call.CreateOrUpdateThenPoll id params) failed ∉ precheckTrace d client := by
  intro hmem
  have h : MutationKind.create ∈ mutations (precheckTrace d client) :=
    mem_mutations.mpr ⟨_, hmem, rfl⟩
  rw [precheckTrace_mutations] at h
  exact absurd h (List.not_mem_nil _)

/-- A Create pass whose precheck does not let it through stops there. -/
theorem create_of_precheck_error (d : ResourceData) (client : Client) (e : Failure)
    (h : createPrecheck client (createId d client)
      (existingAtStart client (createId d client)) = Except.error e) :
    createOutcome d client = Except.error e ∧ createTrace d client = precheckTrace d client := by
  rcases create_shape d client with ⟨e2, h2, ht, ho⟩ | ⟨h2, _⟩
  · rw [h] at h2
    cases h2
    exact ⟨ho, ht⟩
  · rw [h] at h2
    cases h2

/-- A Create pass whose payload is rejected stops before the creation
call. -/
theorem create_of_payload_error (d : ResourceData) (client : Client) (e : Failure)
    (hpre : precheckNotFound (existingAtStart client (createId d client)) = true)
    (h : createPayload d client (createId d client) = Except.error e) :
    createOutcome d client = Except.error e ∧ createTrace d client = precheckTrace d client := by
  have hp := createPrecheck_of_notFound client (createId d client) _ hpre
  rcases create_shape d client with ⟨e2, h2, _⟩ | ⟨_, hs⟩
  · rw [hp] at h2
    cases h2
  · rcases hs with ⟨e2, h2, ht, ho⟩ | ⟨params, _, _, h2, _⟩
    · rw [h] at h2
      cases h2
      exact ⟨ho, ht⟩
    · rw [h] at h2
      cases h2

/-- A Create pass that ends with a validation error has stopped before the
creation call. -/
theorem create_of_validation (d : ResourceData) (client : Client) (msg : String)
    (h : createOutcome d client = Except.error (Failure.validation msg)) :
    createTrace d client = precheckTrace d client := by
  rcases create_shape d client with ⟨e2, _, ht, _⟩ | ⟨_, hs⟩
  · exact ht
  · rcases hs with ⟨e2, _, ht, _⟩ | ⟨params, failed, readExt, _, _, hr⟩
    · exact ht
    · rcases hr with ⟨_, _, err, ho⟩ | ⟨_, _, hnv⟩
      · rw [h] at ho
        cases ho
      · exact absurd h (hnv msg)

/-! ## The payload of the Update pass -/

theorem payloadKept_refl (d : ResourceData) (p : Plan) : PayloadKept d p p :=
  ⟨rfl, fun _ h => Or.inl h⟩

theorem payloadKept_trans {d : ResourceData} {p q r : Plan} (h1 : PayloadKept d p q)
    (h2 : PayloadKept d q r) : PayloadKept d p r := by
  refine ⟨h2.1.trans h1.1, fun v hv => ?_⟩
  rcases h2.2 v hv with h | h
  · exact h1.2 v h
  · exact Or.inr h

/-- A step that leaves the OS profile and the license type alone. -/
theorem payloadKept_of_eq {d : ResourceData} {p q : Plan}
    (h1 : q.update.Properties.LicenseType = p.update.Properties.LicenseType)
    (h2 : q.update.Properties.OsProfile = p.update.Properties.OsProfile) :
    PayloadKept d p q := by
  refine ⟨h1, fun v hv => Or.inl ?_⟩
  unfold rebootSettingOf at hv ⊢
  rw [← h2]
  exact hv

theorem rebootSettingOf_withPatchSettings (f : PatchSettings → PatchSettings)
    (props : VirtualMachineProperties) (hf : ∀ s, (f s).rebootSetting = s.rebootSetting) :
    rebootSettingOf (withPatchSettings f props) = rebootSettingOf props := by
  have key : rebootSettingOf (withPatchSettings f props) =
      (f (((props.OsProfile.getD {}).WindowsConfiguration.getD {}).PatchSettings.getD
        {})).rebootSetting := rfl
  rw [key, hf]
  unfold rebootSettingOf
  cases h1 : props.OsProfile with
  | none => rfl
  | some osProfile =>
    cases h2 : osProfile.WindowsConfiguration with
    | none => simp [h2, PatchSettings.rebootSetting]
    | some windowsConfiguration =>
      cases h3 : windowsConfiguration.PatchSettings with
      | none => simp [h2, h3, PatchSettings.rebootSetting]
      | some settings => simp [h2, h3]

theorem payloadKept_withPatchSettings (d : ResourceData) (p : Plan)
    (f : PatchSettings → PatchSettings) (hf : ∀ s, (f s).rebootSetting = s.rebootSetting) :
    PayloadKept d p ({ p with shouldUpdate := true }.setProperties (withPatchSettings f)) := by
  refine ⟨rfl, fun v hv => Or.inl ?_⟩
  have := rebootSettingOf_withPatchSettings f p.update.Properties hf
  simp only [Plan.setProperties] at hv
  rw [this] at hv
  exact hv

theorem planBootDiagnostics_kept (d : ResourceData) (client : Client) (p : Plan) :
    PayloadKept d p (planBootDiagnostics d client p) := by
  unfold planBootDiagnostics
  split
  · exact payloadKept_of_eq rfl rfl
  · exact payloadKept_refl d p

theorem planSecret_kept (d : ResourceData) (client : Client) (p : Plan) :
    PayloadKept d p (planSecret d client p) := by
  unfold planSecret
  split
  · refine ⟨rfl, fun v hv => ?_⟩
    simp only [Plan.setProperties, rebootSettingOf] at hv
    simp at hv
  · exact payloadKept_refl d p

theorem planAllowExtensionOperations_kept (d : ResourceData) (p : Plan) :
    PayloadKept d p (planAllowExtensionOperations d p) := by
  unfold planAllowExtensionOperations
  split
  · refine ⟨rfl, fun v hv => Or.inl ?_⟩
    simp only [Plan.setProperties, rebootSettingOf] at hv ⊢
    cases h1 : p.update.Properties.OsProfile with
    | none => simp [h1] at hv
    | some osProfile => simpa [h1] using hv
  · exact payloadKept_refl d p

theorem planPatchMode_kept (d : ResourceData) (p : Plan) :
    PayloadKept d p (planPatchMode d p) := by
  unfold planPatchMode
  split
  · exact payloadKept_withPatchSettings d p _ (fun _ => rfl)
  · exact payloadKept_refl d p

theorem planPatchAssessmentMode_kept (d : ResourceData) (p q : Plan)
    (h : planPatchAssessmentMode d p = Except.ok q) : PayloadKept d p q := by
  unfold planPatchAssessmentMode at h
  simp only at h
  split at h
  · split at h
    · cases h
    · cases h
      exact payloadKept_withPatchSettings d p _ (fun _ => rfl)
  · cases h
    exact payloadKept_refl d p

theorem planHotpatching_kept (d : ResourceData) (p : Plan) :
    PayloadKept d p (planHotpatching d p) := by
  unfold planHotpatching
  split
  · exact payloadKept_withPatchSettings d p _ (fun _ => rfl)
  · exact payloadKept_refl d p

theorem planBypassPlatformSafetyChecks_kept (d : ResourceData) (p q : Plan)
    (h : planBypassPlatformSafetyChecks d p = Except.ok q) : PayloadKept d p q := by
  unfold planBypassPlatformSafetyChecks at h
  simp only at h
  split at h
  · cases h
  · split at h
    · cases h
      refine payloadKept_withPatchSettings d p _ (fun s => ?_)
      split
      · unfold PatchSettings.rebootSetting withAutomaticByPlatformSettings
        cases s.AutomaticByPlatformSettings <;> rfl
      · rfl
    · cases h
      exact payloadKept_refl d p

theorem isPatchModeAutomaticByPlatform_iff (d : ResourceData) :
    isPatchModeAutomaticByPlatform d = true ↔ d.config.patch_mode = "AutomaticByPlatform" := by
  simp [isPatchModeAutomaticByPlatform]

/-- The reboot step lets a plan through only when the reboot setting is empty
or the patch mode is `AutomaticByPlatform`. -/
theorem planRebootSetting_kept (d : ResourceData) (p q : Plan)
    (h : planRebootSetting d p = Except.ok q) :
    PayloadKept d p q ∧
    (d.config.reboot_setting ≠ "" → d.config.patch_mode = "AutomaticByPlatform") := by
  unfold planRebootSetting at h
  simp only at h
  split at h
  · cases h
  · rename_i hcheck
    have hok : d.config.reboot_setting ≠ "" → d.config.patch_mode = "AutomaticByPlatform" := by
      intro hne
      by_contra hmode
      apply hcheck
      have h1 : isPatchModeAutomaticByPlatform d = false := by
        cases hb : isPatchModeAutomaticByPlatform d with
        | false => rfl
        | true => exact absurd ((isPatchModeAutomaticByPlatform_iff d).mp hb) hmode
      simp [h1, hne]
    refine ⟨?_, hok⟩
    split at h
    · cases h
      cases hb : isPatchModeAutomaticByPlatform d with
      | true =>
        refine ⟨rfl, fun v _ => Or.inr ((isPatchModeAutomaticByPlatform_iff d).mp hb)⟩
      | false =>
        refine payloadKept_withPatchSettings d p _ (fun s => ?_)
        simp
    · cases h
      exact payloadKept_refl d p

theorem planIdentity_kept (d : ResourceData) (client : Client) (p q : Plan)
    (h : planIdentity d client p = Except.ok q) : PayloadKept d p q := by
  unfold planIdentity at h
  split at h
  · split at h
    · cases h
    · cases h
      exact payloadKept_of_eq rfl rfl
  · cases h
    exact payloadKept_refl d p

theorem planCapacityReservationGroup_kept (d : ResourceData) (p : Plan) :
    PayloadKept d p (planCapacityReservationGroup d p) := by
  unfold planCapacityReservationGroup
  split
  · exact payloadKept_of_eq rfl rfl
  · exact payloadKept_refl d p

theorem planDedicatedHost_kept (d : ResourceData) (p : Plan) :
    PayloadKept d p (planDedicatedHost d p) := by
  unfold planDedicatedHost
  split
  · exact payloadKept_of_eq rfl rfl
  · exact payloadKept_refl d p

theorem planDedicatedHostGroup_kept (d : ResourceData) (p : Plan) :
    PayloadKept d p (planDedicatedHostGroup d p) := by
  unfold planDedicatedHostGroup
  split
  · exact payloadKept_of_eq rfl rfl
  · exact payloadKept_refl d p

theorem planExtensionsTimeBudget_kept (d : ResourceData) (p : Plan) :
    PayloadKept d p (planExtensionsTimeBudget d p) := by
  unfold planExtensionsTimeBudget
  split
  · exact payloadKept_of_eq rfl rfl
  · exact payloadKept_refl d p

theorem planGalleryApplication_kept (d : ResourceData) (p : Plan) :
    PayloadKept d p (planGalleryApplication d p) := by
  unfold planGalleryApplication
  split
  · exact payloadKept_of_eq rfl rfl
  · exact payloadKept_refl d p

theorem planMaxBidPrice_kept (d : ResourceData) (p : Plan) :
    PayloadKept d p (planMaxBidPrice d p) := by
  unfold planMaxBidPrice
  split
  · exact payloadKept_of_eq rfl rfl
  · exact payloadKept_refl d p

theorem planNetworkInterfaceIds_kept (d : ResourceData) (p : Plan) :
    PayloadKept d p (planNetworkInterfaceIds d p) := by
  unfold planNetworkInterfaceIds
  split
  · exact payloadKept_of_eq rfl rfl
  · exact payloadKept_refl d p

theorem planOsDisk_kept (d : ResourceData) (p q : Plan)
    (h : planOsDisk d p = Except.ok q) : PayloadKept d p q := by
  unfold planOsDisk at h
  split at h
  · split at h
    · cases h
    · cases h
      exact payloadKept_of_eq rfl rfl
  · cases h
    exact payloadKept_refl d p

theorem planProximityPlacementGroup_kept (d : ResourceData) (p : Plan) :
    PayloadKept d p (planProximityPlacementGroup d p) := by
  unfold planProximityPlacementGroup
  split
  · exact payloadKept_of_eq rfl rfl
  · exact payloadKept_refl d p

theorem planTags_kept (d : ResourceData) (client : Client) (p : Plan) :
    PayloadKept d p (planTags d client p) := by
  unfold planTags
  split
  · exact payloadKept_of_eq rfl rfl
  · exact payloadKept_refl d p

theorem planTerminationNotification_kept (d : ResourceData) (p : Plan) :
    PayloadKept d p (planTerminationNotification d p) := by
  unfold planTerminationNotification
  split
  · exact payloadKept_of_eq rfl rfl
  · exact payloadKept_refl d p

theorem planAdditionalCapabilities_kept (d : ResourceData) (p : Plan) :
    PayloadKept d p (planAdditionalCapabilities d p) := by
  unfold planAdditionalCapabilities
  split
  · simp only
    split <;> exact payloadKept_of_eq rfl rfl
  · exact payloadKept_refl d p

theorem planEncryptionAtHost_kept (d : ResourceData) (p q : Plan)
    (h : planEncryptionAtHost d p = Except.ok q) : PayloadKept d p q := by
  unfold planEncryptionAtHost at h
  simp only at h
  split at h
  · split at h
    · cases h
    · cases h
      exact payloadKept_of_eq rfl rfl
  · cases h
    exact payloadKept_refl d p

theorem planUserData_kept (d : ResourceData) (p : Plan) :
    PayloadKept d p (planUserData d p) := by
  unfold planUserData
  split
  · exact payloadKept_of_eq rfl rfl
  · exact payloadKept_refl d p

/-! ## The payload a plan carries -/

theorem planBeforeSize_kept (d : ResourceData) (client : Client) (p : Plan)
    (h : planBeforeSize d client = Except.ok p) :
    PayloadKept d {} p ∧
    (d.config.reboot_setting ≠ "" → d.config.patch_mode = "AutomaticByPlatform") := by
  unfold planBeforeSize at h
  obtain ⟨p5, h5, h⟩ := except_bind_eq_ok h
  obtain ⟨p6, h6, h⟩ := except_bind_eq_ok h
  obtain ⟨p7, h7, h⟩ := except_bind_eq_ok h
  obtain ⟨p9, h9, h⟩ := except_bind_eq_ok h
  obtain ⟨p17, h17, h⟩ := except_bind_eq_ok h
  cases h
  have k1 := planBootDiagnostics_kept d client {}
  have k2 := payloadKept_trans k1 (planSecret_kept d client _)
  have k3 := payloadKept_trans k2 (planAllowExtensionOperations_kept d _)
  have k4 := payloadKept_trans k3 (planPatchMode_kept d _)
  have k5 := payloadKept_trans k4 (planPatchAssessmentMode_kept d _ p5 h5)
  have k6 := payloadKept_trans k5 (planBypassPlatformSafetyChecks_kept d p5 p6 h6)
  obtain ⟨k7a, hreboot⟩ := planRebootSetting_kept d p6 p7 h7
  have k7 := payloadKept_trans k6 k7a
  have k8 := payloadKept_trans k7 (planHotpatching_kept d p7)
  have k9 := payloadKept_trans k8 (planIdentity_kept d client _ p9 h9)
  have k10 := payloadKept_trans k9 (planCapacityReservationGroup_kept d p9)
  have k11 := payloadKept_trans k10 (planDedicatedHost_kept d _)
  have k12 := payloadKept_trans k11 (planDedicatedHostGroup_kept d _)
  have k13 := payloadKept_trans k12 (planExtensionsTimeBudget_kept d _)
  have k14 := payloadKept_trans k13 (planGalleryApplication_kept d _)
  have k15 := payloadKept_trans k14 (planMaxBidPrice_kept d _)
  have k16 := payloadKept_trans k15 (planNetworkInterfaceIds_kept d _)
  have k17 := payloadKept_trans k16 (planOsDisk_kept d _ p17 h17)
  exact ⟨payloadKept_trans k17 (planProximityPlacementGroup_kept d p17), hreboot⟩

theorem planSize_kept (d : ResourceData) (client : Client) (id : VirtualMachineId)
    (p q : Plan) (t : Trace) (h : (planSize d client id p t).1 = Except.ok q) :
    PayloadKept d p q := by
  unfold planSize at h
  split at h
  · simp only [m_bind_run, M.call] at h
    cases hs : client.ListAvailableSizes t id with
    | error err =>
      rw [hs] at h
      cases h
    | ok model =>
      rw [hs] at h
      simp only [m_pure_run, Except.ok.injEq] at h
      subst h
      cases availableOnThisHost client model d.config.size <;> exact payloadKept_of_eq rfl rfl
  · cases h
    exact payloadKept_refl d p

theorem planLicenseType_spec (d : ResourceData) (p : Plan) :
    (planLicenseType d p).update.Properties.LicenseType =
      (if d.HasChange ["license_type"] then some (licenseSentinel d.config.license_type)
       else p.update.Properties.LicenseType) ∧
    (planLicenseType d p).update.Properties.OsProfile = p.update.Properties.OsProfile := by
  unfold planLicenseType
  split <;> exact ⟨rfl, rfl⟩

/-- The license type and the reboot setting of a payload after the steps that
follow the size step. -/
theorem planAfterSize_payload (d : ResourceData) (client : Client) (p q : Plan)
    (h : planAfterSize d client p = Except.ok q) :
    q.update.Properties.LicenseType =
      (if d.HasChange ["license_type"] then some (licenseSentinel d.config.license_type)
       else p.update.Properties.LicenseType) ∧
    ∀ v, rebootSettingOf q.update.Properties = some v →
      rebootSettingOf p.update.Properties = some v ∨
        d.config.patch_mode = "AutomaticByPlatform" := by
  unfold planAfterSize at h
  obtain ⟨p4, h4, h⟩ := except_bind_eq_ok h
  cases h
  have k1 := planTags_kept d client p
  have k2 := payloadKept_trans k1 (planTerminationNotification_kept d _)
  have k3 := payloadKept_trans k2 (planAdditionalCapabilities_kept d _)
  have k4 := payloadKept_trans k3 (planEncryptionAtHost_kept d _ p4 h4)
  obtain ⟨hl, ho⟩ := planLicenseType_spec d p4
  have k6 := planUserData_kept d (planLicenseType d p4)
  refine ⟨?_, fun v hv => ?_⟩
  · rw [k6.1, hl, k4.1]
  · rcases k6.2 v hv with h | h
    · have h2 : rebootSettingOf p4.update.Properties = some v := by
        unfold rebootSettingOf at h ⊢
        rw [ho] at h
        exact h
      exact k4.2 v h2
    · exact Or.inr h

/-- The license type and the reboot setting of the payload of a plan. -/
theorem planUpdate_payload (d : ResourceData) (client : Client) (id : VirtualMachineId)
    (t : Trace) (p : Plan) (h : (planUpdate d client id t).1 = Except.ok p) :
    p.update.Properties.LicenseType =
      (if d.HasChange ["license_type"] then some (licenseSentinel d.config.license_type)
       else none) ∧
    (∀ v, rebootSettingOf p.update.Properties = some v →
      d.config.patch_mode = "AutomaticByPlatform") ∧
    (d.config.reboot_setting ≠ "" → d.config.patch_mode = "AutomaticByPlatform") := by
  unfold planUpdate at h
  rw [m_lift_bind_run] at h
  cases hb : planBeforeSize d client with
  | error e =>
    rw [hb] at h
    cases h
  | ok p1 =>
    rw [hb] at h
    simp only [m_bind_run] at h
    obtain ⟨k1, hreboot⟩ := planBeforeSize_kept d client p1 hb
    rcases hs : planSize d client id p1 t with ⟨r2, t2⟩
    rw [hs] at h
    cases r2 with
    | error e => cases h
    | ok p2 =>
      simp only at h
      have k2 := planSize_kept d client id p1 p2 t (by rw [hs])
      cases ha : planAfterSize d client p2 with
      | error e =>
        rw [ha] at h
        cases h
      | ok p3 =>
        rw [ha] at h
        simp only [M.lift, M.ret, Except.ok.injEq] at h
        subst h
        obtain ⟨hl, hr⟩ := planAfterSize_payload d client p2 p3 ha
        have k := payloadKept_trans k1 k2
        refine ⟨?_, fun v hv => ?_, hreboot⟩
        · rw [hl, k.1]
        · rcases hr v hv with h | h
          · rcases k.2 v h with h0 | h0
            · cases h0
            · exact h0
          · exact h

/-! ## The payloads in the traces -/

/-- Every update call issued after the flags are settled carries the payload
of the plan. -/
theorem applySpec_update_payload {d : ResourceData} {client : Client} {id : VirtualMachineId}
    {shouldTurnBackOn ephemeral : Bool} {p : Plan} {ext : List Event}
    {r : Except Failure ResourceData}
    (h : ApplySpec d client id shouldTurnBackOn ephemeral p ext r) :
    ∀ e ∈ ext, ∀ id2 u f, e = Event.remote (Call.UpdateThenPoll id2 u) f → u = p.update := by
  unfold ApplySpec at h
  refine seq_forall_mem ?_ (fun _ _ h => seq_forall_mem ?_ (fun _ _ h => seq_forall_mem ?_
    (fun _ _ h => seq_forall_mem ?_ (fun _ _ h => seq_forall_mem ?_
      (fun _ _ h => seq_forall_mem ?_ ?_ h) h) h) h) h) h
  · intro ext r hc
    refine callSpec_forall_mem hc ?_
    intro _ f id2 u f2 he
    cases he
  · intro ext r hc
    refine callSpec_forall_mem hc ?_
    intro _ f id2 u f2 he
    cases he
  · intro ext r hc
    refine callSpec_forall_mem hc ?_
    intro _ f id2 u f2 he
    cases he
  · intro ext r hc e he id2 u f2 heq
    subst heq
    rcases hc with ⟨_, rfl, _⟩ | ⟨_, _, rfl, _⟩ | ⟨hch, hne, h | ⟨ty, f, rfl, _⟩⟩
    · simp at he
    · simp at he
    · rw [h.1] at he
      simp at he
    · simp at he
  · intro ext r hc
    refine callSpec_forall_mem hc ?_
    intro _ f id2 u f2 he
    cases he
    rfl
  · intro ext r hc
    refine callSpec_forall_mem hc ?_
    intro _ f id2 u f2 he
    cases he
  · intro ext r hc e he id2 u f2 heq
    subst heq
    have := hc.1 _ he
    simp [Event.mutation, Call.mutation] at this

theorem adjustForPowerState_update (instanceView : Option VirtualMachineInstanceView)
    (p : Plan) : (adjustForPowerState instanceView p).update = p.update := by
  rw [adjustForPowerState_eq]
  exact (foldl_adjust_le _ p).2.1

/-- An update call in the trace of an Update pass carries the payload of the
plan of that pass. -/
theorem update_payload_planned (d : ResourceData) (client : Client) (id2 : VirtualMachineId)
    (u : VirtualMachineUpdate) (f : Bool)
    (he : Event.remote (Call.UpdateThenPoll id2 u) f ∈ updateTrace d client) :
    ∃ id existing iv p, Planned d client id existing iv p ∧ u = p.update := by
  rcases update_cases d client with ⟨hq, _⟩ | ⟨id, existing, iv, p, planExt, applyExt, hp, hq,
    _, ht, hspec⟩
  · have := hq _ he
    simp [Event.isQuiet, Call.isPlanningRead] at this
  · rw [ht] at he
    have hmem := mem_applyExt_of_mutation client id planExt applyExt hq
      (Event.remote (Call.UpdateThenPoll id2 u) f) MutationKind.vmUpdate rfl he
    have hu := applySpec_update_payload hspec _ hmem id2 u f rfl
    rw [adjustForPowerState_update] at hu
    exact ⟨id, existing, iv, p, hp, hu⟩

/-- A creation call in the trace of a Create pass carries the payload that
the pass has built. -/
theorem create_payload_built (d : ResourceData) (client : Client) (id2 : VirtualMachineId)
    (params : VirtualMachine) (f : Bool)
    (he : Event.remote (Call.CreateOrUpdateThenPoll id2 params) f ∈ createTrace d client) :
    createPayload d client (createId d client) = Except.ok params := by
  rcases create_shape d client with ⟨e2, _, ht, _⟩ | ⟨_, hs⟩
  · rw [ht] at he
    exact absurd he (precheckTrace_no_create d client id2 params f)
  · rcases hs with ⟨e2, _, ht, _⟩ | ⟨params2, failed, readExt, hpay, ht, hr⟩
    · rw [ht] at he
      exact absurd he (precheckTrace_no_create d client id2 params f)
    · rw [ht] at he
      simp only [List.mem_append, List.mem_singleton] at he
      rcases he with ((h | h) | h) | h
      · have hm : MutationKind.create ∈ mutations (precheckTrace d client) :=
          mem_mutations.mpr ⟨_, List.mem_append_left _ h, rfl⟩
        rw [precheckTrace_mutations] at hm
        exact absurd hm (List.not_mem_nil _)
      · cases h
        exact hpay
      · rcases hr with ⟨_, hnil, _⟩ | ⟨_, hreads, _⟩
        · rw [hnil] at h
          exact absurd h (List.not_mem_nil _)
        · have := hreads _ h
          simp [Event.mutation, Call.mutation] at this
      · simp [unlockedEvent] at h

/-! ## The reboot setting check of the Update pass -/

theorem planPatchAssessmentMode_error (d : ResourceData) (p : Plan) (e : Failure)
    (h : planPatchAssessmentMode d p = Except.error e) : e.isValidation = true := by
  unfold planPatchAssessmentMode at h
  simp only at h
  repeat' split at h
  all_goals first | (cases h; rfl) | cases h

theorem planBypassPlatformSafetyChecks_error (d : ResourceData) (p : Plan) (e : Failure)
    (h : planBypassPlatformSafetyChecks d p = Except.error e) : e.isValidation = true := by
  unfold planBypassPlatformSafetyChecks at h
  simp only at h
  repeat' split at h
  all_goals first | (cases h; rfl) | cases h

theorem planRebootSetting_error (d : ResourceData) (p : Plan) (e : Failure)
    (h : planRebootSetting d p = Except.error e) : e.isValidation = true := by
  unfold planRebootSetting at h
  simp only at h
  repeat' split at h
  all_goals first | (cases h; rfl) | cases h

/-- With a reboot setting and another patch mode than `AutomaticByPlatform`,
planning stops with a validation error before it talks to the remote
system. -/
theorem planUpdate_reboot_rejected (d : ResourceData) (client : Client)
    (id : VirtualMachineId) (t : Trace) (hne : d.config.reboot_setting ≠ "")
    (hmode : d.config.patch_mode ≠ "AutomaticByPlatform") :
    ∃ msg, planUpdate d client id t = (Except.error (Failure.validation msg), t) := by
  cases hb : planBeforeSize d client with
  | ok p1 => exact absurd ((planBeforeSize_kept d client p1 hb).2 hne) hmode
  | error e =>
    have hv : e.isValidation = true := by
      have h := hb
      unfold planBeforeSize at h
      rcases except_bind_eq_error h with h1 | ⟨p5, -, h⟩
      · exact planPatchAssessmentMode_error d _ e h1
      rcases except_bind_eq_error h with h1 | ⟨p6, -, h⟩
      · exact planBypassPlatformSafetyChecks_error d _ e h1
      rcases except_bind_eq_error h with h1 | ⟨p7, h7, h⟩
      · exact planRebootSetting_error d _ e h1
      exact absurd ((planRebootSetting_kept d p6 p7 h7).2 hne) hmode
    obtain ⟨msg, rfl⟩ := isValidation_iff e hv
    refine ⟨msg, ?_⟩
    unfold planUpdate
    rw [m_lift_bind_run, hb]

/-- An Update pass with a reboot setting and another patch mode than
`AutomaticByPlatform` issues no mutating call, and ends with a validation
error once its two opening reads have succeeded. -/
theorem update_reboot_rejected (d : ResourceData) (client : Client)
    (hne : d.config.reboot_setting ≠ "")
    (hmode : d.config.patch_mode ≠ "AutomaticByPlatform") :
    mutations (updateTrace d client) = [] ∧
    ∀ id existing iv, client.ParseVirtualMachineID d.Id = Except.ok id →
      existingAtStart client id = Except.ok existing →
      instanceViewAtStart client id = Except.ok iv →
      ∃ msg, updateOutcome d client = Except.error (Failure.validation msg) := by
  constructor
  · rcases update_cases d client with ⟨hq, _⟩ | ⟨id, existing, iv, p, _, _, hp, _⟩
    · exact mutations_of_quiet _ hq
    · exact absurd ((planUpdate_payload d client id _ p hp.2.2.2).2.2 hne) hmode
  · intro id existing iv hid hget hiv
    obtain ⟨msg, hplan⟩ := planUpdate_reboot_rejected d client id
      (traceAfterInstanceView client id) hne hmode
    refine ⟨msg, ?_⟩
    rcases update_shape d client with ⟨e, he, _⟩ | ⟨id2, hid2, hs⟩
    · rw [hid] at he
      cases he
    · rw [hid] at hid2
      cases hid2
      rcases hs with ⟨err, hget2, _⟩ | ⟨existing2, _, hs⟩
      · rw [hget] at hget2
        cases hget2
      · rcases hs with ⟨err, hiv2, _⟩ | ⟨iv2, _, planExt, _, hs⟩
        · rw [hiv] at hiv2
          cases hiv2
        · rcases hs with ⟨e, hp1, _, ho⟩ | ⟨p2, _, hp1, _⟩
          · rw [hplan] at hp1
            cases hp1
            exact ho
          · rw [hplan] at hp1
            cases hp1

/-- A Create pass with a reboot setting and another patch mode than
`AutomaticByPlatform` issues no mutating call, and ends with a validation
error once its precheck has reported that the machine does not exist. -/
theorem create_reboot_rejected (d : ResourceData) (client : Client)
    (hne : d.config.reboot_setting ≠ "")
    (hmode : d.config.patch_mode ≠ "AutomaticByPlatform") :
    mutations (createTrace d client) = [] ∧
    (d.config.os_disk ≠ [] →
      precheckNotFound (existingAtStart client (createId d client)) = true →
      ∃ msg, createOutcome d client = Except.error (Failure.validation msg)) := by
  have hnot : ∀ params, createPayload d client (createId d client) ≠ Except.ok params := by
    intro params hpay
    exact absurd ((createPayload_checked d client _ params hpay).2.2.2.1 hne) hmode
  constructor
  · rcases create_shape d client with ⟨e2, _, ht, _⟩ | ⟨_, hs⟩
    · rw [ht]
      rfl
    · rcases hs with ⟨e2, _, ht, _⟩ | ⟨params, _, _, hpay, _⟩
      · rw [ht]
        rfl
      · exact absurd hpay (hnot params)
  · intro hdisk hpre
    cases hpay : createPayload d client (createId d client) with
    | ok params => exact absurd hpay (hnot params)
    | error e =>
      obtain ⟨msg, rfl⟩ := isValidation_iff e (createPayload_error d client _ e hdisk hpay)
      exact ⟨msg, (create_of_payload_error d client _ hpre hpay).1⟩

/-! ## Create: validation and the existence precheck -/

/-- C11: when the existence precheck reports not found, a Create pass whose
priority is not Spot and whose configuration sets an eviction policy or a
maximum bid price above zero ends with a validation error, and its trace
holds no create-or-update call.  The `os_disk` block is required by the
schema, hence never empty. -/
theorem create_rejects_spot_attributes_without_spot_priority (d : ResourceData)
    (client : Client) (hdisk : d.config.os_disk ≠ [])
    (hpre : precheckNotFound (existingAtStart client (createId d client)) = true)
    (hprio : d.config.priority ≠ "Spot")
    (hset : d.config.eviction_policy ≠ "" ∨ 0 < d.config.max_bid_price) :
    (∃ msg, createOutcome d client = Except.error (Failure.validation msg)) ∧
    ∀ id params failed,
      Event.remote (Call.CreateOrUpdateThenPoll id params) failed ∉ createTrace d client := by
  cases hpay : createPayload d client (createId d client) with
  | ok params =>
    obtain ⟨h1, _, h3, _⟩ := createPayload_checked d client _ params hpay
    rcases hset with h | h
    · exact absurd (h1 h) hprio
    · exact absurd (h3 h) hprio
  | error e =>
    obtain ⟨ho, ht⟩ := create_of_payload_error d client e hpre hpay
    obtain ⟨msg, rfl⟩ := isValidation_iff e (createPayload_error d client _ e hdisk hpay)
    refine ⟨⟨msg, ho⟩, ?_⟩
    intro id params failed
    rw [ht]
    exact precheckTrace_no_create d client id params failed

theorem create_rejects_spot_attributes_without_spot_priority_witness :
    (∃ msg, createOutcome regularWithBid freshClient = Except.error (Failure.validation msg)) ∧
    ∀ id params failed,
      Event.remote (Call.CreateOrUpdateThenPoll id params) failed ∉
        createTrace regularWithBid freshClient :=
  create_rejects_spot_attributes_without_spot_priority regularWithBid freshClient
    (by decide) (by decide) (by decide) (Or.inr (by decide))

/-- C13: when the existence precheck reports not found, a Create pass with
priority Spot and no eviction policy ends with a validation error, and its
trace holds no create-or-update call.  The `os_disk` block is required by the
schema, hence never empty. -/
theorem create_spot_requires_eviction_policy (d : ResourceData) (client : Client)
    (hdisk : d.config.os_disk ≠ [])
    (hpre : precheckNotFound (existingAtStart client (createId d client)) = true)
    (hprio : d.config.priority = "Spot") (hnone : d.config.eviction_policy = "") :
    (∃ msg, createOutcome d client = Except.error (Failure.validation msg)) ∧
    ∀ id params failed,
      Event.remote (Call.CreateOrUpdateThenPoll id params) failed ∉ createTrace d client := by
  cases hpay : createPayload d client (createId d client) with
  | ok params =>
    obtain ⟨_, h2, _⟩ := createPayload_checked d client _ params hpay
    exact absurd hprio (h2 hnone)
  | error e =>
    obtain ⟨ho, ht⟩ := create_of_payload_error d client e hpre hpay
    obtain ⟨msg, rfl⟩ := isValidation_iff e (createPayload_error d client _ e hdisk hpay)
    refine ⟨⟨msg, ho⟩, ?_⟩
    intro id params failed
    rw [ht]
    exact precheckTrace_no_create d client id params failed

theorem create_spot_requires_eviction_policy_witness :
    (∃ msg,
      createOutcome spotWithoutEviction freshClient = Except.error (Failure.validation msg)) ∧
    ∀ id params failed,
      Event.remote (Call.CreateOrUpdateThenPoll id params) failed ∉
        createTrace spotWithoutEviction freshClient :=
  create_spot_requires_eviction_policy spotWithoutEviction freshClient
    (by decide) (by decide) (by decide) (by decide)

/-- C14, as stated, fails: the Create pass for a Spot machine without an
eviction policy ends with a validation error after the precheck `Get`, a
remote read, has been issued. -/
theorem create_validation_error_after_precheck_read :
    createOutcome spotWithoutEviction freshClient =
      Except.error (Failure.validation
        "an eviction_policy must be specified when priority is set to Spot") ∧
    createTrace spotWithoutEviction freshClient =
      [Event.locked "vm" VirtualMachineResourceName,
       Event.remote (Call.Get sampleId) true,
       Event.unlocked "vm" VirtualMachineResourceName] ∧
    (createTrace spotWithoutEviction freshClient).any Event.isRemote = true := by
  exact ⟨rfl, rfl, rfl⟩

/-- C14, amended: when a Create pass ends with a validation error, the only
remote call issued is the precheck `Get`, a read; the trace is the lock, that
`Get` and the release of the lock, and holds no mutating call. -/
theorem create_validation_error_follows_precheck_only (d : ResourceData) (client : Client)
    (msg : String) (h : createOutcome d client = Except.error (Failure.validation msg)) :
    createTrace d client =
      [Event.locked (createId d client).VirtualMachineName VirtualMachineResourceName,
       Event.remote (Call.Get (createId d client))
         (failedAnswer (existingAtStart client (createId d client))),
       Event.unlocked (createId d client).VirtualMachineName VirtualMachineResourceName] ∧
    mutations (createTrace d client) = [] := by
  have ht := create_of_validation d client msg h
  rw [ht]
  exact ⟨rfl, rfl⟩

theorem create_validation_error_follows_precheck_only_witness :
    createTrace spotWithoutEviction freshClient =
      [Event.locked (createId spotWithoutEviction freshClient).VirtualMachineName
         VirtualMachineResourceName,
       Event.remote (Call.Get (createId spotWithoutEviction freshClient))
         (failedAnswer (existingAtStart freshClient (createId spotWithoutEviction freshClient))),
       Event.unlocked (createId spotWithoutEviction freshClient).VirtualMachineName
         VirtualMachineResourceName] ∧
    mutations (createTrace spotWithoutEviction freshClient) = [] :=
  create_validation_error_follows_precheck_only spotWithoutEviction freshClient
    "an eviction_policy must be specified when priority is set to Spot" rfl

/-- C15: when the precheck `Get` does not report not-found, the Create pass
ends with an error, the import-required error when the machine exists and the
error of the `Get` otherwise, and its trace holds no create-or-update call
and no other mutating call. -/
theorem create_precheck_refuses_existing (d : ResourceData) (client : Client)
    (h : precheckNotFound (existingAtStart client (createId d client)) = false) :
    (∃ e, createOutcome d client = Except.error e) ∧
    (∀ existing, existingAtStart client (createId d client) = Except.ok existing →
      createOutcome d client =
        Except.error (Failure.importAsExists "azurerm_windows_virtual_machine"
          (client.VirtualMachineIdString (createId d client)))) ∧
    (∀ err, existingAtStart client (createId d client) = Except.error err →
      createOutcome d client = Except.error (Failure.remote "checking for existing" err)) ∧
    (∀ id params failed,
      Event.remote (Call.CreateOrUpdateThenPoll id params) failed ∉ createTrace d client) ∧
    mutations (createTrace d client) = [] := by
  have hno : ∀ e, createPrecheck client (createId d client)
      (existingAtStart client (createId d client)) = Except.error e →
      (∀ id params failed,
        Event.remote (Call.CreateOrUpdateThenPoll id params) failed ∉ createTrace d client) ∧
      mutations (createTrace d client) = [] := by
    intro e he
    obtain ⟨_, ht⟩ := create_of_precheck_error d client e he
    rw [ht]
    exact ⟨fun id params failed => precheckTrace_no_create d client id params failed, rfl⟩
  rcases createPrecheck_of_found client (createId d client) _ h with
    ⟨existing, hr, hp⟩ | ⟨err, hr, hp⟩
  · obtain ⟨ho, _⟩ := create_of_precheck_error d client _ hp
    refine ⟨⟨_, ho⟩, fun _ _ => ho, ?_, (hno _ hp).1, (hno _ hp).2⟩
    intro err2 h2
    rw [hr] at h2
    cases h2
  · obtain ⟨ho, _⟩ := create_of_precheck_error d client _ hp
    refine ⟨⟨_, ho⟩, ?_, ?_, (hno _ hp).1, (hno _ hp).2⟩
    · intro existing h2
      rw [hr] at h2
      cases h2
    · intro err2 h2
      rw [hr] at h2
      cases h2
      exact ho

theorem create_precheck_refuses_existing_witness :
    (∃ e, createOutcome regularMachine runningClient = Except.error e) ∧
    (∀ existing, existingAtStart runningClient (createId regularMachine runningClient) =
        Except.ok existing →
      createOutcome regularMachine runningClient =
        Except.error (Failure.importAsExists "azurerm_windows_virtual_machine"
          (runningClient.VirtualMachineIdString (createId regularMachine runningClient)))) ∧
    (∀ err, existingAtStart runningClient (createId regularMachine runningClient) =
        Except.error err →
      createOutcome regularMachine runningClient =
        Except.error (Failure.remote "checking for existing" err)) ∧
    (∀ id params failed,
      Event.remote (Call.CreateOrUpdateThenPoll id params) failed ∉
        createTrace regularMachine runningClient) ∧
    mutations (createTrace regularMachine runningClient) = [] :=
  create_precheck_refuses_existing regularMachine runningClient (by decide)

/-! ## Cross-field rules of the payloads -/

/-- C12: what the code does where the claim fails.  The Update pass for a
machine of priority Regular whose `max_bid_price` changed to 5 ends well:
after `Get` and `InstanceView` it powers the machine off, deallocates it and
sends an update whose billing profile carries the price 5. -/
theorem update_sends_max_bid_price_without_spot_priority :
    bidChange.config.priority ≠ "Spot" ∧
    bidChange.HasChange ["max_bid_price"] = true ∧
    0 < bidChange.config.max_bid_price ∧
    updateOutcome bidChange runningClient = Except.ok bidChange ∧
    mutations (updateTrace bidChange runningClient) =
      [MutationKind.powerOff, MutationKind.deallocate, MutationKind.vmUpdate,
       MutationKind.start] ∧
    Event.remote (Call.UpdateThenPoll sampleId bidChangeUpdate) false ∈
      updateTrace bidChange runningClient ∧
    bidChangeUpdate.Properties.BillingProfile = some { MaxPrice := some 5 } :=
  ⟨by decide, rfl, by decide, rfl, rfl, by decide, rfl⟩

/-- C18: every update call of an Update pass in which `license_type` changed
carries the license type `None` when the configured value is empty and the
configured value otherwise, never the empty string; every creation call of a
Create pass with an empty `license_type` carries no license type. -/
theorem license_type_sentinel (d : ResourceData) (client : Client) :
    (d.HasChange ["license_type"] = true →
      ∀ id update failed,
        Event.remote (Call.UpdateThenPoll id update) failed ∈ updateTrace d client →
        (d.config.license_type = "" → update.Properties.LicenseType = some "None") ∧
        (d.config.license_type ≠ "" →
          update.Properties.LicenseType = some d.config.license_type) ∧
        update.Properties.LicenseType ≠ some "") ∧
    (d.config.license_type = "" →
      ∀ id params failed,
        Event.remote (Call.CreateOrUpdateThenPoll id params) failed ∈ createTrace d client →
        ∃ props, params.Properties = some props ∧ props.LicenseType = none) := by
  constructor
  · intro hchange id update failed hmem
    obtain ⟨id2, existing, iv, p, hp, rfl⟩ := update_payload_planned d client id update failed hmem
    have hl := (planUpdate_payload d client id2 _ p hp.2.2.2).1
    rw [hchange, if_pos rfl] at hl
    rw [hl]
    by_cases he : d.config.license_type = ""
    · refine ⟨fun _ => ?_, fun hne => absurd he hne, ?_⟩ <;> simp [licenseSentinel, he]
    · refine ⟨fun h => absurd h he, fun _ => ?_, ?_⟩ <;> simp [licenseSentinel, he]
  · intro hempty id params failed hmem
    have hpay := create_payload_built d client id params failed hmem
    obtain ⟨_, _, _, _, props, hprops, hl, _⟩ := createPayload_checked d client _ params hpay
    refine ⟨props, hprops, ?_⟩
    rw [hl, hempty]
    rfl

theorem license_type_sentinel_witness :
    licenseRemovedUpdate.Properties.LicenseType = some "None" ∧
    ∃ props, regularPayload.Properties = some props ∧ props.LicenseType = none :=
  ⟨((license_type_sentinel licenseRemoved runningClient).1 rfl sampleId licenseRemovedUpdate
      false (by decide)).1 rfl,
   (license_type_sentinel regularMachine freshClient).2 rfl sampleId regularPayload false
      (by decide)⟩

/-- C19, as stated, fails: a Create pass with a reboot setting and the patch
mode `Manual` for a machine that exists already ends with the import-required
error of the precheck, which is not a validation error. -/
theorem create_reboot_setting_hidden_by_precheck :
    rebootWithManualPatching.config.reboot_setting ≠ "" ∧
    rebootWithManualPatching.config.patch_mode ≠ "AutomaticByPlatform" ∧
    createOutcome rebootWithManualPatching runningClient =
      Except.error (Failure.importAsExists "azurerm_windows_virtual_machine"
        "/subscriptions/sub/resourceGroups/rg/providers/Microsoft.Compute/virtualMachines/vm") ∧
    ¬ ∃ msg, createOutcome rebootWithManualPatching runningClient =
      Except.error (Failure.validation msg) := by
  have ho : createOutcome rebootWithManualPatching runningClient =
      Except.error (Failure.importAsExists "azurerm_windows_virtual_machine"
        "/subscriptions/sub/resourceGroups/rg/providers/Microsoft.Compute/virtualMachines/vm") :=
    rfl
  refine ⟨by decide, by decide, ho, ?_⟩
  rintro ⟨msg, h⟩
  rw [ho] at h
  cases h

/-- C19, amended: with a non-empty reboot setting and a patch mode other than
`AutomaticByPlatform`, a Create pass whose precheck reports not found and an
Update pass whose id parses and whose `Get` and `InstanceView` succeed end
with a validation error, and neither pass issues a mutating call; and whenever
a creation or update call carries a reboot setting, the patch mode is
`AutomaticByPlatform`.  (The `os_disk` block is required by the schema, hence
never empty.) -/
theorem reboot_setting_requires_automatic_by_platform (d : ResourceData) (client : Client) :
    (d.config.reboot_setting ≠ "" → d.config.patch_mode ≠ "AutomaticByPlatform" →
      (d.config.os_disk ≠ [] →
        precheckNotFound (existingAtStart client (createId d client)) = true →
        ∃ msg, createOutcome d client = Except.error (Failure.validation msg)) ∧
      (∀ id existing iv, client.ParseVirtualMachineID d.Id = Except.ok id →
        existingAtStart client id = Except.ok existing →
        instanceViewAtStart client id = Except.ok iv →
        ∃ msg, updateOutcome d client = Except.error (Failure.validation msg)) ∧
      mutations (createTrace d client) = [] ∧ mutations (updateTrace d client) = []) ∧
    (∀ id params failed props v,
      Event.remote (Call.CreateOrUpdateThenPoll id params) failed ∈ createTrace d client →
      params.Properties = some props → rebootSettingOf props = some v →
      d.config.patch_mode = "AutomaticByPlatform") ∧
    (∀ id update failed v,
      Event.remote (Call.UpdateThenPoll id update) failed ∈ updateTrace d client →
      rebootSettingOf update.Properties = some v →
      d.config.patch_mode = "AutomaticByPlatform") := by
  refine ⟨?_, ?_, ?_⟩
  · intro hne hmode
    obtain ⟨hc1, hc2⟩ := create_reboot_rejected d client hne hmode
    obtain ⟨hu1, hu2⟩ := update_reboot_rejected d client hne hmode
    exact ⟨hc2, hu2, hc1, hu1⟩
  · intro id params failed props v hmem hprops hv
    have hpay := create_payload_built d client id params failed hmem
    obtain ⟨_, _, _, hcheck, props2, hprops2, _, hr⟩ :=
      createPayload_checked d client _ params hpay
    rw [hprops] at hprops2
    cases hprops2
    rw [hr] at hv
    by_cases he : d.config.reboot_setting = ""
    · simp [he] at hv
    · exact hcheck he
  · intro id update failed v hmem hv
    obtain ⟨id2, existing, iv, p, hp, rfl⟩ := update_payload_planned d client id update failed hmem
    exact (planUpdate_payload d client id2 _ p hp.2.2.2).2.1 v hv

theorem reboot_setting_requires_automatic_by_platform_witness :
    (∃ msg, createOutcome rebootWithManualPatching freshClient =
      Except.error (Failure.validation msg)) ∧
    (∃ msg, updateOutcome rebootWithoutPlatform runningClient =
      Except.error (Failure.validation msg)) ∧
    mutations (createTrace rebootWithManualPatching freshClient) = [] ∧
    mutations (updateTrace rebootWithoutPlatform runningClient) = [] :=
  ⟨((reboot_setting_requires_automatic_by_platform rebootWithManualPatching freshClient).1
      (by decide) (by decide)).1 (by decide) (by decide),
   ((reboot_setting_requires_automatic_by_platform rebootWithoutPlatform runningClient).1
      (by decide) (by decide)).2.1 sampleId (some managedMachine)
      (sampleInstanceView ["ProvisioningState/succeeded", "PowerState/running"]) rfl rfl rfl,
   ((reboot_setting_requires_automatic_by_platform rebootWithManualPatching freshClient).1
      (by decide) (by decide)).2.2.1,
   ((reboot_setting_requires_automatic_by_platform rebootWithoutPlatform runningClient).1
      (by decide) (by decide)).2.2.2⟩

/-- C20: for an `os_disk` block with a non-empty
`secure_vm_disk_encryption_set_id`, `expandVirtualMachineOSDisk` returns a
validation error when `security_encryption_type` is not
`DiskWithVMGuestState`; otherwise every disk it returns carries that id as the
disk encryption set of the security profile of its managed disk, and it does
return a disk unless `diff_disk_settings` is set with a caching other than
`ReadOnly`. -/
theorem expandVirtualMachineOSDisk_secure_encryption_set (raw : OSDiskBlock)
    (rest : List OSDiskBlock) (osType : String)
    (hset : raw.secure_vm_disk_encryption_set_id ≠ "") :
    (raw.security_encryption_type ≠ "DiskWithVMGuestState" →
      ∃ msg, expandVirtualMachineOSDisk (raw :: rest) osType =
        Except.error (Failure.validation msg)) ∧
    (raw.security_encryption_type = "DiskWithVMGuestState" →
      (∀ disk, expandVirtualMachineOSDisk (raw :: rest) osType = Except.ok disk →
        ∃ managedDisk profile, disk.ManagedDisk = some managedDisk ∧
          managedDisk.SecurityProfile = some profile ∧
          profile.DiskEncryptionSet = some { Id := some raw.secure_vm_disk_encryption_set_id }) ∧
      (raw.diff_disk_settings = [] ∨ raw.caching = "ReadOnly" →
        ∃ disk, expandVirtualMachineOSDisk (raw :: rest) osType = Except.ok disk)) := by
  have hs : (raw.secure_vm_disk_encryption_set_id != "") = true := by simpa using hset
  constructor
  · intro htype
    have ht : ("DiskWithVMGuestState" != raw.security_encryption_type) = true := by
      simpa using fun h => htype h.symm
    refine ⟨"secure_vm_disk_encryption_set_id can only be specified when security_encryption_type is set to DiskWithVMGuestState", ?_⟩
    simp [expandVirtualMachineOSDisk, hs, ht]
  · intro htype
    have ht : ("DiskWithVMGuestState" != raw.security_encryption_type) = false := by
      simp [htype]
    have hn : (raw.security_encryption_type != "") = true := by
      rw [htype]
      decide
    constructor
    · intro disk h
      simp only [expandVirtualMachineOSDisk, hs, ht, hn, if_true, Bool.false_eq_true,
        if_false] at h
      split at h
      · cases h
      · rename_i diffDiskSettings _
        cases h
        cases hd : (raw.disk_encryption_set_id != "") <;> exact ⟨_, _, rfl, rfl, rfl⟩
    · intro hdiff
      cases hr : expandVirtualMachineOSDisk (raw :: rest) osType with
      | ok disk => exact ⟨disk, rfl⟩
      | error e =>
        exfalso
        cases hl : raw.diff_disk_settings with
        | nil => simp [expandVirtualMachineOSDisk, hs, ht, hn, hl] at hr
        | cons diffDiskRaw more =>
          rcases hdiff with h | h
          · rw [hl] at h
            cases h
          · simp [expandVirtualMachineOSDisk, hs, ht, hn, hl, h] at hr

theorem expandVirtualMachineOSDisk_secure_encryption_set_witness :
    ∃ disk, expandVirtualMachineOSDisk [confidentialOsDisk] "Windows" = Except.ok disk :=
  ((expandVirtualMachineOSDisk_secure_encryption_set confidentialOsDisk [] "Windows"
    (by decide)).2 (by decide)).2 (Or.inl rfl)

/-! ## The Delete pass -/

theorem powerOffBeforeDelete_eq (client : Client) (id : VirtualMachineId)
    (existing : Option VirtualMachine) :
    powerOffBeforeDelete client id existing =
      callWhen (!client.Features.SkipShutdownAndForceDelete && !provisioningFailed existing)
        (Call.PowerOffThenPoll id { SkipShutdown := some (!client.Features.GracefulShutdown) })
        (fun t => client.PowerOffThenPoll t id
          { SkipShutdown := some (!client.Features.GracefulShutdown) })
        "powering off" := by
  unfold powerOffBeforeDelete
  cases client.Features.SkipShutdownAndForceDelete <;> cases provisioningFailed existing <;>
    first | rfl | exact callWhen_true _ _ _

theorem deleteMachine_eq (client : Client) (id : VirtualMachineId) :
    deleteMachine client id =
      callWhen true (Call.DeleteThenPoll id { ForceDeletion := forceDeletionOption client })
        (fun t => client.DeleteThenPoll t id { ForceDeletion := forceDeletionOption client })
        "deleting" := by
  unfold deleteMachine
  exact callWhen_true _ _ _

theorem deleteDisk_spec (client : Client) (diskId : DiskId) :
    M.Sat (deleteDisk client diskId) (fun ext r =>
      (ext = [Event.remote (Call.DisksDelete diskId) true] ∧
        (r = Except.ok () ∨ ∃ doing err, r = Except.error (Failure.remote doing err))) ∨
      (∃ failed,
        ext = [Event.remote (Call.DisksDelete diskId) false,
               Event.remote (Call.DisksDeletePollUntilDone diskId) failed] ∧
        ((failed = false ∧ r = Except.ok ()) ∨
         (failed = true ∧ ∃ doing err, r = Except.error (Failure.remote doing err))))) := by
  intro t
  unfold deleteDisk
  rw [m_call_bind_run]
  cases h1 : client.DisksDelete t diskId with
  | error err =>
    refine ⟨[Event.remote (Call.DisksDelete diskId) true], ?_, Or.inl ⟨rfl, ?_⟩⟩
    · simp only [failedAnswer]
      split <;> rfl
    · simp only [failedAnswer]
      split
      · exact Or.inr ⟨_, err, rfl⟩
      · exact Or.inl rfl
  | ok u =>
    simp only [failedAnswer]
    rw [m_call_bind_run]
    cases h2 : client.DisksDeletePollUntilDone
        (t ++ [Event.remote (Call.DisksDelete diskId) false]) diskId with
    | error err =>
      exact ⟨[Event.remote (Call.DisksDelete diskId) false,
        Event.remote (Call.DisksDeletePollUntilDone diskId) true],
        by simp [failedAnswer, M.fail], Or.inr ⟨true, rfl, Or.inr ⟨rfl, _, err, rfl⟩⟩⟩
    | ok u2 =>
      exact ⟨[Event.remote (Call.DisksDelete diskId) false,
        Event.remote (Call.DisksDeletePollUntilDone diskId) false],
        by simp [failedAnswer, m_pure_run], Or.inr ⟨false, rfl, Or.inl ⟨rfl, rfl⟩⟩⟩

theorem deleteOsDisk_spec (client : Client) (existing : Option VirtualMachine) :
    M.Sat (deleteOsDisk client existing) (DiskCleanupSpec client existing) := by
  unfold deleteOsDisk
  simp only
  cases hf : client.Features.DeleteOSDiskOnDeletion with
  | false => exact sat_pure () (Or.inl ⟨Or.inl hf, rfl, rfl⟩)
  | true =>
    simp only [if_true]
    by_cases hid : managedDiskIdOf existing = ""
    · have hb : (managedDiskIdOf existing != "") = false := by simp [hid]
      rw [hb]
      exact sat_pure () (Or.inl ⟨Or.inr hid, rfl, rfl⟩)
    · have hb : (managedDiskIdOf existing != "") = true := by simpa using hid
      rw [hb]
      simp only [if_true]
      cases hp : client.ParseDiskID (managedDiskIdOf existing) with
      | error e => exact sat_fail _ (Or.inr ⟨hf, hid, Or.inl ⟨e, hp, rfl, rfl⟩⟩)
      | ok diskId =>
        refine sat_mono (deleteDisk_spec client diskId) ?_
        intro ext r h
        exact Or.inr ⟨hf, hid, Or.inr ⟨diskId, hp, h⟩⟩

theorem waitForDeletion_spec (client : Client) (id : VirtualMachineId) (refreshes : Nat) :
    M.Sat (waitForDeletion client id refreshes) (VerifySpec id) := by
  induction refreshes with
  | zero => exact sat_fail _ (fun e he => absurd he (List.not_mem_nil _))
  | succ n ih =>
    intro t
    unfold waitForDeletion
    rw [m_call_bind_run]
    cases h : client.Get t id with
    | error err =>
      refine ⟨[Event.remote (Call.Get id) true], ?_, ?_⟩
      · simp only [failedAnswer]
        split <;> rfl
      · intro e he
        exact ⟨true, List.mem_singleton.mp he⟩
    | ok existing =>
      simp only [failedAnswer]
      obtain ⟨ext, h1, h2⟩ := ih (t ++ [Event.remote (Call.Get id) false])
      refine ⟨[Event.remote (Call.Get id) false] ++ ext, ?_, ?_⟩
      · rw [h1, List.append_assoc]
      · intro e he
        rcases List.mem_append.mp he with h3 | h3
        · exact ⟨false, List.mem_singleton.mp h3⟩
        · exact h2 e h3

theorem verifyDeleted_spec (client : Client) (id : VirtualMachineId) :
    M.Sat (verifyDeleted client id) (VerifySpec id) := by
  intro t
  unfold verifyDeleted
  rw [m_call_bind_run]
  cases h : client.Get t id with
  | error err =>
    refine ⟨[Event.remote (Call.Get id) true], ?_, ?_⟩
    · simp only [failedAnswer]
      split <;> rfl
    · intro e he
      exact ⟨true, List.mem_singleton.mp he⟩
  | ok existing =>
    simp only [failedAnswer]
    obtain ⟨ext, h1, h2⟩ := waitForDeletion_spec client id client.deleteWaitRefreshes
      (t ++ [Event.remote (Call.Get id) false])
    refine ⟨[Event.remote (Call.Get id) false] ++ ext, ?_, ?_⟩
    · rw [h1, List.append_assoc]
    · intro e he
      rcases List.mem_append.mp he with h3 | h3
      · exact ⟨false, List.mem_singleton.mp h3⟩
      · exact h2 e h3

theorem deleteExisting_spec (client : Client) (id : VirtualMachineId)
    (existing : Option VirtualMachine) :
    M.Sat (deleteExisting client id existing) (DeleteSpec client id existing) := by
  unfold deleteExisting DeleteSpec
  rw [powerOffBeforeDelete_eq, deleteMachine_eq]
  exact sat_seq (callWhen_spec _ _ _ _) (sat_seq (callWhen_spec _ _ _ _)
    (sat_seq (deleteOsDisk_spec client existing) (verifyDeleted_spec client id)))

/-- Every Delete pass has the shape `DeleteShape`. -/
theorem delete_shape (d : ResourceData) (client : Client) :
    DeleteShape d client (deleteTrace d client) (deleteOutcome d client) := by
  unfold DeleteShape deleteTrace deleteOutcome resourceWindowsVirtualMachineDelete
  cases hid : client.ParseVirtualMachineID d.Id with
  | error e => exact Or.inl ⟨e, rfl, rfl, rfl⟩
  | ok id =>
    refine Or.inr ⟨id, rfl, ?_⟩
    simp only [m_bind_run, M.emit, M.deferring, List.nil_append]
    have hl : [Event.locked id.VirtualMachineName VirtualMachineResourceName] = lockedTrace id :=
      rfl
    rw [hl]
    unfold deleteLocked
    rw [m_call_bind_run]
    have hg : lockedTrace id ++
        [Event.remote (Call.Get id) (failedAnswer (client.Get (lockedTrace id) id))] =
        traceAfterGet client id := rfl
    rw [hg]
    have he : client.Get (lockedTrace id) id = existingAtStart client id := rfl
    rw [he]
    cases hget : existingAtStart client id with
    | error err =>
      left
      refine ⟨err, rfl, ?_, ?_⟩
      · simp only []
        split <;> rfl
      · simp only []
        split <;> rfl
    | ok existing =>
      right
      obtain ⟨ext, h1, h2⟩ := deleteExisting_spec client id existing (traceAfterGet client id)
      refine ⟨existing, ext, rfl, ?_, ?_⟩
      · simp only [h1, unlockedEvent]
      · simpa using h2

/-! ## The calls of a Delete pass -/

theorem deleteSpec_events {client : Client} {id : VirtualMachineId}
    {existing : Option VirtualMachine} {ext : List Event} {r : Except Failure Unit}
    (h : DeleteSpec client id existing ext r) : ∀ e ∈ ext, DeleteEvent client id existing e := by
  unfold DeleteSpec at h
  refine seq_forall_mem ?_ (fun _ _ h => seq_forall_mem ?_
    (fun _ _ h => seq_forall_mem ?_ ?_ h) h) h
  · intro ext r hc
    refine callSpec_forall_mem hc ?_
    intro hcond f
    simp only [Bool.and_eq_true, Bool.not_eq_true'] at hcond
    exact Or.inr (Or.inl ⟨hcond.1, hcond.2, f, rfl⟩)
  · intro ext r hc
    refine callSpec_forall_mem hc ?_
    intro _ f
    exact Or.inr (Or.inr (Or.inl ⟨f, rfl⟩))
  · intro ext r hc e he
    rcases hc with ⟨_, rfl, _⟩ | ⟨hf, hid, ⟨_, _, rfl, _⟩ | ⟨diskId, hp, h⟩⟩
    · exact absurd he (List.not_mem_nil _)
    · exact absurd he (List.not_mem_nil _)
    · refine Or.inr (Or.inr (Or.inr ⟨hf, hid, diskId, ?_⟩))
      rcases h with ⟨rfl, _⟩ | ⟨failed, rfl, _⟩
      · exact ⟨true, hp, Or.inl (List.mem_singleton.mp he)⟩
      · simp only [List.mem_cons, List.mem_singleton, List.not_mem_nil, or_false] at he
        rcases he with rfl | rfl
        · exact ⟨false, hp, Or.inl rfl⟩
        · exact ⟨failed, hp, Or.inr rfl⟩
  · intro ext r hc e he
    exact Or.inl (hc e he)

/-- Every remote call in the trace of a Delete pass is the opening `Get` or a
call of `DeleteEvent`. -/
theorem delete_events (d : ResourceData) (client : Client) (c : Call) (failed : Bool)
    (he : Event.remote c failed ∈ deleteTrace d client) :
    ∃ id, client.ParseVirtualMachineID d.Id = Except.ok id ∧
      (c = Call.Get id ∨
       ∃ existing, existingAtStart client id = Except.ok existing ∧
         DeleteEvent client id existing (Event.remote c failed)) := by
  rcases delete_shape d client with ⟨e, _, ht, _⟩ | ⟨id, hid, hs⟩
  · rw [ht] at he
    exact absurd he (List.not_mem_nil _)
  · refine ⟨id, hid, ?_⟩
    rcases hs with ⟨err, _, ht, _⟩ | ⟨existing, ext, hget, ht, hspec⟩
    · rw [ht] at he
      simp only [traceAfterGet, lockedTrace, unlockedEvent, List.mem_append, List.mem_singleton,
        List.mem_cons, List.not_mem_nil, or_false] at he
      rcases he with (h | h) | h
      · cases h
      · cases h
        exact Or.inl rfl
      · cases h
    · rw [ht] at he
      simp only [List.mem_append, List.mem_singleton] at he
      rcases he with (h | h) | h
      · simp only [traceAfterGet, lockedTrace, List.mem_append, List.mem_singleton] at h
        rcases h with h | h
        · cases h
        · cases h
          exact Or.inl rfl
      · exact Or.inr ⟨existing, hget, deleteSpec_events hspec _ h⟩
      · simp [unlockedEvent] at h

theorem waitForDeletion_withoutDiskCleanup (client : Client) (id : VirtualMachineId)
    (refreshes : Nat) :
    waitForDeletion (withoutDiskCleanup client) id refreshes =
      waitForDeletion client id refreshes := by
  induction refreshes with
  | zero => rfl
  | succ n ih =>
    unfold waitForDeletion
    rw [ih]
    rfl

theorem deleteExisting_withoutDiskCleanup (client : Client) (id : VirtualMachineId)
    (existing : Option VirtualMachine) (h : managedDiskIdOf existing = "") :
    deleteExisting (withoutDiskCleanup client) id existing = deleteExisting client id existing := by
  have h1 : deleteOsDisk client existing = pure () := by
    unfold deleteOsDisk
    simp [h]
  have h2 : deleteOsDisk (withoutDiskCleanup client) existing = pure () := rfl
  have h3 : powerOffBeforeDelete (withoutDiskCleanup client) id existing =
      powerOffBeforeDelete client id existing := rfl
  have h4 : deleteMachine (withoutDiskCleanup client) id = deleteMachine client id := rfl
  have h5 : verifyDeleted (withoutDiskCleanup client) id = verifyDeleted client id := by
    unfold verifyDeleted
    simp only [waitForDeletion_withoutDiskCleanup]
    rfl
  unfold deleteExisting
  rw [h1, h2, h3, h4, h5]

/-- Without an identity of the OS disk, the pass runs as it does with the
cleanup switched off. -/
theorem delete_withoutDiskCleanup (d : ResourceData) (client : Client) (id : VirtualMachineId)
    (existing : Option VirtualMachine)
    (hid : client.ParseVirtualMachineID d.Id = Except.ok id)
    (hget : existingAtStart client id = Except.ok existing)
    (h : managedDiskIdOf existing = "") :
    resourceWindowsVirtualMachineDelete d (withoutDiskCleanup client) [] =
      resourceWindowsVirtualMachineDelete d client [] := by
  unfold resourceWindowsVirtualMachineDelete
  have hp : (withoutDiskCleanup client).ParseVirtualMachineID d.Id =
      client.ParseVirtualMachineID d.Id := rfl
  rw [hp, hid]
  simp only [m_bind_run, M.emit, M.deferring, List.nil_append]
  have hl : ∀ c : Client, deleteLocked c id
      [Event.locked id.VirtualMachineName VirtualMachineResourceName] =
      (match c.Get (lockedTrace id) id with
        | Except.error err =>
          if WasNotFound err then pure () else M.fail (Failure.remote "retrieving" err)
        | Except.ok existing => deleteExisting c id existing)
        (lockedTrace id ++ [Event.remote (Call.Get id)
          (failedAnswer (c.Get (lockedTrace id) id))]) := by
    intro c
    unfold deleteLocked
    rw [m_call_bind_run]
    rfl
  rw [hl, hl]
  have hg : (withoutDiskCleanup client).Get (lockedTrace id) id =
      client.Get (lockedTrace id) id := rfl
  have hget2 : client.Get (lockedTrace id) id = Except.ok existing := hget
  rw [hg, hget2]
  simp only []
  rw [deleteExisting_withoutDiskCleanup client id existing h]

/-! ## The order of the calls of a Delete pass -/

theorem diskCleanupSpec_mutations_sublist {client : Client} {existing : Option VirtualMachine}
    {ext : List Event} {r : Except Failure Unit} (h : DiskCleanupSpec client existing ext r) :
    List.Sublist (mutations ext) [MutationKind.diskDelete] := by
  rcases h with ⟨_, rfl, _⟩ | ⟨_, _, ⟨_, _, rfl, _⟩ | ⟨diskId, _, ⟨rfl, _⟩ | ⟨failed, rfl, _⟩⟩⟩
  · exact List.nil_sublist _
  · exact List.nil_sublist _
  · exact List.Sublist.refl _
  · exact List.Sublist.refl _

theorem verifySpec_mutations {id : VirtualMachineId} {ext : List Event}
    {r : Except Failure Unit} (h : VerifySpec id ext r) : mutations ext = [] := by
  unfold mutations
  rw [List.filterMap_eq_nil_iff]
  intro e he
  obtain ⟨failed, rfl⟩ := h e he
  rfl

/-- The mutations of a Delete pass come in the fixed order, each at most
once. -/
theorem deleteSpec_ordered {client : Client} {id : VirtualMachineId}
    {existing : Option VirtualMachine} {ext : List Event} {r : Except Failure Unit}
    (h : DeleteSpec client id existing ext r) : List.Sublist (mutations ext) deleteOrder := by
  unfold DeleteSpec at h
  have h3 : ∀ (ext : List Event) (r : Except Failure Unit),
      Seq (DiskCleanupSpec client existing) (VerifySpec id) ext r →
      List.Sublist (mutations ext) [MutationKind.diskDelete] := by
    intro ext r hs
    have := seq_mutations_sublist [MutationKind.diskDelete] []
      (fun _ _ hc => by exact diskCleanupSpec_mutations_sublist hc)
      (fun _ _ hr => by rw [verifySpec_mutations hr]) hs
    simpa using this
  refine seq_mutations_sublist [MutationKind.powerOff] _
    (fun _ _ hc => by exact callSpec_mutations_sublist hc rfl) ?_ h
  intro ext r h
  refine seq_mutations_sublist [MutationKind.delete] _
    (fun _ _ hc => by exact callSpec_mutations_sublist hc rfl) ?_ h
  exact h3

theorem delete_ordered (d : ResourceData) (client : Client) :
    List.Sublist (mutations (deleteTrace d client)) deleteOrder := by
  rcases delete_shape d client with ⟨e, _, ht, _⟩ | ⟨id, _, hs⟩
  · rw [ht]
    exact List.nil_sublist _
  · rcases hs with ⟨err, _, ht, _⟩ | ⟨existing, ext, _, ht, hspec⟩
    · rw [ht]
      exact List.nil_sublist _
    · have h0 : mutations (traceAfterGet client id) = [] := rfl
      rw [ht, mutations_append, mutations_append, h0]
      simpa [mutations, unlockedEvent, Event.mutation] using deleteSpec_ordered hspec

/-- A Delete pass that ends well with the cleanup switched on and an identity
of the OS disk at hand has asked for the deletion of that disk. -/
theorem deleteSpec_success_cleanup {client : Client} {id : VirtualMachineId}
    {existing : Option VirtualMachine} {ext : List Event}
    (h : DeleteSpec client id existing ext (Except.ok ()))
    (hflag : client.Features.DeleteOSDiskOnDeletion = true)
    (hid : managedDiskIdOf existing ≠ "") :
    ∃ diskId failed, client.ParseDiskID (managedDiskIdOf existing) = Except.ok diskId ∧
      Event.remote (Call.DisksDelete diskId) failed ∈ ext := by
  unfold DeleteSpec at h
  obtain ⟨e1, r1, rfl, _, h⟩ := seq_success h
  obtain ⟨e2, r2, rfl, _, h⟩ := seq_success h
  obtain ⟨e3, r3, rfl, hc, _⟩ := seq_success h
  rcases hc with ⟨hno, _⟩ | ⟨_, _, ⟨_, _, _, hr⟩ | ⟨diskId, hp, ⟨rfl, _⟩ | ⟨failed, rfl, _⟩⟩⟩
  · rcases hno with h1 | h1
    · rw [hflag] at h1
      cases h1
    · exact absurd h1 hid
  · cases hr
  · exact ⟨diskId, true, hp, by simp⟩
  · exact ⟨diskId, false, hp, by simp⟩

/-- With the power-off skipped, the deletion call is the first call after
the opening `Get`. -/
theorem deleteSpec_head {client : Client} {id : VirtualMachineId}
    {existing : Option VirtualMachine} {ext : List Event} {r : Except Failure Unit}
    (h : DeleteSpec client id existing ext r)
    (hskip : client.Features.SkipShutdownAndForceDelete = true) :
    ∃ failed rest,
      ext = Event.remote
        (Call.DeleteThenPoll id { ForceDeletion := forceDeletionOption client }) failed ::
          rest := by
  unfold DeleteSpec at h
  have hcond : (!client.Features.SkipShutdownAndForceDelete && !provisioningFailed existing) =
      false := by simp [hskip]
  rw [hcond] at h
  have hdel : ∀ (ext : List Event) (r : Except Failure Unit),
      Seq (CallSpec true
        (Call.DeleteThenPoll id { ForceDeletion := forceDeletionOption client }))
        (Seq (DiskCleanupSpec client existing) (VerifySpec id)) ext r →
      ∃ failed rest,
        ext = Event.remote
          (Call.DeleteThenPoll id { ForceDeletion := forceDeletionOption client }) failed ::
            rest := by
    intro ext r hs
    rcases hs with ⟨e, _, hc⟩ | ⟨e1, e2, rfl, hc, _⟩
    · rcases hc with ⟨hf, _⟩ | ⟨_, _, hr⟩ | ⟨_, rfl, _⟩
      · cases hf
      · cases hr
      · exact ⟨true, [], rfl⟩
    · rcases hc with ⟨hf, _⟩ | ⟨_, rfl, _⟩ | ⟨_, _, _, _, hr⟩
      · cases hf
      · exact ⟨false, e2, rfl⟩
      · cases hr
  rcases h with ⟨e, _, hc⟩ | ⟨e1, e2, rfl, hc, hs⟩
  · rcases hc with ⟨_, _, hr⟩ | ⟨hf, _⟩ | ⟨hf, _⟩
    · cases hr
    · cases hf
    · cases hf
  · rcases hc with ⟨_, rfl, _⟩ | ⟨hf, _⟩ | ⟨hf, _⟩
    · simpa using hdel e2 r hs
    · cases hf
    · cases hf

/-! ## Delete: forced deletion and the cleanup of the OS disk -/

/-- C16: with the skip-shutdown-and-force-delete feature switched on, a
Delete pass issues no power-off call, every delete call it issues carries
`ForceDeletion = true`, and once the existing machine has been read that
delete call is the first call that follows; with the feature switched off,
every delete call carries no `ForceDeletion` option at all. -/
theorem delete_force_deletion_skips_power_off (d : ResourceData) (client : Client) :
    (client.Features.SkipShutdownAndForceDelete = true →
      (∀ id options failed,
        Event.remote (Call.PowerOffThenPoll id options) failed ∉ deleteTrace d client) ∧
      (∀ id options failed,
        Event.remote (Call.DeleteThenPoll id options) failed ∈ deleteTrace d client →
        options.ForceDeletion = some true) ∧
      (∀ id existing, client.ParseVirtualMachineID d.Id = Except.ok id →
        existingAtStart client id = Except.ok existing →
        ∃ failed rest,
          deleteTrace d client =
            traceAfterGet client id ++
              Event.remote (Call.DeleteThenPoll id { ForceDeletion := some true }) failed ::
                rest)) ∧
    (client.Features.SkipShutdownAndForceDelete = false →
      ∀ id options failed,
        Event.remote (Call.DeleteThenPoll id options) failed ∈ deleteTrace d client →
        options.ForceDeletion = none) := by
  have hopt : ∀ id options failed,
      Event.remote (Call.DeleteThenPoll id options) failed ∈ deleteTrace d client →
      options.ForceDeletion = forceDeletionOption client := by
    intro id options failed hmem
    obtain ⟨id2, _, h⟩ := delete_events d client _ failed hmem
    rcases h with h | ⟨existing, _, h⟩
    · cases h
    · rcases h with ⟨_, h⟩ | ⟨_, _, _, h⟩ | ⟨_, h⟩ | ⟨_, _, _, _, _, h | h⟩
      · cases h
      · cases h
      · cases h
        rfl
      · cases h
      · cases h
  refine ⟨fun hskip => ⟨?_, ?_, ?_⟩, fun hskip => ?_⟩
  · intro id options failed hmem
    obtain ⟨id2, _, h⟩ := delete_events d client _ failed hmem
    rcases h with h | ⟨existing, _, h⟩
    · cases h
    · rcases h with ⟨_, h⟩ | ⟨hoff, _⟩ | ⟨_, h⟩ | ⟨_, _, _, _, _, h | h⟩
      · cases h
      · rw [hskip] at hoff
        cases hoff
      · cases h
      · cases h
      · cases h
  · intro id options failed hmem
    rw [hopt id options failed hmem]
    simp [forceDeletionOption, hskip]
  · intro id existing hid hget
    rcases delete_shape d client with ⟨e, he, _⟩ | ⟨id2, hid2, hs⟩
    · rw [hid] at he
      cases he
    · rw [hid] at hid2
      cases hid2
      rcases hs with ⟨err, hget2, _⟩ | ⟨existing2, ext, _, ht, hspec⟩
      · rw [hget] at hget2
        cases hget2
      · obtain ⟨failed, rest, hext⟩ := deleteSpec_head hspec hskip
        refine ⟨failed, rest ++ [unlockedEvent id], ?_⟩
        rw [ht, hext]
        simp [forceDeletionOption, hskip]
  · intro id options failed hmem
    rw [hopt id options failed hmem]
    simp [forceDeletionOption, hskip]

theorem delete_force_deletion_skips_power_off_witness :
    ((∀ id options failed,
        Event.remote (Call.PowerOffThenPoll id options) failed ∉
          deleteTrace toDelete forcedDeleteClient) ∧
      ∃ failed rest,
        deleteTrace toDelete forcedDeleteClient =
          traceAfterGet forcedDeleteClient sampleId ++
            Event.remote (Call.DeleteThenPoll sampleId { ForceDeletion := some true }) failed ::
              rest) ∧
    ∀ options,
      Event.remote (Call.DeleteThenPoll sampleId options) false ∈
        deleteTrace toDelete plainDeleteClient →
      options.ForceDeletion = none :=
  ⟨⟨((delete_force_deletion_skips_power_off toDelete forcedDeleteClient).1 rfl).1,
    ((delete_force_deletion_skips_power_off toDelete forcedDeleteClient).1 rfl).2.2
      sampleId (some machineWithDisk) rfl rfl⟩,
   fun options =>
    (delete_force_deletion_skips_power_off toDelete plainDeleteClient).2 rfl sampleId options
      false⟩

/-- C17: in a Delete pass with the deletion of the OS disk switched on, when
the existing machine yields no id of a managed OS disk the trace holds no
disk delete call and the pass runs, trace and outcome, as it does with the
cleanup switched off; when it yields one, a disk delete call is for the disk
of that id, the mutations of the pass are in order power-off, delete, disk
delete, each at most once, and a pass that ends well has issued the disk
delete. -/
theorem delete_os_disk_cleanup (d : ResourceData) (client : Client) (id : VirtualMachineId)
    (existing : Option VirtualMachine)
    (hid : client.ParseVirtualMachineID d.Id = Except.ok id)
    (hget : existingAtStart client id = Except.ok existing)
    (hflag : client.Features.DeleteOSDiskOnDeletion = true) :
    (managedDiskIdOf existing = "" →
      (∀ diskId failed, Event.remote (Call.DisksDelete diskId) failed ∉ deleteTrace d client) ∧
      resourceWindowsVirtualMachineDelete d client [] =
        resourceWindowsVirtualMachineDelete d (withoutDiskCleanup client) []) ∧
    (managedDiskIdOf existing ≠ "" →
      (∀ diskId failed, Event.remote (Call.DisksDelete diskId) failed ∈ deleteTrace d client →
        client.ParseDiskID (managedDiskIdOf existing) = Except.ok diskId) ∧
      List.Sublist (mutations (deleteTrace d client)) deleteOrder ∧
      (deleteOutcome d client = Except.ok () →
        ∃ diskId failed, client.ParseDiskID (managedDiskIdOf existing) = Except.ok diskId ∧
          Event.remote (Call.DisksDelete diskId) failed ∈ deleteTrace d client)) := by
  have hev : ∀ diskId failed,
      Event.remote (Call.DisksDelete diskId) failed ∈ deleteTrace d client →
      managedDiskIdOf existing ≠ "" ∧
        client.ParseDiskID (managedDiskIdOf existing) = Except.ok diskId := by
    intro diskId failed hmem
    obtain ⟨id2, hid2, h⟩ := delete_events d client _ failed hmem
    rw [hid] at hid2
    cases hid2
    rcases h with h | ⟨existing2, hget2, h⟩
    · cases h
    · rw [hget] at hget2
      cases hget2
      rcases h with ⟨_, h⟩ | ⟨_, _, _, h⟩ | ⟨_, h⟩ | ⟨_, hne, diskId2, _, hp, h | h⟩
      · cases h
      · cases h
      · cases h
      · cases h
        exact ⟨hne, hp⟩
      · cases h
  refine ⟨fun hempty => ⟨?_, ?_⟩, fun hne => ⟨?_, delete_ordered d client, ?_⟩⟩
  · intro diskId failed hmem
    exact absurd hempty (hev diskId failed hmem).1
  · exact (delete_withoutDiskCleanup d client id existing hid hget hempty).symm
  · intro diskId failed hmem
    exact (hev diskId failed hmem).2
  · intro hok
    rcases delete_shape d client with ⟨e, he, _⟩ | ⟨id2, hid2, hs⟩
    · rw [hid] at he
      cases he
    · rw [hid] at hid2
      cases hid2
      rcases hs with ⟨err, hget2, _⟩ | ⟨existing2, ext, hget2, ht, hspec⟩
      · rw [hget] at hget2
        cases hget2
      · rw [hget] at hget2
        cases hget2
        rw [hok] at hspec
        obtain ⟨diskId, failed, hp, hmem⟩ := deleteSpec_success_cleanup hspec hflag hne
        refine ⟨diskId, failed, hp, ?_⟩
        rw [ht]
        exact List.mem_append_left _ (List.mem_append_right _ hmem)

theorem delete_os_disk_cleanup_witness :
    ((∀ diskId failed,
        Event.remote (Call.DisksDelete diskId) failed ∉ deleteTrace toDelete anonymousDiskClient) ∧
      resourceWindowsVirtualMachineDelete toDelete anonymousDiskClient [] =
        resourceWindowsVirtualMachineDelete toDelete (withoutDiskCleanup anonymousDiskClient)
          []) ∧
    ∃ diskId failed,
      plainDeleteClient.ParseDiskID (managedDiskIdOf (some machineWithDisk)) =
        Except.ok diskId ∧
      Event.remote (Call.DisksDelete diskId) failed ∈ deleteTrace toDelete plainDeleteClient :=
  ⟨(delete_os_disk_cleanup toDelete anonymousDiskClient sampleId (some managedMachine)
      rfl rfl rfl).1 rfl,
   ((delete_os_disk_cleanup toDelete plainDeleteClient sampleId (some machineWithDisk)
      rfl rfl rfl).2 (by decide)).2.2 rfl⟩

/-! ## Guards: the steps of a pass take and release none -/

theorem allRemote_pure {α : Type} (a : α) : M.Sat (pure a : M α) AllRemote :=
  sat_pure a (by simp [AllRemote])

theorem allRemote_fail {α : Type} (e : Failure) : M.Sat (M.fail e : M α) AllRemote :=
  sat_fail e (by simp [AllRemote])

theorem allRemote_lift {α : Type} (r : Except Failure α) : M.Sat (M.lift r) AllRemote :=
  sat_lift r (by simp [AllRemote])

theorem allRemote_call {α : Type} (c : Call) (answer : Trace → Except RemoteError α) :
    M.Sat (M.call c answer) AllRemote :=
  sat_call c answer (by simp [AllRemote, Event.isRemote])

theorem allRemote_bind {α β : Type} {m : M α} {f : α → M β}
    (h1 : M.Sat m AllRemote) (h2 : ∀ a, M.Sat (f a) AllRemote) :
    M.Sat (m >>= f) AllRemote := by
  refine sat_bind h1 h2 ?_ ?_
  · intro ext e h
    exact h
  · intro a e1 e2 r hq1 hq2 e he
    rcases List.mem_append.mp he with h | h
    · exact hq1 e h
    · exact hq2 e h

theorem callWhen_allRemote (cond : Bool) (c : Call) (answer : Trace → Except RemoteError Unit)
    (doing : String) : M.Sat (callWhen cond c answer doing) AllRemote := by
  refine sat_mono (callWhen_spec cond c answer doing) ?_
  intro ext r h e he
  rcases h with ⟨_, h, _⟩ | ⟨_, h, _⟩ | ⟨_, h, _⟩
  · rw [h] at he
    cases he
  · rw [h] at he
    simp only [List.mem_singleton] at he
    rw [he]
    rfl
  · rw [h] at he
    simp only [List.mem_singleton] at he
    rw [he]
    rfl

theorem lookupManagedDisk_allRemote (client : Client)
    (managedDisk : Option ManagedDiskParameters) (diskSizeGb : Int) :
    M.Sat (lookupManagedDisk client managedDisk diskSizeGb) AllRemote := by
  unfold lookupManagedDisk
  split
  · exact allRemote_pure _
  · simp only
    split
    · exact allRemote_pure _
    · split
      · exact allRemote_fail _
      · refine allRemote_bind (allRemote_call _ _) ?_
        intro disk
        split
        · split
          · exact allRemote_fail _
          · exact allRemote_pure _
        · exact allRemote_lift _

theorem flattenVirtualMachineOSDisk_allRemote (client : Client) (input : Option OSDisk) :
    M.Sat (flattenVirtualMachineOSDisk client input) AllRemote := by
  unfold flattenVirtualMachineOSDisk
  split
  · exact allRemote_pure _
  · exact allRemote_bind (lookupManagedDisk_allRemote _ _ _) (fun _ => allRemote_pure _)

theorem readProperties_allRemote (client : Client) (props : VirtualMachineProperties) :
    M.Sat (readProperties client props) AllRemote := by
  unfold readProperties readStorageProfile
  refine allRemote_bind ?_
    (fun _ => allRemote_bind (allRemote_call Call.ConnectionInformation _)
      (fun _ => allRemote_pure _))
  split
  · exact allRemote_pure _
  · exact allRemote_bind (flattenVirtualMachineOSDisk_allRemote _ _) (fun _ => allRemote_pure _)

theorem resourceWindowsVirtualMachineRead_allRemote (d : ResourceData) (client : Client) :
    M.Sat (resourceWindowsVirtualMachineRead d client) AllRemote := by
  unfold resourceWindowsVirtualMachineRead
  split
  · exact allRemote_fail _
  · refine allRemote_bind (allRemote_call _ _) ?_
    intro resp
    split
    · split
      · exact allRemote_pure _
      · exact allRemote_fail _
    · exact allRemote_pure _
    · split
      · exact allRemote_fail _
      · split
        · exact allRemote_pure _
        · exact allRemote_bind (readProperties_allRemote _ _) (fun _ => allRemote_pure _)

theorem planUpdate_allRemote (d : ResourceData) (client : Client) (id : VirtualMachineId) :
    M.Sat (planUpdate d client id) AllRemote := by
  unfold planUpdate
  refine allRemote_bind (allRemote_lift _) ?_
  intro p
  refine allRemote_bind ?_ (fun _ => allRemote_lift _)
  unfold planSize
  split
  · refine allRemote_bind (allRemote_call _ _) ?_
    intro sizes
    split
    · exact allRemote_fail _
    · exact allRemote_pure _
  · exact allRemote_pure _

theorem updateOsDiskEncryption_allRemote (d : ResourceData) (client : Client)
    (id : VirtualMachineId) : M.Sat (updateOsDiskEncryption d client id) AllRemote := by
  unfold updateOsDiskEncryption
  split
  · simp only
    split
    · refine allRemote_bind (allRemote_call _ _) ?_
      intro encryptionType
      split
      · exact allRemote_fail _
      · refine allRemote_bind (allRemote_call _ _) ?_
        intro err
        split
        · exact allRemote_fail _
        · exact allRemote_pure _
    · exact allRemote_fail _
  · exact allRemote_pure _

theorem applyPlan_allRemote (d : ResourceData) (client : Client) (id : VirtualMachineId)
    (shouldTurnBackOn ephemeral : Bool) (p : Plan) :
    M.Sat (applyPlan d client id shouldTurnBackOn ephemeral p) AllRemote := by
  unfold applyPlan
  rw [powerOffIfNeeded_eq, deallocateIfNeeded_eq, resizeOsDisk_eq, updateIfNeeded_eq,
    startIfNeeded_eq]
  exact allRemote_bind (callWhen_allRemote _ _ _ _) (fun _ =>
    allRemote_bind (callWhen_allRemote _ _ _ _) (fun _ =>
    allRemote_bind (callWhen_allRemote _ _ _ _) (fun _ =>
    allRemote_bind (updateOsDiskEncryption_allRemote d client id) (fun _ =>
    allRemote_bind (callWhen_allRemote _ _ _ _) (fun _ =>
    allRemote_bind (callWhen_allRemote _ _ _ _) (fun _ =>
    resourceWindowsVirtualMachineRead_allRemote d client))))))

theorem updateLocked_allRemote (d : ResourceData) (client : Client) (id : VirtualMachineId) :
    M.Sat (updateLocked d client id) AllRemote := by
  unfold updateLocked
  refine allRemote_bind (allRemote_call _ _) ?_
  intro existing
  split
  · exact allRemote_fail _
  · refine allRemote_bind (allRemote_call _ _) ?_
    intro instanceView
    split
    · exact allRemote_fail _
    · exact allRemote_bind (planUpdate_allRemote d client id)
        (fun _ => applyPlan_allRemote d client id _ _ _)

theorem heldGuards_append (t1 t2 : Trace) :
    heldGuards (t1 ++ t2) = heldGuards t1 + heldGuards t2 := by
  induction t1 with
  | nil => simp [heldGuards]
  | cons e t ih =>
    cases e with
    | locked _ _ =>
      show heldGuards (t ++ t2) + 1 = heldGuards t + 1 + heldGuards t2
      omega
    | unlocked _ _ =>
      show heldGuards (t ++ t2) - 1 = heldGuards t - 1 + heldGuards t2
      omega
    | remote _ _ => exact ih

theorem heldGuards_of_remote (t : Trace) (h : ∀ e ∈ t, e.isRemote = true) :
    heldGuards t = 0 := by
  induction t with
  | nil => rfl
  | cons e t ih =>
    have ht := ih (fun x hx => h x (List.mem_cons_of_mem _ hx))
    have he := h e (List.mem_cons_self _ _)
    cases e with
    | locked _ _ => cases he
    | unlocked _ _ => cases he
    | remote _ _ => simpa [heldGuards] using ht

/-- The trace of an Update pass whose id parses, run from any history: the
guard is taken, remote calls follow, the guard is released. -/
theorem update_guarded (d : ResourceData) (client : Client) (id : VirtualMachineId)
    (hid : client.ParseVirtualMachineID d.Id = Except.ok id) (t : Trace) :
    ∃ middle,
      (resourceWindowsVirtualMachineUpdate d client t).2 =
        t ++ Event.locked id.VirtualMachineName VirtualMachineResourceName ::
          (middle ++ [Event.unlocked id.VirtualMachineName VirtualMachineResourceName]) ∧
      (resourceWindowsVirtualMachineUpdate d client t).1 =
        (updateLocked d client id
          (t ++ [Event.locked id.VirtualMachineName VirtualMachineResourceName])).1 ∧
      ∀ e ∈ middle, e.isRemote = true := by
  obtain ⟨middle, hm, hall⟩ := updateLocked_allRemote d client id
    (t ++ [Event.locked id.VirtualMachineName VirtualMachineResourceName])
  refine ⟨middle, ?_, ?_, hall⟩
  · simp only [resourceWindowsVirtualMachineUpdate, hid, m_bind_run, M.emit, M.deferring, hm]
    simp
  · simp only [resourceWindowsVirtualMachineUpdate, hid, m_bind_run, M.emit, M.deferring]

/-! ## The expanding and flattening helpers -/

/-- C26: for an `os_disk` block with a non-empty `diff_disk_settings`,
`expandVirtualMachineOSDisk` returns an error when `caching` is not
`ReadOnly`; when `caching` is `ReadOnly`, every disk it returns carries
`DiffDiskSettings` with the option and the placement of the block, and it does
return a disk unless the check of `secure_vm_disk_encryption_set_id` fails. -/
theorem expandVirtualMachineOSDisk_diff_disk_needs_read_only (raw : OSDiskBlock)
    (rest : List OSDiskBlock) (osType : String) (diffDiskRaw : DiffDiskSettingsBlock)
    (more : List DiffDiskSettingsBlock)
    (hdiff : raw.diff_disk_settings = diffDiskRaw :: more) :
    (raw.caching ≠ "ReadOnly" →
      ∃ msg, expandVirtualMachineOSDisk (raw :: rest) osType =
        Except.error (Failure.validation msg)) ∧
    (raw.caching = "ReadOnly" →
      (∀ disk, expandVirtualMachineOSDisk (raw :: rest) osType = Except.ok disk →
        disk.DiffDiskSettings =
          some { OptionValue := some diffDiskRaw.option,
                 Placement := some diffDiskRaw.placement }) ∧
      (raw.secure_vm_disk_encryption_set_id = "" ∨
          raw.security_encryption_type = "DiskWithVMGuestState" →
        ∃ disk, expandVirtualMachineOSDisk (raw :: rest) osType = Except.ok disk)) := by
  constructor
  · intro hcaching
    have hc : (raw.caching != "ReadOnly") = true := by simpa using hcaching
    cases hr : expandVirtualMachineOSDisk (raw :: rest) osType with
    | error e =>
      obtain ⟨msg, hmsg⟩ :=
        isValidation_iff e (expandVirtualMachineOSDisk_error (raw :: rest) osType e
          (List.cons_ne_nil _ _) hr)
      exact ⟨msg, by rw [hmsg]⟩
    | ok disk =>
      exfalso
      simp only [expandVirtualMachineOSDisk, hdiff, hc, if_true] at hr
      split at hr
      · cases hr
      · cases hr
  · intro hcaching
    have hc : (raw.caching != "ReadOnly") = false := by simp [hcaching]
    constructor
    · intro disk h
      simp only [expandVirtualMachineOSDisk, hdiff, hc, Bool.false_eq_true, if_false] at h
      split at h
      · cases h
      · cases h
        rfl
    · intro hsecure
      cases hr : expandVirtualMachineOSDisk (raw :: rest) osType with
      | ok disk => exact ⟨disk, rfl⟩
      | error e =>
        exfalso
        rcases hsecure with h | h
        · have hs : (raw.secure_vm_disk_encryption_set_id != "") = false := by simp [h]
          simp [expandVirtualMachineOSDisk, hdiff, hc, hs] at hr
        · have ht : ("DiskWithVMGuestState" != raw.security_encryption_type) = false := by
            simp [h]
          have hn : (raw.security_encryption_type != "") = true := by
            rw [h]
            decide
          cases hs : (raw.secure_vm_disk_encryption_set_id != "") <;>
            simp [expandVirtualMachineOSDisk, hdiff, hc, hs, ht, hn] at hr

theorem expandVirtualMachineOSDisk_diff_disk_needs_read_only_witness :
    (∃ msg, expandVirtualMachineOSDisk [ephemeralReadWriteOsDisk] "Windows" =
      Except.error (Failure.validation msg)) ∧
    ∃ disk, expandVirtualMachineOSDisk [ephemeralOsDisk] "Windows" = Except.ok disk :=
  ⟨(expandVirtualMachineOSDisk_diff_disk_needs_read_only ephemeralReadWriteOsDisk [] "Windows"
      { option := "Local", placement := "CacheDisk" } [] rfl).1 (by decide),
   ((expandVirtualMachineOSDisk_diff_disk_needs_read_only ephemeralOsDisk [] "Windows"
      { option := "Local", placement := "CacheDisk" } [] rfl).2 rfl).2 (Or.inl rfl)⟩

/-- C27: `flattenVirtualMachineScheduledEventsProfile` yields exactly one
block for every input; without a profile, and for a profile without a
terminate notification profile, the block is disabled with the timeout
`PT5M`; with one, `enabled` and `timeout` are the remote values, `false` and
`PT5M` standing in for an absent one; and flattening the expansion of a
one-block input gives that input back. -/
theorem flattenVirtualMachineScheduledEventsProfile_default_block :
    (∀ input, (flattenVirtualMachineScheduledEventsProfile input).length = 1) ∧
    flattenVirtualMachineScheduledEventsProfile none =
      [{ enabled := false, timeout := "PT5M" }] ∧
    flattenVirtualMachineScheduledEventsProfile (some { TerminateNotificationProfile := none }) =
      [{ enabled := false, timeout := "PT5M" }] ∧
    (∀ terminate : TerminateNotificationProfile,
      flattenVirtualMachineScheduledEventsProfile
          (some { TerminateNotificationProfile := some terminate }) =
        [{ enabled := terminate.Enable.getD false,
           timeout := terminate.NotBeforeTimeout.getD "PT5M" }]) ∧
    (∀ block : TerminationNotificationBlock,
      flattenVirtualMachineScheduledEventsProfile
          (expandVirtualMachineScheduledEventsProfile [block]) = [block]) :=
  ⟨fun _ => rfl, rfl, rfl, fun _ => rfl, fun _ => rfl⟩

/-- C28: `expandVirtualMachineNetworkInterfaceIDs` returns one reference per
element of its input, in the order of the input: the reference at index `i`
carries the string at index `i` as its id, and its `Primary` is true at index
0 and false at every other index; flattening the result gives the input
back. -/
theorem expandVirtualMachineNetworkInterfaceIDs_one_reference_each (xs : List String) :
    (∃ refs, expandVirtualMachineNetworkInterfaceIDs xs = some refs ∧
      refs.length = xs.length ∧
      ∀ i, refs[i]? =
        (xs[i]?).map (fun v =>
          ({ Id := some v, Properties := some { Primary := some (i == 0) } } :
            NetworkInterfaceReference))) ∧
    flattenVirtualMachineNetworkInterfaceIDs (expandVirtualMachineNetworkInterfaceIDs xs) =
      xs := by
  refine ⟨⟨_, rfl, by simp, ?_⟩, ?_⟩
  · intro i
    simp only [List.getElem?_map, List.getElem?_enum]
    cases xs[i]? with
    | none => rfl
    | some v => rfl
  · simp only [expandVirtualMachineNetworkInterfaceIDs,
      flattenVirtualMachineNetworkInterfaceIDs, List.filterMap_map]
    have h : ((fun v : NetworkInterfaceReference => v.Id) ∘
        fun iv : Nat × String => networkInterfaceReferenceAt iv.1 iv.2) =
        fun iv => some iv.2 := rfl
    rw [h]
    induction xs using List.reverseRecOn with
    | nil => rfl
    | append_singleton xs x ih => simp [List.enum_append, List.filterMap_append, ih]

/-- C29: for a non-empty `os_disk` list `expandVirtualMachineOSDisk` returns a
disk or a validation error and never a fault: when the secure disk encryption
set is assigned, `security_encryption_type` is `DiskWithVMGuestState`, so the
security profile of the managed disk has been set just before. -/
theorem expandVirtualMachineOSDisk_never_faults (raw : OSDiskBlock) (rest : List OSDiskBlock)
    (osType : String) :
    ((∃ disk, expandVirtualMachineOSDisk (raw :: rest) osType = Except.ok disk) ∨
      ∃ msg, expandVirtualMachineOSDisk (raw :: rest) osType =
        Except.error (Failure.validation msg)) ∧
    (∀ e, expandVirtualMachineOSDisk (raw :: rest) osType = Except.error e →
      e.isFault = false) ∧
    (∀ disk, expandVirtualMachineOSDisk (raw :: rest) osType = Except.ok disk →
      raw.secure_vm_disk_encryption_set_id ≠ "" →
      ∃ managedDisk profile, disk.ManagedDisk = some managedDisk ∧
        managedDisk.SecurityProfile = some profile) := by
  have herr : ∀ e, expandVirtualMachineOSDisk (raw :: rest) osType = Except.error e →
      ∃ msg, e = Failure.validation msg := fun e h =>
    isValidation_iff e
      (expandVirtualMachineOSDisk_error (raw :: rest) osType e (List.cons_ne_nil _ _) h)
  refine ⟨?_, ?_, ?_⟩
  · cases hr : expandVirtualMachineOSDisk (raw :: rest) osType with
    | ok disk => exact Or.inl ⟨disk, rfl⟩
    | error e =>
      obtain ⟨msg, hmsg⟩ := herr e hr
      exact Or.inr ⟨msg, by rw [hmsg]⟩
  · intro e h
    obtain ⟨msg, hmsg⟩ := herr e h
    rw [hmsg]
    rfl
  · intro disk h hset
    have hs : (raw.secure_vm_disk_encryption_set_id != "") = true := by simpa using hset
    cases ht : ("DiskWithVMGuestState" != raw.security_encryption_type) with
    | true => simp [expandVirtualMachineOSDisk, hs, ht] at h
    | false =>
      have htype : raw.security_encryption_type = "DiskWithVMGuestState" := by
        have := ht
        simp only [bne_eq_false_iff_eq] at this
        exact this.symm
      have hn : (raw.security_encryption_type != "") = true := by
        rw [htype]
        decide
      simp only [expandVirtualMachineOSDisk, hs, ht, hn, if_true, Bool.false_eq_true,
        if_false] at h
      split at h
      · cases h
      · cases h
        cases hd : (raw.disk_encryption_set_id != "") <;> exact ⟨_, _, rfl, rfl⟩

/-- C30: `flattenVirtualMachineOSDisk` faults on a disk that was found without
properties, and on an answer without a model: the id of the managed disk
parses, the lookup succeeds, and the helper ends in a nil dereference instead
of a block or an error. -/
theorem flattenVirtualMachineOSDisk_faults_on_bare_disk :
    flattenVirtualMachineOSDisk bareDiskClient (some remoteOsDisk) [] =
      (Except.error (Failure.fault "nil dereference: disk.Model.Properties"),
        [Event.remote (Call.DisksGet sampleDiskId) false]) ∧
    flattenVirtualMachineOSDisk modellessDiskClient (some remoteOsDisk) [] =
      (Except.error (Failure.fault "nil dereference: disk.Model"),
        [Event.remote (Call.DisksGet sampleDiskId) false]) :=
  ⟨rfl, rfl⟩

/-! ## Conflicting attributes, the absent resource and the guard of Update -/

theorem validateEach_rejects (table : String → List String) (isSet : String → Bool)
    (k : String) (hk : (table k).any isSet = true) :
    ∀ ks : List String, k ∈ ks →
      ∃ msg, validateEach table isSet ks = Except.error (Failure.validation msg) := by
  intro ks
  induction ks with
  | nil =>
    intro h
    cases h
  | cons k2 ks ih =>
    intro hmem
    unfold validateEach
    cases hv : validateConflictingAttributes table isSet k2 with
    | error e =>
      unfold validateConflictingAttributes at hv
      split at hv
      · cases hv
        exact ⟨_, rfl⟩
      · cases hv
    | ok u =>
      rcases List.mem_cons.mp hmem with h | h
      · exfalso
        unfold validateConflictingAttributes at hv
        split at hv
        · cases hv
        · rename_i hnone
          rw [← h] at hnone
          rw [List.find?_eq_none] at hnone
          obtain ⟨x, hx, hset⟩ := List.any_eq_true.mp hk
          exact hnone x hx hset
      · exact ih h

/-- The sample validation rejects what `ConflictsWith` forbids. -/
theorem validateConflicts_honours : HonoursConflictsWith validateConflicts := by
  intro table configured k c hk hc hset
  refine validateEach_rejects table _ k ?_ configured hk
  exact List.any_eq_true.mpr ⟨c, hc, by simpa using hset⟩

/-- C21: the schema declares `availability_set_id` as conflicting with
`virtual_machine_scale_set_id` and with `zone`, so a validation that honours
`ConflictsWith` rejects a configuration that sets `availability_set_id`
together with either of them, and it does so without a remote call, being a
function of the configuration alone; the pair of
`virtual_machine_scale_set_id` and `zone` is declared as conflicting exactly
when the schema of `zone`, which comes from a helper, lists
`virtual_machine_scale_set_id`, the resource listing `zone` on the side of
`availability_set_id` only. -/
theorem placement_conflicts_declared (zone : List String)
    (validate : (String → List String) → List String → Except Failure Unit)
    (hsdk : HonoursConflictsWith validate) (configured : List String) :
    declaredConflicting zone "availability_set_id" "virtual_machine_scale_set_id" = true ∧
    declaredConflicting zone "availability_set_id" "zone" = true ∧
    ("availability_set_id" ∈ configured →
      "virtual_machine_scale_set_id" ∈ configured ∨ "zone" ∈ configured →
      ∃ msg, validate (conflictsWith zone) configured =
        Except.error (Failure.validation msg)) ∧
    declaredConflicting zone "virtual_machine_scale_set_id" "zone" =
      zone.contains "virtual_machine_scale_set_id" := by
  refine ⟨rfl, rfl, ?_, ?_⟩
  · intro hset hother
    have hc : conflictsWith zone "availability_set_id" =
        ["capacity_reservation_group_id", "virtual_machine_scale_set_id", "zone"] := rfl
    rcases hother with h | h
    · exact hsdk _ configured "availability_set_id" "virtual_machine_scale_set_id" hset
        (by rw [hc]; decide) h
    · exact hsdk _ configured "availability_set_id" "zone" hset (by rw [hc]; decide) h
  · have h1 : conflictsWith zone "virtual_machine_scale_set_id" = ["availability_set_id"] :=
      rfl
    have h2 : conflictsWith zone "zone" = zone := rfl
    simp only [declaredConflicting, h1, h2]
    have h3 : (["availability_set_id"] : List String).contains "zone" = false := by decide
    rw [h3, Bool.false_or]

theorem placement_conflicts_declared_witness :
    (∃ msg, validateConflicts (conflictsWith []) ["zone", "availability_set_id"] =
      Except.error (Failure.validation msg)) ∧
    validateConflicts (conflictsWith []) ["virtual_machine_scale_set_id", "zone"] =
      Except.ok () :=
  ⟨(placement_conflicts_declared [] validateConflicts validateConflicts_honours
      ["zone", "availability_set_id"]).2.2.1 (by decide) (Or.inr (by decide)),
   rfl⟩

/-- The schema of `zone` listing no attribute, the pair of
`virtual_machine_scale_set_id` and `zone` is declared as conflicting on
neither side: the list of `virtual_machine_scale_set_id` holds
`availability_set_id` alone. -/
theorem scale_set_and_zone_not_declared_conflicting :
    declaredConflicting [] "virtual_machine_scale_set_id" "zone" = false ∧
    conflictsWith [] "virtual_machine_scale_set_id" = ["availability_set_id"] ∧
    conflictsWith [] "zone" = [] := by
  refine ⟨by decide, rfl, rfl⟩

/-- C22: in a Read pass whose id parses, a `Get` that reports not-found ends
the pass without an error and with the id cleared; any other failure of `Get`
ends it with the error of the retrieval, no resource data being returned; and
the data a pass returns is the data it was given, but for the id cleared on
the not-found path. -/
theorem read_absent_resource (d : ResourceData) (client : Client) (id : VirtualMachineId)
    (hid : client.ParseVirtualMachineID d.Id = Except.ok id) (t : Trace) :
    (∀ err, client.Get t id = Except.error err → WasNotFound err = true →
      resourceWindowsVirtualMachineRead d client t =
        (Except.ok { d with Id := "" }, t ++ [Event.remote (Call.Get id) true])) ∧
    (∀ err, client.Get t id = Except.error err → WasNotFound err = false →
      resourceWindowsVirtualMachineRead d client t =
        (Except.error (Failure.remote "retrieving" err),
          t ++ [Event.remote (Call.Get id) true])) ∧
    (∀ after, (resourceWindowsVirtualMachineRead d client t).1 = Except.ok after →
      after = d ∨
      (after = { d with Id := "" } ∧
        ∃ err, client.Get t id = Except.error err ∧ WasNotFound err = true)) := by
  refine ⟨?_, ?_, ?_⟩
  · intro err hget hnf
    simp only [resourceWindowsVirtualMachineRead, hid, m_bind_run, M.call, hget, hnf, if_true,
      failedAnswer]
    rfl
  · intro err hget hnf
    simp only [resourceWindowsVirtualMachineRead, hid, m_bind_run, M.call, hget, hnf,
      Bool.false_eq_true, if_false, failedAnswer]
    rfl
  · intro after h
    simp only [resourceWindowsVirtualMachineRead, hid, m_bind_run, M.call] at h
    cases hget : client.Get t id with
    | error err =>
      simp only [hget] at h
      cases hnf : WasNotFound err with
      | true =>
        simp only [hnf, if_true] at h
        cases h
        exact Or.inr ⟨rfl, err, rfl, hnf⟩
      | false =>
        simp only [hnf, Bool.false_eq_true, if_false] at h
        cases h
    | ok model =>
      simp only [hget] at h
      left
      cases model with
      | none =>
        cases h
        rfl
      | some model =>
        cases hf : client.FlattenSystemAndUserAssignedMap model.Identity with
        | error e =>
          simp only [hf] at h
          cases h
        | ok identity =>
          cases hp : model.Properties with
          | none =>
            simp only [hf, hp] at h
            cases h
            rfl
          | some props =>
            simp only [hf, hp, m_bind_run] at h
            split at h
            · cases h
              rfl
            · cases h

theorem read_absent_resource_witness :
    resourceWindowsVirtualMachineRead noChange goneClient [] =
        (Except.ok { noChange with Id := "" }, [Event.remote (Call.Get sampleId) true]) ∧
    resourceWindowsVirtualMachineRead noChange failingGetClient [] =
        (Except.error (Failure.remote "retrieving" { status := some 500 }),
          [Event.remote (Call.Get sampleId) true]) :=
  ⟨(read_absent_resource noChange goneClient sampleId rfl []).1 { status := some 404 } rfl rfl,
   (read_absent_resource noChange failingGetClient sampleId rfl []).2.1 { status := some 500 }
      rfl rfl⟩

/-- C23: an Update pass whose id parses, run from any history and whatever
its outcome, extends the trace by the acquisition of the guard of the machine
name under `VirtualMachineResourceName`, then by remote calls only, then by
the release of that guard: the guard is taken once, before every remote call,
and released once, after the last; the number of guards held is the same
after the pass as before it. -/
theorem update_guard_taken_once_and_released (d : ResourceData) (client : Client)
    (id : VirtualMachineId) (hid : client.ParseVirtualMachineID d.Id = Except.ok id)
    (t : Trace) :
    ∃ middle,
      (resourceWindowsVirtualMachineUpdate d client t).2 =
        t ++ Event.locked id.VirtualMachineName VirtualMachineResourceName ::
          (middle ++ [Event.unlocked id.VirtualMachineName VirtualMachineResourceName]) ∧
      (∀ e ∈ middle, e.isRemote = true) ∧
      heldGuards (resourceWindowsVirtualMachineUpdate d client t).2 = heldGuards t := by
  obtain ⟨middle, hm, _, hall⟩ := update_guarded d client id hid t
  refine ⟨middle, hm, hall, ?_⟩
  rw [hm, heldGuards_append]
  show heldGuards t +
    (heldGuards (middle ++ [Event.unlocked id.VirtualMachineName VirtualMachineResourceName])
      + 1) = heldGuards t
  rw [heldGuards_append, heldGuards_of_remote middle hall]
  show heldGuards t + (0 + (0 - 1) + 1) = heldGuards t
  omega

theorem update_guard_taken_once_and_released_witness :
    ∃ middle,
      (resourceWindowsVirtualMachineUpdate rebootWithoutPlatform runningClient []).2 =
        [] ++ Event.locked "vm" VirtualMachineResourceName ::
          (middle ++ [Event.unlocked "vm" VirtualMachineResourceName]) ∧
      (∀ e ∈ middle, e.isRemote = true) ∧
      heldGuards (resourceWindowsVirtualMachineUpdate rebootWithoutPlatform runningClient []).2 =
        heldGuards [] :=
  update_guard_taken_once_and_released rebootWithoutPlatform runningClient sampleId rfl []

/-! ## The deallocating machine of Update and the failed machine of Delete -/

/-- C24: when the instance view carries the power state `deallocating` and
not `deallocated`, an Update pass issues no power-off call, and it issues a
deallocate call exactly when its plan asks for a deallocation and the OS disk
is not ephemeral; that call is the deallocation of the machine without
hibernation. -/
theorem update_deallocating_instance (d : ResourceData) (client : Client)
    (id : VirtualMachineId) (iv : Option VirtualMachineInstanceView)
    (hid : client.ParseVirtualMachineID d.Id = Except.ok id)
    (hiv : instanceViewAtStart client id = Except.ok iv)
    (hdg : ∃ s ∈ statusesOf iv, s.reports "deallocating" = true)
    (hnd : ∀ s ∈ statusesOf iv, s.reports "deallocated" = false) :
    (∀ e ∈ updateTrace d client, e.hasKind MutationKind.powerOff = false) ∧
    (∀ existing p, Planned d client id existing iv p →
      ((∃ e ∈ updateTrace d client, e.hasKind MutationKind.deallocate = true) ↔
        (p.shouldDeallocate = true ∧ hasEphemeralOSDisk existing = false)) ∧
      (p.shouldDeallocate = true → hasEphemeralOSDisk existing = false →
        ∃ failed,
          Event.remote (Call.DeallocateThenPoll id { Hibernate := some false }) failed ∈
            updateTrace d client)) := by
  obtain ⟨s, hs, hr⟩ := hdg
  have hoff : ∀ p : Plan, (adjustForPowerState iv p).shouldShutDown = false := by
    intro p
    rw [adjustForPowerState_eq]
    exact foldl_adjust_stopped (statusesOf iv) p ⟨s, hs, Or.inr hr⟩
  have hkeep : ∀ p : Plan, (adjustForPowerState iv p).shouldDeallocate = p.shouldDeallocate := by
    intro p
    rw [adjustForPowerState_eq]
    exact foldl_adjust_keeps_deallocate (statusesOf iv) p hnd
  have hissued : ∀ existing p, Planned d client id existing iv p →
      p.shouldDeallocate = true → hasEphemeralOSDisk existing = false →
      ∃ failed,
        Event.remote (Call.DeallocateThenPoll id { Hibernate := some false }) failed ∈
          updateTrace d client := by
    intro existing p hp hd hman
    obtain ⟨planExt, applyExt, _, _, ht, hspec⟩ := planned_run hp
    unfold ApplySpec at hspec
    rw [hoff, hkeep, hd, hman] at hspec
    simp only [Bool.not_false, Bool.and_true] at hspec
    have hspec := seq_of_false hspec
    rcases seq_of_true hspec with ⟨hext, _⟩ | ⟨rest, hext, _⟩
    · exact ⟨true, by rw [ht, hext]; simp⟩
    · exact ⟨false, by rw [ht, hext]; simp⟩
  refine ⟨?_, ?_⟩
  · intro e he
    cases hk : e.hasKind MutationKind.powerOff with
    | false => rfl
    | true =>
      obtain ⟨id2, existing2, iv2, p, hp, hallow⟩ :=
        update_mutation_allowed d client e _ he (mutation_of_hasKind hk)
      have h3 := hp.2.2.1
      have h1 := hp.1
      rw [hid] at h1
      cases h1
      rw [hiv] at h3
      cases h3
      simp [mutationAllowed, hoff] at hallow
  · intro existing p hp
    refine ⟨⟨?_, ?_⟩, hissued existing p hp⟩
    · rintro ⟨e, he, hk⟩
      obtain ⟨id2, existing2, iv2, p2, hp2, hallow⟩ :=
        update_mutation_allowed d client e _ he (mutation_of_hasKind hk)
      obtain ⟨rfl, rfl, rfl, rfl⟩ := planned_unique hp hp2
      simp only [mutationAllowed, hkeep, Bool.and_eq_true, Bool.not_eq_true_eq_eq_false] at hallow
      simpa using hallow
    · rintro ⟨hd, hman⟩
      obtain ⟨failed, hmem⟩ := hissued existing p hp hd hman
      exact ⟨_, hmem, rfl⟩

theorem update_deallocating_instance_witness :
    (∀ e ∈ updateTrace sizeChange deallocatingClient,
      e.hasKind MutationKind.powerOff = false) ∧
    ∃ failed,
      Event.remote (Call.DeallocateThenPoll sampleId { Hibernate := some false }) failed ∈
        updateTrace sizeChange deallocatingClient :=
  ⟨(update_deallocating_instance sizeChange deallocatingClient sampleId
      (sampleInstanceView ["PowerState/deallocating"]) rfl rfl
      ⟨{ Code := some "PowerState/deallocating" }, by decide, by decide⟩
      (by decide)).1,
   ((update_deallocating_instance sizeChange deallocatingClient sampleId
      (sampleInstanceView ["PowerState/deallocating"]) rfl rfl
      ⟨{ Code := some "PowerState/deallocating" }, by decide, by decide⟩
      (by decide)).2 (some managedMachine) sizeChangePlan ⟨rfl, rfl, rfl, rfl⟩).2 rfl rfl⟩

/-- C25: in a Delete pass with the skip-shutdown-and-force-delete feature
switched off, once the existing machine has been read: when its provisioning
state is not `failed` the power-off call is the first call that follows, and
the delete call comes right after it when it succeeds; when the state is
`failed`, letter case aside, the pass issues no power-off call; an absent
state counts as not failed; and every power-off call carries the negation of
the graceful-shutdown flag as `SkipShutdown`. -/
theorem delete_powers_off_unless_failed (d : ResourceData) (client : Client)
    (id : VirtualMachineId) (existing : Option VirtualMachine)
    (hid : client.ParseVirtualMachineID d.Id = Except.ok id)
    (hget : existingAtStart client id = Except.ok existing)
    (hskip : client.Features.SkipShutdownAndForceDelete = false) :
    (provisioningFailed existing = false →
      ∃ failed rest,
        deleteTrace d client =
          traceAfterGet client id ++
            Event.remote (Call.PowerOffThenPoll id
              { SkipShutdown := some (!client.Features.GracefulShutdown) }) failed :: rest ∧
        (failed = true → rest = [unlockedEvent id]) ∧
        (failed = false → ∃ failed2 rest2,
          rest = Event.remote
            (Call.DeleteThenPoll id { ForceDeletion := forceDeletionOption client }) failed2 ::
              rest2)) ∧
    (provisioningFailed existing = true →
      ∀ id2 options failed,
        Event.remote (Call.PowerOffThenPoll id2 options) failed ∉ deleteTrace d client) ∧
    (∀ id2 options failed,
      Event.remote (Call.PowerOffThenPoll id2 options) failed ∈ deleteTrace d client →
      options.SkipShutdown = some (!client.Features.GracefulShutdown)) ∧
    (provisioningFailed existing = true ↔
      ∃ model props state, existing = some model ∧ model.Properties = some props ∧
        props.ProvisioningState = some state ∧ equalFold state "failed" = true) := by
  have hev : ∀ id2 options failed,
      Event.remote (Call.PowerOffThenPoll id2 options) failed ∈ deleteTrace d client →
      provisioningFailed existing = false ∧
        options.SkipShutdown = some (!client.Features.GracefulShutdown) := by
    intro id2 options failed hmem
    obtain ⟨id3, hid3, h⟩ := delete_events d client _ failed hmem
    rw [hid] at hid3
    cases hid3
    rcases h with h | ⟨existing2, hget2, h⟩
    · cases h
    · rw [hget] at hget2
      cases hget2
      rcases h with ⟨_, h⟩ | ⟨_, hnot, _, h⟩ | ⟨_, h⟩ | ⟨_, _, _, _, _, h | h⟩
      · cases h
      · cases h
        exact ⟨hnot, rfl⟩
      · cases h
      · cases h
      · cases h
  refine ⟨?_, ?_, fun id2 options failed hmem => (hev id2 options failed hmem).2, ?_⟩
  · intro hnot
    rcases delete_shape d client with ⟨e, he, _⟩ | ⟨id2, hid2, hs⟩
    · rw [hid] at he
      cases he
    · rw [hid] at hid2
      cases hid2
      rcases hs with ⟨err, hget2, _⟩ | ⟨existing2, ext, hget2, ht, hspec⟩
      · rw [hget] at hget2
        cases hget2
      · rw [hget] at hget2
        cases hget2
        unfold DeleteSpec at hspec
        rw [hskip, hnot] at hspec
        rcases seq_of_true hspec with ⟨hext, _⟩ | ⟨rest, hext, hrest⟩
        · refine ⟨true, [unlockedEvent id], ?_, fun _ => rfl, (fun h => by cases h)⟩
          rw [ht, hext]
          simp
        · refine ⟨false, rest ++ [unlockedEvent id], ?_, (fun h => by cases h), fun _ => ?_⟩
          · rw [ht, hext]
            simp
          · rcases seq_of_true hrest with ⟨hext2, _⟩ | ⟨rest2, hext2, _⟩
            · exact ⟨true, [unlockedEvent id], by rw [hext2]; rfl⟩
            · exact ⟨false, rest2 ++ [unlockedEvent id], by rw [hext2]; rfl⟩
  · intro hfailed id2 options failed hmem
    rw [(hev id2 options failed hmem).1] at hfailed
    cases hfailed
  · unfold provisioningFailed
    constructor
    · intro h
      split at h
      · cases h
      · rename_i model
        split at h
        · cases h
        · rename_i props hprops
          split at h
          · cases h
          · rename_i state hstate
            exact ⟨model, props, state, rfl, hprops, hstate, h⟩
    · rintro ⟨model, props, state, rfl, hprops, hstate, h⟩
      simp only [hprops, hstate]
      exact h

theorem delete_powers_off_unless_failed_witness :
    (∃ failed rest,
      deleteTrace toDelete plainDeleteClient =
        traceAfterGet plainDeleteClient sampleId ++
          Event.remote (Call.PowerOffThenPoll sampleId { SkipShutdown := some true }) failed ::
            rest) ∧
    ∀ id2 options failed,
      Event.remote (Call.PowerOffThenPoll id2 options) failed ∉
        deleteTrace toDelete failedDeleteClient :=
  ⟨by
    obtain ⟨failed, rest, h, _⟩ :=
      (delete_powers_off_unless_failed toDelete plainDeleteClient sampleId
        (some machineWithDisk) rfl rfl rfl).1 rfl
    exact ⟨failed, rest, h⟩,
   (delete_powers_off_unless_failed toDelete failedDeleteClient sampleId (some failedMachine)
      rfl rfl rfl).2.1 rfl⟩

end Compute
